import Mathlib

/-!
RXP regex accelerator driver: control-plane model.

A shallow embedding of `drivers/regex/mlx5/host.c` (with the register map of
`rxp-csrs.h`).  The register transport (`mlx5_regex_register_read` /
`mlx5_regex_register_write`) is external to the driver, so it is a parameter
(`Port`); the driver functions are state-passing functions over a `World`
that holds the hardware state and the history of what the driver did.

Machine integers: `uint32_t` values are naturals below `2^32`; the `int`
results of the driver are integers, and an `unsigned` stored into an `int`
(`ret = i` in the polling loop, the batch size handed to `rxp_flush_rules`) goes
through `toInt32`.
-/

namespace Rxp

/-! ## Register map (rxp-csrs.h) -/

def RXP_CSR_BASE_ADDRESS : Nat := 0x0000
def RXP_RTRU_CSR_BASE_ADDRESS : Nat := 0x0100
def RXP_CSR_WIDTH : Nat := 4

def RXP_CSR_IDENTIFIER : Nat := RXP_CSR_BASE_ADDRESS + RXP_CSR_WIDTH * 0
def RXP_CSR_CAPABILITY_5 : Nat := RXP_CSR_BASE_ADDRESS + RXP_CSR_WIDTH * 7
def RXP_CSR_STATUS : Nat := RXP_CSR_BASE_ADDRESS + RXP_CSR_WIDTH * 10
def RXP_CSR_STATUS_INIT_DONE : Nat := 0x0001
def RXP_CSR_CTRL : Nat := RXP_CSR_BASE_ADDRESS + RXP_CSR_WIDTH * 24
def RXP_CSR_CTRL_INIT : Nat := 0x0001
def RXP_CSR_CTRL_GO : Nat := 0x0008
def RXP_CSR_MAX_MATCH : Nat := RXP_CSR_BASE_ADDRESS + RXP_CSR_WIDTH * 25
def RXP_CSR_MAX_PREFIX : Nat := RXP_CSR_BASE_ADDRESS + RXP_CSR_WIDTH * 26
def RXP_CSR_MAX_PRI_THREAD : Nat := RXP_CSR_BASE_ADDRESS + RXP_CSR_WIDTH * 27
def RXP_CSR_MAX_LATENCY : Nat := RXP_CSR_BASE_ADDRESS + RXP_CSR_WIDTH * 28

def RXP_RTRU_CSR_CAPABILITY : Nat := RXP_RTRU_CSR_BASE_ADDRESS + RXP_CSR_WIDTH * 2
def RXP_RTRU_CSR_STATUS : Nat := RXP_RTRU_CSR_BASE_ADDRESS + RXP_CSR_WIDTH * 10
def RXP_RTRU_CSR_STATUS_UPDATE_DONE : Nat := 0x0002
def RXP_RTRU_CSR_STATUS_IM_INIT_DONE : Nat := 0x0010
def RXP_RTRU_CSR_STATUS_L1C_INIT_DONE : Nat := 0x0020
def RXP_RTRU_CSR_STATUS_L2C_INIT_DONE : Nat := 0x0040
def RXP_RTRU_CSR_STATUS_EM_INIT_DONE : Nat := 0x0080
def RXP_RTRU_CSR_FIFO_STAT : Nat := RXP_RTRU_CSR_BASE_ADDRESS + RXP_CSR_WIDTH * 11
def RXP_RTRU_CSR_CTRL : Nat := RXP_RTRU_CSR_BASE_ADDRESS + RXP_CSR_WIDTH * 24
def RXP_RTRU_CSR_CTRL_INIT : Nat := 0x0001
def RXP_RTRU_CSR_CTRL_GO : Nat := 0x0002
def RXP_RTRU_CSR_CTRL_INIT_MODE_MASK : Nat := 3 <<< 4
def RXP_RTRU_CSR_CTRL_INIT_MODE_IM_L1_L2_EM : Nat := 0 <<< 4
def RXP_RTRU_CSR_CTRL_INIT_MODE_IM_L1_L2 : Nat := 1 <<< 4
def RXP_RTRU_CSR_CTRL_INIT_MODE_L1_L2 : Nat := 2 <<< 4
def RXP_RTRU_CSR_CTRL_INIT_MODE_EM : Nat := 3 <<< 4
def RXP_RTRU_CSR_ADDR : Nat := RXP_RTRU_CSR_BASE_ADDRESS + RXP_CSR_WIDTH * 25
def RXP_RTRU_CSR_DATA_0 : Nat := RXP_RTRU_CSR_BASE_ADDRESS + RXP_CSR_WIDTH * 26
def RXP_RTRU_CSR_DATA_1 : Nat := RXP_RTRU_CSR_BASE_ADDRESS + RXP_CSR_WIDTH * 27

/-! ## errno values (errno.h, Linux) -/

def EBUSY : Int := 16
def EINVAL : Int := 22

/-! ## Machine arithmetic -/

/-- Bitwise complement of a 32-bit word, the `~x` of a `uint32_t` operand. -/
def not32 (x : Nat) : Nat := (2 ^ 32 - 1) ^^^ x

/-- Conversion of an `unsigned` (32 bits) to `int` (32 bits, two-complement). -/
def toInt32 (n : Nat) : Int :=
  if n % 2 ^ 32 < 2 ^ 31 then ((n % 2 ^ 32 : Nat) : Int) else ((n % 2 ^ 32 : Nat) : Int) - 2 ^ 32

/-- Conversion of an `int` to `uint32_t`. -/
def toUInt32 (z : Int) : Nat := (z % 2 ^ 32).toNat

/-! ## Rule program entries (rxp-api.h) -/

/-- Modelled from the spec: the entry tags of `enum rxp_rof_entry_type`, declared in
`rxp-api.h`, which is not among the sources.  `other` stands for any tag value
outside the enumeration. -/
inductive rxp_rof_entry_type where
  | RXP_ROF_ENTRY_INST
  | RXP_ROF_ENTRY_IM
  | RXP_ROF_ENTRY_EM
  | RXP_ROF_ENTRY_EQ
  | RXP_ROF_ENTRY_GTE
  | RXP_ROF_ENTRY_LTE
  | RXP_ROF_ENTRY_CHECKSUM
  | RXP_ROF_ENTRY_CHECKSUM_EX_EM
  | other (tag : Nat)
  deriving DecidableEq, Repr

/-- Modelled from the spec: `struct rxp_rof_entry` of `rxp-api.h`: a tag, a 32-bit
address and a 64-bit value. -/
structure rxp_rof_entry where
  type : rxp_rof_entry_type
  addr : Nat
  value : Nat
  deriving DecidableEq, Repr

/-! ## The world the driver acts on -/

/-- What the driver did, oldest first.  `read`, `write` and `usleep` are the calls
the driver makes to its environment; `init_rtru`, `flush` and `polled` mark the
entry of `rxp_init_rtru`, the entry of `rxp_flush_rules` (with the `count`
argument and the first `count` entries of the array it was given) and the value
returned by `rxp_poll_csr_for_value`. -/
inductive Event where
  | read (eng addr : Nat) (status : Int) (value : Nat)
  | write (eng addr value : Nat)
  | usleep (us : Nat)
  | init_rtru (eng : Nat)
  | flush (count : Int) (batch : List rxp_rof_entry)
  | polled (ret : Int)
  deriving DecidableEq, Repr

/-- The register access port of the underlying adapter driver.  `read s eng addr`
gives the status returned by `mlx5_regex_register_read` (0 is success), the word
it leaves in the output argument, and the next hardware state;
`write s eng addr v` gives the status of `mlx5_regex_register_write` and the
next hardware state. -/
structure Port (σ : Type) where
  read : σ → Nat → Nat → Int × Nat × σ
  write : σ → Nat → Nat → Nat → Int × σ

structure World (σ : Type) where
  hw : σ
  trace : List Event

/-- Result of a register read: status, the 32-bit word read, the world after. -/
structure RdRes (σ : Type) where
  status : Int
  value : Nat
  w : World σ

/-- Result of a register write: status and the world after. -/
structure WrRes (σ : Type) where
  status : Int
  w : World σ

variable {σ : Type}

def mlx5_regex_register_read (P : Port σ) (w : World σ) (eng addr : Nat) : RdRes σ :=
  let r := P.read w.hw eng addr
  ⟨r.1, r.2.1 % 2 ^ 32, ⟨r.2.2, w.trace ++ [Event.read eng addr r.1 (r.2.1 % 2 ^ 32)]⟩⟩

def mlx5_regex_register_write (P : Port σ) (w : World σ) (eng addr value : Nat) : WrRes σ :=
  let r := P.write w.hw eng addr value
  ⟨r.1, ⟨r.2, w.trace ++ [Event.write eng addr value]⟩⟩

def usleep (us : Nat) (w : World σ) : World σ :=
  ⟨w.hw, w.trace ++ [Event.usleep us]⟩

def mark (e : Event) (w : World σ) : World σ :=
  ⟨w.hw, w.trace ++ [e]⟩

/-! ## rxp_poll_csr_for_value -/

/-- Result of a poll: the `int` returned, what the call stored through `value`
(`none` when no read was made), the world after. -/
structure PollRes (σ : Type) where
  ret : Int
  value : Option Nat
  w : World σ

/-- The `for (i = 0; i < timeout_ms; i++)` loop of `rxp_poll_csr_for_value`;
`fuel` is `timeout_ms - i`. -/
def rxp_poll_loop (P : Port σ) (eng address expected_value expected_mask : Nat) :
    Nat → Nat → Option Nat → World σ → PollRes σ
  | 0, _, v, w => ⟨-EBUSY, v, w⟩
  | fuel + 1, i, _, w =>
    let r := mlx5_regex_register_read P w eng address
    if r.status ≠ 0 then ⟨-1, some r.value, r.w⟩
    else if r.value &&& expected_mask = expected_value then ⟨toInt32 i, some r.value, r.w⟩
    else rxp_poll_loop P eng address expected_value expected_mask fuel (i + 1) (some r.value)
      (usleep 1000 r.w)

def rxp_poll_csr_for_value (P : Port σ) (w : World σ) (address expected_value expected_mask
    timeout_ms eng : Nat) : PollRes σ :=
  let r := rxp_poll_loop P eng address expected_value expected_mask timeout_ms 0 none w
  ⟨r.ret, r.value, mark (Event.polled r.ret) r.w⟩

/-! ## Compile-time constants from headers outside the sources -/

/-- Modelled from the spec: the constants the driver takes from `host.h` and
`rxp-api.h`, which are not among the sources, kept as parameters: the two polling
ceilings (in milliseconds, "compiled-in constants for initialization vs.
steady-state polling"), the size of the control header and the command code of a
non-incremental rules program. -/
structure Config where
  RXP_INITIALIZATION_TIMEOUT : Nat
  RXP_POLL_CSR_FOR_VALUE_TIMEOUT : Nat
  sizeof_rxp_ctl_hdr : Nat
  RXP_CTL_RULES_PGM : Nat

/-! ## rxp_disable / rxp_enable -/

def rxp_disable (P : Port σ) (w : World σ) (rxp_eng : Nat) : World σ :=
  let r := mlx5_regex_register_read P w rxp_eng RXP_CSR_CTRL
  if r.status ≠ 0 then r.w
  else
    let ctrl := r.value &&& not32 RXP_CSR_CTRL_GO
    (mlx5_regex_register_write P r.w rxp_eng RXP_CSR_CTRL ctrl).w

def rxp_enable (P : Port σ) (w : World σ) (rxp_eng : Nat) : World σ :=
  let r := mlx5_regex_register_read P w rxp_eng RXP_CSR_CTRL
  if r.status ≠ 0 then r.w
  else
    let ctrl := r.value ||| RXP_CSR_CTRL_GO
    (mlx5_regex_register_write P r.w rxp_eng RXP_CSR_CTRL ctrl).w

/-! ## rxp_init_rtru -/

/-- Result of a driver function returning `int`. -/
structure Res (σ : Type) where
  ret : Int
  w : World σ

/-- A value of the local `ctrl_value` (or `reg`) together with the world reached. -/
structure Pulse (σ : Type) where
  ctrl_value : Nat
  w : World σ

/-- Lines 265-292 of `rxp_init_rtru`, entered with the result `r` of the successful
read of the RTRU control register: clear the init bit if it is set, pulse it,
select the init mode, sleep. -/
def rxp_init_rtru_pulse (P : Port σ) (r : RdRes σ) (rxp_eng : Nat) : Pulse σ :=
  let c1 := if r.value &&& RXP_RTRU_CSR_CTRL_INIT ≠ 0
    then r.value &&& not32 RXP_RTRU_CSR_CTRL_INIT else r.value
  let w1 := if r.value &&& RXP_RTRU_CSR_CTRL_INIT ≠ 0
    then (mlx5_regex_register_write P r.w rxp_eng RXP_RTRU_CSR_CTRL c1).w else r.w
  let c2 := c1 ||| RXP_RTRU_CSR_CTRL_INIT
  let w2 := (mlx5_regex_register_write P w1 rxp_eng RXP_RTRU_CSR_CTRL c2).w
  let c3 := c2 &&& not32 RXP_RTRU_CSR_CTRL_INIT
  let w3 := (mlx5_regex_register_write P w2 rxp_eng RXP_RTRU_CSR_CTRL c3).w
  let c4 := c3 ||| RXP_RTRU_CSR_CTRL_INIT_MODE_IM_L1_L2
  let w4 := (mlx5_regex_register_write P w3 rxp_eng RXP_RTRU_CSR_CTRL c4).w
  ⟨c4, usleep 20000 w4⟩

/-- The value `rxp_init_rtru` polls the RTRU status register for (expected value
and mask alike). -/
def rtru_init_done : Nat :=
  RXP_RTRU_CSR_STATUS_IM_INIT_DONE ||| RXP_RTRU_CSR_STATUS_L1C_INIT_DONE |||
    RXP_RTRU_CSR_STATUS_L2C_INIT_DONE

def rxp_init_rtru (P : Port σ) (cfg : Config) (w : World σ) (rxp_eng : Nat) : Res σ :=
  let r := mlx5_regex_register_read P (mark (Event.init_rtru rxp_eng) w) rxp_eng RXP_RTRU_CSR_CTRL
  if r.status ≠ 0 then ⟨-1, r.w⟩
  else
    let s := rxp_init_rtru_pulse P r rxp_eng
    let expected_value := rtru_init_done
    let expected_mask := expected_value
    let p := rxp_poll_csr_for_value P s.w RXP_RTRU_CSR_STATUS expected_value expected_mask
      cfg.RXP_INITIALIZATION_TIMEOUT rxp_eng
    if p.ret < 0 then ⟨p.ret, p.w⟩
    else
      ⟨0, (mlx5_regex_register_write P p.w rxp_eng RXP_RTRU_CSR_CTRL
        (s.ctrl_value &&& not32 RXP_RTRU_CSR_CTRL_INIT)).w⟩

/-! ## rxp_write_rules_via_cp / rxp_flush_rules -/

/-- The `for (i = 0; i < count; i++)` loop of `rxp_write_rules_via_cp`; `fuel` is
`count - i`. -/
def rxp_write_rules_via_cp_loop (P : Port σ) (rxp_eng : Nat) (rules : Nat → rxp_rof_entry) :
    Nat → Nat → World σ → World σ
  | 0, _, w => w
  | fuel + 1, i, w =>
    let w1 := (mlx5_regex_register_write P w rxp_eng RXP_RTRU_CSR_DATA_0
      ((rules i).value % 2 ^ 32)).w
    let w2 := (mlx5_regex_register_write P w1 rxp_eng (RXP_RTRU_CSR_DATA_0 + RXP_CSR_WIDTH)
      (((rules i).value >>> 32) % 2 ^ 32)).w
    let w3 := (mlx5_regex_register_write P w2 rxp_eng RXP_RTRU_CSR_ADDR (rules i).addr).w
    rxp_write_rules_via_cp_loop P rxp_eng rules fuel (i + 1) w3

def rxp_write_rules_via_cp (P : Port σ) (w : World σ) (rules : Nat → rxp_rof_entry)
    (count : Int) (rxp_eng : Nat) : Res σ :=
  ⟨0, rxp_write_rules_via_cp_loop P rxp_eng rules count.toNat 0 w⟩

def rxp_flush_rules (P : Port σ) (cfg : Config) (w : World σ) (rules : Nat → rxp_rof_entry)
    (count : Int) (rxp_eng : Nat) : Res σ :=
  let r0 := rxp_write_rules_via_cp P
    (mark (Event.flush count ((List.range count.toNat).map rules)) w) rules count rxp_eng
  if r0.ret < 0 then ⟨-1, r0.w⟩
  else
    let fifo := mlx5_regex_register_read P r0.w rxp_eng RXP_RTRU_CSR_CAPABILITY
    if fifo.status ≠ 0 then ⟨-1, fifo.w⟩
    else
      let p1 := rxp_poll_csr_for_value P fifo.w RXP_RTRU_CSR_FIFO_STAT (toUInt32 count)
        (toUInt32 (-1)) cfg.RXP_POLL_CSR_FOR_VALUE_TIMEOUT rxp_eng
      if p1.ret < 0 then ⟨p1.ret, p1.w⟩
      else
        let c1 := mlx5_regex_register_read P p1.w rxp_eng RXP_RTRU_CSR_CTRL
        if c1.status ≠ 0 then ⟨-1, c1.w⟩
        else
          let wr1 := mlx5_regex_register_write P c1.w rxp_eng RXP_RTRU_CSR_CTRL
            (c1.value ||| RXP_RTRU_CSR_CTRL_GO)
          let p2 := rxp_poll_csr_for_value P wr1.w RXP_RTRU_CSR_STATUS
            RXP_RTRU_CSR_STATUS_UPDATE_DONE RXP_RTRU_CSR_STATUS_UPDATE_DONE
            cfg.RXP_POLL_CSR_FOR_VALUE_TIMEOUT rxp_eng
          if p2.ret < 0 then ⟨p2.ret, p2.w⟩
          else
            let c2 := mlx5_regex_register_read P p2.w rxp_eng RXP_RTRU_CSR_CTRL
            if c2.status ≠ 0 then ⟨-1, c2.w⟩
            else
              let wr2 := mlx5_regex_register_write P c2.w rxp_eng RXP_RTRU_CSR_CTRL
                (c2.value &&& not32 RXP_RTRU_CSR_CTRL_GO)
              if wr2.status ≠ 0 then ⟨-1, wr2.w⟩ else ⟨1, wr2.w⟩

/-! ## rxp_init -/

/-- Lines 494-540 of `rxp_init`: the two runs of `rxp_init_rtru` and the
capability-derived registers. -/
def rxp_init_rtru_twice (P : Port σ) (cfg : Config) (w : World σ) (rxp_eng : Nat) : Res σ :=
  let t1 := rxp_init_rtru P cfg w rxp_eng
  let t2 := rxp_init_rtru P cfg t1.w rxp_eng
  if 0 ≤ t2.ret then
    let cap := mlx5_regex_register_read P t2.w rxp_eng RXP_CSR_CAPABILITY_5
    if cap.status ≠ 0 then ⟨-1, cap.w⟩
    else
      let m1 := mlx5_regex_register_write P cap.w rxp_eng RXP_CSR_MAX_MATCH (cap.value >>> 16)
      let m2 := mlx5_regex_register_write P m1.w rxp_eng RXP_CSR_MAX_PREFIX
        (cap.value &&& 0xFFFF)
      let m3 := mlx5_regex_register_write P m2.w rxp_eng RXP_CSR_MAX_LATENCY 0
      let m4 := mlx5_regex_register_write P m3.w rxp_eng RXP_CSR_MAX_PRI_THREAD 0
      let ret := Int.lor (Int.lor t2.ret m3.status) m4.status
      if ret ≠ 0 then ⟨-1, m4.w⟩ else ⟨ret, m4.w⟩
  else ⟨t2.ret, t2.w⟩

/-- Lines 451-465 of `rxp_init`, entered with the result `r` of the successful read
of the control register: clear the init bit if it is set, pulse it, sleep. -/
def rxp_init_pulse (P : Port σ) (r : RdRes σ) (rxp_eng : Nat) : Pulse σ :=
  let c1 := if r.value &&& RXP_CSR_CTRL_INIT ≠ 0
    then r.value &&& not32 RXP_CSR_CTRL_INIT else r.value
  let w1 := if r.value &&& RXP_CSR_CTRL_INIT ≠ 0
    then (mlx5_regex_register_write P r.w rxp_eng RXP_CSR_CTRL c1).w else r.w
  let c2 := c1 ||| RXP_CSR_CTRL_INIT
  let w2 := (mlx5_regex_register_write P w1 rxp_eng RXP_CSR_CTRL c2).w
  let c3 := c2 &&& not32 RXP_CSR_CTRL_INIT
  let w3 := (mlx5_regex_register_write P w2 rxp_eng RXP_CSR_CTRL c3).w
  ⟨c3, usleep 20000 w3⟩

/-- Lines 439-492 of `rxp_init`: the init pulse, the wait for the init-done bit
and the final clearing of the init bit.  `Sum.inl` is an early return, `Sum.inr`
the world in which the function carries on with the RTRU initialisation. -/
def rxp_init_main (P : Port σ) (cfg : Config) (w : World σ) (rxp_eng : Nat) :
    Res σ ⊕ World σ :=
  let r := mlx5_regex_register_read P w rxp_eng RXP_CSR_CTRL
  if r.status ≠ 0 then Sum.inl ⟨-1, r.w⟩
  else
    let p := rxp_poll_csr_for_value P (rxp_init_pulse P r rxp_eng).w RXP_CSR_STATUS
      RXP_CSR_STATUS_INIT_DONE RXP_CSR_STATUS_INIT_DONE cfg.RXP_INITIALIZATION_TIMEOUT rxp_eng
    if p.ret < 0 then Sum.inl ⟨p.ret, p.w⟩
    else
      let r2 := mlx5_regex_register_read P p.w rxp_eng RXP_CSR_CTRL
      if r2.status ≠ 0 then Sum.inl ⟨-1, r2.w⟩
      else Sum.inr (mlx5_regex_register_write P r2.w rxp_eng RXP_CSR_CTRL
        (r2.value &&& not32 RXP_CSR_CTRL_INIT)).w

def rxp_init (P : Port σ) (cfg : Config) (w : World σ) (rxp_eng : Nat) : Res σ :=
  match rxp_init_main P cfg w rxp_eng with
  | Sum.inl e => e
  | Sum.inr w5 => rxp_init_rtru_twice P cfg w5 rxp_eng

/-! ## mlnx_write_rules -/

/-- Modelled from the spec: `struct rxp_ctl_rules_pgm` of `rxp-api.h`: the header's
command, the entry count and the entry array `rules[]` (entry `i` of the
array is `rules i`). -/
structure rxp_ctl_rules_pgm where
  cmd : Nat
  count : Nat
  rules : Nat → rxp_rof_entry

/-- Result of `mlnx_write_rules`: the `int` returned, the value left in
`rules->count`, the world after. -/
structure LoadRes (σ : Type) where
  ret : Int
  count : Nat
  w : World σ

def rxp_rof_entry_type.isWriteType : rxp_rof_entry_type → Bool
  | RXP_ROF_ENTRY_INST => true
  | RXP_ROF_ENTRY_IM => true
  | RXP_ROF_ENTRY_EM => true
  | _ => false

def rxp_rof_entry_type.isCheckType : rxp_rof_entry_type → Bool
  | RXP_ROF_ENTRY_EQ => true
  | RXP_ROF_ENTRY_GTE => true
  | RXP_ROF_ENTRY_LTE => true
  | RXP_ROF_ENTRY_CHECKSUM => true
  | RXP_ROF_ENTRY_CHECKSUM_EX_EM => true
  | _ => false

/-- The `while (rules->count > 0)` loop of `mlnx_write_rules` (lines 664-774).
The first numeric argument is `rules->count`; `rule_cnt` and `pending` never
exceed the initial `rules->count`, a `uint32_t`, so their increments do not
wrap. -/
def mlnx_write_rules_loop (P : Port σ) (cfg : Config) (rxp_eng : Nat)
    (rules : Nat → rxp_rof_entry) (rtru_max_num_entries : Nat) :
    Nat → Nat → Nat → Int → World σ → LoadRes σ
  | 0, _, _, ret, w => ⟨ret, 0, w⟩
  | count + 1, rule_cnt, pending, ret, w =>
    if (rules rule_cnt).type.isWriteType then
      if count + 1 = 1 ∨ pending + 1 = rtru_max_num_entries then
        let rule_offset := (rule_cnt + 1) - (pending + 1)
        let f := rxp_flush_rules P cfg w (fun i => rules (rule_offset + i))
          (toInt32 (pending + 1)) rxp_eng
        if f.ret = 0 then ⟨f.ret, count + 1, f.w⟩
        else mlnx_write_rules_loop P cfg rxp_eng rules rtru_max_num_entries count
          (rule_cnt + 1) 0 f.ret f.w
      else mlnx_write_rules_loop P cfg rxp_eng rules rtru_max_num_entries count
        (rule_cnt + 1) (pending + 1) ret w
    else if (rules rule_cnt).type.isCheckType then
      let f : Res σ := if pending ≠ 0
        then rxp_flush_rules P cfg w (fun i => rules ((rule_cnt - pending) + i))
          (toInt32 pending) rxp_eng
        else ⟨ret, w⟩
      if pending ≠ 0 ∧ f.ret = 0 then ⟨f.ret, count + 1, f.w⟩
      else
        let block := ((rules rule_cnt).addr >>> 16) &&& 0xFFFF
        if block ≠ 0 ∧ block ≠ 1 then ⟨-EINVAL, count + 1, f.w⟩
        else
          let reg := (if block = 0 then RXP_CSR_BASE_ADDRESS else RXP_RTRU_CSR_BASE_ADDRESS)
            + ((rules rule_cnt).addr &&& 0xFFFF) * RXP_CSR_WIDTH
          let r := mlx5_regex_register_read P f.w rxp_eng reg
          if r.status = 0 then ⟨r.status, count + 1, r.w⟩
          else if ((rules rule_cnt).type = rxp_rof_entry_type.RXP_ROF_ENTRY_EQ ∨
              (rules rule_cnt).type = rxp_rof_entry_type.RXP_ROF_ENTRY_CHECKSUM) ∧
              r.value ≠ (rules rule_cnt).value then ⟨-EINVAL, count + 1, r.w⟩
          else if (rules rule_cnt).type = rxp_rof_entry_type.RXP_ROF_ENTRY_GTE ∧
              r.value < (rules rule_cnt).value then ⟨-EINVAL, count + 1, r.w⟩
          else if (rules rule_cnt).type = rxp_rof_entry_type.RXP_ROF_ENTRY_LTE ∧
              r.value > (rules rule_cnt).value then ⟨-EINVAL, count + 1, r.w⟩
          else mlnx_write_rules_loop P cfg rxp_eng rules rtru_max_num_entries count
            (rule_cnt + 1) 0 r.status r.w
    else ⟨-EINVAL, count + 1, w⟩

/-- Lines 603-624 of `mlnx_write_rules`: the length check, the re-initialisation
for a non-incremental program and the empty-program check.  `Sum.inl` is an
early return, `Sum.inr` the world in which the function carries on. -/
def mlnx_write_rules_start (P : Port σ) (cfg : Config) (w : World σ)
    (rules : rxp_ctl_rules_pgm) (count rxp_eng : Nat) : Res σ ⊕ World σ :=
  if count < cfg.sizeof_rxp_ctl_hdr then Sum.inl ⟨-EINVAL, w⟩
  else
    let i : Res σ := if rules.cmd = cfg.RXP_CTL_RULES_PGM then rxp_init P cfg w rxp_eng
      else ⟨0, w⟩
    if rules.cmd = cfg.RXP_CTL_RULES_PGM ∧ i.ret < 0 then Sum.inl ⟨i.ret, i.w⟩
    else if rules.count = 0 then Sum.inl ⟨-EINVAL, i.w⟩
    else Sum.inr i.w

/-- Lines 626-651 of `mlnx_write_rules`: the readiness check and the read of the
RTRU capability register.  `Sum.inr` carries `rtru_max_num_entries`. -/
def mlnx_write_rules_ready (P : Port σ) (w : World σ) (rxp_eng : Nat) :
    Res σ ⊕ (Nat × World σ) :=
  let st := mlx5_regex_register_read P w rxp_eng RXP_CSR_STATUS
  if st.status ≠ 0 then Sum.inl ⟨-1, st.w⟩
  else if st.value &&& RXP_CSR_STATUS_INIT_DONE = 0 then Sum.inl ⟨-EBUSY, st.w⟩
  else
    let cap := mlx5_regex_register_read P st.w rxp_eng RXP_RTRU_CSR_CAPABILITY
    if cap.status ≠ 0 then Sum.inl ⟨-1, cap.w⟩
    else Sum.inr (cap.value &&& 0x00FF, cap.w)

def mlnx_write_rules (P : Port σ) (cfg : Config) (w : World σ) (rules : rxp_ctl_rules_pgm)
    (count rxp_eng : Nat) : LoadRes σ :=
  match mlnx_write_rules_start P cfg w rules count rxp_eng with
  | Sum.inl e => ⟨e.ret, rules.count, e.w⟩
  | Sum.inr w1 =>
    match mlnx_write_rules_ready P w1 rxp_eng with
    | Sum.inl e => ⟨e.ret, rules.count, e.w⟩
    | Sum.inr (rtru_max_num_entries, w2) =>
      mlnx_write_rules_loop P cfg rxp_eng rules.rules rtru_max_num_entries rules.count 0 0 0 w2

/-! ## Observations on traces and ports -/

def Event.isRead : Event → Bool
  | Event.read _ _ _ _ => true
  | _ => false

def Event.isWrite : Event → Bool
  | Event.write _ _ _ => true
  | _ => false

/-- Number of register reads in a trace. -/
def countReads (t : List Event) : Nat := t.countP Event.isRead

/-- Hardware state after `k` consecutive reads of register `addr` of engine `eng`. -/
def readIter (P : Port σ) (eng addr : Nat) : Nat → σ → σ
  | 0, s => s
  | k + 1, s => readIter P eng addr k (P.read s eng addr).2.2

/-- Status of the `k`-th (from 0) of consecutive reads of `addr` starting in state `s`. -/
def nthStatus (P : Port σ) (eng addr : Nat) (s : σ) (k : Nat) : Int :=
  (P.read (readIter P eng addr k s) eng addr).1

/-- The 32-bit word delivered by the `k`-th (from 0) of consecutive reads of `addr`. -/
def nthValue (P : Port σ) (eng addr : Nat) (s : σ) (k : Nat) : Nat :=
  (P.read (readIter P eng addr k s) eng addr).2.1 % 2 ^ 32

/-! ## Simulated register files -/

/-- A register file driven by a script: each read delivers the next scripted
(status, word) pair, whatever the address; once the script is exhausted reads
succeed with word 0.  Writes succeed and change nothing. -/
def scriptPort : Port (List (Int × Nat)) where
  read := fun s _ _ =>
    match s with
    | [] => (0, 0, [])
    | x :: t => (x.1, x.2, t)
  write := fun s _ _ _ => (0, s)

/-- A register file that counts the reads made so far: every read succeeds and
delivers 1 on read number `2^31` (counted from 0) and 0 on every other read. -/
def tickPort : Port Nat where
  read := fun s _ _ => (0, if s = 2 ^ 31 then 1 else 0, s + 1)
  write := fun s _ _ _ => (0, s)

/-- State of a simulated register file of one engine: the words held by the plain
registers, and the number of reads of the status register (of the RTRU status
register) made since the last main (RTRU) init pulse. -/
structure SimFile where
  regs : Nat → Nat
  initAge : Nat
  rtruAge : Nat

/-- A simulated register file on which every access succeeds.  Writing the control
register (the RTRU control register) with the init bit set starts an
initialisation; the init-done bit of the status register (the IM, L1 and L2
init-done bits of the RTRU status register) reads as 0 on the first two reads
after that and as 1 from the third read on.  Every other register is memory. -/
def simPort : Port SimFile where
  read := fun s _ addr =>
    if addr = RXP_CSR_STATUS then
      (0, (if 2 ≤ s.initAge then RXP_CSR_STATUS_INIT_DONE else 0),
        { s with initAge := s.initAge + 1 })
    else if addr = RXP_RTRU_CSR_STATUS then
      (0, (if 2 ≤ s.rtruAge then RXP_RTRU_CSR_STATUS_IM_INIT_DONE |||
          RXP_RTRU_CSR_STATUS_L1C_INIT_DONE ||| RXP_RTRU_CSR_STATUS_L2C_INIT_DONE else 0),
        { s with rtruAge := s.rtruAge + 1 })
    else (0, s.regs addr, s)
  write := fun s _ addr v =>
    if addr = RXP_CSR_CTRL then
      (0, { s with regs := fun a => if a = addr then v else s.regs a,
                   initAge := if v.testBit 0 then 0 else s.initAge })
    else if addr = RXP_RTRU_CSR_CTRL then
      (0, { s with regs := fun a => if a = addr then v else s.regs a,
                   rtruAge := if v.testBit 0 then 0 else s.rtruAge })
    else (0, { s with regs := fun a => if a = addr then v else s.regs a })

/-- A register file that behaves as memory: every access succeeds, a read delivers
the word last written to the register (of that engine) and changes nothing, a
write replaces the word of that register only. -/
def memPort : Port (Nat → Nat → Nat) where
  read := fun m eng addr => (0, m eng addr, m)
  write := fun m eng addr v => (0, fun e a => if e = eng ∧ a = addr then v else m e a)

/-- A register file whose RTRU completes its initialisation only at the second init
pulse.  The state is the number of RTRU init pulses written so far.  Every access
succeeds and reads do not change the state; the status register always reports
init done; the RTRU status register reports the IM, L1 and L2 init-done bits once
two pulses have been written; every other register reads 0. -/
def twoPulsePort : Port Nat where
  read := fun s _ addr =>
    if addr = RXP_CSR_STATUS then (0, RXP_CSR_STATUS_INIT_DONE, s)
    else if addr = RXP_RTRU_CSR_STATUS then (0, (if 2 ≤ s then rtru_init_done else 0), s)
    else (0, 0, s)
  write := fun s _ addr v =>
    if addr = RXP_RTRU_CSR_CTRL ∧ v.testBit 0 = true then (0, s + 1) else (0, s)

/-- The values returned by the polls recorded in a trace, oldest first. -/
def pollResults (t : List Event) : List Int :=
  t.filterMap fun e =>
    match e with
    | Event.polled r => some r
    | _ => none

/-- An example configuration: 60000 ms and 3000 ms polling ceilings, an 8-byte
control header, command code 1 for a non-incremental program. -/
def exampleConfig : Config := ⟨60000, 3000, 8, 1⟩

/-! ## Intermediate results of the init functions, for stating properties -/

/-- The read of the RTRU control register that opens `rxp_init_rtru` started in `w`. -/
def rxp_init_rtru_read (P : Port σ) (w : World σ) (rxp_eng : Nat) : RdRes σ :=
  mlx5_regex_register_read P (mark (Event.init_rtru rxp_eng) w) rxp_eng RXP_RTRU_CSR_CTRL

/-- The poll of the RTRU status register made by `rxp_init_rtru` started in `w`
(made when the read of the RTRU control register succeeds). -/
def rxp_init_rtru_poll (P : Port σ) (cfg : Config) (w : World σ) (rxp_eng : Nat) : PollRes σ :=
  rxp_poll_csr_for_value P (rxp_init_rtru_pulse P (rxp_init_rtru_read P w rxp_eng) rxp_eng).w
    RXP_RTRU_CSR_STATUS rtru_init_done rtru_init_done cfg.RXP_INITIALIZATION_TIMEOUT rxp_eng

/-- The poll of the status register made by `rxp_init` started in `w` (made when
the first read of the control register succeeds). -/
def rxp_init_poll (P : Port σ) (cfg : Config) (w : World σ) (rxp_eng : Nat) : PollRes σ :=
  rxp_poll_csr_for_value P
    (rxp_init_pulse P (mlx5_regex_register_read P w rxp_eng RXP_CSR_CTRL) rxp_eng).w
    RXP_CSR_STATUS RXP_CSR_STATUS_INIT_DONE RXP_CSR_STATUS_INIT_DONE
    cfg.RXP_INITIALIZATION_TIMEOUT rxp_eng

/-- The world a `Sum`-valued stage ends in: that of the early return, or the one in
which the function carries on. -/
def stageWorld (r : Res σ ⊕ World σ) : World σ :=
  match r with
  | Sum.inl e => e.w
  | Sum.inr w => w

/-- The first run of `rxp_init_rtru` made by `rxp_init` started in `w` (made when
the main stage does not return early). -/
def rxp_init_first_run (P : Port σ) (cfg : Config) (w : World σ) (rxp_eng : Nat) : Res σ :=
  rxp_init_rtru P cfg (stageWorld (rxp_init_main P cfg w rxp_eng)) rxp_eng

/-- The second run of `rxp_init_rtru` made by `rxp_init` started in `w`. -/
def rxp_init_second_run (P : Port σ) (cfg : Config) (w : World σ) (rxp_eng : Nat) : Res σ :=
  rxp_init_rtru P cfg (rxp_init_first_run P cfg w rxp_eng).w rxp_eng

/-- The `count` arguments of the calls of `rxp_flush_rules` recorded in a trace,
oldest first. -/
def flushCounts (t : List Event) : List Int :=
  t.filterMap fun e =>
    match e with
    | Event.flush count _ => some count
    | _ => none

/-- The writes (address, value) a trace makes to the registers through which rule
entries are streamed: RTRU `DATA_0`, `DATA_1` and `ADDR`, oldest first. -/
def ruleWrites (t : List Event) : List (Nat × Nat) :=
  t.filterMap fun e =>
    match e with
    | Event.write _ a v =>
      if a = RXP_RTRU_CSR_DATA_0 ∨ a = RXP_RTRU_CSR_DATA_1 ∨ a = RXP_RTRU_CSR_ADDR
      then some (a, v) else none
    | _ => none

/-- The register accesses (reads and writes) of a trace, oldest first. -/
def accesses (t : List Event) : List Event :=
  t.filter fun e => e.isRead || e.isWrite

/-- The capacity read from the RTRU capability register and the world in which the
entry loop of `mlnx_write_rules` starts; `none` when the function returns before
the loop. -/
def mlnx_write_rules_loop_entry (P : Port σ) (cfg : Config) (w : World σ)
    (rules : rxp_ctl_rules_pgm) (count rxp_eng : Nat) : Option (Nat × World σ) :=
  match mlnx_write_rules_start P cfg w rules count rxp_eng with
  | Sum.inl _ => none
  | Sum.inr w1 =>
    match mlnx_write_rules_ready P w1 rxp_eng with
    | Sum.inl _ => none
    | Sum.inr x => some x

/-- The batch sizes in which `n` entries go through a FIFO of capacity `c`:
`n / c` full batches, then the remaining `n % c` entries if any. -/
def batchesOf (n c : Nat) : List Nat :=
  List.replicate (n / c) c ++ (if n % c = 0 then [] else [n % c])

/-- The sizes of the batches the entry loop flushes when it meets `count` more
write-type entries with `pending` entries already batched and capacity `c`:
a flush at the last entry and whenever the batch reaches `c`. -/
def batchSizes (c : Nat) : Nat → Nat → List Nat
  | _, 0 => []
  | pending, count + 1 =>
    if count + 1 = 1 ∨ pending + 1 = c then (pending + 1) :: batchSizes c 0 count
    else batchSizes c (pending + 1) count

/-- The engines on which `rxp_init_rtru` was entered, oldest first. -/
def rtruRuns (t : List Event) : List Nat :=
  t.filterMap fun e =>
    match e with
    | Event.init_rtru eng => some eng
    | _ => none

/-- The writes (address, value) a trace makes to the capability-derived registers
`MAX_MATCH`, `MAX_PREFIX`, `MAX_LATENCY` and `MAX_PRI_THREAD`, oldest first. -/
def capWrites (t : List Event) : List (Nat × Nat) :=
  t.filterMap fun e =>
    match e with
    | Event.write _ a v =>
      if a = RXP_CSR_MAX_MATCH ∨ a = RXP_CSR_MAX_PREFIX ∨ a = RXP_CSR_MAX_LATENCY ∨
        a = RXP_CSR_MAX_PRI_THREAD then some (a, v) else none
    | _ => none

/-! ## Streaming a batch of rule entries: what the trace is compared with -/

/-- The three register writes that stream one rule entry to engine `eng`, in the
order low word, high word, address. -/
def entryWrites (eng : Nat) (e : rxp_rof_entry) : List Event :=
  [Event.write eng RXP_RTRU_CSR_DATA_0 (e.value % 2 ^ 32),
   Event.write eng RXP_RTRU_CSR_DATA_1 ((e.value >>> 32) % 2 ^ 32),
   Event.write eng RXP_RTRU_CSR_ADDR e.addr]

/-- The writes that stream a batch: those of each entry, in entry order. -/
def batchWrites (eng : Nat) : List rxp_rof_entry → List Event
  | [] => []
  | e :: t => entryWrites eng e ++ batchWrites eng t

/-- Reading a stream of writes back: every three consecutive writes give an
(address, value) pair, the value recombined as `(high << 32) | low`. -/
def decodeWrites : List Event → List (Nat × Nat)
  | Event.write _ _ lo :: Event.write _ _ hi :: Event.write _ _ a :: t =>
    (a, (hi <<< 32) ||| lo) :: decodeWrites t
  | _ => []

/-- A register file whose registers hold fixed words: every access succeeds, a read
of `addr` delivers `f addr`, writes change nothing. -/
def constPort (f : Nat → Nat) : Port Unit where
  read := fun _ _ addr => (0, f addr, ())
  write := fun _ _ _ _ => (0, ())

/-- The values written to the RTRU control register of engine `eng`, oldest first. -/
def ctrlWrites (eng : Nat) (t : List Event) : List Nat :=
  t.filterMap fun e =>
    match e with
    | Event.write en a v => if en = eng ∧ a = RXP_RTRU_CSR_CTRL then some v else none
    | _ => none

/-- What a poll of register `addr` of engine `eng` does between its entry and its
return: reads of that register and sleeps of 1000 microseconds. -/
def Event.isPollStep (eng addr : Nat) : Event → Bool
  | Event.read en a _ _ => en = eng ∧ a = addr
  | Event.usleep us => us = 1000
  | _ => false

/-! ## Intermediate results of rxp_flush_rules, for stating properties -/

/-- The world in which `rxp_flush_rules` started in `w` has streamed its batch. -/
def rxp_flush_rules_streamed (P : Port σ) (w : World σ) (rules : Nat → rxp_rof_entry)
    (count : Int) (rxp_eng : Nat) : World σ :=
  (rxp_write_rules_via_cp P
    (mark (Event.flush count ((List.range count.toNat).map rules)) w) rules count rxp_eng).w

/-- The read of the RTRU capability register (`fifo_depth`) made by
`rxp_flush_rules` after streaming the batch. -/
def rxp_flush_rules_depth (P : Port σ) (w : World σ) (rules : Nat → rxp_rof_entry)
    (count : Int) (rxp_eng : Nat) : RdRes σ :=
  mlx5_regex_register_read P (rxp_flush_rules_streamed P w rules count rxp_eng) rxp_eng
    RXP_RTRU_CSR_CAPABILITY

/-- The poll of the RTRU FIFO status register made by `rxp_flush_rules` (made when
the read of the capability register succeeds). -/
def rxp_flush_rules_credit_poll (P : Port σ) (cfg : Config) (w : World σ)
    (rules : Nat → rxp_rof_entry) (count : Int) (rxp_eng : Nat) : PollRes σ :=
  rxp_poll_csr_for_value P (rxp_flush_rules_depth P w rules count rxp_eng).w
    RXP_RTRU_CSR_FIFO_STAT (toUInt32 count) (toUInt32 (-1))
    cfg.RXP_POLL_CSR_FOR_VALUE_TIMEOUT rxp_eng

/-- The first read of the RTRU control register made by `rxp_flush_rules` (made
when the credit poll succeeds). -/
def rxp_flush_rules_ctrl (P : Port σ) (cfg : Config) (w : World σ)
    (rules : Nat → rxp_rof_entry) (count : Int) (rxp_eng : Nat) : RdRes σ :=
  mlx5_regex_register_read P (rxp_flush_rules_credit_poll P cfg w rules count rxp_eng).w rxp_eng
    RXP_RTRU_CSR_CTRL

/-- The poll of the RTRU status register made by `rxp_flush_rules` after it has
written the go bit. -/
def rxp_flush_rules_done_poll (P : Port σ) (cfg : Config) (w : World σ)
    (rules : Nat → rxp_rof_entry) (count : Int) (rxp_eng : Nat) : PollRes σ :=
  rxp_poll_csr_for_value P
    (mlx5_regex_register_write P (rxp_flush_rules_ctrl P cfg w rules count rxp_eng).w rxp_eng
      RXP_RTRU_CSR_CTRL
      ((rxp_flush_rules_ctrl P cfg w rules count rxp_eng).value ||| RXP_RTRU_CSR_CTRL_GO)).w
    RXP_RTRU_CSR_STATUS RXP_RTRU_CSR_STATUS_UPDATE_DONE RXP_RTRU_CSR_STATUS_UPDATE_DONE
    cfg.RXP_POLL_CSR_FOR_VALUE_TIMEOUT rxp_eng

/-- The second read of the RTRU control register made by `rxp_flush_rules` (made
when the update-done poll succeeds). -/
def rxp_flush_rules_ctrl_again (P : Port σ) (cfg : Config) (w : World σ)
    (rules : Nat → rxp_rof_entry) (count : Int) (rxp_eng : Nat) : RdRes σ :=
  mlx5_regex_register_read P (rxp_flush_rules_done_poll P cfg w rules count rxp_eng).w rxp_eng
    RXP_RTRU_CSR_CTRL

/-- The last write of `rxp_flush_rules`: the RTRU control word read back, go bit
cleared. -/
def rxp_flush_rules_clear (P : Port σ) (cfg : Config) (w : World σ)
    (rules : Nat → rxp_rof_entry) (count : Int) (rxp_eng : Nat) : WrRes σ :=
  mlx5_regex_register_write P (rxp_flush_rules_ctrl_again P cfg w rules count rxp_eng).w rxp_eng
    RXP_RTRU_CSR_CTRL
    ((rxp_flush_rules_ctrl_again P cfg w rules count rxp_eng).value
      &&& not32 RXP_RTRU_CSR_CTRL_GO)

/-! ## The entry loop of mlnx_write_rules at a check-type entry -/

/-- Lines 699-711 of `mlnx_write_rules`: what the entry loop does first at a
check-type entry: the flush of the `pending` entries before it, if there are any
(the result carries the value of `ret`). -/
def mlnx_write_rules_check_flush (P : Port σ) (cfg : Config) (rxp_eng : Nat)
    (rules : Nat → rxp_rof_entry) (rule_cnt pending : Nat) (ret : Int) (w : World σ) : Res σ :=
  if pending ≠ 0
  then rxp_flush_rules P cfg w (fun i => rules ((rule_cnt - pending) + i)) (toInt32 pending)
    rxp_eng
  else ⟨ret, w⟩

/-- Lines 713-725 of `mlnx_write_rules`: the register named by the address `addr` of
a check-type entry whose block (bits 16-31) is 0 or 1. -/
def mlnx_write_rules_check_reg (addr : Nat) : Nat :=
  (if (addr >>> 16) &&& 0xFFFF = 0 then RXP_CSR_BASE_ADDRESS else RXP_RTRU_CSR_BASE_ADDRESS)
    + (addr &&& 0xFFFF) * RXP_CSR_WIDTH

/-- Line 727 of `mlnx_write_rules`: the register read made for the check-type entry
`rules rule_cnt` (made when the block of its address is 0 or 1). -/
def mlnx_write_rules_check_read (P : Port σ) (cfg : Config) (rxp_eng : Nat)
    (rules : Nat → rxp_rof_entry) (rule_cnt pending : Nat) (ret : Int) (w : World σ) : RdRes σ :=
  mlx5_regex_register_read P
    (mlnx_write_rules_check_flush P cfg rxp_eng rules rule_cnt pending ret w).w rxp_eng
    (mlnx_write_rules_check_reg (rules rule_cnt).addr)

/-- Lines 736-761 of `mlnx_write_rules`: the comparison asked for by the check-type
entry `e` fails for the word `val` read from the register. -/
def rxp_rof_entry.mismatch (e : rxp_rof_entry) (val : Nat) : Bool :=
  ((e.type = rxp_rof_entry_type.RXP_ROF_ENTRY_EQ ∨
      e.type = rxp_rof_entry_type.RXP_ROF_ENTRY_CHECKSUM) ∧ val ≠ e.value) ∨
  (e.type = rxp_rof_entry_type.RXP_ROF_ENTRY_GTE ∧ val < e.value) ∨
  (e.type = rxp_rof_entry_type.RXP_ROF_ENTRY_LTE ∧ val > e.value)

/-- The entries of the batches given to the calls of `rxp_flush_rules` recorded in a
trace, oldest first. -/
def flushedEntries : List Event → List rxp_rof_entry
  | [] => []
  | Event.flush _ batch :: t => batch ++ flushedEntries t
  | _ :: t => flushedEntries t

/-- The events of `rxp_flush_rules` that belong to its handshake: register reads,
sleeps, poll results and writes to the RTRU control register. -/
def Event.isHandshake : Event → Bool
  | Event.read _ _ _ _ => true
  | Event.usleep _ => true
  | Event.polled _ => true
  | Event.write _ a _ => a = RXP_RTRU_CSR_CTRL
  | _ => false

/-- The writes a list of events makes to the rule-streaming registers are those
that stream the entries of the batches flushed in it. -/
def streamsFlushed (eng : Nat) (t : List Event) : Prop :=
  ruleWrites t = ruleWrites (batchWrites eng (flushedEntries t))

/-- Register words of an initialised engine whose rule FIFO never reports a credit:
the status register reports init done, the RTRU capability register holds `cap`,
register `0x74` (index 29 of block 0) holds `live`, every other register (the RTRU
FIFO status register among them) holds 0. -/
def stuckFile (cap live : Nat) : Nat → Nat :=
  fun a => if a = RXP_CSR_STATUS then 1 else if a = RXP_RTRU_CSR_CAPABILITY then cap
    else if a = 0x74 then live else 0

/-- An example configuration with a steady-state polling ceiling of 2 ms (and, as in
`exampleConfig`, an 8-byte control header and command code 1 for a non-incremental
program). -/
def quickConfig : Config := ⟨60000, 2, 8, 1⟩

/-! ## The job queue and mlnx_submit_job -/

/-- Conversion to `int` (32 bits, two-complement) of a value computed in a wider
type. -/
def wrapInt32 (z : Int) : Int :=
  if z % 2 ^ 32 < 2 ^ 31 then z % 2 ^ 32 else z % 2 ^ 32 - 2 ^ 32

/-- Conversion of an `int` to `size_t`, taken to be 64 bits wide. -/
def toSizeT (z : Int) : Nat := (z % 2 ^ 64).toNat

/-- Modelled from the spec: the fields of `struct rxp_job_desc` (`rxp-api.h`, not
among the sources) that `mlnx_submit_job` reads: the job identifier, the 16-bit
control field and the subset identifiers. -/
structure rxp_job_desc where
  job_id : Nat
  ctrl : Nat
  subset : List Nat
  deriving DecidableEq, Repr

/-- Modelled from the spec: job `n` of the list given to `mlnx_submit_job`, that is
the pair `data[2 * n]`, `data[2 * n + 1]` of `struct rxp_mlnx_job_desc` elements
(`host.h`, not among the sources): the job descriptor `data[2 * n].data_ptr` points
to, the length `data[2 * n].len`, and the bytes `data[2 * n + 1].data_ptr` points
to. -/
structure rxp_job where
  desc : rxp_job_desc
  len : Nat
  data : List Nat
  deriving DecidableEq, Repr

/-- The arguments last given to `mlx5_regex_set_ctrl_seg` for the control segment
of a slot. -/
structure rxp_ctrl_seg where
  le : Nat
  subset : List Nat
  ctrl : Nat
  deriving DecidableEq, Repr

/-- Modelled from the spec: the fields of a slot `sq_buf[i]` of `struct rxp_queue`
(`host.h`, not among the sources) that `mlnx_submit_job` reads and writes: the busy
flag (`RXP_SQ_NOT_BUSY` is `false`), the response-ready flag, the job identifier,
the work identifier (a signed `int`, as the test `work_id > -1` presupposes), the
control segment, the bytes of the input buffer and the byte count of the input
segment. -/
structure rxp_sq_buf where
  sq_busy : Bool
  sq_resp_ready : Bool
  job_id : Nat
  work_id : Int
  ctrl_seg : rxp_ctrl_seg
  input_p : List Nat
  input_len : Nat
  deriving DecidableEq, Repr

/-- Modelled from the spec: `struct rxp_queue` of `host.h`: the slot array
`sq_buf[NUM_SQS]` (slot `i` is `sq_buf i`) and the count of responses to read. -/
structure rxp_queue where
  sq_buf : Nat → rxp_sq_buf
  num_resp_to_read : Nat

/-- The job interface of the underlying adapter driver on a hardware state `τ`.
`send_work s i slot` gives the value returned by `mlx5_regex_send_work` for slot
`i` (whose segments and buffers are those of `slot`) and the next state: a work
identifier, or -1 in case of error.  `poll s i work_id` gives the value returned by
`mlx5_regex_poll`. -/
structure JobPort (τ : Type) where
  send_work : τ → Nat → rxp_sq_buf → Int × τ
  poll : τ → Nat → Int → Int × τ

/-- Modelled from the spec: the constants `mlnx_submit_job` takes from `host.h` and
`rxp-api.h`: the number of slots of a queue and the size of a job descriptor. -/
structure QueueConfig where
  NUM_SQS : Nat
  sizeof_rxp_job_desc : Nat

/-- A call of `mlx5_regex_send_work`: the slot index, the index of the job in the
list, the slot as posted, the value returned. -/
structure PostEvent where
  sq : Nat
  job : Nat
  posted : rxp_sq_buf
  work_id : Int
  deriving DecidableEq, Repr

/-- The locals and the queue of `mlnx_submit_job` in its loop, with the hardware
state and the posts made so far (oldest first). -/
structure SubmitState (τ : Type) where
  sq_buf : Nat → rxp_sq_buf
  hw : τ
  posts : List PostEvent
  bytes_written : Int
  num_jobs_processed : Nat

/-- Result of `mlnx_submit_job`: the `size_t` returned, the queue and the hardware
state after, the posts made by the call. -/
structure SubmitRes (τ : Type) where
  ret : Nat
  queue : rxp_queue
  hw : τ
  posts : List PostEvent

/-- Lines 941-988 of `mlnx_submit_job`: slot `slot` prepared for job `job`: the
control bits truncated to the `uint8_t tmp_ctrl`, the job identifier, the control
segment, the first `joblen` bytes of the input buffer and the input segment. -/
def mlnx_submit_job_fill (slot : rxp_sq_buf) (job : rxp_job) : rxp_sq_buf :=
  let joblen := job.len % 2 ^ 16
  let tmp_ctrl := (job.desc.ctrl &&& 0x000C) % 2 ^ 8
  let tmp_ctrl := (tmp_ctrl ||| (job.desc.ctrl &&& 0x0100)) % 2 ^ 8
  { slot with
    job_id := job.desc.job_id
    ctrl_seg := ⟨0, job.desc.subset, tmp_ctrl⟩
    input_p := job.data.take joblen ++ slot.input_p.drop joblen
    input_len := joblen }

/-- The `for (i = 0; i < NUM_SQS; i++)` loop of `mlnx_submit_job` (lines 918-1012);
`fuel` is `NUM_SQS - i`. -/
def mlnx_submit_job_loop {τ : Type} (J : JobPort τ) (qc : QueueConfig) (data : Nat → rxp_job)
    (job_count : Nat) : Nat → Nat → SubmitState τ → SubmitState τ
  | 0, _, st => st
  | fuel + 1, i, st =>
    if st.num_jobs_processed ≥ job_count then st
    else if (st.sq_buf i).sq_busy = false ∧ (st.sq_buf i).sq_resp_ready ≠ true then
      let job := data st.num_jobs_processed
      let slot1 := mlnx_submit_job_fill (st.sq_buf i) job
      let r := J.send_work st.hw i slot1
      let slot2 := { slot1 with work_id := r.1 }
      if r.1 > -1 then
        mlnx_submit_job_loop J qc data job_count fuel (i + 1)
          { sq_buf := fun j => if j = i then { slot2 with sq_busy := true } else st.sq_buf j
            hw := r.2
            posts := st.posts ++ [⟨i, st.num_jobs_processed, slot1, r.1⟩]
            bytes_written := wrapInt32 (st.bytes_written + (job.len % 2 ^ 16 : Nat)
              + (qc.sizeof_rxp_job_desc : Nat))
            num_jobs_processed := st.num_jobs_processed + 1 }
      else
        { st with
          sq_buf := fun j => if j = i then slot2 else st.sq_buf j
          hw := r.2
          posts := st.posts ++ [⟨i, st.num_jobs_processed, slot1, r.1⟩] }
    else mlnx_submit_job_loop J qc data job_count fuel (i + 1) st

def mlnx_submit_job {τ : Type} (J : JobPort τ) (qc : QueueConfig) (rxp_queue : rxp_queue)
    (hw : τ) (data : Nat → rxp_job) (job_count : Nat) : SubmitRes τ :=
  if job_count = 0 then ⟨toSizeT (-1), rxp_queue, hw, []⟩
  else
    let st := mlnx_submit_job_loop J qc data job_count qc.NUM_SQS 0
      ⟨rxp_queue.sq_buf, hw, [], 0, 0⟩
    ⟨toSizeT st.bytes_written, { rxp_queue with sq_buf := st.sq_buf }, st.hw, st.posts⟩

/-- The posts of a list that were accepted (`work_id > -1`). -/
def acceptedPosts (posts : List PostEvent) : List PostEvent :=
  posts.filter fun p => p.work_id > -1

/-- The bytes `mlnx_submit_job` counts for the accepted posts of a list: the job
length and the size of a job descriptor, for each of them. -/
def postedBytes (qc : QueueConfig) (data : Nat → rxp_job) (posts : List PostEvent) : Nat :=
  ((acceptedPosts posts).map fun p => (data p.job).len % 2 ^ 16 + qc.sizeof_rxp_job_desc).sum

/-- The indices below `n` of the slots that are neither busy nor response-ready, in
ascending order. -/
def freeSlots (sq_buf : Nat → rxp_sq_buf) (n : Nat) : List Nat :=
  (List.range n).filter fun i => !(sq_buf i).sq_busy && !(sq_buf i).sq_resp_ready

/-- A job interface on which every post is accepted: the work identifier returned
is the number of posts made before (the state). -/
def countingJobs : JobPort Nat where
  send_work := fun s _ _ => ((s : Int), s + 1)
  poll := fun s _ _ => (0, s)

/-- A job interface on which every post fails. -/
def failingJobs : JobPort Unit where
  send_work := fun _ _ _ => (-1, ())
  poll := fun _ _ _ => (0, ())

/-- A slot that is free, with empty buffers. -/
def idleSlot : rxp_sq_buf := ⟨false, false, 0, 0, ⟨0, [], 0⟩, [], 0⟩

/-- An example queue configuration: 4 slots, 16-byte job descriptors. -/
def exampleQueueConfig : QueueConfig := ⟨4, 16⟩

/-! ## mlnx_poll -/

/-- A call of `mlx5_regex_poll`: the slot index, the work identifier given, the
value returned (1 a response is waiting, 0 no completion, -1 error). -/
structure PollEvent where
  sq : Nat
  work_id : Int
  ret : Int
  deriving DecidableEq, Repr

/-- The queue and the locals of `mlnx_poll` in its first loop, with the hardware
state, the completion queries made so far (oldest first) and the value of
`*rx_ready`.  The counter `num_resp_to_read` is taken not to wrap. -/
structure PollState (τ : Type) where
  sq_buf : Nat → rxp_sq_buf
  num_resp_to_read : Nat
  rx_ready : Bool
  hw : τ
  polls : List PollEvent
  ret : Int

/-- The `for (i = 0; i < NUM_SQS; i++)` loop of lines 1046-1079 of `mlnx_poll`; `fuel`
is `NUM_SQS - i`.  The Boolean says whether the loop left through `early_exit`. -/
def mlnx_poll_loop {τ : Type} (J : JobPort τ) : Nat → Nat → PollState τ → Bool × PollState τ
  | 0, _, st => (false, st)
  | fuel + 1, i, st =>
    let r := J.poll st.hw i (st.sq_buf i).work_id
    if r.1 > 0 then
      mlnx_poll_loop J fuel (i + 1)
        { sq_buf := fun j => if j = i then { st.sq_buf i with sq_resp_ready := true }
            else st.sq_buf j
          num_resp_to_read := st.num_resp_to_read + 1
          rx_ready := true
          hw := r.2
          polls := st.polls ++ [⟨i, (st.sq_buf i).work_id, r.1⟩]
          ret := r.1 }
    else if r.1 = 0 then
      mlnx_poll_loop J fuel (i + 1)
        { st with
          sq_buf := fun j => if j = i then { st.sq_buf i with sq_resp_ready := false }
            else st.sq_buf j
          hw := r.2
          polls := st.polls ++ [⟨i, (st.sq_buf i).work_id, r.1⟩]
          ret := r.1 }
    else
      (true, { st with
        hw := r.2
        polls := st.polls ++ [⟨i, (st.sq_buf i).work_id, r.1⟩]
        ret := r.1 })

/-- The second loop of `mlnx_poll` (lines 1086-1093): the value left in `*tx_ready`,
set to `false` first and to `true` at every slot whose busy flag is `false`. -/
def mlnx_poll_tx (sq_buf : Nat → rxp_sq_buf) (n : Nat) : Bool :=
  (List.range n).foldl (fun tx i => if (sq_buf i).sq_busy = false then true else tx) false

/-- Result of `mlnx_poll`: the `int` returned, the queue after, the values behind the
pointers `rx_ready` and `tx_ready` (`none` for a null pointer), the hardware state
after and the completion queries made. -/
structure QueuePollRes (τ : Type) where
  ret : Int
  queue : rxp_queue
  rx_ready : Option Bool
  tx_ready : Option Bool
  hw : τ
  polls : List PollEvent

/-- The first loop of `mlnx_poll` as run by the call: skipped for a null
`rx_ready`. -/
def mlnx_poll_rx {τ : Type} (J : JobPort τ) (qc : QueueConfig) (rxp_queue : rxp_queue) (hw : τ)
    (rx_ready : Option Bool) : Bool × PollState τ :=
  match rx_ready with
  | none => (false, ⟨rxp_queue.sq_buf, rxp_queue.num_resp_to_read, false, hw, [], 1⟩)
  | some _ =>
    mlnx_poll_loop J qc.NUM_SQS 0
      ⟨rxp_queue.sq_buf, rxp_queue.num_resp_to_read, false, hw, [], 1⟩

def mlnx_poll {τ : Type} (J : JobPort τ) (qc : QueueConfig) (rxp_queue : rxp_queue) (hw : τ)
    (rx_ready tx_ready : Option Bool) : QueuePollRes τ :=
  let a := mlnx_poll_rx J qc rxp_queue hw rx_ready
  let rx := rx_ready.map fun _ => a.2.rx_ready
  if a.1 then ⟨a.2.ret, ⟨a.2.sq_buf, a.2.num_resp_to_read⟩, rx, tx_ready, a.2.hw, a.2.polls⟩
  else
    ⟨1, ⟨a.2.sq_buf, a.2.num_resp_to_read⟩, rx,
      tx_ready.map (fun _ => mlnx_poll_tx a.2.sq_buf qc.NUM_SQS), a.2.hw, a.2.polls⟩

/-- A job interface driven by a script: every post and every completion query
delivers the next scripted value (0 once the script is exhausted). -/
def scriptJobs : JobPort (List Int) where
  send_work := fun s _ _ =>
    match s with
    | [] => (0, [])
    | x :: t => (x, t)
  poll := fun s _ _ =>
    match s with
    | [] => (0, [])
    | x :: t => (x, t)

/-! ## mlnx_read_resp -/

/-- Modelled from the spec: the sizes `mlnx_read_resp` takes from `rxp-api.h`, which is
not among the sources: `sizeof(struct rxp_response_desc)` (which host.c also names
`MAX_SIZE_RES_DES`) and `sizeof(struct rxp_match_tuple)`. -/
structure RespConfig where
  sizeof_rxp_response_desc : Nat
  sizeof_rxp_match_tuple : Nat

/-- The response memory of a slot, written by the hardware: the value
`DEVX_GET(regexp_metadata, metadata_p, match_count)` as stored in the `int
match_count`, the bytes at `metadata_p` and the bytes at `output_p` (byte `k` of a
buffer is its value at `k`). -/
structure RespMem where
  match_count : Int
  metadata_p : Nat → Nat
  output_p : Nat → Nat

/-- A `memcpy` into the caller buffer `buf`: the offset in `buf`, the number of
bytes, the slot and whether the source is its `output_p` (else its
`metadata_p`). -/
structure Copy where
  offset : Nat
  len : Nat
  slot : Nat
  output : Bool
  deriving DecidableEq, Repr

/-- The queue and the locals of `mlnx_read_resp` in its loop, with the copies made
so far and the slots whose response was copied (oldest first). -/
structure ReadState where
  sq_buf : Nat → rxp_sq_buf
  num_returned_resp : Nat
  total_response_len : Nat
  copies : List Copy
  copied : List Nat

/-- The `for (i = 0; i < NUM_SQS; i++)` loop of `mlnx_read_resp` (lines 808-867);
`fuel` is `NUM_SQS - i`.  `some ret` is the value with which the loop left through
`early_exit`; `none` stands for the end of the loop or its `break`.  The lengths
are `uint32_t`; `*num_returned_resp` is incremented at most `NUM_SQS` times, a bound
the `uint32_t i` is compared with, so it does not wrap. -/
def mlnx_read_resp_loop (rc : RespConfig) (mem : Nat → RespMem) (buf_size : Nat) :
    Nat → Nat → ReadState → Option Int × ReadState
  | 0, _, st => (none, st)
  | fuel + 1, i, st =>
    if (st.sq_buf i).sq_resp_ready = true then
      let match_count := (mem i).match_count
      if match_count < 0 then (some (-1), st)
      else
        let tmp_match_len := (match_count.toNat * rc.sizeof_rxp_match_tuple) % 2 ^ 32
        let response_len := (tmp_match_len + rc.sizeof_rxp_response_desc) % 2 ^ 32
        if (st.total_response_len + response_len) % 2 ^ 32 > buf_size then (none, st)
        else
          mlnx_read_resp_loop rc mem buf_size fuel (i + 1)
            { sq_buf := fun j => if j = i
                then { st.sq_buf i with sq_resp_ready := false, sq_busy := false }
                else st.sq_buf j
              num_returned_resp := st.num_returned_resp + 1
              total_response_len := (st.total_response_len + response_len) % 2 ^ 32
              copies := st.copies ++ [⟨0, rc.sizeof_rxp_response_desc, i, false⟩,
                ⟨rc.sizeof_rxp_response_desc, tmp_match_len, i, true⟩]
              copied := st.copied ++ [i] }
    else mlnx_read_resp_loop rc mem buf_size fuel (i + 1) st

/-- Result of `mlnx_read_resp`: the `int` returned, the queue after, the value left
in `*num_returned_resp`, the copies made into `buf` and the slots whose response
was copied. -/
structure ReadRes where
  ret : Int
  queue : rxp_queue
  num_returned_resp : Nat
  copies : List Copy
  copied : List Nat

def mlnx_read_resp (qc : QueueConfig) (rc : RespConfig) (rxp_queue : rxp_queue)
    (mem : Nat → RespMem) (buf_size : Nat) : ReadRes :=
  let a := mlnx_read_resp_loop rc mem buf_size qc.NUM_SQS 0 ⟨rxp_queue.sq_buf, 0, 0, [], []⟩
  let ret : Int := match a.1 with
    | some r => r
    | none => toInt32 a.2.total_response_len
  ⟨ret, { rxp_queue with sq_buf := a.2.sq_buf }, a.2.num_returned_resp, a.2.copies, a.2.copied⟩

/-- The length of the response held by a slot: its header and its `match_count`
tuples. -/
def responseLen (rc : RespConfig) (m : RespMem) : Nat :=
  rc.sizeof_rxp_response_desc + m.match_count.toNat * rc.sizeof_rxp_match_tuple

/-- The bytes of the response held by a slot: the header bytes, then the bytes of
its `match_count` tuples. -/
def responseBytes (rc : RespConfig) (m : RespMem) : List Nat :=
  (List.range rc.sizeof_rxp_response_desc).map m.metadata_p
    ++ (List.range (m.match_count.toNat * rc.sizeof_rxp_match_tuple)).map m.output_p

/-- The caller buffer after a list of copies, made in order, byte `j` of the buffer
before being `buf j`. -/
def bufAfter (mem : Nat → RespMem) : List Copy → (Nat → Nat) → Nat → Nat
  | [], buf => buf
  | c :: t, buf =>
    bufAfter mem t fun j =>
      if c.offset ≤ j ∧ j < c.offset + c.len then
        (if c.output then (mem c.slot).output_p else (mem c.slot).metadata_p) (j - c.offset)
      else buf j

/-- The copies `mlnx_read_resp` makes for the slots of a list, in order: for each
slot its header to offset 0 of `buf`, then its `tmp_match_len` bytes of tuples to
offset `MAX_SIZE_RES_DES`. -/
def copiesOf (rc : RespConfig) (mem : Nat → RespMem) : List Nat → List Copy
  | [] => []
  | j :: t =>
    ⟨0, rc.sizeof_rxp_response_desc, j, false⟩ ::
    ⟨rc.sizeof_rxp_response_desc,
      ((mem j).match_count.toNat * rc.sizeof_rxp_match_tuple) % 2 ^ 32, j, true⟩ ::
    copiesOf rc mem t

/-- The indices below `n` of the slots marked response-ready, in ascending order. -/
def readySlots (sq_buf : Nat → rxp_sq_buf) (n : Nat) : List Nat :=
  (List.range n).filter fun i => (sq_buf i).sq_resp_ready

/-- An example of response sizes: 16-byte headers and 8-byte match tuples. -/
def exampleRespConfig : RespConfig := ⟨16, 8⟩

/-! ## Sequences of calls on one queue -/

/-- A call of one of the three job functions on a queue, with its arguments. -/
inductive QueueCall where
  | submit (data : Nat → rxp_job) (job_count : Nat)
  | poll (rx_ready tx_ready : Option Bool)
  | read (mem : Nat → RespMem) (buf_size : Nat)

/-- A queue in use: the queue, the hardware state, the posts made by the calls of
`mlnx_submit_job` so far and the slots whose responses the calls of
`mlnx_read_resp` copied so far (oldest first). -/
structure QueueRun (τ : Type) where
  queue : rxp_queue
  hw : τ
  posts : List PostEvent
  copied : List Nat

/-- One call on a queue in use. -/
def runQueueCall {τ : Type} (J : JobPort τ) (qc : QueueConfig) (rc : RespConfig)
    (st : QueueRun τ) : QueueCall → QueueRun τ
  | .submit data job_count =>
    let r := mlnx_submit_job J qc st.queue st.hw data job_count
    ⟨r.queue, r.hw, st.posts ++ r.posts, st.copied⟩
  | .poll rx_ready tx_ready =>
    let r := mlnx_poll J qc st.queue st.hw rx_ready tx_ready
    ⟨r.queue, r.hw, st.posts, st.copied⟩
  | .read mem buf_size =>
    let r := mlnx_read_resp qc rc st.queue mem buf_size
    ⟨r.queue, st.hw, st.posts, st.copied ++ r.copied⟩

/-- The calls of a list made one after the other on a queue in use. -/
def runQueueCalls {τ : Type} (J : JobPort τ) (qc : QueueConfig) (rc : RespConfig) :
    List QueueCall → QueueRun τ → QueueRun τ
  | [], st => st
  | c :: t, st => runQueueCalls J qc rc t (runQueueCall J qc rc st c)

/-- The indices below `n` of the slots that are busy, in ascending order. -/
def busySlots (sq_buf : Nat → rxp_sq_buf) (n : Nat) : List Nat :=
  (List.range n).filter fun i => (sq_buf i).sq_busy

/-! ## mlnx_open / mlnx_release -/

/-- An allocation made (or a resource freed) by `mlnx_open` and `mlnx_release`: the
job context of `mlx5_regex_device_open`, the three buffers of slot `i` obtained
with `malloc`, and the three registrations of slot `i` made with
`mlx5_regex_reg_buffer`; `device` stands for what `mlnx_close` releases. -/
inductive AllocStep where
  | rxp_job_ctx
  | input_p (i : Nat)
  | output_p (i : Nat)
  | metadata_p (i : Nat)
  | input_buff (i : Nat)
  | output_buff (i : Nat)
  | metadata_buff (i : Nat)
  | device
  deriving DecidableEq, Repr

/-- The allocator and the adapter library on a state `ρ`.  `alloc s a` says whether
the pointer returned for the allocation `a` is non-null, with the next state;
`free s a` is the state after the resource `a` is released (`free`,
`mlx5_regex_device_close`, `mlnx_close`). -/
structure AllocPort (ρ : Type) where
  alloc : ρ → AllocStep → Bool × ρ
  free : ρ → AllocStep → ρ

/-- Modelled from the spec: the device record `rxp` (`struct rxp_mlnx_dev` of
`host.h`, not among the sources) with the count of open queues and the bitmask of
the queue identifiers in use, the registers of the engines, the allocator state,
and the array `queue[]` the callers hand to `mlnx_open`: the slots of `queue[k]`
and its field `q_id`.  The count is held as an integer that does not wrap, and the
bitmask as a natural number: `RXP_NUM_QUEUES` is taken to be below the width of
`int`, so that `1 << q` does not overflow. -/
structure OpenState (σ ρ : Type) where
  open_queues : Int
  queues_active : Nat
  w : World σ
  heap : ρ
  queue : Nat → rxp_queue
  q_id : Nat → Nat

/-- Result of `mlnx_open` and of `mlnx_release`: the `int` returned and the state
after. -/
structure OpenRes (σ ρ : Type) where
  ret : Int
  st : OpenState σ ρ

/-- The loop `for (q = 0; (q < RXP_NUM_QUEUES) && (rxp.queues_active & (1 << q));
q++);` of `mlnx_open` (line 1125); `fuel` is `RXP_NUM_QUEUES - q`, at which the test
`q < RXP_NUM_QUEUES` ends the loop. -/
def mlnx_open_find (RXP_NUM_QUEUES queues_active : Nat) : Nat → Nat → Nat
  | 0, q => q
  | fuel + 1, q =>
    if q < RXP_NUM_QUEUES ∧ queues_active &&& (1 <<< q) ≠ 0 then
      mlnx_open_find RXP_NUM_QUEUES queues_active fuel (q + 1)
    else q

/-- The statement `queues_active &= ~(1 << q)`: bit `q` is cleared, whatever the
width of the bitmask. -/
def clearQueueBit (queues_active q : Nat) : Nat :=
  queues_active ^^^ (queues_active &&& (1 <<< q))

/-- The `for (i = 0; i < NUM_SQS; i++)` loop of `mlnx_open` (lines 1152-1220); `fuel`
is `NUM_SQS - i`.  The result is `none` when the loop ran to its end, `some i` when
it left for `tidyup_regex_ctx` at slot `i`; with it the slots and the allocator
state. -/
def mlnx_open_slots {ρ : Type} (A : AllocPort ρ) :
    Nat → Nat → (Nat → rxp_sq_buf) → ρ → Option Nat × (Nat → rxp_sq_buf) × ρ
  | 0, _, sq_buf, h => (none, sq_buf, h)
  | fuel + 1, i, sq_buf, h =>
    let a1 := A.alloc h (.input_p i)
    if !a1.1 then (some i, sq_buf, a1.2)
    else
      let a2 := A.alloc a1.2 (.output_p i)
      if !a2.1 then (some i, sq_buf, a2.2)
      else
        let a3 := A.alloc a2.2 (.metadata_p i)
        if !a3.1 then (some i, sq_buf, a3.2)
        else
          let a4 := A.alloc a3.2 (.input_buff i)
          if !a4.1 then (some i, sq_buf, a4.2)
          else
            let a5 := A.alloc a4.2 (.output_buff i)
            if !a5.1 then (some i, sq_buf, a5.2)
            else
              let a6 := A.alloc a5.2 (.metadata_buff i)
              if !a6.1 then (some i, sq_buf, a6.2)
              else
                mlnx_open_slots A fuel (i + 1)
                  (fun j => if j = i then
                    { sq_buf i with
                      sq_busy := false, sq_resp_ready := false, work_id := 0, job_id := 0 }
                    else sq_buf j)
                  a6.2

/-- The frees of the three buffers of the slots `0 .. n - 1`, in ascending order:
the loop of `tidyup_regex_ctx` (with `n` the slot at which the set-up failed) and
the first loop of `mlnx_release` (with `n = NUM_SQS`). -/
def freeSlotBuffers {ρ : Type} (A : AllocPort ρ) (n : Nat) (h : ρ) : ρ :=
  (List.range n).foldl
    (fun s j => A.free (A.free (A.free s (.input_p j)) (.output_p j)) (.metadata_p j)) h

def mlnx_open {ρ : Type} (P : Port σ) (A : AllocPort ρ) (RXP_NUM_QUEUES : Nat) (qc : QueueConfig)
    (st : OpenState σ ρ) : OpenRes σ ρ :=
  if st.open_queues ≥ (RXP_NUM_QUEUES : Int) then ⟨-EBUSY, st⟩
  else
    let q := mlnx_open_find RXP_NUM_QUEUES st.queues_active RXP_NUM_QUEUES 0
    let active := st.queues_active ||| (1 <<< q)
    let q_id := fun k => if k = q then q else st.q_id k
    let d := A.alloc st.heap .rxp_job_ctx
    if !d.1 then
      ⟨-1, { st with queues_active := clearQueueBit active q, heap := d.2, q_id := q_id }⟩
    else
      let s := mlnx_open_slots A qc.NUM_SQS 0 (st.queue q).sq_buf d.2
      let queue := fun k => if k = q then { st.queue q with sq_buf := s.2.1 } else st.queue k
      match s.1 with
      | some i =>
        ⟨-1, { st with
          queues_active := clearQueueBit active q
          heap := freeSlotBuffers A i s.2.2
          queue := queue
          q_id := q_id }⟩
      | none =>
        ⟨toInt32 q,
          { open_queues := st.open_queues + 1
            queues_active := active
            w := if st.open_queues = 0 then rxp_enable P (rxp_enable P st.w 0) 1 else st.w
            heap := s.2.2
            queue := queue
            q_id := q_id }⟩

/-- The function `mlnx_release` on `queue[k]`. -/
def mlnx_release {ρ : Type} (P : Port σ) (A : AllocPort ρ) (qc : QueueConfig)
    (st : OpenState σ ρ) (k : Nat) : OpenRes σ ρ :=
  let h := A.free (freeSlotBuffers A qc.NUM_SQS st.heap) .rxp_job_ctx
  let open_queues := st.open_queues - 1
  ⟨1, { st with
    open_queues := open_queues
    queues_active := clearQueueBit st.queues_active (st.q_id k)
    w := if open_queues = 0 then rxp_disable P (rxp_disable P st.w 0) 1 else st.w
    heap := if open_queues = 0 then A.free h .device else h }⟩

/-- A call of `mlnx_open` or of `mlnx_release` on `queue[k]`. -/
inductive DevCall where
  | open
  | release (k : Nat)
  deriving DecidableEq, Repr

/-- The device after a list of calls, with the values the calls returned (oldest
first). -/
structure DevRun (σ ρ : Type) where
  st : OpenState σ ρ
  rets : List Int

/-- The calls of a list made one after the other. -/
def runDevCalls {ρ : Type} (P : Port σ) (A : AllocPort ρ) (RXP_NUM_QUEUES : Nat)
    (qc : QueueConfig) : List DevCall → DevRun σ ρ → DevRun σ ρ
  | [], r => r
  | .open :: t, r =>
    runDevCalls P A RXP_NUM_QUEUES qc t
      ⟨(mlnx_open P A RXP_NUM_QUEUES qc r.st).st,
        r.rets ++ [(mlnx_open P A RXP_NUM_QUEUES qc r.st).ret]⟩
  | .release k :: t, r =>
    runDevCalls P A RXP_NUM_QUEUES qc t
      ⟨(mlnx_release P A qc r.st k).st, r.rets ++ [(mlnx_release P A qc r.st k).ret]⟩

/-- Whether every `mlnx_release` of a list of calls is made while a queue is open
(the count of open queues is above 0 when it is called). -/
def releasesOpen {ρ : Type} (P : Port σ) (A : AllocPort ρ) (RXP_NUM_QUEUES : Nat)
    (qc : QueueConfig) : List DevCall → OpenState σ ρ → Bool
  | [], _ => true
  | .open :: t, st =>
    releasesOpen P A RXP_NUM_QUEUES qc t (mlnx_open P A RXP_NUM_QUEUES qc st).st
  | .release k :: t, st =>
    decide (0 < st.open_queues) &&
      releasesOpen P A RXP_NUM_QUEUES qc t (mlnx_release P A qc st k).st

/-- An allocator on which every allocation succeeds. -/
def plentyAlloc : AllocPort Unit where
  alloc := fun _ _ => (true, ())
  free := fun _ _ => ()

/-- An allocator with room for `n` more allocations (the state): an allocation
succeeds iff the state is above 0, and takes one; a free gives nothing back. -/
def boundedAlloc : AllocPort Nat where
  alloc := fun s _ => (decide (0 < s), s - 1)
  free := fun s _ => s

/-! ## The bookkeeping of queue identifiers -/

/-- The number of queue identifiers below `n` whose bit is set in the bitmask. -/
def activeCount (n queues_active : Nat) : Nat :=
  (List.range n).countP fun q => queues_active.testBit q

/-- Whether every `mlnx_release` of a list of calls is given a queue whose
identifier `q_id` is marked active in `queues_active` when it is called (as is the
identifier of a queue that was opened and not yet released). -/
def releasesActive {ρ : Type} (P : Port σ) (A : AllocPort ρ) (RXP_NUM_QUEUES : Nat)
    (qc : QueueConfig) : List DevCall → OpenState σ ρ → Bool
  | [], _ => true
  | .open :: t, st =>
    releasesActive P A RXP_NUM_QUEUES qc t (mlnx_open P A RXP_NUM_QUEUES qc st).st
  | .release k :: t, st =>
    st.queues_active.testBit (st.q_id k) &&
      releasesActive P A RXP_NUM_QUEUES qc t (mlnx_release P A qc st k).st

/-! ## Observations for the load as a whole -/

/-- Whether an event reports success: a register read with status 0, a poll with a
non-negative result; the other events carry no result. -/
def Event.succeeded : Event → Bool
  | Event.read _ _ status _ => status = 0
  | Event.polled ret => 0 ≤ ret
  | _ => true

/-! ## mlnx_init -/

/-- A resource acquired by `mlnx_init`, in the order of the source: the mutex of
`pthread_mutex_init`, the device list of `ibv_get_device_list`, the check
`mlx5dv_is_supported`, the device context of `mlx5dv_open_device`, the check
`mlx5_regex_is_supported`, and for each engine the region obtained with `mmap` and
its registration with `mlx5dv_devx_umem_reg`. -/
inductive InitStep where
  | mutex
  | dev_list
  | devx_supported
  | device_ctx
  | regex_supported
  | mmap (eng : Nat)
  | umem (eng : Nat)
  deriving DecidableEq, Repr

/-- The platform under `mlnx_init` on a state `ρ`.  `acquire s a` says whether the
step `a` passes its test in the source (the mutex is initialised, the device list
is not empty, the capability is supported, the pointer returned is non-null), with
the next state; `release s a` is the state after the matching release
(`pthread_mutex_destroy`, `ibv_free_device_list`, `munmap`,
`mlx5dv_devx_umem_dereg`). -/
structure InitPort (ρ : Type) where
  acquire : ρ → InitStep → Bool × ρ
  release : ρ → InitStep → ρ

/-- Result of `mlnx_init`: the `int` returned, the platform state and the world
after. -/
structure InitRes (σ ρ : Type) where
  ret : Int
  heap : ρ
  w : World σ

/-- The code from the label `tidyup` of `mlnx_init` on. -/
def mlnx_init_tidyup {ρ : Type} (I : InitPort ρ) (h : ρ) : ρ :=
  I.release (I.release h .dev_list) .mutex

/-- The code from the label `tidyup_umem0` of `mlnx_init` on (`tidyup_context` holds
no statement). -/
def mlnx_init_tidyup_umem0 {ρ : Type} (I : InitPort ρ) (h : ρ) : ρ :=
  mlnx_init_tidyup I (I.release h (.umem 0))

/-- The code from the label `tidyup_mmap0` of `mlnx_init` on. -/
def mlnx_init_tidyup_mmap0 {ρ : Type} (I : InitPort ρ) (h : ρ) : ρ :=
  mlnx_init_tidyup_umem0 I (I.release h (.mmap 0))

/-- The code from the label `tidyup_umem1` of `mlnx_init` on. -/
def mlnx_init_tidyup_umem1 {ρ : Type} (I : InitPort ρ) (h : ρ) : ρ :=
  mlnx_init_tidyup_mmap0 I (I.release h (.umem 1))

/-- The code from the label `tidyup_mmap1` of `mlnx_init` on. -/
def mlnx_init_tidyup_mmap1 {ρ : Type} (I : InitPort ρ) (h : ρ) : ρ :=
  mlnx_init_tidyup_umem1 I (I.release h (.mmap 1))

/-- The function `mlnx_init` (the log calls left out).  The test after each read of
the identifier is `(!err) || (fpga_ident != 0x5254)`, with `fpga_ident` the low 16
bits of the word the read left. -/
def mlnx_init {ρ : Type} (I : InitPort ρ) (P : Port σ) (h : ρ) (w : World σ) : InitRes σ ρ :=
  let a := I.acquire h .mutex
  if !a.1 then ⟨-1, a.2, w⟩
  else
    let b := I.acquire a.2 .dev_list
    if !b.1 then ⟨-1, mlnx_init_tidyup I b.2, w⟩
    else
      let c := I.acquire b.2 .devx_supported
      if !c.1 then ⟨-1, mlnx_init_tidyup I c.2, w⟩
      else
        let d := I.acquire c.2 .device_ctx
        if !d.1 then ⟨-1, mlnx_init_tidyup I d.2, w⟩
        else
          let e := I.acquire d.2 .regex_supported
          if !e.1 then ⟨-1, mlnx_init_tidyup I e.2, w⟩
          else
            let m0 := I.acquire e.2 (.mmap 0)
            if !m0.1 then ⟨-1, mlnx_init_tidyup I m0.2, w⟩
            else
              let u0 := I.acquire m0.2 (.umem 0)
              if !u0.1 then ⟨-1, mlnx_init_tidyup_umem0 I u0.2, w⟩
              else
                let m1 := I.acquire u0.2 (.mmap 1)
                if !m1.1 then ⟨-1, mlnx_init_tidyup_mmap0 I m1.2, w⟩
                else
                  let u1 := I.acquire m1.2 (.umem 1)
                  if !u1.1 then ⟨-1, mlnx_init_tidyup_umem1 I u1.2, w⟩
                  else
                    let r0 := mlx5_regex_register_read P w 0 RXP_CSR_IDENTIFIER
                    if r0.status = 0 ∨ r0.value &&& 0x0000FFFF ≠ 0x5254 then
                      ⟨-1, mlnx_init_tidyup_mmap1 I u1.2, r0.w⟩
                    else
                      let r1 := mlx5_regex_register_read P r0.w 1 RXP_CSR_IDENTIFIER
                      if r1.status = 0 ∨ r1.value &&& 0x0000FFFF ≠ 0x5254 then
                        ⟨-1, mlnx_init_tidyup_mmap1 I u1.2, r1.w⟩
                      else ⟨1, u1.2, r1.w⟩

/-- A platform on which every acquisition succeeds; the state is the list of the
releases made so far, oldest first. -/
def recordInit : InitPort (List InitStep) where
  acquire := fun s _ => (true, s)
  release := fun s a => s ++ [a]

/-! ## The fast path: mlx5_regex_dev_enqueue / mlx5_regex_dev_dequeue -/

/-- Modelled from the spec: an entry of the array `queue->jobs[]` (declared in
`mlx5_regex.h`, not among the sources), with the two fields the fast path assigns:
`user_id` and `used`. -/
structure mlx5_regex_job where
  user_id : Nat
  used : Nat
  deriving DecidableEq, Repr

/-- Modelled from the spec: `struct mlx5_regex_queues` (declared in `mlx5_regex.h`,
not among the sources): the producer index `pi`, the consumer index `ci` and the
array `jobs[]`.  The two indices are held as natural numbers that do not wrap, and
their difference is taken in the integers; the fields `handle` and `resp_ctx` are
part of the state of the RXP library. -/
structure mlx5_regex_queues where
  pi : Nat
  ci : Nat
  jobs : Nat → mlx5_regex_job

/-- Modelled from the spec: an entry of `op->matches[]` (`struct rte_regex_match`
of the regex device library, not among the sources). -/
structure rte_regex_match where
  rule_id : Nat
  offset : Nat
  len : Nat
  deriving DecidableEq, Repr

/-- Modelled from the spec: `struct rte_regex_ops` (of the regex device library, not
among the sources), with the fields the fast path reads and assigns: the address
and size of the first buffer, the four group identifiers, `user_id`, `nb_matches`,
`nb_actual_matches` and the array `matches[]` (here `op_matches`). -/
structure rte_regex_ops where
  user_id : Nat
  buf_addr : Nat
  buf_size : Nat
  group_id0 : Nat
  group_id1 : Nat
  group_id2 : Nat
  group_id3 : Nat
  nb_matches : Nat
  nb_actual_matches : Nat
  op_matches : Nat → rte_regex_match

/-- Modelled from the spec: a response as `mlx5_regex_dev_dequeue` reads it with
`DEVX_GET`: the fields `job_id`, `match_count` and `detected_match_count` of the
metadata, and the match tuple `j` found at offset
`sizeof(struct rxp_response_desc) + j * (64/8)`. -/
structure rxp_response where
  job_id : Nat
  match_count : Nat
  detected_match_count : Nat
  tuples : Nat → rte_regex_match

/-- The RXP library under the fast path, on a state `τ` (which holds the queue
handle and the response context).  `rxp_submit_job s job_id op` gives the value
returned for the job identifier and the buffer and groups of `op`;
`rxp_queue_status s` gives the value left in `rx_ready`;
`rxp_read_response_batch s` gives the count returned; `rxp_next_response s` gives
the response returned, `none` for `NULL`.  Each comes with the next state. -/
structure FastPort (τ : Type) where
  rxp_submit_job : τ → Nat → rte_regex_ops → Int × τ
  rxp_queue_status : τ → Bool × τ
  rxp_read_response_batch : τ → Int × τ
  rxp_next_response : τ → Option rxp_response × τ

/-- A call of `rxp_submit_job` made by `mlx5_regex_dev_enqueue`: the index of the op
in the array `ops`, the job identifier passed and the value returned. -/
structure SubmitCall where
  op : Nat
  job_id : Nat
  ret : Int
  deriving DecidableEq, Repr

/-- State of `mlx5_regex_dev_enqueue` and its result: the count `sent` (at most
`nb_ops`, a `uint16_t`), the queue, the state of the library and the calls of
`rxp_submit_job` made so far, oldest first. -/
structure EnqRes (τ : Type) where
  sent : Nat
  queue : mlx5_regex_queues
  hw : τ
  calls : List SubmitCall

/-- The array `jobs` with entry `k` replaced. -/
def setJob (jobs : Nat → mlx5_regex_job) (k : Nat) (j : mlx5_regex_job) :
    Nat → mlx5_regex_job :=
  fun n => if n = k then j else jobs n

/-- The `for (i = 0; i < nb_ops; i++)` loop of `mlx5_regex_dev_enqueue`; `fuel` is
`nb_ops - i`. -/
def mlx5_regex_dev_enqueue_loop {τ : Type} (F : FastPort τ) (MLX5_REGEX_MAX_JOBS : Nat)
    (ops : Nat → rte_regex_ops) : Nat → Nat → EnqRes τ → EnqRes τ
  | 0, _, st => st
  | fuel + 1, i, st =>
    if ((st.queue.pi : Int) - (st.queue.ci : Int)) ≥ (MLX5_REGEX_MAX_JOBS : Int) then st
    else
      let r := F.rxp_submit_job st.hw (st.queue.pi % MLX5_REGEX_MAX_JOBS) (ops i)
      if r.1 ≠ 0 then
        { st with
          hw := r.2
          calls := st.calls ++ [⟨i, st.queue.pi % MLX5_REGEX_MAX_JOBS, r.1⟩] }
      else
        mlx5_regex_dev_enqueue_loop F MLX5_REGEX_MAX_JOBS ops fuel (i + 1)
          { sent := st.sent + 1
            queue :=
              { st.queue with
                pi := st.queue.pi + 1
                jobs := setJob st.queue.jobs (st.queue.pi % MLX5_REGEX_MAX_JOBS)
                  { st.queue.jobs (st.queue.pi % MLX5_REGEX_MAX_JOBS) with
                    user_id := (ops i).user_id, used := 1 } }
            hw := r.2
            calls := st.calls ++ [⟨i, st.queue.pi % MLX5_REGEX_MAX_JOBS, r.1⟩] }

/-- The function `mlx5_regex_dev_enqueue` on one queue. -/
def mlx5_regex_dev_enqueue {τ : Type} (F : FastPort τ) (MLX5_REGEX_MAX_JOBS : Nat)
    (queue : mlx5_regex_queues) (hw : τ) (ops : Nat → rte_regex_ops) (nb_ops : Nat) :
    EnqRes τ :=
  mlx5_regex_dev_enqueue_loop F MLX5_REGEX_MAX_JOBS ops nb_ops 0 ⟨0, queue, hw, []⟩

/-- State of `mlx5_regex_dev_dequeue` and its result: the count `rec` (here
`rec_cnt`), the local `cnt`, the queue, the state of the library and the array `ops`. -/
structure DeqRes (τ : Type) where
  rec_cnt : Nat
  cnt : Int
  queue : mlx5_regex_queues
  hw : τ
  ops : Nat → rte_regex_ops

/-- The array `ops` with entry `k` replaced. -/
def setOp (ops : Nat → rte_regex_ops) (k : Nat) (op : rte_regex_ops) : Nat → rte_regex_ops :=
  fun n => if n = k then op else ops n

/-- The `for (i = 0; i < nb_ops; i++)` loop of `mlx5_regex_dev_dequeue`; `fuel` is
`nb_ops - i`.  The user identifier is read from `jobs[id]`, with `id` the job
identifier of the response (a `uint32_t`), and the flag `used` is cleared in
`jobs[i]`. -/
def mlx5_regex_dev_dequeue_loop {τ : Type} (F : FastPort τ) :
    Nat → Nat → DeqRes τ → DeqRes τ
  | 0, _, st => st
  | fuel + 1, i, st =>
    if (st.queue.pi : Int) - (st.queue.ci : Int) = 0 then st
    else
      let b := if st.cnt ≤ 0 then F.rxp_read_response_batch st.hw else (st.cnt, st.hw)
      if st.cnt ≤ 0 ∧ b.1 = 0 then { st with cnt := b.1, hw := b.2 }
      else
        let n := F.rxp_next_response b.2
        match n.1 with
        | none =>
          mlx5_regex_dev_dequeue_loop F fuel (i + 1) { st with cnt := b.1 - 1, hw := n.2 }
        | some res =>
          let id := res.job_id % 2 ^ 32
          mlx5_regex_dev_dequeue_loop F fuel (i + 1)
            { rec_cnt := st.rec_cnt + 1
              cnt := b.1 - 1
              queue :=
                { st.queue with
                  ci := st.queue.ci + 1
                  jobs := setJob st.queue.jobs i { st.queue.jobs i with used := 0 } }
              hw := n.2
              ops := setOp st.ops i
                { st.ops i with
                  user_id := (st.queue.jobs id).user_id
                  nb_matches := res.match_count
                  nb_actual_matches := res.detected_match_count
                  op_matches := fun j =>
                    if j < res.match_count then res.tuples j
                    else (st.ops i).op_matches j } }

/-- The function `mlx5_regex_dev_dequeue` on one queue. -/
def mlx5_regex_dev_dequeue {τ : Type} (F : FastPort τ) (queue : mlx5_regex_queues) (hw : τ)
    (ops : Nat → rte_regex_ops) (nb_ops : Nat) : DeqRes τ :=
  let s := F.rxp_queue_status hw
  if !s.1 then ⟨0, 0, queue, s.2, ops⟩
  else mlx5_regex_dev_dequeue_loop F nb_ops 0 ⟨0, 0, queue, s.2, ops⟩

/-- An RXP library that accepts every job and whose responses are scripted: the
state is the list of the responses still to deliver, `rx_ready` is always set, a
batch read returns the number of responses left and `rxp_next_response` delivers
the next one (`NULL` when none is left). -/
def scriptFast : FastPort (List rxp_response) where
  rxp_submit_job := fun s _ _ => (0, s)
  rxp_queue_status := fun s => (true, s)
  rxp_read_response_batch := fun s => ((s.length : Int), s)
  rxp_next_response := fun s =>
    match s with
    | [] => (none, [])
    | r :: t => (some r, t)

/-- An RXP library that accepts the jobs while its state, a count, is above 0 (each
job takes one) and returns -1 for every job after; it has no response. -/
def limitedFast : FastPort Nat where
  rxp_submit_job := fun s _ _ => if 0 < s then (0, s - 1) else (-1, s)
  rxp_queue_status := fun s => (false, s)
  rxp_read_response_batch := fun s => (0, s)
  rxp_next_response := fun s => (none, s)

/-- An op with the user identifier `u` and nothing else set. -/
def plainOp (u : Nat) : rte_regex_ops :=
  ⟨u, 0, 0, 0, 0, 0, 0, 0, 0, fun _ => ⟨0, 0, 0⟩⟩

/-- A response for the job `id` with no match. -/
def plainResponse (id : Nat) : rxp_response :=
  ⟨id, 0, 0, fun _ => ⟨0, 0, 0⟩⟩

/-- A queue with `pi = ci = 0` whose job entries are all unused. -/
def freshQueue : mlx5_regex_queues :=
  ⟨0, 0, fun _ => ⟨0, 0⟩⟩

/-- Two ops with the user identifiers 100 and 101 enqueued on a fresh ring of four
jobs; the library will deliver the response of job 1 before that of job 0. -/
def twoJobsEnqueued : EnqRes (List rxp_response) :=
  mlx5_regex_dev_enqueue scriptFast 4 freshQueue [plainResponse 1, plainResponse 0]
    (fun i => plainOp (100 + i)) 2

/-- After `twoJobsEnqueued`, a call of `mlx5_regex_dev_dequeue` for one op. -/
def firstDequeued : DeqRes (List rxp_response) :=
  mlx5_regex_dev_dequeue scriptFast twoJobsEnqueued.queue twoJobsEnqueued.hw
    (fun _ => plainOp 0) 1

/-- After `firstDequeued`, a second call of `mlx5_regex_dev_dequeue` for one op. -/
def secondDequeued : DeqRes (List rxp_response) :=
  mlx5_regex_dev_dequeue scriptFast firstDequeued.queue firstDequeued.hw
    (fun _ => plainOp 0) 1

/-- After `twoJobsEnqueued`, one call of `mlx5_regex_dev_dequeue` for two ops. -/
def bothDequeued : DeqRes (List rxp_response) :=
  mlx5_regex_dev_dequeue scriptFast twoJobsEnqueued.queue twoJobsEnqueued.hw
    (fun _ => plainOp 0) 2

/-- Register words of an initialised engine that reports a rule FIFO of capacity 0:
the status register reports init done, the RTRU capability register holds 0, the
RTRU FIFO status register holds `2^31`, the RTRU status register reports update
done, every other register holds 0. -/
def wrapFile : Nat → Nat :=
  fun a => if a = RXP_CSR_STATUS then 1 else if a = RXP_RTRU_CSR_FIFO_STAT then 0x80000000
    else if a = RXP_RTRU_CSR_STATUS then RXP_RTRU_CSR_STATUS_UPDATE_DONE else 0

/-- A queue of busy slots of which slots 0, 1 and 3 are marked response-ready. -/
def threeReady : rxp_queue :=
  ⟨fun i => { idleSlot with sq_busy := true, sq_resp_ready := decide (i ≠ 2) }, 0⟩

/-- Response memory in which slot `j` holds one match, header bytes
`1000 * (j + 1) + k` and tuple bytes `1000 * (j + 1) + 500 + k`: no byte value
occurs in two slots. -/
def taggedMem : Nat → RespMem :=
  fun j => ⟨1, fun k => 1000 * (j + 1) + k, fun k => 1000 * (j + 1) + 500 + k⟩

/-! ## Basic facts about the register port wrappers -/

@[simp] theorem read_status (P : Port σ) (w : World σ) (eng addr : Nat) :
    (mlx5_regex_register_read P w eng addr).status = nthStatus P eng addr w.hw 0 := rfl

@[simp] theorem read_value (P : Port σ) (w : World σ) (eng addr : Nat) :
    (mlx5_regex_register_read P w eng addr).value = nthValue P eng addr w.hw 0 := rfl

@[simp] theorem read_hw (P : Port σ) (w : World σ) (eng addr : Nat) :
    (mlx5_regex_register_read P w eng addr).w.hw = readIter P eng addr 1 w.hw := rfl

@[simp] theorem read_trace (P : Port σ) (w : World σ) (eng addr : Nat) :
    (mlx5_regex_register_read P w eng addr).w.trace =
      w.trace ++ [Event.read eng addr (nthStatus P eng addr w.hw 0)
        (nthValue P eng addr w.hw 0)] := rfl

@[simp] theorem write_hw (P : Port σ) (w : World σ) (eng addr v : Nat) :
    (mlx5_regex_register_write P w eng addr v).w.hw = (P.write w.hw eng addr v).2 := rfl

@[simp] theorem write_trace (P : Port σ) (w : World σ) (eng addr v : Nat) :
    (mlx5_regex_register_write P w eng addr v).w.trace =
      w.trace ++ [Event.write eng addr v] := rfl

@[simp] theorem write_status (P : Port σ) (w : World σ) (eng addr v : Nat) :
    (mlx5_regex_register_write P w eng addr v).status = (P.write w.hw eng addr v).1 := rfl

@[simp] theorem usleep_hw (us : Nat) (w : World σ) : (usleep us w).hw = w.hw := rfl

@[simp] theorem usleep_trace (us : Nat) (w : World σ) :
    (usleep us w).trace = w.trace ++ [Event.usleep us] := rfl

@[simp] theorem mark_hw (e : Event) (w : World σ) : (mark e w).hw = w.hw := rfl

@[simp] theorem mark_trace (e : Event) (w : World σ) :
    (mark e w).trace = w.trace ++ [e] := rfl

theorem nthStatus_succ (P : Port σ) (eng addr : Nat) (s : σ) (j : Nat) :
    nthStatus P eng addr (readIter P eng addr 1 s) j = nthStatus P eng addr s (j + 1) := rfl

theorem nthValue_succ (P : Port σ) (eng addr : Nat) (s : σ) (j : Nat) :
    nthValue P eng addr (readIter P eng addr 1 s) j = nthValue P eng addr s (j + 1) := rfl

theorem readIter_succ (P : Port σ) (eng addr : Nat) (s : σ) (k : Nat) :
    readIter P eng addr k (readIter P eng addr 1 s) = readIter P eng addr (k + 1) s := rfl

theorem toInt32_of_lt {n : Nat} (h : n < 2 ^ 31) : toInt32 n = (n : Int) := by
  unfold toInt32
  split_ifs <;> omega

theorem toInt32_nonneg_iff (n : Nat) : 0 ≤ toInt32 n ↔ n % 2 ^ 32 < 2 ^ 31 := by
  unfold toInt32
  split_ifs <;> omega

/-! ## rxp_poll_csr_for_value: the loop -/

/-- If read `k` is the first matching read and reads `0..k` succeed, the loop
stops there: it returns the iteration index converted to `int`, stores the
matching word, and has made `k + 1` reads. -/
theorem rxp_poll_loop_first_match (P : Port σ) (eng addr expected mask : Nat) :
    ∀ (k fuel i : Nat) (v : Option Nat) (w : World σ), k < fuel →
      (∀ j, j ≤ k → nthStatus P eng addr w.hw j = 0) →
      (∀ j, j < k → nthValue P eng addr w.hw j &&& mask ≠ expected) →
      nthValue P eng addr w.hw k &&& mask = expected →
      (rxp_poll_loop P eng addr expected mask fuel i v w).ret = toInt32 (i + k) ∧
      (rxp_poll_loop P eng addr expected mask fuel i v w).value
        = some (nthValue P eng addr w.hw k) ∧
      countReads (rxp_poll_loop P eng addr expected mask fuel i v w).w.trace
        = countReads w.trace + (k + 1) ∧
      (rxp_poll_loop P eng addr expected mask fuel i v w).w.hw
        = readIter P eng addr (k + 1) w.hw := by
  intro k
  induction k with
  | zero =>
    intro fuel i v w hk hok _ hyes
    obtain ⟨n, rfl⟩ : ∃ n, fuel = n + 1 := ⟨fuel - 1, by omega⟩
    have h0 := hok 0 (le_refl 0)
    simp [rxp_poll_loop, h0, hyes, countReads, Event.isRead]
  | succ k ih =>
    intro fuel i v w hk hok hno hyes
    obtain ⟨n, rfl⟩ : ∃ n, fuel = n + 1 := ⟨fuel - 1, by omega⟩
    have h0 := hok 0 (Nat.zero_le _)
    have hn0 := hno 0 (Nat.succ_pos _)
    have := ih n (i + 1) (some (nthValue P eng addr w.hw 0))
      (usleep 1000 (mlx5_regex_register_read P w eng addr).w) (by omega)
      (fun j hj => by simpa [nthStatus_succ] using hok (j + 1) (by omega))
      (fun j hj => by simpa [nthValue_succ] using hno (j + 1) (by omega))
      (by simpa [nthValue_succ] using hyes)
    simp only [rxp_poll_loop, read_status, h0, ne_eq, not_true_eq_false, if_false, read_value,
      hn0]
    simp only [usleep_hw, read_hw, nthValue_succ, readIter_succ, usleep_trace, read_trace]
      at this
    refine ⟨?_, this.2.1, ?_, this.2.2.2⟩
    · rw [this.1]; congr 1; omega
    · rw [this.2.2.1]
      simp [countReads, Event.isRead]
      omega

/-- If none of the first `fuel` reads matches and none fails, the loop runs to
its end: it returns `-EBUSY` after `fuel` reads. -/
theorem rxp_poll_loop_timeout (P : Port σ) (eng addr expected mask : Nat) :
    ∀ (fuel i : Nat) (v : Option Nat) (w : World σ),
      (∀ j, j < fuel → nthStatus P eng addr w.hw j = 0 ∧
        nthValue P eng addr w.hw j &&& mask ≠ expected) →
      (rxp_poll_loop P eng addr expected mask fuel i v w).ret = -EBUSY ∧
      countReads (rxp_poll_loop P eng addr expected mask fuel i v w).w.trace
        = countReads w.trace + fuel ∧
      (rxp_poll_loop P eng addr expected mask fuel i v w).w.hw
        = readIter P eng addr fuel w.hw := by
  intro fuel
  induction fuel with
  | zero => intro i v w _; simp [rxp_poll_loop, readIter]
  | succ n ih =>
    intro i v w h
    have h0 := h 0 (Nat.succ_pos _)
    have := ih (i + 1) (some (nthValue P eng addr w.hw 0))
      (usleep 1000 (mlx5_regex_register_read P w eng addr).w)
      (fun j hj => by simpa [nthStatus_succ, nthValue_succ] using h (j + 1) (by omega))
    simp only [rxp_poll_loop, read_status, h0.1, ne_eq, not_true_eq_false, if_false,
      read_value, h0.2]
    simp only [usleep_hw, read_hw, readIter_succ, usleep_trace, read_trace] at this
    refine ⟨this.1, ?_, this.2.2⟩
    rw [this.2.1]
    simp [countReads, Event.isRead]
    omega

/-- If read `k` is the first failing read and no earlier read matches, the loop
returns `-1` right after that read. -/
theorem rxp_poll_loop_read_fails (P : Port σ) (eng addr expected mask : Nat) :
    ∀ (k fuel i : Nat) (v : Option Nat) (w : World σ), k < fuel →
      (∀ j, j < k → nthStatus P eng addr w.hw j = 0 ∧
        nthValue P eng addr w.hw j &&& mask ≠ expected) →
      nthStatus P eng addr w.hw k ≠ 0 →
      (rxp_poll_loop P eng addr expected mask fuel i v w).ret = -1 ∧
      countReads (rxp_poll_loop P eng addr expected mask fuel i v w).w.trace
        = countReads w.trace + (k + 1) ∧
      (rxp_poll_loop P eng addr expected mask fuel i v w).w.hw
        = readIter P eng addr (k + 1) w.hw := by
  intro k
  induction k with
  | zero =>
    intro fuel i v w hk _ hbad
    obtain ⟨n, rfl⟩ : ∃ n, fuel = n + 1 := ⟨fuel - 1, by omega⟩
    simp [rxp_poll_loop, hbad, countReads, Event.isRead]
  | succ k ih =>
    intro fuel i v w hk h hbad
    obtain ⟨n, rfl⟩ : ∃ n, fuel = n + 1 := ⟨fuel - 1, by omega⟩
    have h0 := h 0 (Nat.succ_pos _)
    have := ih n (i + 1) (some (nthValue P eng addr w.hw 0))
      (usleep 1000 (mlx5_regex_register_read P w eng addr).w) (by omega)
      (fun j hj => by simpa [nthStatus_succ, nthValue_succ] using h (j + 1) (by omega))
      (by simpa [nthStatus_succ] using hbad)
    simp only [rxp_poll_loop, read_status, h0.1, ne_eq, not_true_eq_false, if_false,
      read_value, h0.2]
    simp only [usleep_hw, read_hw, readIter_succ, usleep_trace, read_trace] at this
    refine ⟨this.1, ?_, this.2.2⟩
    rw [this.2.1]
    simp [countReads, Event.isRead]
    omega

/-- A non-negative result of the loop comes from a read that matched. -/
theorem rxp_poll_loop_nonneg (P : Port σ) (eng addr expected mask : Nat) :
    ∀ (fuel i : Nat) (v : Option Nat) (w : World σ),
      0 ≤ (rxp_poll_loop P eng addr expected mask fuel i v w).ret →
      ∃ k, k < fuel ∧ (∀ j, j ≤ k → nthStatus P eng addr w.hw j = 0) ∧
        (∀ j, j < k → nthValue P eng addr w.hw j &&& mask ≠ expected) ∧
        nthValue P eng addr w.hw k &&& mask = expected ∧
        (rxp_poll_loop P eng addr expected mask fuel i v w).ret = toInt32 (i + k) := by
  intro fuel
  induction fuel with
  | zero => intro i v w h; simp [rxp_poll_loop, EBUSY] at h
  | succ n ih =>
    intro i v w h
    by_cases h0 : nthStatus P eng addr w.hw 0 = 0
    · by_cases hm : nthValue P eng addr w.hw 0 &&& mask = expected
      · refine ⟨0, Nat.succ_pos _, ?_, ?_, hm, ?_⟩
        · intro j hj
          obtain rfl : j = 0 := by omega
          exact h0
        · intro j hj; omega
        · simp [rxp_poll_loop, h0, hm]
      · simp only [rxp_poll_loop, read_status, h0, ne_eq, not_true_eq_false, if_false,
          read_value, hm] at h ⊢
        obtain ⟨k, hk, hok, hno, hyes, hret⟩ := ih _ _ _ h
        simp only [usleep_hw, read_hw, nthStatus_succ, nthValue_succ] at hok hno hyes
        refine ⟨k + 1, by omega, ?_, ?_, hyes, ?_⟩
        · intro j hj
          cases j with
          | zero => exact h0
          | succ j => exact hok j (by omega)
        · intro j hj
          cases j with
          | zero => exact hm
          | succ j => exact hno j (by omega)
        · rw [hret]; congr 1; omega
    · simp [rxp_poll_loop, h0] at h

/-! ## rxp_poll_csr_for_value: the function -/

theorem poll_ret (P : Port σ) (w : World σ) (a e m t eng : Nat) :
    (rxp_poll_csr_for_value P w a e m t eng).ret = (rxp_poll_loop P eng a e m t 0 none w).ret :=
  rfl

theorem poll_value (P : Port σ) (w : World σ) (a e m t eng : Nat) :
    (rxp_poll_csr_for_value P w a e m t eng).value
      = (rxp_poll_loop P eng a e m t 0 none w).value := rfl

theorem poll_hw (P : Port σ) (w : World σ) (a e m t eng : Nat) :
    (rxp_poll_csr_for_value P w a e m t eng).w.hw
      = (rxp_poll_loop P eng a e m t 0 none w).w.hw := rfl

theorem poll_trace (P : Port σ) (w : World σ) (a e m t eng : Nat) :
    (rxp_poll_csr_for_value P w a e m t eng).w.trace
      = (rxp_poll_loop P eng a e m t 0 none w).w.trace
        ++ [Event.polled (rxp_poll_loop P eng a e m t 0 none w).ret] := rfl

theorem tickPort_readIter (eng addr : Nat) :
    ∀ (k s : Nat), readIter tickPort eng addr k s = s + k := by
  intro k
  induction k with
  | zero => intro s; rfl
  | succ k ih =>
    intro s
    show readIter tickPort eng addr k (s + 1) = s + (k + 1)
    rw [ih]; omega

theorem tickPort_nthValue (eng addr s j : Nat) :
    nthValue tickPort eng addr s j = if s + j = 2 ^ 31 then 1 else 0 := by
  unfold nthValue
  rw [tickPort_readIter]
  show (if s + j = 2 ^ 31 then 1 else 0) % 2 ^ 32 = _
  split_ifs <;> rfl

theorem tickPort_nthStatus (eng addr s j : Nat) : nthStatus tickPort eng addr s j = 0 := rfl

theorem tickPort_poll_loop_late (w : World Nat) (hw : w.hw = 0) :
    (rxp_poll_loop tickPort 0 RXP_CSR_STATUS 1 1 (2 ^ 31 + 1) 0 none w).ret
      = toInt32 (2 ^ 31) := by
  have h := rxp_poll_loop_first_match tickPort 0 RXP_CSR_STATUS 1 1 (2 ^ 31) (2 ^ 31 + 1) 0
    none w (by omega) (fun j _ => tickPort_nthStatus _ _ _ _)
    (by
      intro j hj
      rw [tickPort_nthValue, hw, if_neg (by omega)]
      decide)
    (by
      rw [tickPort_nthValue, hw, if_pos (by omega)]
      rfl)
  rw [h.1, Nat.zero_add]

/-- The first matching read decides the poll (shared form of the C1 statement). -/
theorem poll_first_match (P : Port σ) (w : World σ)
    (address expected_value expected_mask timeout_ms eng k : Nat)
    (hk : k < timeout_ms)
    (hok : ∀ j, j ≤ k → nthStatus P eng address w.hw j = 0)
    (hno : ∀ j, j < k → nthValue P eng address w.hw j &&& expected_mask ≠ expected_value)
    (hyes : nthValue P eng address w.hw k &&& expected_mask = expected_value) :
    (rxp_poll_csr_for_value P w address expected_value expected_mask timeout_ms eng).ret
      = toInt32 k ∧
    (rxp_poll_csr_for_value P w address expected_value expected_mask timeout_ms eng).value
      = some (nthValue P eng address w.hw k) ∧
    countReads (rxp_poll_csr_for_value P w address expected_value expected_mask
      timeout_ms eng).w.trace = countReads w.trace + (k + 1) ∧
    (rxp_poll_csr_for_value P w address expected_value expected_mask timeout_ms eng).w.hw
      = readIter P eng address (k + 1) w.hw := by
  have h := rxp_poll_loop_first_match P eng address expected_value expected_mask k timeout_ms 0
    none w hk hok hno hyes
  simp only [Nat.zero_add] at h
  refine ⟨h.1, h.2.1, ?_, h.2.2.2⟩
  rw [poll_trace]
  have := h.2.2.1
  simp only [countReads, List.countP_append] at this ⊢
  rw [this]
  simp [Event.isRead]

/-- C1 (as amended): if read `k < timeout_ms` is the first read whose word satisfies
`(value & mask) == expected` and reads `0..k` all succeed, then
`rxp_poll_csr_for_value` makes exactly `k + 1` register reads, leaves the matching
word in `*value`, and returns `k` converted to `int`: that is `k` itself whenever
`k < 2^31`. -/
theorem rxp_poll_csr_for_value_first_match (P : Port σ) (w : World σ)
    (address expected_value expected_mask timeout_ms eng k : Nat)
    (hk : k < timeout_ms)
    (hok : ∀ j, j ≤ k → nthStatus P eng address w.hw j = 0)
    (hno : ∀ j, j < k → nthValue P eng address w.hw j &&& expected_mask ≠ expected_value)
    (hyes : nthValue P eng address w.hw k &&& expected_mask = expected_value) :
    (k < 2 ^ 31 → (rxp_poll_csr_for_value P w address expected_value expected_mask
        timeout_ms eng).ret = (k : Int)) ∧
    (rxp_poll_csr_for_value P w address expected_value expected_mask timeout_ms eng).ret
      = toInt32 k ∧
    (rxp_poll_csr_for_value P w address expected_value expected_mask timeout_ms eng).value
      = some (nthValue P eng address w.hw k) ∧
    countReads (rxp_poll_csr_for_value P w address expected_value expected_mask
      timeout_ms eng).w.trace = countReads w.trace + (k + 1) ∧
    (rxp_poll_csr_for_value P w address expected_value expected_mask timeout_ms eng).w.hw
      = readIter P eng address (k + 1) w.hw := by
  have h := poll_first_match P w address expected_value expected_mask timeout_ms eng k hk hok
    hno hyes
  exact ⟨fun h31 => by rw [h.1, toInt32_of_lt h31], h⟩

/-- C1, witness: on a scripted register file delivering 0, 0, 1 the poll for bit 0
returns 2 after three reads. -/
theorem rxp_poll_csr_for_value_first_match_witness :
    (rxp_poll_csr_for_value scriptPort ⟨[(0, 0), (0, 0), (0, 1)], []⟩ RXP_CSR_STATUS 1 1 5 0).ret
      = 2 ∧
    (rxp_poll_csr_for_value scriptPort ⟨[(0, 0), (0, 0), (0, 1)], []⟩ RXP_CSR_STATUS 1 1 5
      0).value = some 1 ∧
    countReads (rxp_poll_csr_for_value scriptPort ⟨[(0, 0), (0, 0), (0, 1)], []⟩
      RXP_CSR_STATUS 1 1 5 0).w.trace = 3 := by
  have h := rxp_poll_csr_for_value_first_match scriptPort ⟨[(0, 0), (0, 0), (0, 1)], []⟩
    RXP_CSR_STATUS 1 1 5 0 2 (by decide)
    (by intro j hj; interval_cases j <;> rfl)
    (by intro j hj; interval_cases j <;> decide)
    (by decide)
  exact ⟨h.1 (by norm_num), h.2.2.1, h.2.2.2.1⟩

/-- C1, counterexample to the claim as stated: with `timeout_ms = 2^31 + 1`, on a
register file whose read number `2^31` is the first (and only) one to match, every
read succeeding, the function does not return `k = 2^31`: the `unsigned` loop index
does not fit the `int` result and the value returned is `-2^31`, a negative number. -/
theorem rxp_poll_csr_for_value_first_match_counterexample :
    (2 ^ 31 < 2 ^ 31 + 1) ∧
    (∀ j, j ≤ 2 ^ 31 → nthStatus tickPort 0 RXP_CSR_STATUS 0 j = 0) ∧
    (∀ j, j < 2 ^ 31 → nthValue tickPort 0 RXP_CSR_STATUS 0 j &&& 1 ≠ 1) ∧
    (nthValue tickPort 0 RXP_CSR_STATUS 0 (2 ^ 31) &&& 1 = 1) ∧
    (rxp_poll_csr_for_value tickPort ⟨0, []⟩ RXP_CSR_STATUS 1 1 (2 ^ 31 + 1) 0).ret
      = -2147483648 ∧
    (rxp_poll_csr_for_value tickPort ⟨0, []⟩ RXP_CSR_STATUS 1 1 (2 ^ 31 + 1) 0).ret
      ≠ ((2 ^ 31 : Nat) : Int) := by
  have hok : ∀ j, j ≤ 2 ^ 31 → nthStatus tickPort 0 RXP_CSR_STATUS 0 j = 0 :=
    fun j _ => tickPort_nthStatus _ _ _ _
  have hno : ∀ j, j < 2 ^ 31 → nthValue tickPort 0 RXP_CSR_STATUS 0 j &&& 1 ≠ 1 := by
    intro j hj
    rw [tickPort_nthValue, if_neg (by omega)]
    decide
  have hyes : nthValue tickPort 0 RXP_CSR_STATUS 0 (2 ^ 31) &&& 1 = 1 := by
    rw [tickPort_nthValue, if_pos (by omega)]
    rfl
  have hret : (rxp_poll_csr_for_value tickPort ⟨0, []⟩ RXP_CSR_STATUS 1 1 (2 ^ 31 + 1) 0).ret
      = -2147483648 := by
    rw [poll_ret, tickPort_poll_loop_late ⟨0, []⟩ rfl]
    unfold toInt32
    norm_num
  refine ⟨by omega, hok, hno, hyes, hret, ?_⟩
  rw [hret]
  norm_num

/-- C2: `rxp_poll_csr_for_value` (a) returns `-EBUSY` after exactly `timeout_ms` reads
when none of the first `timeout_ms` reads matches and none fails (no read at all when
`timeout_ms = 0`); (b) returns `-1` right after the first failing read, with no
further read; (c) returns a non-negative value only if some read succeeded and
matched. -/
theorem rxp_poll_csr_for_value_errors (P : Port σ) (w : World σ)
    (address expected_value expected_mask timeout_ms eng : Nat) :
    ((∀ j, j < timeout_ms → nthStatus P eng address w.hw j = 0 ∧
        nthValue P eng address w.hw j &&& expected_mask ≠ expected_value) →
      (rxp_poll_csr_for_value P w address expected_value expected_mask timeout_ms eng).ret
        = -EBUSY ∧
      countReads (rxp_poll_csr_for_value P w address expected_value expected_mask
        timeout_ms eng).w.trace = countReads w.trace + timeout_ms) ∧
    (∀ k, k < timeout_ms →
      (∀ j, j < k → nthStatus P eng address w.hw j = 0 ∧
        nthValue P eng address w.hw j &&& expected_mask ≠ expected_value) →
      nthStatus P eng address w.hw k ≠ 0 →
      (rxp_poll_csr_for_value P w address expected_value expected_mask timeout_ms eng).ret
        = -1 ∧
      countReads (rxp_poll_csr_for_value P w address expected_value expected_mask
        timeout_ms eng).w.trace = countReads w.trace + (k + 1)) ∧
    (0 ≤ (rxp_poll_csr_for_value P w address expected_value expected_mask timeout_ms eng).ret →
      ∃ k, k < timeout_ms ∧ (∀ j, j ≤ k → nthStatus P eng address w.hw j = 0) ∧
        (∀ j, j < k → nthValue P eng address w.hw j &&& expected_mask ≠ expected_value) ∧
        nthValue P eng address w.hw k &&& expected_mask = expected_value) := by
  have hcount : ∀ n, countReads (rxp_poll_loop P eng address expected_value expected_mask
      timeout_ms 0 none w).w.trace = n →
      countReads (rxp_poll_csr_for_value P w address expected_value expected_mask
        timeout_ms eng).w.trace = n := by
    intro n hn
    show countReads ((rxp_poll_loop P eng address expected_value expected_mask timeout_ms 0
      none w).w.trace ++ [Event.polled _]) = _
    simp only [countReads, List.countP_append] at hn ⊢
    rw [hn]
    simp [Event.isRead]
  refine ⟨fun h => ?_, fun k hk h hbad => ?_, fun h => ?_⟩
  · have := rxp_poll_loop_timeout P eng address expected_value expected_mask timeout_ms 0
      none w h
    exact ⟨this.1, hcount _ this.2.1⟩
  · have := rxp_poll_loop_read_fails P eng address expected_value expected_mask k timeout_ms 0
      none w hk h hbad
    exact ⟨this.1, hcount _ this.2.1⟩
  · obtain ⟨k, hk, hok, hno, hyes, _⟩ := rxp_poll_loop_nonneg P eng address expected_value
      expected_mask timeout_ms 0 none w h
    exact ⟨k, hk, hok, hno, hyes⟩

/-- C2, witness: on scripted register files, a poll of two reads that never match
returns `-EBUSY` after two reads, and a poll whose second read fails returns `-1`
after two reads. -/
theorem rxp_poll_csr_for_value_errors_witness :
    ((rxp_poll_csr_for_value scriptPort ⟨[(0, 0), (0, 0), (0, 1)], []⟩ RXP_CSR_STATUS 1 1 2
        0).ret = -EBUSY ∧
      countReads (rxp_poll_csr_for_value scriptPort ⟨[(0, 0), (0, 0), (0, 1)], []⟩
        RXP_CSR_STATUS 1 1 2 0).w.trace = 2) ∧
    ((rxp_poll_csr_for_value scriptPort ⟨[(0, 0), (-5, 0), (0, 1)], []⟩ RXP_CSR_STATUS 1 1 9
        0).ret = -1 ∧
      countReads (rxp_poll_csr_for_value scriptPort ⟨[(0, 0), (-5, 0), (0, 1)], []⟩
        RXP_CSR_STATUS 1 1 9 0).w.trace = 2) :=
  ⟨(rxp_poll_csr_for_value_errors scriptPort ⟨[(0, 0), (0, 0), (0, 1)], []⟩
      RXP_CSR_STATUS 1 1 2 0).1
      (by intro j hj; interval_cases j <;> exact ⟨rfl, by decide⟩),
    (rxp_poll_csr_for_value_errors scriptPort ⟨[(0, 0), (-5, 0), (0, 1)], []⟩
      RXP_CSR_STATUS 1 1 9 0).2.1 1 (by decide)
      (by intro j hj; interval_cases j; exact ⟨rfl, by decide⟩)
      (by decide)⟩


/-! ## What the driver functions add to the trace -/

theorem filterMap_single {β : Type} (f : Event → Option β) (e : Event) :
    [e].filterMap f = (f e).toList := by
  cases h : f e <;> simp [List.filterMap_cons, h]

theorem filterMap_snoc {β : Type} (f : Event → Option β) (t : List Event) (e : Event) :
    (t ++ [e]).filterMap f = t.filterMap f ++ (f e).toList := by
  rw [List.filterMap_append, filterMap_single]

theorem poll_loop_filterMap {β : Type} (f : Event → Option β) (P : Port σ)
    (eng addr expected mask : Nat)
    (hr : ∀ st v, f (Event.read eng addr st v) = none) (hs : ∀ us, f (Event.usleep us) = none) :
    ∀ (fuel i : Nat) (v : Option Nat) (w : World σ),
      (rxp_poll_loop P eng addr expected mask fuel i v w).w.trace.filterMap f
        = w.trace.filterMap f := by
  intro fuel
  induction fuel with
  | zero => intro i v w; rfl
  | succ n ih =>
    intro i v w
    simp only [rxp_poll_loop]
    split_ifs
    · simp [hr]
    · simp [hr]
    · rw [ih]; simp [hr, hs]

theorem poll_filterMap {β : Type} (f : Event → Option β) (P : Port σ) (w : World σ)
    (addr expected mask T eng : Nat)
    (hr : ∀ st v, f (Event.read eng addr st v) = none) (hs : ∀ us, f (Event.usleep us) = none) :
    (rxp_poll_csr_for_value P w addr expected mask T eng).w.trace.filterMap f
      = w.trace.filterMap f
        ++ (f (Event.polled (rxp_poll_csr_for_value P w addr expected mask T eng).ret)).toList := by
  rw [poll_trace, filterMap_snoc, poll_loop_filterMap f P eng addr expected mask hr hs,
    poll_ret]

theorem rxp_init_rtru_pulse_filterMap {β : Type} (f : Event → Option β) (P : Port σ)
    (r : RdRes σ) (eng : Nat)
    (hw : ∀ v, f (Event.write eng RXP_RTRU_CSR_CTRL v) = none)
    (hs : ∀ us, f (Event.usleep us) = none) :
    (rxp_init_rtru_pulse P r eng).w.trace.filterMap f = r.w.trace.filterMap f := by
  unfold rxp_init_rtru_pulse
  simp only []
  split_ifs <;>
    simp only [hw, hs, filterMap_snoc, write_trace, usleep_trace, Option.toList_none, List.append_nil]

theorem rxp_init_pulse_filterMap {β : Type} (f : Event → Option β) (P : Port σ)
    (r : RdRes σ) (eng : Nat)
    (hw : ∀ v, f (Event.write eng RXP_CSR_CTRL v) = none)
    (hs : ∀ us, f (Event.usleep us) = none) :
    (rxp_init_pulse P r eng).w.trace.filterMap f = r.w.trace.filterMap f := by
  unfold rxp_init_pulse
  simp only []
  split_ifs <;>
    simp only [hw, hs, filterMap_snoc, write_trace, usleep_trace, Option.toList_none, List.append_nil]

/-- What `rxp_init_rtru` adds to an observation `f` of the trace that ignores reads,
sleeps and writes to the RTRU control register: the entry mark and, when the
control read succeeds, the poll result. -/
theorem rxp_init_rtru_filterMap {β : Type} (f : Event → Option β) (P : Port σ) (cfg : Config)
    (w : World σ) (eng : Nat)
    (hr : ∀ a st v, f (Event.read eng a st v) = none)
    (hw : ∀ v, f (Event.write eng RXP_RTRU_CSR_CTRL v) = none)
    (hs : ∀ us, f (Event.usleep us) = none) :
    (rxp_init_rtru P cfg w eng).w.trace.filterMap f
      = w.trace.filterMap f ++ (f (Event.init_rtru eng)).toList
        ++ (if (rxp_init_rtru_read P w eng).status ≠ 0 then []
            else (f (Event.polled (rxp_init_rtru_poll P cfg w eng).ret)).toList) := by
  unfold rxp_init_rtru rxp_init_rtru_poll rxp_init_rtru_read
  simp only []
  split_ifs <;>
    simp only [poll_filterMap f P _ _ _ _ _ _ (hr _) hs, rxp_init_rtru_pulse_filterMap f P _ _ hw hs,
      hr, hw, hs, filterMap_snoc, read_trace, write_trace, usleep_trace, mark_trace,
      Option.toList_none, List.append_nil]

/-- What the main stage of `rxp_init` adds to an observation `f` of the trace that
ignores reads, sleeps and writes to the control register: the poll result, when
the first control read succeeds. -/
theorem rxp_init_main_filterMap {β : Type} (f : Event → Option β) (P : Port σ) (cfg : Config)
    (w : World σ) (eng : Nat)
    (hr : ∀ a st v, f (Event.read eng a st v) = none)
    (hw : ∀ v, f (Event.write eng RXP_CSR_CTRL v) = none)
    (hs : ∀ us, f (Event.usleep us) = none) :
    (stageWorld (rxp_init_main P cfg w eng)).trace.filterMap f
      = w.trace.filterMap f
        ++ (if (mlx5_regex_register_read P w eng RXP_CSR_CTRL).status ≠ 0 then []
            else (f (Event.polled (rxp_init_poll P cfg w eng).ret)).toList) := by
  unfold rxp_init_main rxp_init_poll
  simp only []
  split_ifs <;>
    simp only [stageWorld, poll_filterMap f P _ _ _ _ _ _ (hr _) hs,
      rxp_init_pulse_filterMap f P _ _ hw hs,
      hr, hw, hs, filterMap_snoc, read_trace, write_trace, usleep_trace, mark_trace,
      Option.toList_none, List.append_nil]

/-- What lines 494-540 of `rxp_init` add, after the second run of `rxp_init_rtru`,
to an observation `f` of the trace that ignores reads: the four capability-derived
writes, made when the second run succeeds and the capability read succeeds. -/
theorem rxp_init_rtru_twice_filterMap {β : Type} (f : Event → Option β) (P : Port σ)
    (cfg : Config) (w : World σ) (eng : Nat)
    (hr : ∀ a st v, f (Event.read eng a st v) = none) :
    (rxp_init_rtru_twice P cfg w eng).w.trace.filterMap f
      = (rxp_init_rtru P cfg (rxp_init_rtru P cfg w eng).w eng).w.trace.filterMap f
        ++ (if 0 ≤ (rxp_init_rtru P cfg (rxp_init_rtru P cfg w eng).w eng).ret ∧
              (mlx5_regex_register_read P (rxp_init_rtru P cfg (rxp_init_rtru P cfg w eng).w eng).w
                eng RXP_CSR_CAPABILITY_5).status = 0
            then (f (Event.write eng RXP_CSR_MAX_MATCH
                ((mlx5_regex_register_read P
                  (rxp_init_rtru P cfg (rxp_init_rtru P cfg w eng).w eng).w
                  eng RXP_CSR_CAPABILITY_5).value >>> 16))).toList
              ++ (f (Event.write eng RXP_CSR_MAX_PREFIX
                ((mlx5_regex_register_read P
                  (rxp_init_rtru P cfg (rxp_init_rtru P cfg w eng).w eng).w
                  eng RXP_CSR_CAPABILITY_5).value &&& 0xFFFF))).toList
              ++ (f (Event.write eng RXP_CSR_MAX_LATENCY 0)).toList
              ++ (f (Event.write eng RXP_CSR_MAX_PRI_THREAD 0)).toList
            else []) := by
  unfold rxp_init_rtru_twice
  simp only []
  split_ifs with h1 h2 h3 h4 h5 h6 <;>
    first
    | (exfalso; tauto)
    | (simp only [hr, filterMap_snoc, read_trace, write_trace, Option.toList_none,
        List.append_nil]
       try simp only [List.append_assoc])

/-- The trace only grows through `rxp_init_rtru_twice`, from the end of the
second run on. -/
theorem rxp_init_rtru_twice_extends (P : Port σ) (cfg : Config) (w : World σ) (eng : Nat) :
    (rxp_init_rtru P cfg (rxp_init_rtru P cfg w eng).w eng).w.trace
      <+: (rxp_init_rtru_twice P cfg w eng).w.trace := by
  unfold rxp_init_rtru_twice
  simp only []
  split_ifs <;>
    simp only [read_trace, write_trace, List.append_assoc, List.prefix_append, List.prefix_refl]

/-! ## The simulated register file -/

theorem testBit_or_one (x : Nat) : (x ||| 1).testBit 0 = true := by
  simp [Nat.testBit_or]

theorem sim_read_ok (s : SimFile) (eng a : Nat) : (simPort.read s eng a).1 = 0 := by
  unfold simPort
  dsimp only
  split_ifs <;> rfl

theorem sim_nthStatus (eng a : Nat) (s : SimFile) (j : Nat) :
    nthStatus simPort eng a s j = 0 := sim_read_ok _ _ _

theorem sim_write_ok (s : SimFile) (eng a v : Nat) : (simPort.write s eng a v).1 = 0 := by
  unfold simPort
  dsimp only
  split_ifs <;> rfl

theorem sim_readIter_status (eng : Nat) :
    ∀ (k : Nat) (s : SimFile), readIter simPort eng RXP_CSR_STATUS k s
      = { s with initAge := s.initAge + k } := by
  intro k
  induction k with
  | zero => intro s; rfl
  | succ k ih =>
    intro s
    show readIter simPort eng RXP_CSR_STATUS k (simPort.read s eng RXP_CSR_STATUS).2.2 = _
    rw [ih]
    simp [simPort]
    omega

theorem sim_readIter_rtru (eng : Nat) :
    ∀ (k : Nat) (s : SimFile), readIter simPort eng RXP_RTRU_CSR_STATUS k s
      = { s with rtruAge := s.rtruAge + k } := by
  intro k
  induction k with
  | zero => intro s; rfl
  | succ k ih =>
    intro s
    show readIter simPort eng RXP_RTRU_CSR_STATUS k (simPort.read s eng RXP_RTRU_CSR_STATUS).2.2
      = _
    rw [ih]
    simp [simPort, RXP_RTRU_CSR_STATUS, RXP_CSR_STATUS, RXP_CSR_BASE_ADDRESS,
      RXP_RTRU_CSR_BASE_ADDRESS, RXP_CSR_WIDTH]
    omega

theorem sim_nthValue_status (eng : Nat) (s : SimFile) (j : Nat) :
    nthValue simPort eng RXP_CSR_STATUS s j
      = if 2 ≤ s.initAge + j then RXP_CSR_STATUS_INIT_DONE else 0 := by
  unfold nthValue
  rw [sim_readIter_status]
  simp only [simPort, if_true]
  split_ifs <;> rfl

theorem sim_nthValue_rtru (eng : Nat) (s : SimFile) (j : Nat) :
    nthValue simPort eng RXP_RTRU_CSR_STATUS s j
      = if 2 ≤ s.rtruAge + j then rtru_init_done else 0 := by
  unfold nthValue
  rw [sim_readIter_rtru]
  have h : RXP_RTRU_CSR_STATUS ≠ RXP_CSR_STATUS := by decide
  simp only [simPort, if_neg h, if_true]
  split_ifs <;> rfl

theorem sim_write_ctrl_initAge (s : SimFile) (eng v : Nat) :
    (simPort.write s eng RXP_CSR_CTRL v).2.initAge = if v.testBit 0 then 0 else s.initAge := rfl

theorem sim_write_rtru_ctrl_rtruAge (s : SimFile) (eng v : Nat) :
    (simPort.write s eng RXP_RTRU_CSR_CTRL v).2.rtruAge
      = if v.testBit 0 then 0 else s.rtruAge := rfl

theorem sim_pulse_initAge (r : RdRes SimFile) (eng : Nat) :
    (rxp_init_pulse simPort r eng).w.hw.initAge = 0 := by
  unfold rxp_init_pulse
  simp only [usleep_hw, write_hw, sim_write_ctrl_initAge, RXP_CSR_CTRL_INIT, testBit_or_one,
    if_true, ite_self]

theorem sim_rtru_pulse_rtruAge (r : RdRes SimFile) (eng : Nat) :
    (rxp_init_rtru_pulse simPort r eng).w.hw.rtruAge = 0 := by
  unfold rxp_init_rtru_pulse
  simp only [usleep_hw, write_hw, sim_write_rtru_ctrl_rtruAge, RXP_RTRU_CSR_CTRL_INIT,
    testBit_or_one, if_true, ite_self]

/-- On the simulated file the status poll of `rxp_init` matches on its third read. -/
theorem sim_init_poll_ret (cfg : Config) (w : World SimFile) (eng : Nat)
    (hT : 3 ≤ cfg.RXP_INITIALIZATION_TIMEOUT) : (rxp_init_poll simPort cfg w eng).ret = 2 := by
  unfold rxp_init_poll
  have h := poll_first_match simPort
    (rxp_init_pulse simPort (mlx5_regex_register_read simPort w eng RXP_CSR_CTRL) eng).w
    RXP_CSR_STATUS RXP_CSR_STATUS_INIT_DONE RXP_CSR_STATUS_INIT_DONE
    cfg.RXP_INITIALIZATION_TIMEOUT eng 2 (by omega) (fun j _ => sim_nthStatus _ _ _ _)
    (by
      intro j hj
      rw [sim_nthValue_status, sim_pulse_initAge, if_neg (by omega)]
      decide)
    (by
      rw [sim_nthValue_status, sim_pulse_initAge, if_pos (by omega)]
      rfl)
  rw [h.1]
  rfl

/-- On the simulated file the RTRU status poll of `rxp_init_rtru` matches on its
third read. -/
theorem sim_rtru_poll_ret (cfg : Config) (w : World SimFile) (eng : Nat)
    (hT : 3 ≤ cfg.RXP_INITIALIZATION_TIMEOUT) :
    (rxp_init_rtru_poll simPort cfg w eng).ret = 2 := by
  unfold rxp_init_rtru_poll
  have h := poll_first_match simPort
    (rxp_init_rtru_pulse simPort (rxp_init_rtru_read simPort w eng) eng).w
    RXP_RTRU_CSR_STATUS rtru_init_done rtru_init_done
    cfg.RXP_INITIALIZATION_TIMEOUT eng 2 (by omega) (fun j _ => sim_nthStatus _ _ _ _)
    (by
      intro j hj
      rw [sim_nthValue_rtru, sim_rtru_pulse_rtruAge, if_neg (by omega)]
      decide)
    (by
      rw [sim_nthValue_rtru, sim_rtru_pulse_rtruAge, if_pos (by omega)]
      rfl)
  rw [h.1]
  rfl

theorem sim_rtru_ret (cfg : Config) (w : World SimFile) (eng : Nat)
    (hT : 3 ≤ cfg.RXP_INITIALIZATION_TIMEOUT) : (rxp_init_rtru simPort cfg w eng).ret = 0 := by
  have hp := sim_rtru_poll_ret cfg w eng hT
  unfold rxp_init_rtru_poll rxp_init_rtru_read at hp
  unfold rxp_init_rtru
  simp only [read_status, mark_hw, sim_nthStatus, ne_eq, not_true_eq_false, if_false, hp]
  rfl

theorem sim_main (cfg : Config) (w : World SimFile) (eng : Nat)
    (hT : 3 ≤ cfg.RXP_INITIALIZATION_TIMEOUT) :
    ∃ w5, rxp_init_main simPort cfg w eng = Sum.inr w5 := by
  have hp := sim_init_poll_ret cfg w eng hT
  unfold rxp_init_poll at hp
  unfold rxp_init_main
  simp only [read_status, sim_nthStatus, ne_eq, not_true_eq_false, if_false, hp]
  exact ⟨_, rfl⟩

theorem sim_rtru_pollResults (cfg : Config) (w : World SimFile) (eng : Nat)
    (hT : 3 ≤ cfg.RXP_INITIALIZATION_TIMEOUT) :
    pollResults (rxp_init_rtru simPort cfg w eng).w.trace = pollResults w.trace ++ [2] := by
  unfold pollResults
  rw [rxp_init_rtru_filterMap _ simPort cfg w eng (fun _ _ _ => rfl) (fun _ => rfl)
    (fun _ => rfl), sim_rtru_poll_ret cfg w eng hT]
  have : (rxp_init_rtru_read simPort w eng).status = 0 := sim_read_ok _ _ _
  simp [this]

/-- C3: on the simulated register file (every access succeeds; after an init pulse
the init-done bit, and after an RTRU init pulse the IM, L1 and L2 init-done bits,
become set on exactly the third read of the status register), whatever the
registers hold initially and for every initialisation timeout of at least 3,
`rxp_init` returns 0 and its three polls (the main one and one per RTRU run) each
return the zero-based cycle count 2. -/
theorem rxp_init_simulated (s : SimFile) (t : List Event) (cfg : Config) (eng : Nat)
    (hT : 3 ≤ cfg.RXP_INITIALIZATION_TIMEOUT) :
    (rxp_init simPort cfg ⟨s, t⟩ eng).ret = 0 ∧
    pollResults (rxp_init simPort cfg ⟨s, t⟩ eng).w.trace = pollResults t ++ [2, 2, 2] := by
  obtain ⟨w5, h5⟩ := sim_main cfg ⟨s, t⟩ eng hT
  have hw5 : pollResults w5.trace = pollResults t ++ [2] := by
    have h := rxp_init_main_filterMap (fun e => match e with
        | Event.polled r => some r
        | _ => none) simPort cfg ⟨s, t⟩ eng (fun _ _ _ => rfl) (fun _ => rfl) (fun _ => rfl)
    rw [h5, sim_init_poll_ret cfg ⟨s, t⟩ eng hT] at h
    have h0 : (mlx5_regex_register_read simPort ⟨s, t⟩ eng RXP_CSR_CTRL).status = 0 :=
      sim_read_ok _ _ _
    simpa [pollResults, stageWorld, h0] using h
  have hret2 := sim_rtru_ret cfg (rxp_init_rtru simPort cfg w5 eng).w eng hT
  have hres : rxp_init simPort cfg ⟨s, t⟩ eng = rxp_init_rtru_twice simPort cfg w5 eng := by
    unfold rxp_init
    rw [h5]
  rw [hres]
  constructor
  · unfold rxp_init_rtru_twice
    simp only [hret2, le_refl, if_true, read_status, sim_nthStatus, ne_eq, not_true_eq_false,
      if_false, write_status, sim_write_ok]
    rfl
  · unfold pollResults at hw5 ⊢
    rw [rxp_init_rtru_twice_filterMap _ simPort cfg w5 eng (fun _ _ _ => rfl)]
    have h1 := sim_rtru_pollResults cfg w5 eng hT
    have h2 := sim_rtru_pollResults cfg (rxp_init_rtru simPort cfg w5 eng).w eng hT
    unfold pollResults at h1 h2
    rw [h2, h1, hw5]
    simp

/-- C3, witness: the simulated file with all registers 0, the example configuration
(timeout 60000), engine 0. -/
theorem rxp_init_simulated_witness :
    (rxp_init simPort exampleConfig ⟨⟨fun _ => 0, 0, 0⟩, []⟩ 0).ret = 0 ∧
    pollResults (rxp_init simPort exampleConfig ⟨⟨fun _ => 0, 0, 0⟩, []⟩ 0).w.trace
      = [2, 2, 2] :=
  rxp_init_simulated ⟨fun _ => 0, 0, 0⟩ [] exampleConfig 0 (by decide)

/-! ## rxp_init: the RTRU runs and the capability-derived registers -/

theorem rxp_init_main_inl_neg (P : Port σ) (cfg : Config) (w : World σ) (eng : Nat)
    (e : Res σ) (h : rxp_init_main P cfg w eng = Sum.inl e) : e.ret < 0 := by
  unfold rxp_init_main at h
  simp only [] at h
  split_ifs at h with h1 h2 h3
  · cases h; show (-1 : Int) < 0; decide
  · cases h; exact h2
  · cases h; show (-1 : Int) < 0; decide

theorem rxp_init_of_inr (P : Port σ) (cfg : Config) (w : World σ) (eng : Nat)
    (h : (rxp_init_main P cfg w eng).isRight = true) :
    rxp_init P cfg w eng
      = rxp_init_rtru_twice P cfg (stageWorld (rxp_init_main P cfg w eng)) eng := by
  unfold rxp_init
  cases hm : rxp_init_main P cfg w eng with
  | inl e => rw [hm] at h; cases h
  | inr w5 => rfl

theorem rxp_init_of_inl (P : Port σ) (cfg : Config) (w : World σ) (eng : Nat)
    (h : (rxp_init_main P cfg w eng).isRight = false) :
    (rxp_init P cfg w eng).w = stageWorld (rxp_init_main P cfg w eng) ∧
    (rxp_init P cfg w eng).ret < 0 := by
  unfold rxp_init
  cases hm : rxp_init_main P cfg w eng with
  | inl e => exact ⟨rfl, rxp_init_main_inl_neg P cfg w eng e hm⟩
  | inr w5 => rw [hm] at h; cases h

theorem capWrites_main (P : Port σ) (cfg : Config) (w : World σ) (eng : Nat) :
    capWrites (stageWorld (rxp_init_main P cfg w eng)).trace = capWrites w.trace := by
  unfold capWrites
  rw [rxp_init_main_filterMap _ P cfg w eng (fun _ _ _ => rfl) (fun _ => rfl) (fun _ => rfl)]
  split_ifs <;> simp

theorem capWrites_rtru (P : Port σ) (cfg : Config) (w : World σ) (eng : Nat) :
    capWrites (rxp_init_rtru P cfg w eng).w.trace = capWrites w.trace := by
  unfold capWrites
  rw [rxp_init_rtru_filterMap _ P cfg w eng (fun _ _ _ => rfl) (fun _ => rfl) (fun _ => rfl)]
  split_ifs <;> simp

theorem rtruRuns_main (P : Port σ) (cfg : Config) (w : World σ) (eng : Nat) :
    rtruRuns (stageWorld (rxp_init_main P cfg w eng)).trace = rtruRuns w.trace := by
  unfold rtruRuns
  rw [rxp_init_main_filterMap _ P cfg w eng (fun _ _ _ => rfl) (fun _ => rfl) (fun _ => rfl)]
  split_ifs <;> simp

theorem rtruRuns_rtru (P : Port σ) (cfg : Config) (w : World σ) (eng : Nat) :
    rtruRuns (rxp_init_rtru P cfg w eng).w.trace = rtruRuns w.trace ++ [eng] := by
  unfold rtruRuns
  rw [rxp_init_rtru_filterMap _ P cfg w eng (fun _ _ _ => rfl) (fun _ => rfl) (fun _ => rfl)]
  split_ifs <;> simp

theorem rtruRuns_twice (P : Port σ) (cfg : Config) (w : World σ) (eng : Nat) :
    rtruRuns (rxp_init_rtru_twice P cfg w eng).w.trace = rtruRuns w.trace ++ [eng, eng] := by
  have h := rxp_init_rtru_twice_filterMap (fun e => match e with
      | Event.init_rtru eng => some eng
      | _ => none) P cfg w eng (fun _ _ _ => rfl)
  have h1 := rtruRuns_rtru P cfg w eng
  have h2 := rtruRuns_rtru P cfg (rxp_init_rtru P cfg w eng).w eng
  unfold rtruRuns at h1 h2 ⊢
  rw [h, h2, h1]
  split_ifs <;> simp

theorem split_capability (c : Nat) : ((c >>> 16) <<< 16) ||| (c &&& 0xFFFF) = c := by
  apply Nat.eq_of_testBit_eq
  intro i
  have h : (0xFFFF : Nat) = 2 ^ 16 - 1 := by norm_num
  rw [h]
  simp only [Nat.testBit_or, Nat.testBit_shiftLeft, Nat.testBit_shiftRight, Nat.testBit_and,
    Nat.testBit_two_pow_sub_one]
  by_cases hi : i < 16
  · simp [hi, Nat.not_le.mpr hi]
  · have hge : 16 ≤ i := Nat.le_of_not_lt hi
    simp [hi, hge, Nat.add_sub_cancel' hge]

/-- A non-negative result of lines 494-540 of `rxp_init` is 0 and comes with the
capability read and the four capability-derived writes at the end of the trace. -/
theorem rxp_init_rtru_twice_success (P : Port σ) (cfg : Config) (w : World σ) (eng : Nat)
    (hok : 0 ≤ (rxp_init_rtru_twice P cfg w eng).ret) :
    (rxp_init_rtru_twice P cfg w eng).ret = 0 ∧
    0 ≤ (rxp_init_rtru P cfg (rxp_init_rtru P cfg w eng).w eng).ret ∧
    (mlx5_regex_register_read P (rxp_init_rtru P cfg (rxp_init_rtru P cfg w eng).w eng).w
      eng RXP_CSR_CAPABILITY_5).status = 0 ∧
    (rxp_init_rtru_twice P cfg w eng).w.trace
      = (rxp_init_rtru P cfg (rxp_init_rtru P cfg w eng).w eng).w.trace ++
        [Event.read eng RXP_CSR_CAPABILITY_5 0
          (mlx5_regex_register_read P (rxp_init_rtru P cfg (rxp_init_rtru P cfg w eng).w eng).w
            eng RXP_CSR_CAPABILITY_5).value,
         Event.write eng RXP_CSR_MAX_MATCH
          ((mlx5_regex_register_read P (rxp_init_rtru P cfg (rxp_init_rtru P cfg w eng).w eng).w
            eng RXP_CSR_CAPABILITY_5).value >>> 16),
         Event.write eng RXP_CSR_MAX_PREFIX
          ((mlx5_regex_register_read P (rxp_init_rtru P cfg (rxp_init_rtru P cfg w eng).w eng).w
            eng RXP_CSR_CAPABILITY_5).value &&& 0xFFFF),
         Event.write eng RXP_CSR_MAX_LATENCY 0,
         Event.write eng RXP_CSR_MAX_PRI_THREAD 0] := by
  unfold rxp_init_rtru_twice at hok ⊢
  simp only [] at hok ⊢
  split_ifs at hok ⊢ with h1 h2 h3
  · simp at hok
  · simp at hok
  · have h2' := not_not.mp h2
    refine ⟨not_not.mp h3, h1, h2', ?_⟩
    simp only [write_trace, read_trace, read_value, List.append_assoc, List.cons_append,
      List.nil_append]
    rw [show nthStatus P eng RXP_CSR_CAPABILITY_5 _ 0 = 0 from h2']
  · exact absurd hok h1

/-- A non-negative result of `rxp_init` is 0 and comes with the capability read and
the four capability-derived writes, the only writes of the call to those registers
(shared form of the C6 statement, with the word read made explicit). -/
theorem rxp_init_success (P : Port σ) (cfg : Config) (w : World σ) (eng : Nat)
    (hok : 0 ≤ (rxp_init P cfg w eng).ret) :
    (rxp_init P cfg w eng).ret = 0 ∧
    (rxp_init P cfg w eng).w.trace = (rxp_init_second_run P cfg w eng).w.trace ++
      [Event.read eng RXP_CSR_CAPABILITY_5 0
        (mlx5_regex_register_read P (rxp_init_second_run P cfg w eng).w eng
          RXP_CSR_CAPABILITY_5).value,
       Event.write eng RXP_CSR_MAX_MATCH
        ((mlx5_regex_register_read P (rxp_init_second_run P cfg w eng).w eng
          RXP_CSR_CAPABILITY_5).value >>> 16),
       Event.write eng RXP_CSR_MAX_PREFIX
        ((mlx5_regex_register_read P (rxp_init_second_run P cfg w eng).w eng
          RXP_CSR_CAPABILITY_5).value &&& 0xFFFF),
       Event.write eng RXP_CSR_MAX_LATENCY 0,
       Event.write eng RXP_CSR_MAX_PRI_THREAD 0] ∧
    capWrites (rxp_init P cfg w eng).w.trace = capWrites w.trace ++
      [(RXP_CSR_MAX_MATCH, (mlx5_regex_register_read P (rxp_init_second_run P cfg w eng).w eng
          RXP_CSR_CAPABILITY_5).value >>> 16),
       (RXP_CSR_MAX_PREFIX, (mlx5_regex_register_read P (rxp_init_second_run P cfg w eng).w eng
          RXP_CSR_CAPABILITY_5).value &&& 0xFFFF),
       (RXP_CSR_MAX_LATENCY, 0), (RXP_CSR_MAX_PRI_THREAD, 0)] := by
  cases hside : (rxp_init_main P cfg w eng).isRight with
  | false =>
    have := (rxp_init_of_inl P cfg w eng hside).2
    omega
  | true =>
    rw [rxp_init_of_inr P cfg w eng hside] at hok ⊢
    obtain ⟨hret, h1, h2, htr⟩ := rxp_init_rtru_twice_success P cfg _ eng hok
    refine ⟨hret, htr, ?_⟩
    rw [htr]
    unfold capWrites
    rw [List.filterMap_append]
    have hbase := capWrites_main P cfg w eng
    have hb1 := capWrites_rtru P cfg (stageWorld (rxp_init_main P cfg w eng)) eng
    have hb2 := capWrites_rtru P cfg
      (rxp_init_rtru P cfg (stageWorld (rxp_init_main P cfg w eng)) eng).w eng
    unfold capWrites at hbase hb1 hb2
    rw [hb2, hb1, hbase]
    rfl

/-- C6: whenever `rxp_init` returns a non-negative value, that value is 0 and the
function has ended by reading capability register 5 (successfully, word `c`) and
writing `c >> 16` to `MAX_MATCH`, `c & 0xFFFF` to `MAX_PREFIX`, 0 to `MAX_LATENCY`
and 0 to `MAX_PRI_THREAD`; these are the only writes of the call to those four
registers, and `(MAX_MATCH << 16) | MAX_PREFIX` gives back `c`. -/
theorem rxp_init_capability_registers (P : Port σ) (cfg : Config) (w : World σ) (eng : Nat)
    (hok : 0 ≤ (rxp_init P cfg w eng).ret) :
    (rxp_init P cfg w eng).ret = 0 ∧
    ∃ pre c, c < 2 ^ 32 ∧
      (rxp_init P cfg w eng).w.trace = pre ++
        [Event.read eng RXP_CSR_CAPABILITY_5 0 c,
         Event.write eng RXP_CSR_MAX_MATCH (c >>> 16),
         Event.write eng RXP_CSR_MAX_PREFIX (c &&& 0xFFFF),
         Event.write eng RXP_CSR_MAX_LATENCY 0,
         Event.write eng RXP_CSR_MAX_PRI_THREAD 0] ∧
      capWrites (rxp_init P cfg w eng).w.trace = capWrites w.trace ++
        [(RXP_CSR_MAX_MATCH, c >>> 16), (RXP_CSR_MAX_PREFIX, c &&& 0xFFFF),
         (RXP_CSR_MAX_LATENCY, 0), (RXP_CSR_MAX_PRI_THREAD, 0)] ∧
      ((c >>> 16) <<< 16) ||| (c &&& 0xFFFF) = c := by
  obtain ⟨hret, htr, hcw⟩ := rxp_init_success P cfg w eng hok
  exact ⟨hret, _, _, Nat.mod_lt _ (by norm_num), htr, hcw, split_capability _⟩

/-- C6, witness: the simulated register file whose capability register 5 holds
`0x00400010`. -/
theorem rxp_init_capability_registers_witness :
    (rxp_init simPort exampleConfig
      ⟨⟨fun a => if a = RXP_CSR_CAPABILITY_5 then 0x00400010 else 0, 0, 0⟩, []⟩ 0).ret = 0 ∧
    ∃ pre c, c < 2 ^ 32 ∧
      (rxp_init simPort exampleConfig
        ⟨⟨fun a => if a = RXP_CSR_CAPABILITY_5 then 0x00400010 else 0, 0, 0⟩, []⟩ 0).w.trace
        = pre ++
        [Event.read 0 RXP_CSR_CAPABILITY_5 0 c,
         Event.write 0 RXP_CSR_MAX_MATCH (c >>> 16),
         Event.write 0 RXP_CSR_MAX_PREFIX (c &&& 0xFFFF),
         Event.write 0 RXP_CSR_MAX_LATENCY 0,
         Event.write 0 RXP_CSR_MAX_PRI_THREAD 0] ∧
      capWrites (rxp_init simPort exampleConfig
        ⟨⟨fun a => if a = RXP_CSR_CAPABILITY_5 then 0x00400010 else 0, 0, 0⟩, []⟩ 0).w.trace
        = capWrites [] ++
        [(RXP_CSR_MAX_MATCH, c >>> 16), (RXP_CSR_MAX_PREFIX, c &&& 0xFFFF),
         (RXP_CSR_MAX_LATENCY, 0), (RXP_CSR_MAX_PRI_THREAD, 0)] ∧
      ((c >>> 16) <<< 16) ||| (c &&& 0xFFFF) = c :=
  rxp_init_capability_registers simPort exampleConfig
    ⟨⟨fun a => if a = RXP_CSR_CAPABILITY_5 then 0x00400010 else 0, 0, 0⟩, []⟩ 0 (by decide)

/-- When the main stage carries on: exactly when the first control read succeeds,
the main poll returns a non-negative value and the control read after it succeeds. -/
theorem rxp_init_main_isRight (P : Port σ) (cfg : Config) (w : World σ) (eng : Nat) :
    (rxp_init_main P cfg w eng).isRight = true ↔
      (mlx5_regex_register_read P w eng RXP_CSR_CTRL).status = 0 ∧
      0 ≤ (rxp_init_poll P cfg w eng).ret ∧
      (mlx5_regex_register_read P (rxp_init_poll P cfg w eng).w eng RXP_CSR_CTRL).status = 0 := by
  unfold rxp_init_main rxp_init_poll
  simp only []
  split_ifs with h1 h2 h3
  · simp only [Sum.isRight_inl, Bool.false_eq_true, false_iff]
    tauto
  · simp only [Sum.isRight_inl, Bool.false_eq_true, false_iff]
    intro h
    omega
  · simp only [Sum.isRight_inl, Bool.false_eq_true, false_iff]
    tauto
  · simp only [Sum.isRight_inr, true_iff]
    exact ⟨not_not.mp h1, not_lt.mp h2, not_not.mp h3⟩

/-- The main poll failing makes the main stage return its result. -/
theorem rxp_init_main_poll_fails (P : Port σ) (cfg : Config) (w : World σ) (eng : Nat)
    (h0 : (mlx5_regex_register_read P w eng RXP_CSR_CTRL).status = 0)
    (hp : (rxp_init_poll P cfg w eng).ret < 0) :
    rxp_init P cfg w eng = ⟨(rxp_init_poll P cfg w eng).ret, (rxp_init_poll P cfg w eng).w⟩ := by
  unfold rxp_init rxp_init_main
  unfold rxp_init_poll at hp
  simp only [h0, ne_eq, not_true_eq_false, if_false, hp, if_true]
  rfl

/-- C5 (as amended): `rxp_init` runs `rxp_init_rtru` exactly twice whenever its main
stage carries on, that is whenever the first read of the control register
succeeds, the main init-done poll returns a non-negative value and the read of the
control register that follows the poll succeeds; the second run is made whatever
the first one returned, and its whole register sequence is part of the trace.  No
run is made when the main stage returns early, in particular when the main poll
fails. -/
theorem rxp_init_rtru_runs (P : Port σ) (cfg : Config) (w : World σ) (eng : Nat) :
    ((rxp_init_main P cfg w eng).isRight = true ↔
      (mlx5_regex_register_read P w eng RXP_CSR_CTRL).status = 0 ∧
      0 ≤ (rxp_init_poll P cfg w eng).ret ∧
      (mlx5_regex_register_read P (rxp_init_poll P cfg w eng).w eng RXP_CSR_CTRL).status = 0) ∧
    ((rxp_init_main P cfg w eng).isRight = true →
      rtruRuns (rxp_init P cfg w eng).w.trace = rtruRuns w.trace ++ [eng, eng] ∧
      (rxp_init_second_run P cfg w eng).w.trace <+: (rxp_init P cfg w eng).w.trace) ∧
    ((rxp_init_main P cfg w eng).isRight = false →
      (rxp_init P cfg w eng).ret < 0 ∧
      rtruRuns (rxp_init P cfg w eng).w.trace = rtruRuns w.trace) ∧
    ((mlx5_regex_register_read P w eng RXP_CSR_CTRL).status = 0 →
      (rxp_init_poll P cfg w eng).ret < 0 →
      (rxp_init P cfg w eng).ret = (rxp_init_poll P cfg w eng).ret ∧
      rtruRuns (rxp_init P cfg w eng).w.trace = rtruRuns w.trace) := by
  have hearly : (rxp_init_main P cfg w eng).isRight = false →
      (rxp_init P cfg w eng).ret < 0 ∧
      rtruRuns (rxp_init P cfg w eng).w.trace = rtruRuns w.trace := by
    intro h
    obtain ⟨hw, hneg⟩ := rxp_init_of_inl P cfg w eng h
    exact ⟨hneg, by rw [hw, rtruRuns_main]⟩
  refine ⟨rxp_init_main_isRight P cfg w eng, fun h => ?_, hearly, fun h0 hp => ?_⟩
  · rw [rxp_init_of_inr P cfg w eng h]
    refine ⟨?_, rxp_init_rtru_twice_extends P cfg _ eng⟩
    rw [rtruRuns_twice, rtruRuns_main]
  · have hside : (rxp_init_main P cfg w eng).isRight = false := by
      cases hs : (rxp_init_main P cfg w eng).isRight with
      | false => rfl
      | true =>
        have := ((rxp_init_main_isRight P cfg w eng).mp hs).2.1
        omega
    refine ⟨?_, (hearly hside).2⟩
    rw [rxp_init_main_poll_fails P cfg w eng h0 hp]

/-- C5, witness: on the simulated register file the main stage carries on and two
runs are made; on a scripted register file whose status read matches at once but
whose following control read fails, the main stage returns early and no run is
made. -/
theorem rxp_init_rtru_runs_witness :
    ((rxp_init_main simPort exampleConfig ⟨⟨fun _ => 0, 0, 0⟩, []⟩ 0).isRight = true ∧
      rtruRuns (rxp_init simPort exampleConfig ⟨⟨fun _ => 0, 0, 0⟩, []⟩ 0).w.trace
        = rtruRuns [] ++ [0, 0]) ∧
    ((rxp_init_main scriptPort exampleConfig ⟨[(0, 0), (0, 1), (-1, 0)], []⟩ 0).isRight = false ∧
      rtruRuns (rxp_init scriptPort exampleConfig ⟨[(0, 0), (0, 1), (-1, 0)], []⟩ 0).w.trace
        = rtruRuns []) :=
  ⟨⟨by decide, ((rxp_init_rtru_runs simPort exampleConfig ⟨⟨fun _ => 0, 0, 0⟩, []⟩ 0).2.1
      (by decide)).1⟩,
    ⟨by decide, ((rxp_init_rtru_runs scriptPort exampleConfig
      ⟨[(0, 0), (0, 1), (-1, 0)], []⟩ 0).2.2.1 (by decide)).2⟩⟩

/-- C5, counterexample to the claim as stated: on a scripted register file the main
init-done poll succeeds (it returns 0), yet the read of the control register
that follows it fails, `rxp_init` returns -1 and no run of `rxp_init_rtru` is
made. -/
theorem rxp_init_rtru_runs_counterexample :
    (mlx5_regex_register_read scriptPort ⟨[(0, 0), (0, 1), (-1, 0)], []⟩ 0 RXP_CSR_CTRL).status
      = 0 ∧
    (rxp_init_poll scriptPort exampleConfig ⟨[(0, 0), (0, 1), (-1, 0)], []⟩ 0).ret = 0 ∧
    (rxp_init scriptPort exampleConfig ⟨[(0, 0), (0, 1), (-1, 0)], []⟩ 0).ret = -1 ∧
    rtruRuns (rxp_init scriptPort exampleConfig ⟨[(0, 0), (0, 1), (-1, 0)], []⟩ 0).w.trace
      = [] := by
  decide

/-- C4 (as amended): if the second run of `rxp_init_rtru` fails (returns a negative
value, as it does when the init-done bits are not observed within the timeout),
`rxp_init` returns that negative value, makes no further register access and
writes none of the capability-derived registers `MAX_MATCH`, `MAX_PREFIX`,
`MAX_LATENCY`, `MAX_PRI_THREAD`.  (The value returned by the first run is
discarded.) -/
theorem rxp_init_second_run_fails (P : Port σ) (cfg : Config) (w : World σ) (eng : Nat)
    (hmain : (rxp_init_main P cfg w eng).isRight = true)
    (hfail : (rxp_init_second_run P cfg w eng).ret < 0) :
    (rxp_init P cfg w eng).ret = (rxp_init_second_run P cfg w eng).ret ∧
    (rxp_init P cfg w eng).ret < 0 ∧
    (rxp_init P cfg w eng).w = (rxp_init_second_run P cfg w eng).w ∧
    capWrites (rxp_init P cfg w eng).w.trace = capWrites w.trace := by
  have hres : rxp_init P cfg w eng = rxp_init_second_run P cfg w eng := by
    rw [rxp_init_of_inr P cfg w eng hmain]
    unfold rxp_init_second_run rxp_init_first_run at hfail ⊢
    unfold rxp_init_rtru_twice
    simp only [not_le.mpr hfail, if_false]
  rw [hres]
  refine ⟨rfl, hfail, rfl, ?_⟩
  unfold rxp_init_second_run rxp_init_first_run
  rw [capWrites_rtru, capWrites_rtru, capWrites_main]

/-- C4, witness: a scripted register file (timeout 2) on which the main stage and
the first RTRU run succeed and the poll of the second run times out. -/
theorem rxp_init_second_run_fails_witness :
    (rxp_init scriptPort ⟨2, 2, 8, 1⟩
      ⟨[(0, 0), (0, 1), (0, 0), (0, 0), (0, 0x70)], []⟩ 0).ret = -EBUSY ∧
    capWrites (rxp_init scriptPort ⟨2, 2, 8, 1⟩
      ⟨[(0, 0), (0, 1), (0, 0), (0, 0), (0, 0x70)], []⟩ 0).w.trace = capWrites [] := by
  have h := rxp_init_second_run_fails scriptPort ⟨2, 2, 8, 1⟩
    ⟨[(0, 0), (0, 1), (0, 0), (0, 0), (0, 0x70)], []⟩ 0 (by decide) (by decide)
  exact ⟨h.1.trans (by decide), h.2.2.2⟩

/-! ## The register file that needs two RTRU init pulses -/

theorem poll_loop_hw_of_pure (P : Port σ) (eng addr expected mask : Nat)
    (hpure : ∀ s, (P.read s eng addr).2.2 = s) :
    ∀ (fuel i : Nat) (v : Option Nat) (w : World σ),
      (rxp_poll_loop P eng addr expected mask fuel i v w).w.hw = w.hw := by
  intro fuel
  induction fuel with
  | zero => intro i v w; rfl
  | succ n ih =>
    intro i v w
    simp only [rxp_poll_loop]
    split_ifs
    · exact hpure _
    · exact hpure _
    · rw [ih]; exact hpure _

theorem testBit_and_not32_one (x : Nat) : (x &&& not32 1).testBit 0 = false := by
  have : (not32 1).testBit 0 = false := by decide
  rw [Nat.testBit_and, this, Bool.and_false]

theorem testBit_or_mode (x : Nat) :
    ((x &&& not32 1) ||| RXP_RTRU_CSR_CTRL_INIT_MODE_IM_L1_L2).testBit 0 = false := by
  have : RXP_RTRU_CSR_CTRL_INIT_MODE_IM_L1_L2.testBit 0 = false := by decide
  rw [Nat.testBit_or, testBit_and_not32_one, this]
  rfl

theorem tp_read_ok (s eng a : Nat) : (twoPulsePort.read s eng a).1 = 0 := by
  unfold twoPulsePort
  dsimp only
  split_ifs <;> rfl

theorem tp_read_pure (s eng a : Nat) : (twoPulsePort.read s eng a).2.2 = s := by
  unfold twoPulsePort
  dsimp only
  split_ifs <;> rfl

theorem tp_write_ok (s eng a v : Nat) : (twoPulsePort.write s eng a v).1 = 0 := by
  unfold twoPulsePort
  dsimp only
  split_ifs <;> rfl

theorem tp_readIter (eng a : Nat) : ∀ (k s : Nat), readIter twoPulsePort eng a k s = s := by
  intro k
  induction k with
  | zero => intro s; rfl
  | succ k ih =>
    intro s
    show readIter twoPulsePort eng a k (twoPulsePort.read s eng a).2.2 = s
    rw [tp_read_pure, ih]

theorem tp_nthStatus (eng a s j : Nat) : nthStatus twoPulsePort eng a s j = 0 :=
  tp_read_ok _ _ _

theorem tp_nthValue_status (eng s j : Nat) :
    nthValue twoPulsePort eng RXP_CSR_STATUS s j = RXP_CSR_STATUS_INIT_DONE := by
  unfold nthValue
  rw [tp_readIter]
  rfl

theorem tp_nthValue_rtru (eng s j : Nat) :
    nthValue twoPulsePort eng RXP_RTRU_CSR_STATUS s j
      = if 2 ≤ s then rtru_init_done else 0 := by
  unfold nthValue
  rw [tp_readIter]
  have h : RXP_RTRU_CSR_STATUS ≠ RXP_CSR_STATUS := by decide
  simp only [twoPulsePort, if_neg h, if_true]
  split_ifs <;> rfl

theorem tp_nthValue_cap (eng s j : Nat) :
    nthValue twoPulsePort eng RXP_CSR_CAPABILITY_5 s j = 0 := by
  unfold nthValue
  rw [tp_readIter]
  rfl

theorem tp_write_ctrl (s eng v : Nat) : (twoPulsePort.write s eng RXP_CSR_CTRL v).2 = s := rfl

theorem tp_write_rtru_ctrl (s eng v : Nat) :
    (twoPulsePort.write s eng RXP_RTRU_CSR_CTRL v).2 = if v.testBit 0 = true then s + 1 else s := by
  unfold twoPulsePort
  dsimp only
  split_ifs with h1 h2 h3
  · rfl
  · exact absurd h1.2 h2
  · exact absurd ⟨rfl, h3⟩ h1
  · rfl

theorem tp_poll_hw (w : World Nat) (a e m T eng : Nat) :
    (rxp_poll_csr_for_value twoPulsePort w a e m T eng).w.hw = w.hw := by
  rw [poll_hw]
  exact poll_loop_hw_of_pure twoPulsePort eng a e m (fun s => tp_read_pure s eng a) T 0 none w

/-- On the two-pulse file the main stage of `rxp_init` carries on and leaves the
pulse count as it was. -/
theorem tp_main (cfg : Config) (w : World Nat) (eng : Nat)
    (hT : 1 ≤ cfg.RXP_INITIALIZATION_TIMEOUT) :
    (rxp_init_main twoPulsePort cfg w eng).isRight = true ∧
    (stageWorld (rxp_init_main twoPulsePort cfg w eng)).hw = w.hw := by
  have hp : (rxp_init_poll twoPulsePort cfg w eng).ret = 0 := by
    unfold rxp_init_poll
    have h := poll_first_match twoPulsePort
      (rxp_init_pulse twoPulsePort (mlx5_regex_register_read twoPulsePort w eng RXP_CSR_CTRL)
        eng).w RXP_CSR_STATUS RXP_CSR_STATUS_INIT_DONE RXP_CSR_STATUS_INIT_DONE
      cfg.RXP_INITIALIZATION_TIMEOUT eng 0 (by omega) (fun j _ => tp_nthStatus _ _ _ _)
      (fun j hj => absurd hj (Nat.not_lt_zero _))
      (by rw [tp_nthValue_status]; rfl)
    rw [h.1]
    rfl
  have hpulse : ∀ r : RdRes Nat, (rxp_init_pulse twoPulsePort r eng).w.hw = r.w.hw := by
    intro r
    unfold rxp_init_pulse
    simp only []
    split_ifs <;> simp only [usleep_hw, write_hw, tp_write_ctrl]
  constructor
  · rw [rxp_init_main_isRight]
    exact ⟨tp_read_ok _ _ _, by rw [hp], tp_read_ok _ _ _⟩
  · unfold rxp_init_poll at hp
    unfold rxp_init_main
    simp only [read_status, tp_nthStatus, ne_eq, not_true_eq_false, if_false, hp, lt_self_iff_false]
    simp only [stageWorld, write_hw, tp_write_ctrl, read_hw, tp_readIter, tp_poll_hw, hpulse]

/-- On the two-pulse file a run of `rxp_init_rtru` adds one pulse and succeeds
exactly when that pulse is at least the second; otherwise its poll times out. -/
theorem tp_rtru (cfg : Config) (w : World Nat) (eng : Nat)
    (hT : 1 ≤ cfg.RXP_INITIALIZATION_TIMEOUT) :
    (rxp_init_rtru twoPulsePort cfg w eng).w.hw = w.hw + 1 ∧
    (rxp_init_rtru twoPulsePort cfg w eng).ret = if 2 ≤ w.hw + 1 then 0 else -EBUSY := by
  have hpulse : ∀ r : RdRes Nat, (rxp_init_rtru_pulse twoPulsePort r eng).w.hw = r.w.hw + 1 := by
    intro r
    unfold rxp_init_rtru_pulse
    simp only []
    split_ifs <;>
      simp only [usleep_hw, write_hw, tp_write_rtru_ctrl, RXP_RTRU_CSR_CTRL_INIT,
        testBit_or_one, testBit_and_not32_one, testBit_or_mode, if_true, if_false,
        Bool.false_eq_true]
  have hrd : (rxp_init_rtru_read twoPulsePort w eng).w.hw = w.hw := by
    unfold rxp_init_rtru_read
    rw [read_hw, tp_readIter, mark_hw]
  have hp : (rxp_init_rtru_poll twoPulsePort cfg w eng).ret
      = if 2 ≤ w.hw + 1 then 0 else -EBUSY := by
    unfold rxp_init_rtru_poll
    split_ifs with h2
    · have h := poll_first_match twoPulsePort
        (rxp_init_rtru_pulse twoPulsePort (rxp_init_rtru_read twoPulsePort w eng) eng).w
        RXP_RTRU_CSR_STATUS rtru_init_done rtru_init_done
        cfg.RXP_INITIALIZATION_TIMEOUT eng 0 (by omega) (fun j _ => tp_nthStatus _ _ _ _)
        (fun j hj => absurd hj (Nat.not_lt_zero _))
        (by rw [tp_nthValue_rtru, hpulse, hrd, if_pos h2]; rfl)
      rw [h.1]
      rfl
    · rw [poll_ret]
      refine (rxp_poll_loop_timeout twoPulsePort eng RXP_RTRU_CSR_STATUS rtru_init_done
        rtru_init_done cfg.RXP_INITIALIZATION_TIMEOUT 0 none _ ?_).1
      intro j _
      refine ⟨tp_nthStatus _ _ _ _, ?_⟩
      rw [tp_nthValue_rtru, hpulse, hrd, if_neg h2]
      decide
  unfold rxp_init_rtru_poll rxp_init_rtru_read at hp
  unfold rxp_init_rtru_read at hrd
  unfold rxp_init_rtru
  simp only [read_status, mark_hw, tp_nthStatus, ne_eq, not_true_eq_false, if_false, hp]
  split_ifs with h2 h3 h4
  · exact absurd h3 (by decide)
  · refine ⟨?_, rfl⟩
    simp only [write_hw, tp_write_rtru_ctrl, testBit_and_not32_one, RXP_RTRU_CSR_CTRL_INIT,
      Bool.false_eq_true, if_false, tp_poll_hw, hpulse, hrd]
  · refine ⟨?_, rfl⟩
    simp only [tp_poll_hw, hpulse, hrd]
  · exact absurd (show (-EBUSY : Int) < 0 by decide) h4

theorem rxp_init_rtru_twice_ret_zero (P : Port σ) (cfg : Config) (w : World σ) (eng : Nat)
    (h2 : (rxp_init_rtru P cfg (rxp_init_rtru P cfg w eng).w eng).ret = 0)
    (hr : ∀ s a, (P.read s eng a).1 = 0) (hw : ∀ s a v, (P.write s eng a v).1 = 0) :
    (rxp_init_rtru_twice P cfg w eng).ret = 0 := by
  unfold rxp_init_rtru_twice
  have hst : ∀ s a, nthStatus P eng a s 0 = 0 := fun s a => hr s a
  simp only [h2, le_refl, if_true, read_status, hst, ne_eq, not_true_eq_false, if_false,
    write_status, hw]
  rfl

/-- C4, counterexample to the claim as stated: on the register file that needs two
RTRU init pulses, with the example configuration (timeout 60000), the first run
of `rxp_init_rtru` fails to observe the init-done bits within the timeout (it
returns `-EBUSY`), the second run succeeds, and `rxp_init` returns 0 after
writing the four capability-derived registers. -/
theorem rxp_init_first_run_fails_counterexample :
    (rxp_init_main twoPulsePort exampleConfig ⟨0, []⟩ 0).isRight = true ∧
    (rxp_init_first_run twoPulsePort exampleConfig ⟨0, []⟩ 0).ret = -EBUSY ∧
    (rxp_init twoPulsePort exampleConfig ⟨0, []⟩ 0).ret = 0 ∧
    capWrites (rxp_init twoPulsePort exampleConfig ⟨0, []⟩ 0).w.trace
      = [(RXP_CSR_MAX_MATCH, 0), (RXP_CSR_MAX_PREFIX, 0), (RXP_CSR_MAX_LATENCY, 0),
         (RXP_CSR_MAX_PRI_THREAD, 0)] := by
  have hT : 1 ≤ exampleConfig.RXP_INITIALIZATION_TIMEOUT := by decide
  obtain ⟨hside, hhw⟩ := tp_main exampleConfig ⟨0, []⟩ 0 hT
  have h1 := tp_rtru exampleConfig (stageWorld (rxp_init_main twoPulsePort exampleConfig
    ⟨0, []⟩ 0)) 0 hT
  rw [hhw] at h1
  have h2 := tp_rtru exampleConfig (rxp_init_rtru twoPulsePort exampleConfig
    (stageWorld (rxp_init_main twoPulsePort exampleConfig ⟨0, []⟩ 0)) 0).w 0 hT
  rw [h1.1] at h2
  have hret : (rxp_init twoPulsePort exampleConfig ⟨0, []⟩ 0).ret = 0 := by
    rw [rxp_init_of_inr _ _ _ _ hside]
    exact rxp_init_rtru_twice_ret_zero twoPulsePort exampleConfig _ 0 h2.2
      (fun s a => tp_read_ok s 0 a) (fun s a v => tp_write_ok s 0 a v)
  refine ⟨hside, h1.2, hret, ?_⟩
  have h := (rxp_init_success twoPulsePort exampleConfig ⟨0, []⟩ 0 (by rw [hret])).2.2
  rw [h, read_value, tp_nthValue_cap]
  rfl

/-! ## rxp_enable / rxp_disable -/

theorem testBit_not32_go (i : Nat) :
    (not32 RXP_CSR_CTRL_GO).testBit i = (decide (i < 32) && !decide (i = 3)) := by
  have h8 : RXP_CSR_CTRL_GO = 2 ^ 3 := rfl
  unfold not32
  rw [h8, Nat.testBit_xor, Nat.testBit_two_pow_sub_one, Nat.testBit_two_pow]
  by_cases h1 : i < 32 <;> by_cases h2 : i = 3 <;> simp [h1, h2, eq_comm]

theorem testBit_go (i : Nat) : RXP_CSR_CTRL_GO.testBit i = decide (i = 3) := by
  have h8 : RXP_CSR_CTRL_GO = 2 ^ 3 := rfl
  rw [h8, Nat.testBit_two_pow]
  by_cases h2 : i = 3 <;> simp [h2, eq_comm]

theorem testBit_of_lt_32 {v i : Nat} (hv : v < 2 ^ 32) (hi : ¬ i < 32) : v.testBit i = false := by
  apply Nat.testBit_lt_two_pow
  calc v < 2 ^ 32 := hv
    _ ≤ 2 ^ i := Nat.pow_le_pow_right (by norm_num) (by omega)

theorem or_go_and_not_go (v : Nat) :
    (v ||| RXP_CSR_CTRL_GO) &&& not32 RXP_CSR_CTRL_GO = v &&& not32 RXP_CSR_CTRL_GO := by
  apply Nat.eq_of_testBit_eq
  intro i
  rw [Nat.testBit_and, Nat.testBit_and, Nat.testBit_or, testBit_not32_go, testBit_go]
  by_cases h2 : i = 3 <;> simp [h2]

theorem or_go_lt {v : Nat} (hv : v < 2 ^ 32) : v ||| RXP_CSR_CTRL_GO < 2 ^ 32 :=
  Nat.or_lt_two_pow hv (by decide)

theorem or_go_or_go (v : Nat) :
    (v ||| RXP_CSR_CTRL_GO) ||| RXP_CSR_CTRL_GO = v ||| RXP_CSR_CTRL_GO := by
  rw [Nat.lor_assoc, Nat.or_self]

theorem mem_enable_hw (m : Nat → Nat → Nat) (t : List Event) (eng : Nat) :
    (rxp_enable memPort ⟨m, t⟩ eng).hw = fun e a =>
      if e = eng ∧ a = RXP_CSR_CTRL then (m eng RXP_CSR_CTRL % 2 ^ 32) ||| RXP_CSR_CTRL_GO
      else m e a := rfl

theorem mem_disable_hw (m : Nat → Nat → Nat) (t : List Event) (eng : Nat) :
    (rxp_disable memPort ⟨m, t⟩ eng).hw = fun e a =>
      if e = eng ∧ a = RXP_CSR_CTRL then (m eng RXP_CSR_CTRL % 2 ^ 32) &&& not32 RXP_CSR_CTRL_GO
      else m e a := rfl

/-- C7: `rxp_enable` / `rxp_disable`.  When the read of `RXP_CSR_CTRL` succeeds with
word `v`, `rxp_enable` makes exactly that read and one write of `RXP_CSR_CTRL` with
`v | 0x0008`, and `rxp_disable` that read and one write with `v & ~0x0008`: no
other register is accessed, there is no poll and no sleep, and the word written
differs from `v` in bit 3 only.  (When the read fails nothing is written.)  On a
register file that behaves as memory every other register keeps its word, enable
is idempotent, and disable after enable leaves `v` with the go bit clear. -/
theorem rxp_enable_disable (P : Port σ) (w : World σ) (eng : Nat) (m : Nat → Nat → Nat)
    (t : List Event) :
    ((mlx5_regex_register_read P w eng RXP_CSR_CTRL).status = 0 →
      (rxp_enable P w eng).trace = w.trace ++
        [Event.read eng RXP_CSR_CTRL 0 (mlx5_regex_register_read P w eng RXP_CSR_CTRL).value,
         Event.write eng RXP_CSR_CTRL
          ((mlx5_regex_register_read P w eng RXP_CSR_CTRL).value ||| 0x0008)] ∧
      (rxp_disable P w eng).trace = w.trace ++
        [Event.read eng RXP_CSR_CTRL 0 (mlx5_regex_register_read P w eng RXP_CSR_CTRL).value,
         Event.write eng RXP_CSR_CTRL
          ((mlx5_regex_register_read P w eng RXP_CSR_CTRL).value &&& not32 0x0008)]) ∧
    ((mlx5_regex_register_read P w eng RXP_CSR_CTRL).status ≠ 0 →
      (rxp_enable P w eng) = (mlx5_regex_register_read P w eng RXP_CSR_CTRL).w ∧
      (rxp_disable P w eng) = (mlx5_regex_register_read P w eng RXP_CSR_CTRL).w) ∧
    (∀ v i, v < 2 ^ 32 →
      ((v ||| 0x0008).testBit i = if i = 3 then true else v.testBit i) ∧
      ((v &&& not32 0x0008).testBit i = if i = 3 then false else v.testBit i)) ∧
    ((rxp_enable memPort ⟨m, t⟩ eng).hw = fun e a =>
      if e = eng ∧ a = RXP_CSR_CTRL then (m eng RXP_CSR_CTRL % 2 ^ 32) ||| 0x0008 else m e a) ∧
    ((rxp_disable memPort ⟨m, t⟩ eng).hw = fun e a =>
      if e = eng ∧ a = RXP_CSR_CTRL then (m eng RXP_CSR_CTRL % 2 ^ 32) &&& not32 0x0008
      else m e a) ∧
    (rxp_enable memPort (rxp_enable memPort ⟨m, t⟩ eng) eng).hw
      = (rxp_enable memPort ⟨m, t⟩ eng).hw ∧
    (rxp_disable memPort (rxp_enable memPort ⟨m, t⟩ eng) eng).hw
      = (rxp_disable memPort ⟨m, t⟩ eng).hw := by
  have hv : m eng RXP_CSR_CTRL % 2 ^ 32 < 2 ^ 32 := Nat.mod_lt _ (by norm_num)
  refine ⟨fun h0 => ?_, fun h0 => ?_, fun v i hv => ?_, rfl, rfl, ?_, ?_⟩
  · unfold rxp_enable rxp_disable
    simp only [h0, ne_eq, not_true_eq_false, if_false, write_trace, read_trace,
      List.append_assoc, List.cons_append, List.nil_append]
    rw [show nthStatus P eng RXP_CSR_CTRL w.hw 0 = 0 from h0]
    exact ⟨rfl, rfl⟩
  · unfold rxp_enable rxp_disable
    simp only [h0, ne_eq, not_false_eq_true, if_true, and_self]
  · constructor
    · rw [Nat.testBit_or, show (0x0008 : Nat) = RXP_CSR_CTRL_GO from rfl, testBit_go]
      by_cases h2 : i = 3 <;> simp [h2]
    · rw [Nat.testBit_and, show (0x0008 : Nat) = RXP_CSR_CTRL_GO from rfl, testBit_not32_go]
      by_cases h2 : i = 3
      · simp [h2]
      · by_cases h1 : i < 32
        · simp [h1, h2]
        · simp [h1, h2, testBit_of_lt_32 hv h1]
  · cases hw : rxp_enable memPort ⟨m, t⟩ eng with
    | mk m1 t1 =>
      have hm1 : m1 = _ := (congrArg World.hw hw).symm.trans (mem_enable_hw m t eng)
      rw [mem_enable_hw]
      funext e a
      by_cases h : e = eng ∧ a = RXP_CSR_CTRL
      · simp only [h, and_self, if_true, hm1]
        rw [Nat.mod_eq_of_lt (or_go_lt hv), or_go_or_go]
      · simp only [h, if_false]
  · cases hw : rxp_enable memPort ⟨m, t⟩ eng with
    | mk m1 t1 =>
      have hm1 : m1 = _ := (congrArg World.hw hw).symm.trans (mem_enable_hw m t eng)
      rw [mem_disable_hw, mem_disable_hw]
      funext e a
      by_cases h : e = eng ∧ a = RXP_CSR_CTRL
      · simp only [h, and_self, if_true, hm1]
        rw [Nat.mod_eq_of_lt (or_go_lt hv), or_go_and_not_go]
      · simp only [h, if_false, hm1]

/-- C7, witness: a memory register file whose control register of engine 1 holds
`0x5`: enable reads it and writes `0xD`, disable reads it and writes `0x5`. -/
theorem rxp_enable_disable_witness :
    (rxp_enable memPort ⟨fun _ _ => 0x5, []⟩ 1).trace
      = [Event.read 1 RXP_CSR_CTRL 0 0x5, Event.write 1 RXP_CSR_CTRL 0xD] ∧
    (rxp_disable memPort ⟨fun _ _ => 0x5, []⟩ 1).trace
      = [Event.read 1 RXP_CSR_CTRL 0 0x5, Event.write 1 RXP_CSR_CTRL 0x5] :=
  (rxp_enable_disable memPort ⟨fun _ _ => 0x5, []⟩ 1 (fun _ _ => 0x5) []).1 rfl

/-! ## What rxp_init and rxp_flush_rules add to the trace -/

/-- An observation `f` of the trace that ignores every read, sleep, poll result and
entry of `rxp_init_rtru`, and every write to the control registers and the
capability-derived registers, is unchanged by `rxp_init`. -/
theorem rxp_init_filterMap_none {β : Type} (f : Event → Option β) (P : Port σ) (cfg : Config)
    (w : World σ) (eng : Nat)
    (hr : ∀ a st v, f (Event.read eng a st v) = none)
    (hw : ∀ a v, a ∈ [RXP_CSR_CTRL, RXP_RTRU_CSR_CTRL, RXP_CSR_MAX_MATCH, RXP_CSR_MAX_PREFIX,
      RXP_CSR_MAX_LATENCY, RXP_CSR_MAX_PRI_THREAD] → f (Event.write eng a v) = none)
    (hs : ∀ us, f (Event.usleep us) = none) (hp : ∀ r, f (Event.polled r) = none)
    (hm : f (Event.init_rtru eng) = none) :
    (rxp_init P cfg w eng).w.trace.filterMap f = w.trace.filterMap f := by
  have hmain := rxp_init_main_filterMap f P cfg w eng hr (fun v => hw _ v (by simp)) hs
  have hmain' : (stageWorld (rxp_init_main P cfg w eng)).trace.filterMap f
      = w.trace.filterMap f := by
    rw [hmain]
    split_ifs <;> simp [hp]
  have hrtru : ∀ w' : World σ, (rxp_init_rtru P cfg w' eng).w.trace.filterMap f
      = w'.trace.filterMap f := by
    intro w'
    rw [rxp_init_rtru_filterMap f P cfg w' eng hr (fun v => hw _ v (by simp)) hs]
    split_ifs <;> simp [hp, hm]
  cases hside : (rxp_init_main P cfg w eng).isRight with
  | false => rw [(rxp_init_of_inl P cfg w eng hside).1, hmain']
  | true =>
    rw [rxp_init_of_inr P cfg w eng hside, rxp_init_rtru_twice_filterMap f P cfg _ eng hr,
      hrtru, hrtru, hmain']
    split_ifs
    · rw [hw _ _ (by simp), hw _ _ (by simp), hw _ _ (by simp), hw _ _ (by simp)]
      simp
    · simp

theorem via_cp_loop_filterMap {β : Type} (f : Event → Option β) (P : Port σ) (eng : Nat)
    (rules : Nat → rxp_rof_entry) (hw : ∀ a v, f (Event.write eng a v) = none) :
    ∀ (fuel i : Nat) (w : World σ),
      (rxp_write_rules_via_cp_loop P eng rules fuel i w).trace.filterMap f
        = w.trace.filterMap f := by
  intro fuel
  induction fuel with
  | zero => intro i w; rfl
  | succ n ih =>
    intro i w
    simp only [rxp_write_rules_via_cp_loop]
    rw [ih]
    simp only [write_trace, filterMap_snoc, hw, Option.toList_none, List.append_nil]

/-- What `rxp_flush_rules` adds to an observation `f` of the trace that ignores
reads, writes, sleeps and poll results: its entry mark. -/
theorem rxp_flush_rules_filterMap {β : Type} (f : Event → Option β) (P : Port σ)
    (cfg : Config) (w : World σ) (rules : Nat → rxp_rof_entry) (count : Int) (eng : Nat)
    (hr : ∀ a st v, f (Event.read eng a st v) = none)
    (hw : ∀ a v, f (Event.write eng a v) = none)
    (hs : ∀ us, f (Event.usleep us) = none) (hp : ∀ r, f (Event.polled r) = none) :
    (rxp_flush_rules P cfg w rules count eng).w.trace.filterMap f
      = w.trace.filterMap f
        ++ (f (Event.flush count ((List.range count.toNat).map rules))).toList := by
  unfold rxp_flush_rules rxp_write_rules_via_cp
  simp only []
  split_ifs <;>
    simp only [poll_filterMap f P _ _ _ _ _ _ (hr _) hs, via_cp_loop_filterMap f P eng rules hw,
      hr, hw, hs, hp, filterMap_snoc, read_trace, write_trace, mark_trace,
      Option.toList_none, List.append_nil]

/-- `rxp_flush_rules` never returns 0: it returns 1, -1 or the negative result of
a poll. -/
theorem rxp_flush_rules_ret_ne_zero (P : Port σ) (cfg : Config) (w : World σ)
    (rules : Nat → rxp_rof_entry) (count : Int) (eng : Nat) :
    (rxp_flush_rules P cfg w rules count eng).ret ≠ 0 := by
  unfold rxp_flush_rules
  simp only []
  split_ifs with h1 h2 h3 h4 h5 h6 h7 <;> first
    | (show (-1 : Int) ≠ 0; decide)
    | (show (1 : Int) ≠ 0; decide)
    | exact ne_of_lt h3
    | exact ne_of_lt h5

/-! ## mlnx_write_rules: the checks before the entry loop -/

theorem mlnx_write_rules_of_start_inl (P : Port σ) (cfg : Config) (w : World σ)
    (rules : rxp_ctl_rules_pgm) (bytes eng : Nat) (e : Res σ)
    (h : mlnx_write_rules_start P cfg w rules bytes eng = Sum.inl e) :
    mlnx_write_rules P cfg w rules bytes eng = ⟨e.ret, rules.count, e.w⟩ := by
  unfold mlnx_write_rules
  rw [h]

theorem mlnx_write_rules_of_ready_inl (P : Port σ) (cfg : Config) (w : World σ)
    (rules : rxp_ctl_rules_pgm) (bytes eng : Nat) (e : Res σ)
    (hs : (mlnx_write_rules_start P cfg w rules bytes eng).isRight = true)
    (h : mlnx_write_rules_ready P (stageWorld (mlnx_write_rules_start P cfg w rules bytes eng))
      eng = Sum.inl e) :
    mlnx_write_rules P cfg w rules bytes eng = ⟨e.ret, rules.count, e.w⟩ := by
  unfold mlnx_write_rules
  cases hm : mlnx_write_rules_start P cfg w rules bytes eng with
  | inl e0 => rw [hm] at hs; cases hs
  | inr w1 =>
    rw [hm] at h
    simp only [stageWorld] at h
    simp only [h]

/-- The world in which `mlnx_write_rules` carries on after its first checks is the
one left by `rxp_init` for a non-incremental program and the initial one
otherwise. -/
theorem mlnx_write_rules_start_world (P : Port σ) (cfg : Config) (w : World σ)
    (rules : rxp_ctl_rules_pgm) (bytes eng : Nat)
    (hs : (mlnx_write_rules_start P cfg w rules bytes eng).isRight = true) :
    stageWorld (mlnx_write_rules_start P cfg w rules bytes eng)
      = if rules.cmd = cfg.RXP_CTL_RULES_PGM then (rxp_init P cfg w eng).w else w := by
  unfold mlnx_write_rules_start at hs ⊢
  simp only [] at hs ⊢
  split_ifs at hs ⊢ <;> first
    | (simp at hs; done)
    | rfl

/-- C9 (as amended): a request whose `rules->count` is 0 is rejected with `-EINVAL`
without any register access when the message is shorter than the control header
or its command is not `RXP_CTL_RULES_PGM`.  When the command is
`RXP_CTL_RULES_PGM` (and the message is long enough) the engine is re-initialised
first: the register accesses are exactly those of `rxp_init`, and the value
returned is that of `rxp_init` when it is negative and `-EINVAL` otherwise.  In
every case `rules->count` is left at 0. -/
theorem mlnx_write_rules_empty (P : Port σ) (cfg : Config) (w : World σ)
    (rules : rxp_ctl_rules_pgm) (bytes eng : Nat) (hempty : rules.count = 0) :
    (bytes < cfg.sizeof_rxp_ctl_hdr ∨ rules.cmd ≠ cfg.RXP_CTL_RULES_PGM →
      (mlnx_write_rules P cfg w rules bytes eng).ret = -EINVAL ∧
      (mlnx_write_rules P cfg w rules bytes eng).w = w) ∧
    (cfg.sizeof_rxp_ctl_hdr ≤ bytes → rules.cmd = cfg.RXP_CTL_RULES_PGM →
      (mlnx_write_rules P cfg w rules bytes eng).w = (rxp_init P cfg w eng).w ∧
      (mlnx_write_rules P cfg w rules bytes eng).ret
        = if (rxp_init P cfg w eng).ret < 0 then (rxp_init P cfg w eng).ret else -EINVAL) ∧
    (mlnx_write_rules P cfg w rules bytes eng).count = 0 := by
  have hstart : ∃ e, mlnx_write_rules_start P cfg w rules bytes eng = Sum.inl e := by
    unfold mlnx_write_rules_start
    simp only [hempty, if_true]
    split_ifs <;> exact ⟨_, rfl⟩
  obtain ⟨e, he⟩ := hstart
  rw [mlnx_write_rules_of_start_inl P cfg w rules bytes eng e he]
  refine ⟨fun h => ?_, fun hb hc => ?_, hempty⟩
  · unfold mlnx_write_rules_start at he
    simp only [hempty, if_true] at he
    rcases h with h | h
    · rw [if_pos h] at he
      cases he
      exact ⟨rfl, rfl⟩
    · simp only [h, false_and, if_false] at he
      split_ifs at he <;> (cases he; exact ⟨rfl, rfl⟩)
  · unfold mlnx_write_rules_start at he
    simp only [hempty, if_true, not_lt.mpr hb, if_false, hc, true_and] at he
    split_ifs at he with h1
    · cases he
      exact ⟨rfl, by rw [if_pos h1]⟩
    · cases he
      exact ⟨rfl, by rw [if_neg h1]⟩

/-- C9, witness: an empty incremental request (command 2) on the simulated register
file is rejected with `-EINVAL` and leaves the trace empty. -/
theorem mlnx_write_rules_empty_witness :
    (mlnx_write_rules simPort exampleConfig ⟨⟨fun _ => 0, 0, 0⟩, []⟩
      ⟨2, 0, fun _ => ⟨rxp_rof_entry_type.RXP_ROF_ENTRY_INST, 0, 0⟩⟩ 8 0).ret = -EINVAL ∧
    (mlnx_write_rules simPort exampleConfig ⟨⟨fun _ => 0, 0, 0⟩, []⟩
      ⟨2, 0, fun _ => ⟨rxp_rof_entry_type.RXP_ROF_ENTRY_INST, 0, 0⟩⟩ 8 0).w.trace = [] := by
  have h := (mlnx_write_rules_empty simPort exampleConfig ⟨⟨fun _ => 0, 0, 0⟩, []⟩
    ⟨2, 0, fun _ => ⟨rxp_rof_entry_type.RXP_ROF_ENTRY_INST, 0, 0⟩⟩ 8 0 rfl).1
    (Or.inr (by decide))
  exact ⟨h.1, by rw [h.2]⟩

/-- C9, counterexample to the claim as stated: an empty request whose command is
`RXP_CTL_RULES_PGM` (code 1 of the example configuration).  On the simulated
register file it is rejected with `-EINVAL` only after `rxp_init` has made 29
register accesses; on a register file whose first read fails it returns `-1`,
not `-EINVAL`, after that read. -/
theorem mlnx_write_rules_empty_counterexample :
    ((mlnx_write_rules simPort exampleConfig ⟨⟨fun _ => 0, 0, 0⟩, []⟩
        ⟨1, 0, fun _ => ⟨rxp_rof_entry_type.RXP_ROF_ENTRY_INST, 0, 0⟩⟩ 8 0).ret = -EINVAL ∧
      (accesses (mlnx_write_rules simPort exampleConfig ⟨⟨fun _ => 0, 0, 0⟩, []⟩
        ⟨1, 0, fun _ => ⟨rxp_rof_entry_type.RXP_ROF_ENTRY_INST, 0, 0⟩⟩ 8 0).w.trace).length
        = 29) ∧
    ((mlnx_write_rules scriptPort exampleConfig ⟨[(-5, 0)], []⟩
        ⟨1, 0, fun _ => ⟨rxp_rof_entry_type.RXP_ROF_ENTRY_INST, 0, 0⟩⟩ 8 0).ret = -1 ∧
      (mlnx_write_rules scriptPort exampleConfig ⟨[(-5, 0)], []⟩
        ⟨1, 0, fun _ => ⟨rxp_rof_entry_type.RXP_ROF_ENTRY_INST, 0, 0⟩⟩ 8 0).w.trace
        = [Event.read 0 RXP_CSR_CTRL (-5) 0]) := by
  decide

theorem ruleWrites_start (P : Port σ) (cfg : Config) (w : World σ)
    (rules : rxp_ctl_rules_pgm) (bytes eng : Nat)
    (hs : (mlnx_write_rules_start P cfg w rules bytes eng).isRight = true) :
    ruleWrites (stageWorld (mlnx_write_rules_start P cfg w rules bytes eng)).trace
      = ruleWrites w.trace := by
  rw [mlnx_write_rules_start_world P cfg w rules bytes eng hs]
  split_ifs
  · unfold ruleWrites
    refine rxp_init_filterMap_none _ P cfg w eng (fun _ _ _ => rfl) ?_ (fun _ => rfl)
      (fun _ => rfl) rfl
    intro a v ha
    simp only [List.mem_cons, List.mem_singleton, List.not_mem_nil, or_false] at ha
    rcases ha with h | h | h | h | h | h <;> (subst h; rfl)
  · rfl

theorem flushCounts_start (P : Port σ) (cfg : Config) (w : World σ)
    (rules : rxp_ctl_rules_pgm) (bytes eng : Nat)
    (hs : (mlnx_write_rules_start P cfg w rules bytes eng).isRight = true) :
    flushCounts (stageWorld (mlnx_write_rules_start P cfg w rules bytes eng)).trace
      = flushCounts w.trace := by
  rw [mlnx_write_rules_start_world P cfg w rules bytes eng hs]
  split_ifs
  · unfold flushCounts
    exact rxp_init_filterMap_none _ P cfg w eng (fun _ _ _ => rfl) (fun _ _ _ => rfl)
      (fun _ => rfl) (fun _ => rfl) rfl
  · rfl

/-- C8: if, at the readiness check of `mlnx_write_rules`, the status register is
read successfully and its init-done bit (0x0001) is clear, the load returns
`-EBUSY` and makes no register access after that read: `rxp_flush_rules` is never
called, the whole call writes nothing to the RTRU `DATA_0`, `DATA_1` and `ADDR`
registers, and for an incremental program (command other than
`RXP_CTL_RULES_PGM`) the status read is the only register access of the call.
`rules->count` is untouched. -/
theorem mlnx_write_rules_not_ready (P : Port σ) (cfg : Config) (w : World σ)
    (rules : rxp_ctl_rules_pgm) (bytes eng : Nat)
    (hs : (mlnx_write_rules_start P cfg w rules bytes eng).isRight = true)
    (hst : (mlx5_regex_register_read P
      (stageWorld (mlnx_write_rules_start P cfg w rules bytes eng)) eng RXP_CSR_STATUS).status = 0)
    (hbit : (mlx5_regex_register_read P
      (stageWorld (mlnx_write_rules_start P cfg w rules bytes eng)) eng RXP_CSR_STATUS).value
        &&& 0x0001 = 0) :
    (mlnx_write_rules P cfg w rules bytes eng).ret = -EBUSY ∧
    (mlnx_write_rules P cfg w rules bytes eng).w = (mlx5_regex_register_read P
      (stageWorld (mlnx_write_rules_start P cfg w rules bytes eng)) eng RXP_CSR_STATUS).w ∧
    (mlnx_write_rules P cfg w rules bytes eng).count = rules.count ∧
    flushCounts (mlnx_write_rules P cfg w rules bytes eng).w.trace = flushCounts w.trace ∧
    ruleWrites (mlnx_write_rules P cfg w rules bytes eng).w.trace = ruleWrites w.trace ∧
    (rules.cmd ≠ cfg.RXP_CTL_RULES_PGM →
      (mlnx_write_rules P cfg w rules bytes eng).w.trace = w.trace ++
        [Event.read eng RXP_CSR_STATUS 0 (mlx5_regex_register_read P w eng RXP_CSR_STATUS).value])
    := by
  have hready : mlnx_write_rules_ready P
      (stageWorld (mlnx_write_rules_start P cfg w rules bytes eng)) eng
      = Sum.inl ⟨-EBUSY, (mlx5_regex_register_read P
        (stageWorld (mlnx_write_rules_start P cfg w rules bytes eng)) eng RXP_CSR_STATUS).w⟩ := by
    unfold mlnx_write_rules_ready
    simp only [hst, ne_eq, not_true_eq_false, if_false]
    exact if_pos hbit
  rw [mlnx_write_rules_of_ready_inl P cfg w rules bytes eng _ hs hready]
  refine ⟨rfl, rfl, rfl, ?_, ?_, fun hcmd => ?_⟩
  · show flushCounts (_ ++ [_]) = _
    unfold flushCounts
    rw [filterMap_snoc]
    have := flushCounts_start P cfg w rules bytes eng hs
    unfold flushCounts at this
    rw [this]
    simp
  · show ruleWrites (_ ++ [_]) = _
    unfold ruleWrites
    rw [filterMap_snoc]
    have := ruleWrites_start P cfg w rules bytes eng hs
    unfold ruleWrites at this
    rw [this]
    simp
  · have hw1 := mlnx_write_rules_start_world P cfg w rules bytes eng hs
    rw [if_neg hcmd] at hw1
    rw [hw1] at hst ⊢
    show w.trace ++ [Event.read eng RXP_CSR_STATUS (nthStatus P eng RXP_CSR_STATUS w.hw 0) _]
      = _
    rw [show nthStatus P eng RXP_CSR_STATUS w.hw 0 = 0 from hst]
    rfl

/-- C8, witness: an incremental one-entry program on a memory register file whose
registers are all 0 (status init-done clear): the load returns `-EBUSY` after
the single read of the status register. -/
theorem mlnx_write_rules_not_ready_witness :
    (mlnx_write_rules memPort exampleConfig ⟨fun _ _ => 0, []⟩
      ⟨2, 1, fun _ => ⟨rxp_rof_entry_type.RXP_ROF_ENTRY_INST, 0, 0⟩⟩ 24 0).ret = -EBUSY ∧
    (mlnx_write_rules memPort exampleConfig ⟨fun _ _ => 0, []⟩
      ⟨2, 1, fun _ => ⟨rxp_rof_entry_type.RXP_ROF_ENTRY_INST, 0, 0⟩⟩ 24 0).w.trace
      = [Event.read 0 RXP_CSR_STATUS 0 0] := by
  have h := mlnx_write_rules_not_ready memPort exampleConfig ⟨fun _ _ => 0, []⟩
    ⟨2, 1, fun _ => ⟨rxp_rof_entry_type.RXP_ROF_ENTRY_INST, 0, 0⟩⟩ 24 0 (by decide) (by decide)
    (by decide)
  exact ⟨h.1, h.2.2.2.2.2 (by decide)⟩

/-! ## mlnx_write_rules: batching of write-type entries -/

theorem batchSizes_closed (c : Nat) (hc : 1 ≤ c) :
    ∀ (count pending : Nat), pending < c → 1 ≤ count →
      batchSizes c pending count = List.replicate ((pending + count) / c) c ++
        (if (pending + count) % c = 0 then [] else [(pending + count) % c]) := by
  intro count
  induction count with
  | zero => intro pending _ h; omega
  | succ n ih =>
    intro pending hp _
    unfold batchSizes
    by_cases hn : n = 0
    · subst hn
      have hfl : 0 + 1 = 1 ∨ pending + 1 = c := Or.inl rfl
      rw [if_pos hfl]
      have hb : batchSizes c 0 0 = [] := by unfold batchSizes; rfl
      rw [hb]
      by_cases hfull : pending + 1 = c
      · have h1 : (pending + (0 + 1)) / c = 1 := by
          rw [show pending + (0 + 1) = c from hfull]; exact Nat.div_self (by omega)
        have h2 : (pending + (0 + 1)) % c = 0 := by
          rw [show pending + (0 + 1) = c from hfull]; exact Nat.mod_self c
        rw [h1, h2, if_pos rfl, hfull]
        rfl
      · have hlt : pending + (0 + 1) < c := by omega
        have h1 : (pending + (0 + 1)) / c = 0 := Nat.div_eq_of_lt hlt
        have h2 : (pending + (0 + 1)) % c = pending + (0 + 1) := Nat.mod_eq_of_lt hlt
        rw [h1, h2, if_neg (by omega)]
        rfl
    · have hn1 : 1 ≤ n := by omega
      by_cases hfull : pending + 1 = c
      · rw [if_pos (Or.inr hfull), ih 0 (by omega) hn1]
        have hsum : pending + (n + 1) = n + c := by omega
        have h1 : (pending + (n + 1)) / c = n / c + 1 := by
          rw [hsum]; exact Nat.add_div_right n (by omega)
        have h2 : (pending + (n + 1)) % c = n % c := by
          rw [hsum]; exact Nat.add_mod_right n c
        rw [h1, h2, Nat.zero_add, hfull, List.replicate_succ]
        rfl
      · have hfl : ¬ (n + 1 = 1 ∨ pending + 1 = c) := by
          intro h
          rcases h with h | h
          · omega
          · exact hfull h
        rw [if_neg hfl, ih (pending + 1) (by omega) hn1]
        have hsum : pending + 1 + n = pending + (n + 1) := by omega
        rw [hsum]

theorem flushCounts_flush (P : Port σ) (cfg : Config) (w : World σ)
    (rules : Nat → rxp_rof_entry) (count : Int) (eng : Nat) :
    flushCounts (rxp_flush_rules P cfg w rules count eng).w.trace
      = flushCounts w.trace ++ [count] := by
  unfold flushCounts
  rw [rxp_flush_rules_filterMap _ P cfg w rules count eng (fun _ _ _ => rfl) (fun _ _ => rfl)
    (fun _ => rfl) (fun _ => rfl)]
  rfl

/-- On a run of write-type entries the entry loop calls `rxp_flush_rules` with the
batch sizes of `batchSizes`, whatever the flushes return. -/
theorem loop_all_writes (P : Port σ) (cfg : Config) (eng : Nat) (rules : Nat → rxp_rof_entry)
    (c : Nat) (hc31 : c < 2 ^ 31) :
    ∀ (count rule_cnt pending : Nat) (ret : Int) (w : World σ), pending < c →
      (∀ i, rule_cnt ≤ i → i < rule_cnt + count → (rules i).type.isWriteType = true) →
      flushCounts (mlnx_write_rules_loop P cfg eng rules c count rule_cnt pending ret w).w.trace
        = flushCounts w.trace ++ (batchSizes c pending count).map (fun b => (b : Int)) := by
  intro count
  induction count with
  | zero =>
    intro rule_cnt pending ret w _ _
    simp [mlnx_write_rules_loop, batchSizes]
  | succ n ih =>
    intro rule_cnt pending ret w hp hall
    have h0 : (rules rule_cnt).type.isWriteType = true := hall rule_cnt (le_refl _) (by omega)
    have hrest : ∀ i, rule_cnt + 1 ≤ i → i < rule_cnt + 1 + n →
        (rules i).type.isWriteType = true := fun i h1 h2 => hall i (by omega) (by omega)
    unfold mlnx_write_rules_loop batchSizes
    simp only [h0, if_true]
    by_cases hfl : n + 1 = 1 ∨ pending + 1 = c
    · rw [if_pos hfl, if_pos hfl]
      simp only [rxp_flush_rules_ret_ne_zero, if_false]
      rw [ih (rule_cnt + 1) 0 _ _ (by omega) hrest, flushCounts_flush,
        toInt32_of_lt (by omega)]
      simp
    · rw [if_neg hfl, if_neg hfl]
      have hlt : pending + 1 < c := by
        rcases Nat.lt_or_ge (pending + 1) c with h | h
        · exact h
        · exact absurd (Or.inr (by omega)) hfl
      exact ih (rule_cnt + 1) (pending + 1) ret w hlt hrest

theorem ceil_div_aux (c q r : Nat) (hc : 1 ≤ c) (hr : r < c) :
    (c * q + r + c - 1) / c = q + if r = 0 then 0 else 1 := by
  have hpos : 0 < c := by omega
  by_cases h0 : r = 0
  · have hsum : ∀ X, X + r + c - 1 = X + (c - 1) := fun X => by omega
    have hlt : c - 1 < c := by omega
    rw [hsum, Nat.mul_add_div hpos, Nat.div_eq_of_lt hlt, if_pos h0]
  · have hsum : ∀ X, X + r + c - 1 = X + (r - 1 + c) := fun X => by omega
    have hlt : r - 1 < c := by omega
    rw [hsum, Nat.mul_add_div hpos, Nat.add_div_right _ hpos, Nat.div_eq_of_lt hlt, if_neg h0]

theorem batchesOf_length (n c : Nat) (hc : 1 ≤ c) :
    (batchesOf n c).length = (n + c - 1) / c := by
  have key := ceil_div_aux c (n / c) (n % c) hc (Nat.mod_lt n (by omega))
  rw [Nat.div_add_mod] at key
  rw [key]
  unfold batchesOf
  split_ifs <;> simp

theorem batchesOf_bound (n c : Nat) (hc : 1 ≤ c) : ∀ b ∈ batchesOf n c, 1 ≤ b ∧ b ≤ c := by
  intro b hb
  unfold batchesOf at hb
  have hr := Nat.mod_lt n (show 0 < c by omega)
  rcases List.mem_append.mp hb with h | h
  · have := (List.mem_replicate.mp h).2
    omega
  · split_ifs at h with h0
    · cases h
    · have := List.mem_singleton.mp h
      omega

theorem start_count_pos (P : Port σ) (cfg : Config) (w : World σ)
    (rules : rxp_ctl_rules_pgm) (bytes eng : Nat) (w1 : World σ)
    (h : mlnx_write_rules_start P cfg w rules bytes eng = Sum.inr w1) : 1 ≤ rules.count := by
  rcases Nat.eq_zero_or_pos rules.count with h0 | h0
  · unfold mlnx_write_rules_start at h
    simp only [h0, if_true] at h
    split_ifs at h
  · exact h0

theorem ready_inr (P : Port σ) (w1 : World σ) (eng c : Nat) (w2 : World σ)
    (h : mlnx_write_rules_ready P w1 eng = Sum.inr (c, w2)) :
    c = (mlx5_regex_register_read P (mlx5_regex_register_read P w1 eng RXP_CSR_STATUS).w eng
      RXP_RTRU_CSR_CAPABILITY).value &&& 0x00FF ∧
    w2 = (mlx5_regex_register_read P (mlx5_regex_register_read P w1 eng RXP_CSR_STATUS).w eng
      RXP_RTRU_CSR_CAPABILITY).w := by
  unfold mlnx_write_rules_ready at h
  simp only [] at h
  split_ifs at h
  simp only [Sum.inr.injEq, Prod.mk.injEq] at h
  exact ⟨h.1.symm, h.2.symm⟩

/-- C10 (as amended): when `mlnx_write_rules` reaches its entry loop with a reported
FIFO capacity `c >= 1` (the low byte of the RTRU capability register, so
`c <= 255`) and the program consists of `n` write-type entries only, the loader
calls `rxp_flush_rules` with `n / c` batches of `c` entries followed by one batch
of the `n % c` remaining entries if any: `ceil(n / c)` calls in all, none with a
batch larger than `c` (and none empty), whatever the flushes return. -/
theorem mlnx_write_rules_batching (P : Port σ) (cfg : Config) (w : World σ)
    (rules : rxp_ctl_rules_pgm) (bytes eng c : Nat) (w2 : World σ)
    (hentry : mlnx_write_rules_loop_entry P cfg w rules bytes eng = some (c, w2))
    (hc : 1 ≤ c)
    (hall : ∀ i, i < rules.count → (rules.rules i).type.isWriteType = true) :
    c ≤ 255 ∧
    flushCounts (mlnx_write_rules P cfg w rules bytes eng).w.trace
      = flushCounts w.trace ++ (batchesOf rules.count c).map (fun b => (b : Int)) ∧
    (batchesOf rules.count c).length = (rules.count + c - 1) / c ∧
    ∀ b ∈ batchesOf rules.count c, 1 ≤ b ∧ b ≤ c := by
  unfold mlnx_write_rules_loop_entry at hentry
  cases hstart : mlnx_write_rules_start P cfg w rules bytes eng with
  | inl e => rw [hstart] at hentry; cases hentry
  | inr w1 =>
    rw [hstart] at hentry
    simp only [] at hentry
    cases hready : mlnx_write_rules_ready P w1 eng with
    | inl e => rw [hready] at hentry; cases hentry
    | inr x =>
      rw [hready] at hentry
      cases hentry
      have hside : (mlnx_write_rules_start P cfg w rules bytes eng).isRight = true := by
        rw [hstart]; rfl
      have hw1 : flushCounts w1.trace = flushCounts w.trace := by
        have := flushCounts_start P cfg w rules bytes eng hside
        rw [hstart] at this
        exact this
      have hcount := start_count_pos P cfg w rules bytes eng w1 hstart
      obtain ⟨hcv, hw2v⟩ := ready_inr P w1 eng c w2 hready
      have hc255 : c ≤ 255 := by rw [hcv]; exact Nat.and_le_right
      have hres : mlnx_write_rules P cfg w rules bytes eng
          = mlnx_write_rules_loop P cfg eng rules.rules c rules.count 0 0 0 w2 := by
        unfold mlnx_write_rules
        rw [hstart]
        simp only []
        rw [hready]
      have hw2 : flushCounts w2.trace = flushCounts w.trace := by
        rw [← hw1, hw2v]
        simp [flushCounts, filterMap_snoc]
      refine ⟨hc255, ?_, batchesOf_length _ _ hc, batchesOf_bound _ _ hc⟩
      rw [hres, loop_all_writes P cfg eng rules.rules c (by omega) rules.count 0 0 0 w2 (by omega)
        (fun i _ hi => hall i (by omega)),
        batchSizes_closed c hc rules.count 0 (by omega) hcount, Nat.zero_add, hw2]
      rfl

/-- C10, witness: five instruction entries on a memory register file reporting
init done and an RTRU capability of 2: the loop is entered with capacity 2 and
the theorem gives batches of 2, 2 and 1 entries. -/
theorem mlnx_write_rules_batching_witness :
    flushCounts (mlnx_write_rules memPort exampleConfig
      ⟨fun _ a => if a = RXP_CSR_STATUS then 1 else if a = RXP_RTRU_CSR_CAPABILITY then 2 else 0,
        []⟩
      ⟨2, 5, fun _ => ⟨rxp_rof_entry_type.RXP_ROF_ENTRY_INST, 0, 0⟩⟩ 88 0).w.trace
      = [2, 2, 1] := by
  have h := (mlnx_write_rules_batching memPort exampleConfig
    ⟨fun _ a => if a = RXP_CSR_STATUS then 1 else if a = RXP_RTRU_CSR_CAPABILITY then 2 else 0,
      []⟩
    ⟨2, 5, fun _ => ⟨rxp_rof_entry_type.RXP_ROF_ENTRY_INST, 0, 0⟩⟩ 88 0 2
    ⟨fun _ a => if a = RXP_CSR_STATUS then 1 else if a = RXP_RTRU_CSR_CAPABILITY then 2 else 0,
      [Event.read 0 RXP_CSR_STATUS 0 1, Event.read 0 RXP_RTRU_CSR_CAPABILITY 0 2]⟩
    rfl (by decide) (fun _ _ => rfl)).2.1
  rw [h]
  decide

/-- C10, counterexample to the claim as stated: a program of one instruction entry
(`n = 1`) on a memory register file whose RTRU capability register reports the
capacity `c = 0` (`n > c`); the readiness check passes and `rxp_flush_rules` is
called once with a batch of 1 entry, more than the reported capacity. -/
theorem mlnx_write_rules_batching_counterexample :
    (mlnx_write_rules_loop_entry memPort exampleConfig
      ⟨fun _ a => if a = RXP_CSR_STATUS then 1 else if a = RXP_RTRU_CSR_CAPABILITY then 0x100
        else if a = RXP_RTRU_CSR_FIFO_STAT then 1 else if a = RXP_RTRU_CSR_STATUS then 2 else 0,
        []⟩
      ⟨2, 1, fun _ => ⟨rxp_rof_entry_type.RXP_ROF_ENTRY_INST, 0, 0⟩⟩ 24 0).map Prod.fst
      = some 0 ∧
    flushCounts (mlnx_write_rules memPort exampleConfig
      ⟨fun _ a => if a = RXP_CSR_STATUS then 1 else if a = RXP_RTRU_CSR_CAPABILITY then 0x100
        else if a = RXP_RTRU_CSR_FIFO_STAT then 1 else if a = RXP_RTRU_CSR_STATUS then 2 else 0,
        []⟩
      ⟨2, 1, fun _ => ⟨rxp_rof_entry_type.RXP_ROF_ENTRY_INST, 0, 0⟩⟩ 24 0).w.trace = [1] := by
  decide

/-! ## rxp_write_rules_via_cp: the trace of a batch -/

theorem data_1_eq : RXP_RTRU_CSR_DATA_0 + RXP_CSR_WIDTH = RXP_RTRU_CSR_DATA_1 := rfl

/-- The loop of `rxp_write_rules_via_cp` appends the writes of the entries
`i, i + 1, ..., i + fuel - 1`, and nothing else. -/
theorem via_cp_loop_trace (P : Port σ) (eng : Nat) (rules : Nat → rxp_rof_entry) :
    ∀ (fuel i : Nat) (w : World σ),
      (rxp_write_rules_via_cp_loop P eng rules fuel i w).trace
        = w.trace ++ batchWrites eng ((List.range' i fuel).map rules) := by
  intro fuel
  induction fuel with
  | zero => intro i w; simp [rxp_write_rules_via_cp_loop, batchWrites]
  | succ n ih =>
    intro i w
    simp only [rxp_write_rules_via_cp_loop]
    rw [ih]
    simp only [write_trace, List.range'_succ, List.map_cons, batchWrites, entryWrites,
      data_1_eq, List.append_assoc, List.cons_append, List.nil_append]

theorem via_cp_trace (P : Port σ) (w : World σ) (rules : Nat → rxp_rof_entry) (count : Int)
    (eng : Nat) :
    (rxp_write_rules_via_cp P w rules count eng).w.trace
      = w.trace ++ batchWrites eng ((List.range count.toNat).map rules) := by
  unfold rxp_write_rules_via_cp
  rw [via_cp_loop_trace, List.range_eq_range']

/-- Recombining the two 32-bit halves of a 64-bit value gives the value back. -/
theorem recombine_halves (v : Nat) (hv : v < 2 ^ 64) :
    (((v >>> 32) % 2 ^ 32) <<< 32) ||| (v % 2 ^ 32) = v := by
  apply Nat.eq_of_testBit_eq
  intro i
  simp only [Nat.testBit_or, Nat.testBit_shiftLeft, Nat.testBit_shiftRight,
    Nat.testBit_mod_two_pow]
  by_cases hi : i < 32
  · simp [hi, Nat.not_le.mpr hi]
  · have hge : 32 ≤ i := Nat.le_of_not_lt hi
    by_cases h64 : i < 64
    · have : i - 32 < 32 := by omega
      simp [hi, hge, this, Nat.add_sub_cancel' hge]
    · have : ¬ i - 32 < 32 := by omega
      have hz : v.testBit i = false := by
        apply Nat.testBit_lt_two_pow
        calc v < 2 ^ 64 := hv
          _ ≤ 2 ^ i := Nat.pow_le_pow_right (by norm_num) (by omega)
      simp [hi, this, hz]

/-- Reading back the writes of a batch of 64-bit values gives the address and the
value of every entry, in order. -/
theorem decodeWrites_batchWrites (eng : Nat) :
    ∀ (batch : List rxp_rof_entry), (∀ e ∈ batch, e.value < 2 ^ 64) →
      decodeWrites (batchWrites eng batch) = batch.map (fun e => (e.addr, e.value)) := by
  intro batch
  induction batch with
  | nil => intro _; rfl
  | cons e t ih =>
    intro h
    have he := h e (List.mem_cons_self e t)
    have ht := ih (fun x hx => h x (List.mem_cons_of_mem e hx))
    show decodeWrites (Event.write eng RXP_RTRU_CSR_DATA_0 (e.value % 2 ^ 32) ::
      Event.write eng RXP_RTRU_CSR_DATA_1 ((e.value >>> 32) % 2 ^ 32) ::
      Event.write eng RXP_RTRU_CSR_ADDR e.addr :: batchWrites eng t) = _
    simp only [decodeWrites, List.map_cons, ht, recombine_halves e.value he]

/-- C11: `rxp_write_rules_via_cp` returns 0 and, for every batch (the first `count`
entries of the array it is given), adds to the trace exactly the writes of
`batchWrites`: per entry, in entry order, the low 32 bits of the value to RTRU
`DATA_0`, the high 32 bits to `DATA_0 + 4` (which is `DATA_1`), then the address to
RTRU `ADDR`.  For 64-bit values the writes read back, recombined as
`(high << 32) | low`, give the address and the original value of every entry, so
two batches with the same writes have the same addresses and values. -/
theorem rxp_write_rules_via_cp_writes (P : Port σ) (w : World σ)
    (rules rules2 : Nat → rxp_rof_entry) (count : Int) (eng : Nat)
    (h64 : ∀ i, i < count.toNat → (rules i).value < 2 ^ 64)
    (h64b : ∀ i, i < count.toNat → (rules2 i).value < 2 ^ 64) :
    (rxp_write_rules_via_cp P w rules count eng).ret = 0 ∧
    (rxp_write_rules_via_cp P w rules count eng).w.trace
      = w.trace ++ batchWrites eng ((List.range count.toNat).map rules) ∧
    RXP_RTRU_CSR_DATA_0 + RXP_CSR_WIDTH = RXP_RTRU_CSR_DATA_1 ∧
    (∀ e : rxp_rof_entry, e.value < 2 ^ 64 →
      (((e.value >>> 32) % 2 ^ 32) <<< 32) ||| (e.value % 2 ^ 32) = e.value) ∧
    decodeWrites (batchWrites eng ((List.range count.toNat).map rules))
      = (List.range count.toNat).map (fun i => ((rules i).addr, (rules i).value)) ∧
    ((rxp_write_rules_via_cp P w rules2 count eng).w.trace
        = (rxp_write_rules_via_cp P w rules count eng).w.trace →
      ∀ i, i < count.toNat →
        (rules2 i).addr = (rules i).addr ∧ (rules2 i).value = (rules i).value) := by
  have hdec : ∀ r : Nat → rxp_rof_entry, (∀ i, i < count.toNat → (r i).value < 2 ^ 64) →
      decodeWrites (batchWrites eng ((List.range count.toNat).map r))
        = (List.range count.toNat).map (fun i => ((r i).addr, (r i).value)) := by
    intro r hr
    rw [decodeWrites_batchWrites eng _ (by
      intro e he
      obtain ⟨i, hi, rfl⟩ := List.mem_map.mp he
      exact hr i (List.mem_range.mp hi)), List.map_map]
    rfl
  refine ⟨rfl, via_cp_trace P w rules count eng, rfl,
    fun e he => recombine_halves e.value he, hdec rules h64, ?_⟩
  intro heq i hi
  rw [via_cp_trace, via_cp_trace] at heq
  have hb := List.append_cancel_left heq
  have hd := congrArg decodeWrites hb
  rw [hdec rules h64, hdec rules2 h64b] at hd
  have hmem : i ∈ List.range count.toNat := List.mem_range.mpr hi
  have := List.map_inj_left.mp hd i hmem
  simp only [Prod.mk.injEq] at this
  exact this

/-- C11, witness: a batch of two entries on a register file of constant words. -/
theorem rxp_write_rules_via_cp_writes_witness :
    (rxp_write_rules_via_cp (constPort fun _ => 0) ⟨(), []⟩
      (fun i => ⟨rxp_rof_entry_type.RXP_ROF_ENTRY_INST, 16 + i, 0x1122334455667788 + i⟩) 2 0).w.trace
      = [Event.write 0 RXP_RTRU_CSR_DATA_0 0x55667788,
         Event.write 0 RXP_RTRU_CSR_DATA_1 0x11223344,
         Event.write 0 RXP_RTRU_CSR_ADDR 16,
         Event.write 0 RXP_RTRU_CSR_DATA_0 0x55667789,
         Event.write 0 RXP_RTRU_CSR_DATA_1 0x11223344,
         Event.write 0 RXP_RTRU_CSR_ADDR 17] := by
  have h := (rxp_write_rules_via_cp_writes (constPort fun _ => 0) ⟨(), []⟩
    (fun i => ⟨rxp_rof_entry_type.RXP_ROF_ENTRY_INST, 16 + i, 0x1122334455667788 + i⟩)
    (fun i => ⟨rxp_rof_entry_type.RXP_ROF_ENTRY_INST, 16 + i, 0x1122334455667788 + i⟩) 2 0
    (by intro i hi; have : i < 2 := hi; show 0x1122334455667788 + i < 2 ^ 64; omega)
    (by intro i hi; have : i < 2 := hi; show 0x1122334455667788 + i < 2 ^ 64; omega)).2.1
  rw [h]
  decide

/-! ## rxp_flush_rules: the handshake -/

/-- The steps of `rxp_flush_rules` in terms of its intermediate results. -/
theorem rxp_flush_rules_eq (P : Port σ) (cfg : Config) (w : World σ)
    (rules : Nat → rxp_rof_entry) (count : Int) (eng : Nat) :
    rxp_flush_rules P cfg w rules count eng =
      if (rxp_flush_rules_depth P w rules count eng).status ≠ 0
      then ⟨-1, (rxp_flush_rules_depth P w rules count eng).w⟩
      else if (rxp_flush_rules_credit_poll P cfg w rules count eng).ret < 0
      then ⟨(rxp_flush_rules_credit_poll P cfg w rules count eng).ret,
        (rxp_flush_rules_credit_poll P cfg w rules count eng).w⟩
      else if (rxp_flush_rules_ctrl P cfg w rules count eng).status ≠ 0
      then ⟨-1, (rxp_flush_rules_ctrl P cfg w rules count eng).w⟩
      else if (rxp_flush_rules_done_poll P cfg w rules count eng).ret < 0
      then ⟨(rxp_flush_rules_done_poll P cfg w rules count eng).ret,
        (rxp_flush_rules_done_poll P cfg w rules count eng).w⟩
      else if (rxp_flush_rules_ctrl_again P cfg w rules count eng).status ≠ 0
      then ⟨-1, (rxp_flush_rules_ctrl_again P cfg w rules count eng).w⟩
      else if (rxp_flush_rules_clear P cfg w rules count eng).status ≠ 0
      then ⟨-1, (rxp_flush_rules_clear P cfg w rules count eng).w⟩
      else ⟨1, (rxp_flush_rules_clear P cfg w rules count eng).w⟩ := by
  rfl

/-- Between its entry and its return the polling loop only reads the polled
register and sleeps. -/
theorem poll_loop_steps (P : Port σ) (eng addr expected mask : Nat) :
    ∀ (fuel i : Nat) (v : Option Nat) (w : World σ),
      ∃ ev, (rxp_poll_loop P eng addr expected mask fuel i v w).w.trace = w.trace ++ ev ∧
        ∀ e ∈ ev, e.isPollStep eng addr = true := by
  intro fuel
  induction fuel with
  | zero => intro i v w; exact ⟨[], by simp [rxp_poll_loop], by simp⟩
  | succ n ih =>
    intro i v w
    simp only [rxp_poll_loop]
    split_ifs
    · exact ⟨[_], rfl, by simp [Event.isPollStep]⟩
    · exact ⟨[_], rfl, by simp [Event.isPollStep]⟩
    · obtain ⟨ev, h1, h2⟩ := ih (i + 1) (some (mlx5_regex_register_read P w eng addr).value)
        (usleep 1000 (mlx5_regex_register_read P w eng addr).w)
      refine ⟨Event.read eng addr (nthStatus P eng addr w.hw 0) (nthValue P eng addr w.hw 0)
        :: Event.usleep 1000 :: ev, ?_, ?_⟩
      · rw [h1]
        simp only [usleep_trace, read_trace, List.append_assoc, List.cons_append,
          List.nil_append]
      · intro e he
        rcases List.mem_cons.mp he with rfl | he
        · simp [Event.isPollStep]
        · rcases List.mem_cons.mp he with rfl | he
          · simp [Event.isPollStep]
          · exact h2 e he

theorem poll_steps (P : Port σ) (w : World σ) (addr expected mask T eng : Nat) :
    ∃ ev, (rxp_poll_csr_for_value P w addr expected mask T eng).w.trace
        = w.trace ++ ev
          ++ [Event.polled (rxp_poll_csr_for_value P w addr expected mask T eng).ret] ∧
      ∀ e ∈ ev, e.isPollStep eng addr = true := by
  obtain ⟨ev, h1, h2⟩ := poll_loop_steps P eng addr expected mask T 0 none w
  exact ⟨ev, by rw [poll_trace, h1, poll_ret], h2⟩

theorem read_value_lt (P : Port σ) (w : World σ) (eng addr : Nat) :
    (mlx5_regex_register_read P w eng addr).value < 2 ^ 32 :=
  Nat.mod_lt _ (by norm_num)

theorem handshake_of_pollStep (eng addr : Nat) (e : Event)
    (h : e.isPollStep eng addr = true) : e.isHandshake = true := by
  cases e <;> simp [Event.isPollStep, Event.isHandshake] at h ⊢

/-- After its entry mark and the writes of its batch, `rxp_flush_rules` adds
handshake events only. -/
theorem rxp_flush_rules_tail (P : Port σ) (cfg : Config) (w : World σ)
    (rules : Nat → rxp_rof_entry) (count : Int) (eng : Nat) :
    ∃ tail, (rxp_flush_rules P cfg w rules count eng).w.trace
        = w.trace ++ (Event.flush count ((List.range count.toNat).map rules)
          :: (batchWrites eng ((List.range count.toNat).map rules) ++ tail)) ∧
      ∀ e ∈ tail, e.isHandshake = true := by
  have ext : ∀ (t : List Event) (ev : List Event),
      (∃ tail, t = w.trace ++ (Event.flush count ((List.range count.toNat).map rules)
          :: (batchWrites eng ((List.range count.toNat).map rules) ++ tail)) ∧
        ∀ e ∈ tail, e.isHandshake = true) →
      (∀ e ∈ ev, e.isHandshake = true) →
      ∃ tail, t ++ ev = w.trace ++ (Event.flush count ((List.range count.toNat).map rules)
          :: (batchWrites eng ((List.range count.toNat).map rules) ++ tail)) ∧
        ∀ e ∈ tail, e.isHandshake = true := by
    intro t ev ⟨tail, ht, hall⟩ hev
    refine ⟨tail ++ ev, ?_, ?_⟩
    · rw [ht]
      simp only [List.append_assoc, List.cons_append]
    · intro e he
      rcases List.mem_append.mp he with h | h
      · exact hall e h
      · exact hev e h
  have h0 : ∃ tail, (rxp_flush_rules_streamed P w rules count eng).trace
      = w.trace ++ (Event.flush count ((List.range count.toNat).map rules)
          :: (batchWrites eng ((List.range count.toNat).map rules) ++ tail)) ∧
        ∀ e ∈ tail, e.isHandshake = true := by
    refine ⟨[], ?_, by simp⟩
    unfold rxp_flush_rules_streamed
    rw [via_cp_trace, mark_trace]
    simp only [List.append_assoc, List.cons_append, List.nil_append, List.append_nil]
  have h1 := ext _ [Event.read eng RXP_RTRU_CSR_CAPABILITY
    (rxp_flush_rules_depth P w rules count eng).status
    (rxp_flush_rules_depth P w rules count eng).value] h0 (by simp [Event.isHandshake])
  have h1' : (rxp_flush_rules_depth P w rules count eng).w.trace
      = (rxp_flush_rules_streamed P w rules count eng).trace
        ++ [Event.read eng RXP_RTRU_CSR_CAPABILITY
          (rxp_flush_rules_depth P w rules count eng).status
          (rxp_flush_rules_depth P w rules count eng).value] := rfl
  rw [← h1'] at h1
  obtain ⟨ev1, hp1, hall1⟩ := poll_steps P (rxp_flush_rules_depth P w rules count eng).w
    RXP_RTRU_CSR_FIFO_STAT (toUInt32 count) (toUInt32 (-1))
    cfg.RXP_POLL_CSR_FOR_VALUE_TIMEOUT eng
  have h2 := ext _ [Event.polled (rxp_flush_rules_credit_poll P cfg w rules count eng).ret]
    (ext _ ev1 h1 (fun e he => handshake_of_pollStep _ _ e (hall1 e he)))
    (by simp [Event.isHandshake])
  have h2' : (rxp_flush_rules_credit_poll P cfg w rules count eng).w.trace
      = (rxp_flush_rules_depth P w rules count eng).w.trace ++ ev1
        ++ [Event.polled (rxp_flush_rules_credit_poll P cfg w rules count eng).ret] := hp1
  rw [← h2'] at h2
  have h3 := ext _ [Event.read eng RXP_RTRU_CSR_CTRL
    (rxp_flush_rules_ctrl P cfg w rules count eng).status
    (rxp_flush_rules_ctrl P cfg w rules count eng).value] h2 (by simp [Event.isHandshake])
  have h3' : (rxp_flush_rules_ctrl P cfg w rules count eng).w.trace
      = (rxp_flush_rules_credit_poll P cfg w rules count eng).w.trace
        ++ [Event.read eng RXP_RTRU_CSR_CTRL
          (rxp_flush_rules_ctrl P cfg w rules count eng).status
          (rxp_flush_rules_ctrl P cfg w rules count eng).value] := rfl
  rw [← h3'] at h3
  obtain ⟨ev2, hp2, hall2⟩ := poll_steps P
    (mlx5_regex_register_write P (rxp_flush_rules_ctrl P cfg w rules count eng).w eng
      RXP_RTRU_CSR_CTRL
      ((rxp_flush_rules_ctrl P cfg w rules count eng).value ||| RXP_RTRU_CSR_CTRL_GO)).w
    RXP_RTRU_CSR_STATUS RXP_RTRU_CSR_STATUS_UPDATE_DONE RXP_RTRU_CSR_STATUS_UPDATE_DONE
    cfg.RXP_POLL_CSR_FOR_VALUE_TIMEOUT eng
  have h4 := ext _ [Event.polled (rxp_flush_rules_done_poll P cfg w rules count eng).ret]
    (ext _ ev2 (ext _ [Event.write eng RXP_RTRU_CSR_CTRL
      ((rxp_flush_rules_ctrl P cfg w rules count eng).value ||| RXP_RTRU_CSR_CTRL_GO)] h3
      (by simp [Event.isHandshake]))
      (fun e he => handshake_of_pollStep _ _ e (hall2 e he)))
    (by simp [Event.isHandshake])
  have h4' : (rxp_flush_rules_done_poll P cfg w rules count eng).w.trace
      = (rxp_flush_rules_ctrl P cfg w rules count eng).w.trace
        ++ [Event.write eng RXP_RTRU_CSR_CTRL
          ((rxp_flush_rules_ctrl P cfg w rules count eng).value ||| RXP_RTRU_CSR_CTRL_GO)]
        ++ ev2 ++ [Event.polled (rxp_flush_rules_done_poll P cfg w rules count eng).ret] := hp2
  rw [← h4'] at h4
  have h5 := ext _ [Event.read eng RXP_RTRU_CSR_CTRL
    (rxp_flush_rules_ctrl_again P cfg w rules count eng).status
    (rxp_flush_rules_ctrl_again P cfg w rules count eng).value] h4 (by simp [Event.isHandshake])
  have h5' : (rxp_flush_rules_ctrl_again P cfg w rules count eng).w.trace
      = (rxp_flush_rules_done_poll P cfg w rules count eng).w.trace
        ++ [Event.read eng RXP_RTRU_CSR_CTRL
          (rxp_flush_rules_ctrl_again P cfg w rules count eng).status
          (rxp_flush_rules_ctrl_again P cfg w rules count eng).value] := rfl
  rw [← h5'] at h5
  have h6 := ext _ [Event.write eng RXP_RTRU_CSR_CTRL
    ((rxp_flush_rules_ctrl_again P cfg w rules count eng).value
      &&& not32 RXP_RTRU_CSR_CTRL_GO)] h5 (by simp [Event.isHandshake])
  have h6' : (rxp_flush_rules_clear P cfg w rules count eng).w.trace
      = (rxp_flush_rules_ctrl_again P cfg w rules count eng).w.trace
        ++ [Event.write eng RXP_RTRU_CSR_CTRL
          ((rxp_flush_rules_ctrl_again P cfg w rules count eng).value
            &&& not32 RXP_RTRU_CSR_CTRL_GO)] := rfl
  rw [← h6'] at h6
  rw [rxp_flush_rules_eq]
  split_ifs
  · exact h1
  · exact h2
  · exact h3
  · exact h4
  · exact h5
  · exact h6
  · exact h6

theorem isWriteType_of_isCheckType (t : rxp_rof_entry_type) (h : t.isCheckType = true) :
    t.isWriteType = false := by
  cases t <;> simp [rxp_rof_entry_type.isCheckType, rxp_rof_entry_type.isWriteType] at h ⊢

/-- The entry loop at a check-type entry, in terms of its intermediate results: the
flush of the pending entries never returns 0, so the loop goes on to decode the
address. -/
theorem loop_check (P : Port σ) (cfg : Config) (eng : Nat) (rules : Nat → rxp_rof_entry)
    (c count rule_cnt pending : Nat) (ret : Int) (w : World σ)
    (hchk : (rules rule_cnt).type.isCheckType = true) :
    mlnx_write_rules_loop P cfg eng rules c (count + 1) rule_cnt pending ret w =
      if ((rules rule_cnt).addr >>> 16) &&& 0xFFFF ≠ 0 ∧
          ((rules rule_cnt).addr >>> 16) &&& 0xFFFF ≠ 1
      then ⟨-EINVAL, count + 1,
        (mlnx_write_rules_check_flush P cfg eng rules rule_cnt pending ret w).w⟩
      else if (mlnx_write_rules_check_read P cfg eng rules rule_cnt pending ret w).status = 0
      then ⟨0, count + 1, (mlnx_write_rules_check_read P cfg eng rules rule_cnt pending ret w).w⟩
      else if (rules rule_cnt).mismatch
          (mlnx_write_rules_check_read P cfg eng rules rule_cnt pending ret w).value = true
      then ⟨-EINVAL, count + 1,
        (mlnx_write_rules_check_read P cfg eng rules rule_cnt pending ret w).w⟩
      else mlnx_write_rules_loop P cfg eng rules c count (rule_cnt + 1) 0
        (mlnx_write_rules_check_read P cfg eng rules rule_cnt pending ret w).status
        (mlnx_write_rules_check_read P cfg eng rules rule_cnt pending ret w).w := by
  have hw := isWriteType_of_isCheckType _ hchk
  have hne : ¬ (pending ≠ 0 ∧
      (mlnx_write_rules_check_flush P cfg eng rules rule_cnt pending ret w).ret = 0) := by
    rintro ⟨hp, h0⟩
    unfold mlnx_write_rules_check_flush at h0
    rw [if_pos hp] at h0
    exact rxp_flush_rules_ret_ne_zero _ _ _ _ _ _ h0
  rw [mlnx_write_rules_loop]
  simp only [hw, hchk, Bool.false_eq_true, if_false, if_true]
  change (if pending ≠ 0 ∧
      (mlnx_write_rules_check_flush P cfg eng rules rule_cnt pending ret w).ret = 0 then _
    else _) = _
  rw [if_neg hne]
  by_cases hb : ((rules rule_cnt).addr >>> 16) &&& 0xFFFF ≠ 0 ∧
      ((rules rule_cnt).addr >>> 16) &&& 0xFFFF ≠ 1
  · rw [if_pos hb, if_pos hb]
    rfl
  · rw [if_neg hb, if_neg hb]
    change (if (mlnx_write_rules_check_read P cfg eng rules rule_cnt pending ret w).status = 0
      then _ else _) = _
    by_cases hs : (mlnx_write_rules_check_read P cfg eng rules rule_cnt pending ret w).status = 0
    · rw [if_pos hs, if_pos hs]
      change (⟨(mlnx_write_rules_check_read P cfg eng rules rule_cnt pending ret w).status,
        count + 1, _⟩ : LoadRes σ) = _
      rw [hs]
      rfl
    · rw [if_neg hs, if_neg hs]
      change (if ((rules rule_cnt).type = rxp_rof_entry_type.RXP_ROF_ENTRY_EQ ∨
            (rules rule_cnt).type = rxp_rof_entry_type.RXP_ROF_ENTRY_CHECKSUM) ∧
            (mlnx_write_rules_check_read P cfg eng rules rule_cnt pending ret w).value
              ≠ (rules rule_cnt).value
          then (⟨-EINVAL, count + 1,
            (mlnx_write_rules_check_read P cfg eng rules rule_cnt pending ret w).w⟩ : LoadRes σ)
          else if (rules rule_cnt).type = rxp_rof_entry_type.RXP_ROF_ENTRY_GTE ∧
            (mlnx_write_rules_check_read P cfg eng rules rule_cnt pending ret w).value
              < (rules rule_cnt).value
          then ⟨-EINVAL, count + 1,
            (mlnx_write_rules_check_read P cfg eng rules rule_cnt pending ret w).w⟩
          else if (rules rule_cnt).type = rxp_rof_entry_type.RXP_ROF_ENTRY_LTE ∧
            (mlnx_write_rules_check_read P cfg eng rules rule_cnt pending ret w).value
              > (rules rule_cnt).value
          then ⟨-EINVAL, count + 1,
            (mlnx_write_rules_check_read P cfg eng rules rule_cnt pending ret w).w⟩
          else mlnx_write_rules_loop P cfg eng rules c count (rule_cnt + 1) 0
            (mlnx_write_rules_check_read P cfg eng rules rule_cnt pending ret w).status
            (mlnx_write_rules_check_read P cfg eng rules rule_cnt pending ret w).w) = _
      unfold rxp_rof_entry.mismatch
      simp only [decide_eq_true_eq]
      by_cases h1 : ((rules rule_cnt).type = rxp_rof_entry_type.RXP_ROF_ENTRY_EQ ∨
            (rules rule_cnt).type = rxp_rof_entry_type.RXP_ROF_ENTRY_CHECKSUM) ∧
            (mlnx_write_rules_check_read P cfg eng rules rule_cnt pending ret w).value
              ≠ (rules rule_cnt).value
      · rw [if_pos h1, if_pos (Or.inl h1)]
      · rw [if_neg h1]
        by_cases h2 : (rules rule_cnt).type = rxp_rof_entry_type.RXP_ROF_ENTRY_GTE ∧
            (mlnx_write_rules_check_read P cfg eng rules rule_cnt pending ret w).value
              < (rules rule_cnt).value
        · rw [if_pos h2, if_pos (Or.inr (Or.inl h2))]
        · rw [if_neg h2]
          by_cases h3 : (rules rule_cnt).type = rxp_rof_entry_type.RXP_ROF_ENTRY_LTE ∧
              (mlnx_write_rules_check_read P cfg eng rules rule_cnt pending ret w).value
                > (rules rule_cnt).value
          · rw [if_pos h3, if_pos (Or.inr (Or.inr h3))]
          · rw [if_neg h3, if_neg (by
              rintro (h | h | h)
              · exact h1 h
              · exact h2 h
              · exact h3 h)]

/-- The entry loop at a write-type entry: the flush never returns 0, so the loop
always goes on to the next entry. -/
theorem loop_write (P : Port σ) (cfg : Config) (eng : Nat) (rules : Nat → rxp_rof_entry)
    (c count rule_cnt pending : Nat) (ret : Int) (w : World σ)
    (hwr : (rules rule_cnt).type.isWriteType = true) :
    mlnx_write_rules_loop P cfg eng rules c (count + 1) rule_cnt pending ret w =
      if count + 1 = 1 ∨ pending + 1 = c
      then mlnx_write_rules_loop P cfg eng rules c count (rule_cnt + 1) 0
        (rxp_flush_rules P cfg w (fun i => rules ((rule_cnt + 1) - (pending + 1) + i))
          (toInt32 (pending + 1)) eng).ret
        (rxp_flush_rules P cfg w (fun i => rules ((rule_cnt + 1) - (pending + 1) + i))
          (toInt32 (pending + 1)) eng).w
      else mlnx_write_rules_loop P cfg eng rules c count (rule_cnt + 1) (pending + 1) ret w := by
  rw [mlnx_write_rules_loop]
  simp only [hwr, if_true, rxp_flush_rules_ret_ne_zero, if_false]

/-- The entry loop at an entry that is neither write-type nor check-type. -/
theorem loop_invalid (P : Port σ) (cfg : Config) (eng : Nat) (rules : Nat → rxp_rof_entry)
    (c count rule_cnt pending : Nat) (ret : Int) (w : World σ)
    (hwr : (rules rule_cnt).type.isWriteType = false)
    (hchk : (rules rule_cnt).type.isCheckType = false) :
    mlnx_write_rules_loop P cfg eng rules c (count + 1) rule_cnt pending ret w
      = ⟨-EINVAL, count + 1, w⟩ := by
  rw [mlnx_write_rules_loop]
  simp only [hwr, hchk, Bool.false_eq_true, if_false]

theorem ruleWrites_handshake :
    ∀ tail : List Event, (∀ e ∈ tail, e.isHandshake = true) → ruleWrites tail = [] := by
  intro tail
  induction tail with
  | nil => intro _; rfl
  | cons e t ih =>
    intro h
    have ht := ih (fun x hx => h x (List.mem_cons_of_mem e hx))
    have he := h e (List.mem_cons_self e t)
    unfold ruleWrites at ht ⊢
    cases e with
    | read en a st v => simpa [List.filterMap_cons] using ht
    | usleep us => simpa [List.filterMap_cons] using ht
    | polled r => simpa [List.filterMap_cons] using ht
    | write en a v =>
      simp only [Event.isHandshake, decide_eq_true_eq] at he
      subst he
      have h0 : ¬ RXP_RTRU_CSR_CTRL = RXP_RTRU_CSR_DATA_0 := by decide
      have h1 : ¬ RXP_RTRU_CSR_CTRL = RXP_RTRU_CSR_DATA_1 := by decide
      have h2 : ¬ RXP_RTRU_CSR_CTRL = RXP_RTRU_CSR_ADDR := by decide
      simp only [List.filterMap_cons, h0, h1, h2, or_self, if_false, ht]
    | init_rtru en => simp [Event.isHandshake] at he
    | flush c b => simp [Event.isHandshake] at he

theorem flushedEntries_handshake :
    ∀ tail : List Event, (∀ e ∈ tail, e.isHandshake = true) → flushedEntries tail = [] := by
  intro tail
  induction tail with
  | nil => intro _; rfl
  | cons e t ih =>
    intro h
    have ht := ih (fun x hx => h x (List.mem_cons_of_mem e hx))
    have he := h e (List.mem_cons_self e t)
    cases e with
    | flush c b => simp [Event.isHandshake] at he
    | read en a st v => simpa [flushedEntries] using ht
    | usleep us => simpa [flushedEntries] using ht
    | polled r => simpa [flushedEntries] using ht
    | write en a v => simpa [flushedEntries] using ht
    | init_rtru en => simpa [flushedEntries] using ht

theorem flushedEntries_append (a b : List Event) :
    flushedEntries (a ++ b) = flushedEntries a ++ flushedEntries b := by
  induction a with
  | nil => rfl
  | cons e t ih =>
    cases e <;> simp [flushedEntries, ih]

theorem flushedEntries_batchWrites (eng : Nat) :
    ∀ batch : List rxp_rof_entry, flushedEntries (batchWrites eng batch) = [] := by
  intro batch
  induction batch with
  | nil => rfl
  | cons e t ih => simpa [batchWrites, entryWrites, flushedEntries] using ih

theorem batchWrites_append (eng : Nat) (a b : List rxp_rof_entry) :
    batchWrites eng (a ++ b) = batchWrites eng a ++ batchWrites eng b := by
  induction a with
  | nil => rfl
  | cons e t ih => simp [batchWrites, ih]

theorem streamsFlushed_nil (eng : Nat) : streamsFlushed eng [] := rfl

theorem streamsFlushed_append (eng : Nat) (a b : List Event) (ha : streamsFlushed eng a)
    (hb : streamsFlushed eng b) : streamsFlushed eng (a ++ b) := by
  unfold streamsFlushed at ha hb ⊢
  rw [flushedEntries_append, batchWrites_append]
  unfold ruleWrites at ha hb ⊢
  rw [List.filterMap_append, List.filterMap_append, ha, hb]

theorem streamsFlushed_read (eng en a : Nat) (st : Int) (v : Nat) :
    streamsFlushed eng [Event.read en a st v] := rfl

/-- What `rxp_flush_rules` adds to the trace streams exactly its batch. -/
theorem rxp_flush_rules_streams (P : Port σ) (cfg : Config) (w : World σ)
    (rules : Nat → rxp_rof_entry) (count : Int) (eng : Nat) :
    ∃ tail, (rxp_flush_rules P cfg w rules count eng).w.trace = w.trace ++ tail ∧
      streamsFlushed eng tail ∧ flushedEntries tail = (List.range count.toNat).map rules := by
  obtain ⟨tail, h, hall⟩ := rxp_flush_rules_tail P cfg w rules count eng
  have hfe : flushedEntries (Event.flush count ((List.range count.toNat).map rules)
      :: (batchWrites eng ((List.range count.toNat).map rules) ++ tail))
      = (List.range count.toNat).map rules := by
    simp [flushedEntries, flushedEntries_append, flushedEntries_batchWrites,
      flushedEntries_handshake tail hall]
  refine ⟨_, h, ?_, hfe⟩
  unfold streamsFlushed
  rw [hfe]
  have hr := ruleWrites_handshake tail hall
  unfold ruleWrites at hr ⊢
  rw [List.filterMap_cons, List.filterMap_append, hr, List.append_nil]

theorem check_flush_streams (P : Port σ) (cfg : Config) (eng : Nat)
    (rules : Nat → rxp_rof_entry) (rule_cnt pending : Nat) (ret : Int) (w : World σ) :
    ∃ tail, (mlnx_write_rules_check_flush P cfg eng rules rule_cnt pending ret w).w.trace
        = w.trace ++ tail ∧ streamsFlushed eng tail := by
  unfold mlnx_write_rules_check_flush
  split_ifs
  · obtain ⟨tail, h, hg, _⟩ := rxp_flush_rules_streams P cfg w
      (fun i => rules ((rule_cnt - pending) + i)) (toInt32 pending) eng
    exact ⟨tail, h, hg⟩
  · exact ⟨[], by simp, streamsFlushed_nil eng⟩

theorem check_read_streams (P : Port σ) (cfg : Config) (eng : Nat)
    (rules : Nat → rxp_rof_entry) (rule_cnt pending : Nat) (ret : Int) (w : World σ) :
    ∃ tail, (mlnx_write_rules_check_read P cfg eng rules rule_cnt pending ret w).w.trace
        = w.trace ++ tail ∧ streamsFlushed eng tail := by
  obtain ⟨tail, h, hg⟩ := check_flush_streams P cfg eng rules rule_cnt pending ret w
  refine ⟨tail ++ [Event.read eng (mlnx_write_rules_check_reg (rules rule_cnt).addr)
    (mlnx_write_rules_check_read P cfg eng rules rule_cnt pending ret w).status
    (mlnx_write_rules_check_read P cfg eng rules rule_cnt pending ret w).value], ?_,
    streamsFlushed_append eng _ _ hg (streamsFlushed_read eng _ _ _ _)⟩
  rw [← List.append_assoc, ← h]
  rfl

/-- Whatever the entry loop adds to the trace, the writes it makes to the
rule-streaming registers are exactly those that stream the batches it flushed. -/
theorem loop_streams (P : Port σ) (cfg : Config) (eng : Nat) (rules : Nat → rxp_rof_entry)
    (c : Nat) :
    ∀ (count rule_cnt pending : Nat) (ret : Int) (w : World σ),
      ∃ tail, (mlnx_write_rules_loop P cfg eng rules c count rule_cnt pending ret w).w.trace
          = w.trace ++ tail ∧ streamsFlushed eng tail := by
  intro count
  induction count with
  | zero =>
    intro rule_cnt pending ret w
    exact ⟨[], by simp [mlnx_write_rules_loop], streamsFlushed_nil eng⟩
  | succ n ih =>
    intro rule_cnt pending ret w
    cases hwr : (rules rule_cnt).type.isWriteType with
    | true =>
      rw [loop_write P cfg eng rules c n rule_cnt pending ret w hwr]
      split_ifs
      · obtain ⟨t1, h1, g1, _⟩ := rxp_flush_rules_streams P cfg w
          (fun i => rules ((rule_cnt + 1) - (pending + 1) + i)) (toInt32 (pending + 1)) eng
        obtain ⟨t2, h2, g2⟩ := ih (rule_cnt + 1) 0
          (rxp_flush_rules P cfg w (fun i => rules ((rule_cnt + 1) - (pending + 1) + i))
            (toInt32 (pending + 1)) eng).ret
          (rxp_flush_rules P cfg w (fun i => rules ((rule_cnt + 1) - (pending + 1) + i))
            (toInt32 (pending + 1)) eng).w
        exact ⟨t1 ++ t2, by rw [h2, h1, List.append_assoc], streamsFlushed_append eng _ _ g1 g2⟩
      · exact ih (rule_cnt + 1) (pending + 1) ret w
    | false =>
      cases hchk : (rules rule_cnt).type.isCheckType with
      | true =>
        rw [loop_check P cfg eng rules c n rule_cnt pending ret w hchk]
        split_ifs
        · exact check_flush_streams P cfg eng rules rule_cnt pending ret w
        · exact check_read_streams P cfg eng rules rule_cnt pending ret w
        · exact check_read_streams P cfg eng rules rule_cnt pending ret w
        · obtain ⟨t1, h1, g1⟩ := check_read_streams P cfg eng rules rule_cnt pending ret w
          obtain ⟨t2, h2, g2⟩ := ih (rule_cnt + 1) 0
            (mlnx_write_rules_check_read P cfg eng rules rule_cnt pending ret w).status
            (mlnx_write_rules_check_read P cfg eng rules rule_cnt pending ret w).w
          exact ⟨t1 ++ t2, by rw [h2, h1, List.append_assoc],
            streamsFlushed_append eng _ _ g1 g2⟩
      | false =>
        rw [loop_invalid P cfg eng rules c n rule_cnt pending ret w hwr hchk]
        exact ⟨[], by simp, streamsFlushed_nil eng⟩

/-- The trace only grows along the entry loop. -/
theorem loop_extends (P : Port σ) (cfg : Config) (eng : Nat) (rules : Nat → rxp_rof_entry)
    (c count rule_cnt pending : Nat) (ret : Int) (w : World σ) :
    w.trace <+: (mlnx_write_rules_loop P cfg eng rules c count rule_cnt pending ret w).w.trace := by
  obtain ⟨tail, h, _⟩ := loop_streams P cfg eng rules c count rule_cnt pending ret w
  rw [h]
  exact List.prefix_append _ _

theorem block_of_lt (a : Nat) (ha : a < 2 ^ 32) : (a >>> 16) &&& 0xFFFF = a >>> 16 := by
  have h : (0xFFFF : Nat) = 2 ^ 16 - 1 := by norm_num
  rw [h, Nat.and_pow_two_sub_one_eq_mod, Nat.shiftRight_eq_div_pow]
  apply Nat.mod_eq_of_lt
  apply Nat.div_lt_of_lt_mul
  calc a < 2 ^ 32 := ha
    _ = 2 ^ 16 * 2 ^ 16 := by norm_num

/-! ## mlnx_write_rules: check-type entries -/

/-- At a check-type entry whose block is 0 or 1 the trace of the loop starts with
the trace up to the register read made for that entry. -/
theorem loop_check_read_extends (P : Port σ) (cfg : Config) (eng : Nat)
    (rules : Nat → rxp_rof_entry) (c count rule_cnt pending : Nat) (ret : Int) (w : World σ)
    (hchk : (rules rule_cnt).type.isCheckType = true)
    (hb : ((rules rule_cnt).addr >>> 16) &&& 0xFFFF = 0 ∨
      ((rules rule_cnt).addr >>> 16) &&& 0xFFFF = 1) :
    (mlnx_write_rules_check_read P cfg eng rules rule_cnt pending ret w).w.trace
      <+: (mlnx_write_rules_loop P cfg eng rules c (count + 1) rule_cnt pending ret w).w.trace := by
  rw [loop_check P cfg eng rules c count rule_cnt pending ret w hchk]
  rw [if_neg (by
    rintro ⟨h0, h1⟩
    rcases hb with h | h
    · exact h0 h
    · exact h1 h)]
  split_ifs
  · exact List.prefix_refl _
  · exact List.prefix_refl _
  · exact loop_extends P cfg eng rules c count (rule_cnt + 1) 0 _ _

/-- C16: address decoding of a check-type entry with 32-bit address `a`, whatever
the state of the entry loop.  After the flush of the pending entries, if any
(`mlnx_write_rules_check_flush`; with nothing pending the world is untouched), the
next event of the trace is a register read at `0x0000 + (a & 0xFFFF) * 4` when
`a >> 16` is 0 and at `0x0100 + (a & 0xFFFF) * 4` when `a >> 16` is 1; for every
other value of the high 16 bits the load returns `-EINVAL` at once, in the world
left by that flush: no register is read for the entry. -/
theorem mlnx_write_rules_check_address (P : Port σ) (cfg : Config) (eng : Nat)
    (rules : Nat → rxp_rof_entry) (c count rule_cnt pending : Nat) (ret : Int) (w : World σ)
    (hchk : (rules rule_cnt).type.isCheckType = true)
    (ha : (rules rule_cnt).addr < 2 ^ 32) :
    ((rules rule_cnt).addr >>> 16 = 0 →
      (mlnx_write_rules_check_flush P cfg eng rules rule_cnt pending ret w).w.trace
        ++ [Event.read eng (0x0000 + ((rules rule_cnt).addr &&& 0xFFFF) * 4)
          (mlx5_regex_register_read P
            (mlnx_write_rules_check_flush P cfg eng rules rule_cnt pending ret w).w eng
            (0x0000 + ((rules rule_cnt).addr &&& 0xFFFF) * 4)).status
          (mlx5_regex_register_read P
            (mlnx_write_rules_check_flush P cfg eng rules rule_cnt pending ret w).w eng
            (0x0000 + ((rules rule_cnt).addr &&& 0xFFFF) * 4)).value]
      <+: (mlnx_write_rules_loop P cfg eng rules c (count + 1) rule_cnt pending ret w).w.trace) ∧
    ((rules rule_cnt).addr >>> 16 = 1 →
      (mlnx_write_rules_check_flush P cfg eng rules rule_cnt pending ret w).w.trace
        ++ [Event.read eng (0x0100 + ((rules rule_cnt).addr &&& 0xFFFF) * 4)
          (mlx5_regex_register_read P
            (mlnx_write_rules_check_flush P cfg eng rules rule_cnt pending ret w).w eng
            (0x0100 + ((rules rule_cnt).addr &&& 0xFFFF) * 4)).status
          (mlx5_regex_register_read P
            (mlnx_write_rules_check_flush P cfg eng rules rule_cnt pending ret w).w eng
            (0x0100 + ((rules rule_cnt).addr &&& 0xFFFF) * 4)).value]
      <+: (mlnx_write_rules_loop P cfg eng rules c (count + 1) rule_cnt pending ret w).w.trace) ∧
    ((rules rule_cnt).addr >>> 16 ≠ 0 → (rules rule_cnt).addr >>> 16 ≠ 1 →
      mlnx_write_rules_loop P cfg eng rules c (count + 1) rule_cnt pending ret w
        = ⟨-EINVAL, count + 1,
          (mlnx_write_rules_check_flush P cfg eng rules rule_cnt pending ret w).w⟩) ∧
    (pending = 0 →
      (mlnx_write_rules_check_flush P cfg eng rules rule_cnt pending ret w).w = w) := by
  have hblk := block_of_lt _ ha
  refine ⟨?_, ?_, ?_, ?_⟩
  · intro h
    have hreg : mlnx_write_rules_check_reg (rules rule_cnt).addr
        = 0x0000 + ((rules rule_cnt).addr &&& 0xFFFF) * 4 := by
      unfold mlnx_write_rules_check_reg
      rw [hblk, h]
      rfl
    have key := loop_check_read_extends P cfg eng rules c count rule_cnt pending ret w hchk
      (Or.inl (by rw [hblk, h]))
    unfold mlnx_write_rules_check_read at key
    rw [hreg] at key
    exact key
  · intro h
    have hreg : mlnx_write_rules_check_reg (rules rule_cnt).addr
        = 0x0100 + ((rules rule_cnt).addr &&& 0xFFFF) * 4 := by
      unfold mlnx_write_rules_check_reg
      rw [hblk, h]
      rfl
    have key := loop_check_read_extends P cfg eng rules c count rule_cnt pending ret w hchk
      (Or.inr (by rw [hblk, h]))
    unfold mlnx_write_rules_check_read at key
    rw [hreg] at key
    exact key
  · intro h0 h1
    rw [loop_check P cfg eng rules c count rule_cnt pending ret w hchk, hblk, if_pos ⟨h0, h1⟩]
  · intro hp
    unfold mlnx_write_rules_check_flush
    rw [if_neg (by simp [hp])]

/-- C16, witness: an `EQ` entry with address `0x00010002` (block 1, index 2) on a
register file of constant words: the entry loop reads the register at `0x0108`. -/
theorem mlnx_write_rules_check_address_witness :
    [Event.read 0 0x0108 0 5]
      <+: (mlnx_write_rules_loop (constPort fun _ => 5) exampleConfig 0
        (fun _ => ⟨rxp_rof_entry_type.RXP_ROF_ENTRY_EQ, 0x00010002, 5⟩) 8 1 0 0 0
        ⟨(), []⟩).w.trace :=
  (mlnx_write_rules_check_address (constPort fun _ => 5) exampleConfig 0
    (fun _ => ⟨rxp_rof_entry_type.RXP_ROF_ENTRY_EQ, 0x00010002, 5⟩) 8 0 0 0 0 ⟨(), []⟩
    rfl (by decide)).2.1 (by decide)

/-! ## mlnx_write_rules: no rollback -/

/-- C13, the code at the failing input: an incremental program of two instruction
entries, FIFO capacity 1, on an initialised engine whose FIFO status register
never reports the credit.  The credit poll of the flush of entry 0 times out
(`polled (-16)`), and the loader goes on: it streams entry 1 and polls again, and
only then returns `-EBUSY`. -/
theorem mlnx_write_rules_flush_timeout_goes_on :
    (mlnx_write_rules (constPort (stuckFile 1 0)) quickConfig ⟨(), []⟩
      ⟨2, 2, fun i => ⟨rxp_rof_entry_type.RXP_ROF_ENTRY_INST, 0x10 + i, 7⟩⟩ 40 0).ret = -EBUSY ∧
    (mlnx_write_rules (constPort (stuckFile 1 0)) quickConfig ⟨(), []⟩
      ⟨2, 2, fun i => ⟨rxp_rof_entry_type.RXP_ROF_ENTRY_INST, 0x10 + i, 7⟩⟩ 40 0).w.trace =
      [Event.read 0 RXP_CSR_STATUS 0 1,
       Event.read 0 RXP_RTRU_CSR_CAPABILITY 0 1,
       Event.flush 1 [⟨rxp_rof_entry_type.RXP_ROF_ENTRY_INST, 0x10, 7⟩],
       Event.write 0 RXP_RTRU_CSR_DATA_0 7,
       Event.write 0 RXP_RTRU_CSR_DATA_1 0,
       Event.write 0 RXP_RTRU_CSR_ADDR 0x10,
       Event.read 0 RXP_RTRU_CSR_CAPABILITY 0 1,
       Event.read 0 RXP_RTRU_CSR_FIFO_STAT 0 0,
       Event.usleep 1000,
       Event.read 0 RXP_RTRU_CSR_FIFO_STAT 0 0,
       Event.usleep 1000,
       Event.polled (-EBUSY),
       Event.flush 1 [⟨rxp_rof_entry_type.RXP_ROF_ENTRY_INST, 0x11, 7⟩],
       Event.write 0 RXP_RTRU_CSR_DATA_0 7,
       Event.write 0 RXP_RTRU_CSR_DATA_1 0,
       Event.write 0 RXP_RTRU_CSR_ADDR 0x11,
       Event.read 0 RXP_RTRU_CSR_CAPABILITY 0 1,
       Event.read 0 RXP_RTRU_CSR_FIFO_STAT 0 0,
       Event.usleep 1000,
       Event.read 0 RXP_RTRU_CSR_FIFO_STAT 0 0,
       Event.usleep 1000,
       Event.polled (-EBUSY)] := by
  decide

/-- C14, the code at the failing input: an incremental program of the single entry
`{EQ, addr = 29, value}` on an initialised engine whose register 29 (at `0x74`)
reads 5 successfully.  With `value = 5` the load returns 0; with `value = 6` it
returns 0 as well, not `-EINVAL`: the successful read ends the load before any
comparison. -/
theorem mlnx_write_rules_eq_mismatch_accepted :
    (mlnx_write_rules (constPort (stuckFile 0 5)) quickConfig ⟨(), []⟩
      ⟨2, 1, fun _ => ⟨rxp_rof_entry_type.RXP_ROF_ENTRY_EQ, 29, 5⟩⟩ 24 0).ret = 0 ∧
    (mlnx_write_rules (constPort (stuckFile 0 5)) quickConfig ⟨(), []⟩
      ⟨2, 1, fun _ => ⟨rxp_rof_entry_type.RXP_ROF_ENTRY_EQ, 29, 6⟩⟩ 24 0).ret = 0 ∧
    (mlnx_write_rules (constPort (stuckFile 0 5)) quickConfig ⟨(), []⟩
      ⟨2, 1, fun _ => ⟨rxp_rof_entry_type.RXP_ROF_ENTRY_EQ, 29, 6⟩⟩ 24 0).w.trace =
      [Event.read 0 RXP_CSR_STATUS 0 1,
       Event.read 0 RXP_RTRU_CSR_CAPABILITY 0 0,
       Event.read 0 0x74 0 5] := by
  decide

/-- C15, the code at the failing inputs, on an initialised engine whose register 29
reads 5 successfully: the single entries `{GTE, 29, 10}` (live value below),
`{LTE, 29, 3}` (live value above) and `{CHECKSUM, 29, 6}` (live value different)
all make the load return 0, not a negative code; and the program
`{GTE, 29, 5}, {INST, 0x10, 7}` (live value equal) does not continue to its
second entry: the load returns 0 with both entries still counted in
`rules->count` and without a flush. -/
theorem mlnx_write_rules_range_checks_skipped :
    (mlnx_write_rules (constPort (stuckFile 0 5)) quickConfig ⟨(), []⟩
      ⟨2, 1, fun _ => ⟨rxp_rof_entry_type.RXP_ROF_ENTRY_GTE, 29, 10⟩⟩ 24 0).ret = 0 ∧
    (mlnx_write_rules (constPort (stuckFile 0 5)) quickConfig ⟨(), []⟩
      ⟨2, 1, fun _ => ⟨rxp_rof_entry_type.RXP_ROF_ENTRY_LTE, 29, 3⟩⟩ 24 0).ret = 0 ∧
    (mlnx_write_rules (constPort (stuckFile 0 5)) quickConfig ⟨(), []⟩
      ⟨2, 1, fun _ => ⟨rxp_rof_entry_type.RXP_ROF_ENTRY_CHECKSUM, 29, 6⟩⟩ 24 0).ret = 0 ∧
    (mlnx_write_rules (constPort (stuckFile 0 5)) quickConfig ⟨(), []⟩
      ⟨2, 2, fun i => if i = 0 then ⟨rxp_rof_entry_type.RXP_ROF_ENTRY_GTE, 29, 5⟩
        else ⟨rxp_rof_entry_type.RXP_ROF_ENTRY_INST, 0x10, 7⟩⟩ 40 0).ret = 0 ∧
    (mlnx_write_rules (constPort (stuckFile 0 5)) quickConfig ⟨(), []⟩
      ⟨2, 2, fun i => if i = 0 then ⟨rxp_rof_entry_type.RXP_ROF_ENTRY_GTE, 29, 5⟩
        else ⟨rxp_rof_entry_type.RXP_ROF_ENTRY_INST, 0x10, 7⟩⟩ 40 0).count = 2 ∧
    (mlnx_write_rules (constPort (stuckFile 0 5)) quickConfig ⟨(), []⟩
      ⟨2, 2, fun i => if i = 0 then ⟨rxp_rof_entry_type.RXP_ROF_ENTRY_GTE, 29, 5⟩
        else ⟨rxp_rof_entry_type.RXP_ROF_ENTRY_INST, 0x10, 7⟩⟩ 40 0).w.trace =
      [Event.read 0 RXP_CSR_STATUS 0 1,
       Event.read 0 RXP_RTRU_CSR_CAPABILITY 0 0,
       Event.read 0 0x74 0 5] := by
  decide

/-- C17, the code at the failing input: the incremental program
`{INST, 0x10, 7}, {EQ, 29, 5}` with FIFO capacity 2 on an initialised engine whose
FIFO status register never reports the credit.  The flush of the pending entry
stops at its credit poll, which times out: the go bit is never written and no
update-done poll is made; yet the register read that evaluates the check follows,
and the load returns 0. -/
theorem mlnx_write_rules_check_after_failed_flush :
    (mlnx_write_rules (constPort (stuckFile 2 5)) quickConfig ⟨(), []⟩
      ⟨2, 2, fun i => if i = 0 then ⟨rxp_rof_entry_type.RXP_ROF_ENTRY_INST, 0x10, 7⟩
        else ⟨rxp_rof_entry_type.RXP_ROF_ENTRY_EQ, 29, 5⟩⟩ 40 0).ret = 0 ∧
    (mlnx_write_rules (constPort (stuckFile 2 5)) quickConfig ⟨(), []⟩
      ⟨2, 2, fun i => if i = 0 then ⟨rxp_rof_entry_type.RXP_ROF_ENTRY_INST, 0x10, 7⟩
        else ⟨rxp_rof_entry_type.RXP_ROF_ENTRY_EQ, 29, 5⟩⟩ 40 0).w.trace =
      [Event.read 0 RXP_CSR_STATUS 0 1,
       Event.read 0 RXP_RTRU_CSR_CAPABILITY 0 2,
       Event.flush 1 [⟨rxp_rof_entry_type.RXP_ROF_ENTRY_INST, 0x10, 7⟩],
       Event.write 0 RXP_RTRU_CSR_DATA_0 7,
       Event.write 0 RXP_RTRU_CSR_DATA_1 0,
       Event.write 0 RXP_RTRU_CSR_ADDR 0x10,
       Event.read 0 RXP_RTRU_CSR_CAPABILITY 0 2,
       Event.read 0 RXP_RTRU_CSR_FIFO_STAT 0 0,
       Event.usleep 1000,
       Event.read 0 RXP_RTRU_CSR_FIFO_STAT 0 0,
       Event.usleep 1000,
       Event.polled (-EBUSY),
       Event.read 0 0x74 0 5] := by
  decide

/-! ## mlnx_submit_job -/

theorem wrapInt32_of_range {z : Int} (h1 : -2 ^ 31 ≤ z) (h2 : z < 2 ^ 31) : wrapInt32 z = z := by
  unfold wrapInt32
  split_ifs <;> omega

theorem wrapInt32_range (z : Int) : -2 ^ 31 ≤ wrapInt32 z ∧ wrapInt32 z < 2 ^ 31 := by
  unfold wrapInt32
  split_ifs <;> omega

theorem wrapInt32_add (a b : Int) : wrapInt32 (wrapInt32 a + b) = wrapInt32 (a + b) := by
  unfold wrapInt32
  split_ifs <;> omega

/-- The posts of the loop of `mlnx_submit_job`, the count of jobs processed and the
bytes counted. -/
theorem submit_loop_bytes {τ : Type} (J : JobPort τ) (qc : QueueConfig) (data : Nat → rxp_job)
    (job_count : Nat) :
    ∀ (fuel i : Nat) (st : SubmitState τ),
      -2 ^ 31 ≤ st.bytes_written → st.bytes_written < 2 ^ 31 →
      ∃ ps, (mlnx_submit_job_loop J qc data job_count fuel i st).posts = st.posts ++ ps ∧
        (mlnx_submit_job_loop J qc data job_count fuel i st).num_jobs_processed
          = st.num_jobs_processed + (acceptedPosts ps).length ∧
        (mlnx_submit_job_loop J qc data job_count fuel i st).bytes_written
          = wrapInt32 (st.bytes_written + (postedBytes qc data ps : Nat)) := by
  intro fuel
  induction fuel with
  | zero =>
    intro i st h1 h2
    refine ⟨[], by simp [mlnx_submit_job_loop], by simp [mlnx_submit_job_loop, acceptedPosts], ?_⟩
    simp [mlnx_submit_job_loop, postedBytes, acceptedPosts, wrapInt32_of_range h1 h2]
  | succ n ih =>
    intro i st h1 h2
    rw [mlnx_submit_job_loop]
    by_cases hdone : st.num_jobs_processed ≥ job_count
    · rw [if_pos hdone]
      refine ⟨[], by simp, by simp [acceptedPosts], ?_⟩
      simp [postedBytes, acceptedPosts, wrapInt32_of_range h1 h2]
    · rw [if_neg hdone]
      by_cases hfree : (st.sq_buf i).sq_busy = false ∧ (st.sq_buf i).sq_resp_ready ≠ true
      · rw [if_pos hfree]
        simp only []
        by_cases hok : (J.send_work st.hw i
            (mlnx_submit_job_fill (st.sq_buf i) (data st.num_jobs_processed))).1 > -1
        · rw [if_pos hok]
          obtain ⟨hr1, hr2⟩ := wrapInt32_range (st.bytes_written
            + ((data st.num_jobs_processed).len % 2 ^ 16 : Nat) + (qc.sizeof_rxp_job_desc : Nat))
          obtain ⟨ps, hp, hn, hb⟩ := ih (i + 1)
            { sq_buf := fun j => if j = i then
                { ({ mlnx_submit_job_fill (st.sq_buf i) (data st.num_jobs_processed) with
                    work_id := (J.send_work st.hw i (mlnx_submit_job_fill (st.sq_buf i)
                      (data st.num_jobs_processed))).1 } : rxp_sq_buf) with sq_busy := true }
                else st.sq_buf j
              hw := (J.send_work st.hw i (mlnx_submit_job_fill (st.sq_buf i)
                (data st.num_jobs_processed))).2
              posts := st.posts ++ [⟨i, st.num_jobs_processed,
                mlnx_submit_job_fill (st.sq_buf i) (data st.num_jobs_processed),
                (J.send_work st.hw i (mlnx_submit_job_fill (st.sq_buf i)
                  (data st.num_jobs_processed))).1⟩]
              bytes_written := wrapInt32 (st.bytes_written
                + ((data st.num_jobs_processed).len % 2 ^ 16 : Nat)
                + (qc.sizeof_rxp_job_desc : Nat))
              num_jobs_processed := st.num_jobs_processed + 1 } hr1 hr2
          refine ⟨(⟨i, st.num_jobs_processed,
            mlnx_submit_job_fill (st.sq_buf i) (data st.num_jobs_processed),
            (J.send_work st.hw i (mlnx_submit_job_fill (st.sq_buf i)
              (data st.num_jobs_processed))).1⟩ : PostEvent) :: ps, ?_, ?_, ?_⟩
          · rw [hp]; simp
          · rw [hn]
            simp only [acceptedPosts, List.filter_cons, hok, decide_True, if_true,
              List.length_cons]
            omega
          · rw [hb, wrapInt32_add]
            congr 1
            simp only [postedBytes, acceptedPosts, List.filter_cons, hok, decide_True, if_true,
              List.map_cons, List.sum_cons]
            push_cast
            ring
        · rw [if_neg hok]
          refine ⟨[(⟨i, st.num_jobs_processed,
            mlnx_submit_job_fill (st.sq_buf i) (data st.num_jobs_processed),
            (J.send_work st.hw i (mlnx_submit_job_fill (st.sq_buf i)
              (data st.num_jobs_processed))).1⟩ : PostEvent)], rfl, ?_, ?_⟩
          · simp [acceptedPosts, hok]
          · simp [postedBytes, acceptedPosts, hok, wrapInt32_of_range h1 h2]
      · rw [if_neg hfree]
        exact ih (i + 1) st h1 h2

theorem toSizeT_of_nat (n : Nat) (h : n < 2 ^ 64) : toSizeT (n : Int) = n := by
  unfold toSizeT
  omega

/-- C19 (as amended): `mlnx_submit_job` returns a byte count, not a job count.  For
an empty job list (`job_count == 0`) it returns `(size_t)-1`, posts nothing and
leaves the queue as it is.  For a non-empty list it returns its `int` counter
`bytes_written` converted to `size_t`, and that counter is the sum, over the posts
accepted in this call, of the job length and `sizeof(struct rxp_job_desc)`
(wrapped to 32 bits): as long as the sum is below `2^31` the value returned is the
sum itself.  The number of accepted posts is the number of jobs processed. -/
theorem mlnx_submit_job_returns_bytes {τ : Type} (J : JobPort τ) (qc : QueueConfig)
    (q : rxp_queue) (hw : τ) (data : Nat → rxp_job) (job_count : Nat) :
    (job_count = 0 →
      (mlnx_submit_job J qc q hw data job_count).ret = 2 ^ 64 - 1 ∧
      (mlnx_submit_job J qc q hw data job_count).posts = [] ∧
      (mlnx_submit_job J qc q hw data job_count).queue.sq_buf = q.sq_buf) ∧
    (job_count ≠ 0 →
      (mlnx_submit_job J qc q hw data job_count).ret
        = toSizeT (wrapInt32 (postedBytes qc data (mlnx_submit_job J qc q hw data job_count).posts)))
    ∧
    (job_count ≠ 0 →
      postedBytes qc data (mlnx_submit_job J qc q hw data job_count).posts < 2 ^ 31 →
      (mlnx_submit_job J qc q hw data job_count).ret
        = postedBytes qc data (mlnx_submit_job J qc q hw data job_count).posts) := by
  have key : job_count ≠ 0 →
      (mlnx_submit_job J qc q hw data job_count).ret
        = toSizeT (wrapInt32 (postedBytes qc data
            (mlnx_submit_job J qc q hw data job_count).posts)) := by
    intro h
    obtain ⟨ps, hp, _, hb⟩ := submit_loop_bytes J qc data job_count qc.NUM_SQS 0
      ⟨q.sq_buf, hw, [], 0, 0⟩ (by norm_num) (by norm_num)
    unfold mlnx_submit_job
    rw [if_neg h]
    simp only [List.nil_append, zero_add] at hp hb
    simp only []
    rw [hp, hb]
  refine ⟨?_, key, ?_⟩
  · intro h
    unfold mlnx_submit_job
    rw [if_pos h]
    exact ⟨show toSizeT (-1) = 2 ^ 64 - 1 by decide, rfl, rfl⟩
  · intro h hlt
    rw [key h, wrapInt32_of_range (by omega) (by omega), toSizeT_of_nat _ (by omega)]

/-- C19, witness: two jobs of 10 and 20 bytes on a queue of four free slots, every
post accepted, 16-byte job descriptors: the value returned is 62. -/
theorem mlnx_submit_job_returns_bytes_witness :
    (mlnx_submit_job countingJobs exampleQueueConfig ⟨fun _ => idleSlot, 0⟩ 0
      (fun n => ⟨⟨100 + n, 0, []⟩, 10 * (n + 1), []⟩) 2).ret = 62 := by
  have h := (mlnx_submit_job_returns_bytes countingJobs exampleQueueConfig
    ⟨fun _ => idleSlot, 0⟩ 0 (fun n => ⟨⟨100 + n, 0, []⟩, 10 * (n + 1), []⟩) 2).2.2
    (by decide) (by decide)
  rw [h]
  decide

/-- C19, counterexample to the claim as stated: one job of 10 bytes posted to a free
slot (16-byte job descriptors) makes `mlnx_submit_job` return 26 although one job
was posted; an empty job list makes it return `(size_t)-1` although no job was
posted; and one job on a queue without a free slot makes it return 0. -/
theorem mlnx_submit_job_returns_bytes_counterexample :
    (mlnx_submit_job countingJobs exampleQueueConfig ⟨fun _ => idleSlot, 0⟩ 0
      (fun _ => ⟨⟨100, 0, []⟩, 10, []⟩) 1).ret = 26 ∧
    (acceptedPosts (mlnx_submit_job countingJobs exampleQueueConfig ⟨fun _ => idleSlot, 0⟩ 0
      (fun _ => ⟨⟨100, 0, []⟩, 10, []⟩) 1).posts).length = 1 ∧
    (mlnx_submit_job countingJobs exampleQueueConfig ⟨fun _ => idleSlot, 0⟩ 0
      (fun _ => ⟨⟨100, 0, []⟩, 10, []⟩) 0).ret = 2 ^ 64 - 1 ∧
    (mlnx_submit_job countingJobs exampleQueueConfig ⟨fun _ => idleSlot, 0⟩ 0
      (fun _ => ⟨⟨100, 0, []⟩, 10, []⟩) 0).posts = [] ∧
    (mlnx_submit_job countingJobs exampleQueueConfig
      ⟨fun _ => { idleSlot with sq_busy := true }, 0⟩ 0
      (fun _ => ⟨⟨100, 0, []⟩, 10, []⟩) 1).ret = 0 := by
  decide

theorem free_iff (s : rxp_sq_buf) :
    (s.sq_busy = false ∧ s.sq_resp_ready ≠ true) ↔ (!s.sq_busy && !s.sq_resp_ready) = true := by
  cases s.sq_busy <;> cases s.sq_resp_ready <;> simp

/-- When every post is accepted the loop of `mlnx_submit_job` gives the jobs still
to process, in order, to the free slots it meets, in ascending order. -/
theorem submit_loop_assign {τ : Type} (J : JobPort τ) (qc : QueueConfig) (data : Nat → rxp_job)
    (job_count : Nat) (hpost : ∀ s i slot, (J.send_work s i slot).1 > -1) :
    ∀ (fuel i : Nat) (st : SubmitState τ),
      ∃ ps, (mlnx_submit_job_loop J qc data job_count fuel i st).posts = st.posts ++ ps ∧
        ps.map (fun p => p.sq) = ((List.range' i fuel).filter
          (fun j => !(st.sq_buf j).sq_busy && !(st.sq_buf j).sq_resp_ready)).take
            (job_count - st.num_jobs_processed) ∧
        ps.map (fun p => p.job) = List.range' st.num_jobs_processed ps.length ∧
        (∀ p ∈ ps, p.work_id > -1 ∧
          (mlnx_submit_job_loop J qc data job_count fuel i st).sq_buf p.sq =
            { mlnx_submit_job_fill (st.sq_buf p.sq) (data p.job) with
              work_id := p.work_id, sq_busy := true }) ∧
        (∀ j, j ∉ ps.map (fun p => p.sq) →
          (mlnx_submit_job_loop J qc data job_count fuel i st).sq_buf j = st.sq_buf j) := by
  intro fuel
  induction fuel with
  | zero =>
    intro i st
    exact ⟨[], by simp [mlnx_submit_job_loop], by simp, by simp, by simp,
      by simp [mlnx_submit_job_loop]⟩
  | succ m ih =>
    intro i st
    rw [mlnx_submit_job_loop]
    by_cases hdone : st.num_jobs_processed ≥ job_count
    · rw [if_pos hdone]
      have h0 : job_count - st.num_jobs_processed = 0 := by omega
      exact ⟨[], by simp, by simp [h0], by simp, by simp, by simp⟩
    · rw [if_neg hdone]
      by_cases hfree : (st.sq_buf i).sq_busy = false ∧ (st.sq_buf i).sq_resp_ready ≠ true
      · rw [if_pos hfree]
        simp only []
        rw [if_pos (hpost _ _ _)]
        obtain ⟨ps, h1, h2, h3, h4, h5⟩ := ih (i + 1)
          { sq_buf := fun j => if j = i then
              { ({ mlnx_submit_job_fill (st.sq_buf i) (data st.num_jobs_processed) with
                  work_id := (J.send_work st.hw i (mlnx_submit_job_fill (st.sq_buf i)
                    (data st.num_jobs_processed))).1 } : rxp_sq_buf) with sq_busy := true }
              else st.sq_buf j
            hw := (J.send_work st.hw i (mlnx_submit_job_fill (st.sq_buf i)
              (data st.num_jobs_processed))).2
            posts := st.posts ++ [⟨i, st.num_jobs_processed,
              mlnx_submit_job_fill (st.sq_buf i) (data st.num_jobs_processed),
              (J.send_work st.hw i (mlnx_submit_job_fill (st.sq_buf i)
                (data st.num_jobs_processed))).1⟩]
            bytes_written := wrapInt32 (st.bytes_written
              + ((data st.num_jobs_processed).len % 2 ^ 16 : Nat)
              + (qc.sizeof_rxp_job_desc : Nat))
            num_jobs_processed := st.num_jobs_processed + 1 }
        simp only [] at h1 h2 h3 h4 h5
        have hfilter : (List.range' (i + 1) m).filter
            (fun j => !(if j = i then
              { ({ mlnx_submit_job_fill (st.sq_buf i) (data st.num_jobs_processed) with
                  work_id := (J.send_work st.hw i (mlnx_submit_job_fill (st.sq_buf i)
                    (data st.num_jobs_processed))).1 } : rxp_sq_buf) with sq_busy := true }
              else st.sq_buf j).sq_busy && !(if j = i then
              { ({ mlnx_submit_job_fill (st.sq_buf i) (data st.num_jobs_processed) with
                  work_id := (J.send_work st.hw i (mlnx_submit_job_fill (st.sq_buf i)
                    (data st.num_jobs_processed))).1 } : rxp_sq_buf) with sq_busy := true }
              else st.sq_buf j).sq_resp_ready)
            = (List.range' (i + 1) m).filter
              (fun j => !(st.sq_buf j).sq_busy && !(st.sq_buf j).sq_resp_ready) := by
          apply List.filter_congr
          intro j hj
          have hji : ¬ j = i := by
            have := (List.mem_range'_1.mp hj).1
            omega
          simp only [if_neg hji]
        rw [hfilter] at h2
        have hge : ∀ j, j ∈ ps.map (fun p => p.sq) → i + 1 ≤ j := by
          intro j hj
          rw [h2] at hj
          exact (List.mem_range'_1.mp (List.mem_of_mem_filter (List.mem_of_mem_take hj))).1
        refine ⟨(⟨i, st.num_jobs_processed,
          mlnx_submit_job_fill (st.sq_buf i) (data st.num_jobs_processed),
          (J.send_work st.hw i (mlnx_submit_job_fill (st.sq_buf i)
            (data st.num_jobs_processed))).1⟩ : PostEvent) :: ps, ?_, ?_, ?_, ?_, ?_⟩
        · rw [h1]; simp
        · have hk : job_count - st.num_jobs_processed
              = (job_count - (st.num_jobs_processed + 1)) + 1 := by omega
          have hfi : (!(st.sq_buf i).sq_busy && !(st.sq_buf i).sq_resp_ready) = true :=
            (free_iff _).mp hfree
          rw [hk, List.range'_succ, List.map_cons, h2, List.filter_cons]
          simp only [hfi, if_true, List.take_succ_cons]
        · rw [List.map_cons, h3, List.length_cons, List.range'_succ]
        · intro p hp
          rcases List.mem_cons.mp hp with rfl | hp
          · refine ⟨hpost _ _ _, ?_⟩
            rw [h5 i (fun hmem => by have := hge i hmem; omega)]
            simp only [if_true]
          · obtain ⟨ha, hb⟩ := h4 p hp
            refine ⟨ha, ?_⟩
            rw [hb]
            have hpi : ¬ p.sq = i := by
              have := hge p.sq (List.mem_map_of_mem _ hp)
              omega
            simp only [if_neg hpi]
        · intro j hj
          rw [List.map_cons, List.mem_cons, not_or] at hj
          rw [h5 j hj.2]
          simp only [if_neg hj.1]
      · rw [if_neg hfree]
        obtain ⟨ps, h1, h2, h3, h4, h5⟩ := ih (i + 1) st
        refine ⟨ps, h1, ?_, h3, h4, h5⟩
        have hfi : ¬ (!(st.sq_buf i).sq_busy && !(st.sq_buf i).sq_resp_ready) = true :=
          fun h => hfree ((free_iff _).mpr h)
        rw [h2, List.range'_succ, List.filter_cons]
        simp only [hfi, Bool.false_eq_true, if_false]

/-- C20: slot assignment of `mlnx_submit_job` when every post is accepted (the post
returns a work identifier above -1).  The posts of the call go, in order, to the
first `job_count` of the slots that were neither busy nor response-ready at call
time, taken in ascending index order, and the `j`-th post carries the `j`-th job of
the list; so `min(job_count, number of free slots)` jobs are accepted.  Each of
these slots ends busy, with the job identifier of its job and the work identifier
returned by its post; every other slot is left as it was. -/
theorem mlnx_submit_job_slot_assignment {τ : Type} (J : JobPort τ) (qc : QueueConfig)
    (q : rxp_queue) (hw : τ) (data : Nat → rxp_job) (job_count : Nat)
    (hpost : ∀ s i slot, (J.send_work s i slot).1 > -1) :
    (mlnx_submit_job J qc q hw data job_count).posts.map (fun p => p.sq)
      = (freeSlots q.sq_buf qc.NUM_SQS).take job_count ∧
    (mlnx_submit_job J qc q hw data job_count).posts.map (fun p => p.job)
      = List.range (mlnx_submit_job J qc q hw data job_count).posts.length ∧
    (mlnx_submit_job J qc q hw data job_count).posts.length
      = min job_count (freeSlots q.sq_buf qc.NUM_SQS).length ∧
    (∀ p ∈ (mlnx_submit_job J qc q hw data job_count).posts,
      p.work_id > -1 ∧
      ((mlnx_submit_job J qc q hw data job_count).queue.sq_buf p.sq).sq_busy = true ∧
      ((mlnx_submit_job J qc q hw data job_count).queue.sq_buf p.sq).job_id
        = (data p.job).desc.job_id ∧
      ((mlnx_submit_job J qc q hw data job_count).queue.sq_buf p.sq).work_id = p.work_id) ∧
    (∀ j, j ∉ (freeSlots q.sq_buf qc.NUM_SQS).take job_count →
      (mlnx_submit_job J qc q hw data job_count).queue.sq_buf j = q.sq_buf j) := by
  by_cases h0 : job_count = 0
  · subst h0
    refine ⟨by simp [mlnx_submit_job], by simp [mlnx_submit_job], by simp [mlnx_submit_job],
      by simp [mlnx_submit_job], by simp [mlnx_submit_job]⟩
  · obtain ⟨ps, h1, h2, h3, h4, h5⟩ := submit_loop_assign J qc data job_count hpost qc.NUM_SQS 0
      ⟨q.sq_buf, hw, [], 0, 0⟩
    simp only [List.nil_append, Nat.sub_zero] at h1 h2 h3 h4 h5
    have hposts : (mlnx_submit_job J qc q hw data job_count).posts = ps := by
      unfold mlnx_submit_job
      rw [if_neg h0]
      exact h1
    have hbuf : (mlnx_submit_job J qc q hw data job_count).queue.sq_buf
        = (mlnx_submit_job_loop J qc data job_count qc.NUM_SQS 0
          ⟨q.sq_buf, hw, [], 0, 0⟩).sq_buf := by
      unfold mlnx_submit_job
      rw [if_neg h0]
    have hsq : ps.map (fun p => p.sq) = (freeSlots q.sq_buf qc.NUM_SQS).take job_count := by
      rw [h2]
      unfold freeSlots
      rw [List.range_eq_range']
    rw [hposts, hbuf]
    refine ⟨hsq, ?_, ?_, ?_, ?_⟩
    · rw [h3, List.range_eq_range']
    · have := congrArg List.length hsq
      rw [List.length_map, List.length_take] at this
      exact this
    · intro p hp
      obtain ⟨ha, hb⟩ := h4 p hp
      rw [hb]
      exact ⟨ha, rfl, rfl, rfl⟩
    · intro j hj
      rw [← hsq] at hj
      exact h5 j hj

/-- C20, witness: three jobs on a queue of four slots of which slot 1 is busy, every
post accepted: the jobs go to slots 0, 2 and 3. -/
theorem mlnx_submit_job_slot_assignment_witness :
    (mlnx_submit_job countingJobs exampleQueueConfig
      ⟨fun i => if i = 1 then { idleSlot with sq_busy := true } else idleSlot, 0⟩ 0
      (fun n => ⟨⟨100 + n, 0, []⟩, 10, []⟩) 3).posts.map (fun p => p.sq) = [0, 2, 3] :=
  (mlnx_submit_job_slot_assignment countingJobs exampleQueueConfig
    ⟨fun i => if i = 1 then { idleSlot with sq_busy := true } else idleSlot, 0⟩ 0
    (fun n => ⟨⟨100 + n, 0, []⟩, 10, []⟩) 3
    (fun s _ _ => by show ((s : Nat) : Int) > -1; omega)).1.trans (by decide)

/-- The posts of the loop of `mlnx_submit_job`, whatever they return: they go to
slots that were free, a post that is not accepted is the last one, the slot of an
accepted post ends busy and that of a refused one does not, and every slot without
a post is left as it was. -/
theorem submit_loop_posts {τ : Type} (J : JobPort τ) (qc : QueueConfig) (data : Nat → rxp_job)
    (job_count : Nat) :
    ∀ (fuel i : Nat) (st : SubmitState τ),
      ∃ ps, (mlnx_submit_job_loop J qc data job_count fuel i st).posts = st.posts ++ ps ∧
        (∀ p ∈ ps, i ≤ p.sq ∧ p.sq < i + fuel ∧ (st.sq_buf p.sq).sq_busy = false ∧
          (st.sq_buf p.sq).sq_resp_ready = false) ∧
        (∀ p ∈ ps, (mlnx_submit_job_loop J qc data job_count fuel i st).sq_buf p.sq =
          { mlnx_submit_job_fill (st.sq_buf p.sq) (data p.job) with
            work_id := p.work_id, sq_busy := decide (p.work_id > -1) }) ∧
        (∀ j, (∀ p ∈ ps, p.sq ≠ j) →
          (mlnx_submit_job_loop J qc data job_count fuel i st).sq_buf j = st.sq_buf j) ∧
        (∀ ps1 p ps2, ps = ps1 ++ p :: ps2 → ¬ p.work_id > -1 → ps2 = []) := by
  intro fuel
  induction fuel with
  | zero =>
    intro i st
    exact ⟨[], by simp [mlnx_submit_job_loop], by simp, by simp,
      by simp [mlnx_submit_job_loop], by simp⟩
  | succ m ih =>
    intro i st
    rw [mlnx_submit_job_loop]
    by_cases hdone : st.num_jobs_processed ≥ job_count
    · rw [if_pos hdone]
      exact ⟨[], by simp, by simp, by simp, by simp, by simp⟩
    · rw [if_neg hdone]
      by_cases hfree : (st.sq_buf i).sq_busy = false ∧ (st.sq_buf i).sq_resp_ready ≠ true
      · rw [if_pos hfree]
        have hready : (st.sq_buf i).sq_resp_ready = false := by
          cases h : (st.sq_buf i).sq_resp_ready
          · rfl
          · exact absurd h hfree.2
        simp only []
        by_cases hok : (J.send_work st.hw i
            (mlnx_submit_job_fill (st.sq_buf i) (data st.num_jobs_processed))).1 > -1
        · rw [if_pos hok]
          obtain ⟨ps, h1, h2, h3, h4, h5⟩ := ih (i + 1)
            { sq_buf := fun j => if j = i then
                { ({ mlnx_submit_job_fill (st.sq_buf i) (data st.num_jobs_processed) with
                    work_id := (J.send_work st.hw i (mlnx_submit_job_fill (st.sq_buf i)
                      (data st.num_jobs_processed))).1 } : rxp_sq_buf) with sq_busy := true }
                else st.sq_buf j
              hw := (J.send_work st.hw i (mlnx_submit_job_fill (st.sq_buf i)
                (data st.num_jobs_processed))).2
              posts := st.posts ++ [⟨i, st.num_jobs_processed,
                mlnx_submit_job_fill (st.sq_buf i) (data st.num_jobs_processed),
                (J.send_work st.hw i (mlnx_submit_job_fill (st.sq_buf i)
                  (data st.num_jobs_processed))).1⟩]
              bytes_written := wrapInt32 (st.bytes_written
                + ((data st.num_jobs_processed).len % 2 ^ 16 : Nat)
                + (qc.sizeof_rxp_job_desc : Nat))
              num_jobs_processed := st.num_jobs_processed + 1 }
          simp only [] at h1 h2 h3 h4 h5
          have hne : ∀ p ∈ ps, ¬ p.sq = i := fun p hp => by
            have := (h2 p hp).1
            omega
          refine ⟨(⟨i, st.num_jobs_processed,
            mlnx_submit_job_fill (st.sq_buf i) (data st.num_jobs_processed),
            (J.send_work st.hw i (mlnx_submit_job_fill (st.sq_buf i)
              (data st.num_jobs_processed))).1⟩ : PostEvent) :: ps, ?_, ?_, ?_, ?_, ?_⟩
          · rw [h1]; simp
          · intro p hp
            rcases List.mem_cons.mp hp with rfl | hp
            · exact ⟨le_refl _, by show i < i + (m + 1); omega, hfree.1, hready⟩
            · have := h2 p hp
              simp only [if_neg (hne p hp)] at this
              exact ⟨by omega, by omega, this.2.2.1, this.2.2.2⟩
          · intro p hp
            rcases List.mem_cons.mp hp with rfl | hp
            · rw [h4 i (fun p' hp' => hne p' hp')]
              simp only [if_true, hok, decide_True]
            · rw [h3 p hp]
              simp only [if_neg (hne p hp)]
          · intro j hj
            have hji : ¬ j = i := fun h => hj _ (List.mem_cons_self _ _) h.symm
            rw [h4 j (fun p hp => hj p (List.mem_cons_of_mem _ hp))]
            simp only [if_neg hji]
          · intro ps1 p ps2 heq hfail
            cases ps1 with
            | nil =>
              simp only [List.nil_append, List.cons.injEq] at heq
              rw [← heq.1] at hfail
              exact absurd hok hfail
            | cons x ps1 =>
              simp only [List.cons_append, List.cons.injEq] at heq
              exact h5 ps1 p ps2 heq.2 hfail
        · rw [if_neg hok]
          refine ⟨[(⟨i, st.num_jobs_processed,
            mlnx_submit_job_fill (st.sq_buf i) (data st.num_jobs_processed),
            (J.send_work st.hw i (mlnx_submit_job_fill (st.sq_buf i)
              (data st.num_jobs_processed))).1⟩ : PostEvent)], rfl, ?_, ?_, ?_, ?_⟩
          · intro p hp
            rw [List.mem_singleton] at hp
            subst hp
            exact ⟨le_refl _, by show i < i + (m + 1); omega, hfree.1, hready⟩
          · intro p hp
            rw [List.mem_singleton] at hp
            subst hp
            simp only [if_true, hok, decide_False]
            simp [mlnx_submit_job_fill, hfree.1]
          · intro j hj
            have hji : ¬ j = i := fun h => hj _ (List.mem_singleton.mpr rfl) h.symm
            simp only [if_neg hji]
          · intro ps1 p ps2 heq _
            cases ps1 with
            | nil =>
              simp only [List.nil_append, List.cons.injEq] at heq
              exact heq.2.symm
            | cons x ps1 =>
              simp only [List.cons_append, List.cons.injEq] at heq
              exact absurd heq.2.symm (by simp)
      · rw [if_neg hfree]
        obtain ⟨ps, h1, h2, h3, h4, h5⟩ := ih (i + 1) st
        refine ⟨ps, h1, ?_, h3, h4, h5⟩
        intro p hp
        have := h2 p hp
        exact ⟨by omega, by omega, this.2.2.1, this.2.2.2⟩

/-! ## mlnx_poll -/

/-- The completion queries of the first loop of `mlnx_poll`: they visit the slots in
ascending order with the work identifier of each slot and stop at the first
negative result; every query before that sets the response-ready flag of its slot
to "the result is positive" and changes nothing else of the queue. -/
theorem poll_loop_spec {τ : Type} (J : JobPort τ) :
    ∀ (fuel i : Nat) (st : PollState τ),
      ∃ ps, (mlnx_poll_loop J fuel i st).2.polls = st.polls ++ ps ∧
        ps.map (fun p => p.sq) = List.range' i ps.length ∧ ps.length ≤ fuel ∧
        (∀ p ∈ ps, p.work_id = (st.sq_buf p.sq).work_id) ∧
        ((mlnx_poll_loop J fuel i st).1 = false → ps.length = fuel ∧ ∀ p ∈ ps, 0 ≤ p.ret) ∧
        ((mlnx_poll_loop J fuel i st).1 = true → ∃ ps1 p, ps = ps1 ++ [p] ∧ p.ret < 0 ∧
          (∀ p1 ∈ ps1, 0 ≤ p1.ret) ∧ (mlnx_poll_loop J fuel i st).2.ret = p.ret) ∧
        (∀ p ∈ ps, 0 ≤ p.ret → (mlnx_poll_loop J fuel i st).2.sq_buf p.sq =
          { st.sq_buf p.sq with sq_resp_ready := decide (p.ret > 0) }) ∧
        (∀ j, (∀ p ∈ ps, 0 ≤ p.ret → p.sq ≠ j) →
          (mlnx_poll_loop J fuel i st).2.sq_buf j = st.sq_buf j) ∧
        (mlnx_poll_loop J fuel i st).2.num_resp_to_read
          = st.num_resp_to_read + (ps.filter fun p => p.ret > 0).length ∧
        (mlnx_poll_loop J fuel i st).2.rx_ready
          = (st.rx_ready || ps.any fun p => p.ret > 0) := by
  intro fuel
  induction fuel with
  | zero =>
    intro i st
    refine ⟨[], by simp [mlnx_poll_loop], by simp, by simp, by simp, by simp, ?_, by simp,
      by simp [mlnx_poll_loop], by simp [mlnx_poll_loop], by simp [mlnx_poll_loop]⟩
    intro h
    simp [mlnx_poll_loop] at h
  | succ m ih =>
    intro i st
    rw [mlnx_poll_loop]
    simp only []
    by_cases hpos : (J.poll st.hw i (st.sq_buf i).work_id).1 > 0
    · rw [if_pos hpos]
      obtain ⟨ps, h1, h2, h3, h4, h5, h6, h7, h8, h9, h10⟩ := ih (i + 1)
        { sq_buf := fun j => if j = i then { st.sq_buf i with sq_resp_ready := true }
            else st.sq_buf j
          num_resp_to_read := st.num_resp_to_read + 1
          rx_ready := true
          hw := (J.poll st.hw i (st.sq_buf i).work_id).2
          polls := st.polls ++ [⟨i, (st.sq_buf i).work_id,
            (J.poll st.hw i (st.sq_buf i).work_id).1⟩]
          ret := (J.poll st.hw i (st.sq_buf i).work_id).1 }
      simp only [] at h1 h4 h7 h8 h9 h10
      have hne : ∀ p ∈ ps, ¬ p.sq = i := fun p hp => by
        have hm : p.sq ∈ ps.map (fun p => p.sq) := List.mem_map_of_mem _ hp
        rw [h2] at hm
        have := (List.mem_range'_1.mp hm).1
        omega
      refine ⟨(⟨i, (st.sq_buf i).work_id, (J.poll st.hw i (st.sq_buf i).work_id).1⟩ : PollEvent)
        :: ps, ?_, ?_, ?_, ?_, ?_, ?_, ?_, ?_, ?_, ?_⟩
      · rw [h1]; simp
      · rw [List.map_cons, h2, List.length_cons, List.range'_succ]
      · rw [List.length_cons]; omega
      · intro p hp
        rcases List.mem_cons.mp hp with rfl | hp
        · rfl
        · rw [h4 p hp]
          simp only [if_neg (hne p hp)]
      · intro he
        obtain ⟨ha, hb⟩ := h5 he
        refine ⟨by rw [List.length_cons, ha], ?_⟩
        intro p hp
        rcases List.mem_cons.mp hp with rfl | hp
        · exact le_of_lt hpos
        · exact hb p hp
      · intro he
        obtain ⟨ps1, p, ha, hb, hc, hd⟩ := h6 he
        refine ⟨_ :: ps1, p, by rw [ha]; rfl, hb, ?_, hd⟩
        intro p1 hp1
        rcases List.mem_cons.mp hp1 with rfl | hp1
        · exact le_of_lt hpos
        · exact hc p1 hp1
      · intro p hp hge
        rcases List.mem_cons.mp hp with rfl | hp
        · rw [h8 i (fun p' hp' _ => hne p' hp')]
          simp only [if_true, hpos, decide_True]
        · rw [h7 p hp hge]
          simp only [if_neg (hne p hp)]
      · intro j hj
        have hji : ¬ j = i := fun h =>
          hj _ (List.mem_cons_self _ _) (le_of_lt hpos) h.symm
        rw [h8 j (fun p hp hge => hj p (List.mem_cons_of_mem _ hp) hge)]
        simp only [if_neg hji]
      · rw [h9]
        simp only [List.filter_cons, hpos, decide_True, if_true, List.length_cons]
        omega
      · rw [h10]
        simp [hpos]
    · rw [if_neg hpos]
      by_cases hzero : (J.poll st.hw i (st.sq_buf i).work_id).1 = 0
      · rw [if_pos hzero]
        obtain ⟨ps, h1, h2, h3, h4, h5, h6, h7, h8, h9, h10⟩ := ih (i + 1)
          { st with
            sq_buf := fun j => if j = i then { st.sq_buf i with sq_resp_ready := false }
              else st.sq_buf j
            hw := (J.poll st.hw i (st.sq_buf i).work_id).2
            polls := st.polls ++ [⟨i, (st.sq_buf i).work_id,
              (J.poll st.hw i (st.sq_buf i).work_id).1⟩]
            ret := (J.poll st.hw i (st.sq_buf i).work_id).1 }
        simp only [] at h1 h4 h7 h8 h9 h10
        have hne : ∀ p ∈ ps, ¬ p.sq = i := fun p hp => by
          have hm : p.sq ∈ ps.map (fun p => p.sq) := List.mem_map_of_mem _ hp
          rw [h2] at hm
          have := (List.mem_range'_1.mp hm).1
          omega
        refine ⟨(⟨i, (st.sq_buf i).work_id, (J.poll st.hw i (st.sq_buf i).work_id).1⟩ :
          PollEvent) :: ps, ?_, ?_, ?_, ?_, ?_, ?_, ?_, ?_, ?_, ?_⟩
        · rw [h1]; simp
        · rw [List.map_cons, h2, List.length_cons, List.range'_succ]
        · rw [List.length_cons]; omega
        · intro p hp
          rcases List.mem_cons.mp hp with rfl | hp
          · rfl
          · rw [h4 p hp]
            simp only [if_neg (hne p hp)]
        · intro he
          obtain ⟨ha, hb⟩ := h5 he
          refine ⟨by rw [List.length_cons, ha], ?_⟩
          intro p hp
          rcases List.mem_cons.mp hp with rfl | hp
          · exact le_of_eq hzero.symm
          · exact hb p hp
        · intro he
          obtain ⟨ps1, p, ha, hb, hc, hd⟩ := h6 he
          refine ⟨_ :: ps1, p, by rw [ha]; rfl, hb, ?_, hd⟩
          intro p1 hp1
          rcases List.mem_cons.mp hp1 with rfl | hp1
          · exact le_of_eq hzero.symm
          · exact hc p1 hp1
        · intro p hp hge
          rcases List.mem_cons.mp hp with rfl | hp
          · rw [h8 i (fun p' hp' _ => hne p' hp')]
            simp only [if_true, hpos, decide_False]
          · rw [h7 p hp hge]
            simp only [if_neg (hne p hp)]
        · intro j hj
          have hji : ¬ j = i := fun h =>
            hj _ (List.mem_cons_self _ _) (le_of_eq hzero.symm) h.symm
          rw [h8 j (fun p hp hge => hj p (List.mem_cons_of_mem _ hp) hge)]
          simp only [if_neg hji]
        · rw [h9]
          simp only [List.filter_cons, hpos, decide_False, Bool.false_eq_true, if_false]
        · rw [h10]
          simp [hpos]
      · rw [if_neg hzero]
        have hneg : (J.poll st.hw i (st.sq_buf i).work_id).1 < 0 := by omega
        refine ⟨[(⟨i, (st.sq_buf i).work_id, (J.poll st.hw i (st.sq_buf i).work_id).1⟩ :
          PollEvent)], rfl, rfl, by simp, ?_, ?_, ?_, ?_, ?_, ?_, ?_⟩
        · intro p hp
          rw [List.mem_singleton] at hp
          subst hp
          rfl
        · intro he
          simp at he
        · intro _
          exact ⟨[], _, rfl, hneg, by simp, rfl⟩
        · intro p hp hge
          rw [List.mem_singleton] at hp
          subst hp
          exact absurd hneg (not_lt.mpr hge)
        · intro j _
          rfl
        · simp [hpos]
        · simp [hpos]

/-- What the call `mlnx_poll` inherits from its first loop when the pointer
`rx_ready` is not null. -/
theorem mlnx_poll_of_loop {τ : Type} (J : JobPort τ) (qc : QueueConfig) (q : rxp_queue) (hw : τ)
    (r : Bool) (tx : Option Bool) :
    (mlnx_poll J qc q hw (some r) tx).polls
      = (mlnx_poll_loop J qc.NUM_SQS 0 ⟨q.sq_buf, q.num_resp_to_read, false, hw, [], 1⟩).2.polls ∧
    (mlnx_poll J qc q hw (some r) tx).queue.sq_buf
      = (mlnx_poll_loop J qc.NUM_SQS 0 ⟨q.sq_buf, q.num_resp_to_read, false, hw, [], 1⟩).2.sq_buf ∧
    (mlnx_poll J qc q hw (some r) tx).queue.num_resp_to_read
      = (mlnx_poll_loop J qc.NUM_SQS 0
        ⟨q.sq_buf, q.num_resp_to_read, false, hw, [], 1⟩).2.num_resp_to_read ∧
    (mlnx_poll J qc q hw (some r) tx).rx_ready
      = some (mlnx_poll_loop J qc.NUM_SQS 0
        ⟨q.sq_buf, q.num_resp_to_read, false, hw, [], 1⟩).2.rx_ready ∧
    ((mlnx_poll_loop J qc.NUM_SQS 0 ⟨q.sq_buf, q.num_resp_to_read, false, hw, [], 1⟩).1 = false →
      (mlnx_poll J qc q hw (some r) tx).ret = 1 ∧
      (mlnx_poll J qc q hw (some r) tx).tx_ready
        = tx.map (fun _ => mlnx_poll_tx (mlnx_poll_loop J qc.NUM_SQS 0
          ⟨q.sq_buf, q.num_resp_to_read, false, hw, [], 1⟩).2.sq_buf qc.NUM_SQS)) ∧
    ((mlnx_poll_loop J qc.NUM_SQS 0 ⟨q.sq_buf, q.num_resp_to_read, false, hw, [], 1⟩).1 = true →
      (mlnx_poll J qc q hw (some r) tx).ret
        = (mlnx_poll_loop J qc.NUM_SQS 0
          ⟨q.sq_buf, q.num_resp_to_read, false, hw, [], 1⟩).2.ret ∧
      (mlnx_poll J qc q hw (some r) tx).tx_ready = tx) := by
  unfold mlnx_poll mlnx_poll_rx
  simp only []
  cases h : (mlnx_poll_loop J qc.NUM_SQS 0
    ⟨q.sq_buf, q.num_resp_to_read, false, hw, [], 1⟩).1 <;> simp [h]

/-- The second loop of `mlnx_poll` answers whether some slot is not busy. -/
theorem mlnx_poll_tx_iff (sq_buf : Nat → rxp_sq_buf) (n : Nat) :
    mlnx_poll_tx sq_buf n = true ↔ ∃ i, i < n ∧ (sq_buf i).sq_busy = false := by
  have key : ∀ (l : List Nat) (b : Bool),
      l.foldl (fun tx i => if (sq_buf i).sq_busy = false then true else tx) b = true ↔
        b = true ∨ ∃ i ∈ l, (sq_buf i).sq_busy = false := by
    intro l
    induction l with
    | nil => intro b; simp
    | cons x t ih =>
      intro b
      rw [List.foldl_cons, ih]
      by_cases hx : (sq_buf x).sq_busy = false
      · simp [hx]
      · simp [hx]
  unfold mlnx_poll_tx
  rw [key]
  simp [List.mem_range]

/-- C23: outcomes of `mlnx_poll` when it is given a non-null `rx_ready` and no
completion query returns an error (a negative value).  The function returns 1; it
queries every slot below `NUM_SQS` once, in ascending order, with the work
identifier of the slot; the response-ready flag of every slot queried ends as "the
query returned a positive value" (so a 0 result clears a stale flag) and nothing
else of any slot changes, in particular no busy flag; `*rx_ready` ends true iff some
query returned a positive value; and the counter `num_resp_to_read` grows by the
number of queries that returned a positive value.  (With a null `rx_ready` no query
is made and the queue is left as it is.) -/
theorem mlnx_poll_outcomes {τ : Type} (J : JobPort τ) (qc : QueueConfig) (q : rxp_queue) (hw : τ)
    (r : Bool) (tx : Option Bool)
    (hok : ∀ p ∈ (mlnx_poll J qc q hw (some r) tx).polls, 0 ≤ p.ret) :
    (mlnx_poll J qc q hw (some r) tx).ret = 1 ∧
    (mlnx_poll J qc q hw (some r) tx).polls.map (fun p => (p.sq, p.work_id))
      = (List.range qc.NUM_SQS).map (fun i => (i, (q.sq_buf i).work_id)) ∧
    (∀ p ∈ (mlnx_poll J qc q hw (some r) tx).polls,
      (mlnx_poll J qc q hw (some r) tx).queue.sq_buf p.sq
        = { q.sq_buf p.sq with sq_resp_ready := decide (p.ret > 0) }) ∧
    (∀ j, qc.NUM_SQS ≤ j → (mlnx_poll J qc q hw (some r) tx).queue.sq_buf j = q.sq_buf j) ∧
    (∀ j, ((mlnx_poll J qc q hw (some r) tx).queue.sq_buf j).sq_busy = (q.sq_buf j).sq_busy) ∧
    (mlnx_poll J qc q hw (some r) tx).rx_ready
      = some ((mlnx_poll J qc q hw (some r) tx).polls.any fun p => p.ret > 0) ∧
    (mlnx_poll J qc q hw (some r) tx).queue.num_resp_to_read
      = q.num_resp_to_read
        + ((mlnx_poll J qc q hw (some r) tx).polls.filter fun p => p.ret > 0).length ∧
    ((mlnx_poll J qc q hw none tx).polls = [] ∧
      (mlnx_poll J qc q hw none tx).queue.sq_buf = q.sq_buf ∧
      (mlnx_poll J qc q hw none tx).queue.num_resp_to_read = q.num_resp_to_read ∧
      (mlnx_poll J qc q hw none tx).ret = 1) := by
  obtain ⟨hpolls, hbuf, hnum, hrx, hfalse, htrue⟩ := mlnx_poll_of_loop J qc q hw r tx
  obtain ⟨ps, h1, h2, h3, h4, h5, h6, h7, h8, h9, h10⟩ := poll_loop_spec J qc.NUM_SQS 0
    ⟨q.sq_buf, q.num_resp_to_read, false, hw, [], 1⟩
  simp only [List.nil_append, Bool.false_or] at h1 h4 h7 h8 h9 h10
  rw [hpolls, h1] at hok
  have he : (mlnx_poll_loop J qc.NUM_SQS 0
      ⟨q.sq_buf, q.num_resp_to_read, false, hw, [], 1⟩).1 = false := by
    cases hc : (mlnx_poll_loop J qc.NUM_SQS 0
      ⟨q.sq_buf, q.num_resp_to_read, false, hw, [], 1⟩).1
    · rfl
    · obtain ⟨ps1, p, ha, hb, _, _⟩ := h6 hc
      have := hok p (by rw [ha]; simp)
      omega
  obtain ⟨hlen, _⟩ := h5 he
  have hsq : ∀ p ∈ ps, p.sq < qc.NUM_SQS := fun p hp => by
    have hm : p.sq ∈ ps.map (fun p => p.sq) := List.mem_map_of_mem _ hp
    rw [h2] at hm
    have := (List.mem_range'_1.mp hm).2
    omega
  rw [hpolls, hbuf, hnum, hrx, h1, h9, h10]
  refine ⟨(hfalse he).1, ?_, fun p hp => h7 p hp (hok p hp), ?_, ?_, rfl, rfl, ?_⟩
  · have hmap : ps.map (fun p => (p.sq, p.work_id))
        = (ps.map (fun p => p.sq)).map (fun i => (i, (q.sq_buf i).work_id)) := by
      rw [List.map_map]
      apply List.map_congr_left
      intro p hp
      simp only [Function.comp, h4 p hp]
    rw [hmap, h2, hlen, List.range_eq_range']
  · intro j hj
    exact h8 j (fun p hp _ h => by have := hsq p hp; omega)
  · intro j
    by_cases hex : ∃ p ∈ ps, p.sq = j
    · obtain ⟨p, hp, rfl⟩ := hex
      rw [h7 p hp (hok p hp)]
    · rw [h8 j (fun p hp _ h => hex ⟨p, hp, h⟩)]
  · unfold mlnx_poll mlnx_poll_rx
    simp

/-- C23, witness: four slots, the completion queries return 1, 0, 0, 1: slots 0 and 3
end response-ready, `*rx_ready` is true and the counter goes from 2 to 4. -/
theorem mlnx_poll_outcomes_witness :
    (mlnx_poll scriptJobs exampleQueueConfig ⟨fun _ => idleSlot, 2⟩ [1, 0, 0, 1]
      (some false) (some false)).ret = 1 ∧
    (mlnx_poll scriptJobs exampleQueueConfig ⟨fun _ => idleSlot, 2⟩ [1, 0, 0, 1]
      (some false) (some false)).queue.num_resp_to_read = 4 := by
  have h := mlnx_poll_outcomes scriptJobs exampleQueueConfig ⟨fun _ => idleSlot, 2⟩ [1, 0, 0, 1]
    false (some false) (by decide)
  exact ⟨h.1, h.2.2.2.2.2.2.1.trans (by decide)⟩

/-- C24 (as amended): when a completion query of `mlnx_poll` returns an error (a
negative value), that query is the last one, `mlnx_poll` returns its value at once
and leaves `*tx_ready` as it was.  The results of the queries made before it stay:
each of these slots has its response-ready flag set to "the query returned a
positive value", the counter `num_resp_to_read` has grown by the number of positive
results, and `*rx_ready`, reset to false on entry, is true iff one of them was
positive.  The slot of the failed query and the slots after it are left as they
were. -/
theorem mlnx_poll_error {τ : Type} (J : JobPort τ) (qc : QueueConfig) (q : rxp_queue) (hw : τ)
    (r : Bool) (tx : Option Bool)
    (herr : ∃ p ∈ (mlnx_poll J qc q hw (some r) tx).polls, p.ret < 0) :
    ∃ (ps : List PollEvent) (p : PollEvent),
      (mlnx_poll J qc q hw (some r) tx).polls = ps ++ [p] ∧ p.ret < 0 ∧
      (∀ p1 ∈ ps, 0 ≤ p1.ret) ∧
      ps.map (fun p => p.sq) = List.range ps.length ∧ p.sq = ps.length ∧
      (mlnx_poll J qc q hw (some r) tx).ret = p.ret ∧
      (mlnx_poll J qc q hw (some r) tx).tx_ready = tx ∧
      (∀ p1 ∈ ps, (mlnx_poll J qc q hw (some r) tx).queue.sq_buf p1.sq
        = { q.sq_buf p1.sq with sq_resp_ready := decide (p1.ret > 0) }) ∧
      (∀ j, ps.length ≤ j → (mlnx_poll J qc q hw (some r) tx).queue.sq_buf j = q.sq_buf j) ∧
      (mlnx_poll J qc q hw (some r) tx).queue.num_resp_to_read
        = q.num_resp_to_read + (ps.filter fun p => p.ret > 0).length ∧
      (mlnx_poll J qc q hw (some r) tx).rx_ready = some (ps.any fun p => p.ret > 0) := by
  obtain ⟨hpolls, hbuf, hnum, hrx, hfalse, htrue⟩ := mlnx_poll_of_loop J qc q hw r tx
  obtain ⟨ps, h1, h2, h3, h4, h5, h6, h7, h8, h9, h10⟩ := poll_loop_spec J qc.NUM_SQS 0
    ⟨q.sq_buf, q.num_resp_to_read, false, hw, [], 1⟩
  simp only [List.nil_append, Bool.false_or] at h1 h4 h7 h8 h9 h10
  rw [hpolls, h1] at herr
  have he : (mlnx_poll_loop J qc.NUM_SQS 0
      ⟨q.sq_buf, q.num_resp_to_read, false, hw, [], 1⟩).1 = true := by
    cases hc : (mlnx_poll_loop J qc.NUM_SQS 0
      ⟨q.sq_buf, q.num_resp_to_read, false, hw, [], 1⟩).1
    · obtain ⟨p, hp, hneg⟩ := herr
      have := (h5 hc).2 p hp
      omega
    · rfl
  obtain ⟨ps1, p, ha, hb, hc, hd⟩ := h6 he
  subst ha
  have hmap : ps1.map (fun p => p.sq) = List.range ps1.length ∧ p.sq = ps1.length := by
    rw [List.map_append, List.length_append, List.length_singleton, List.range'_concat,
      List.map_singleton] at h2
    have hl : (ps1.map (fun p => p.sq)).length = (List.range' 0 ps1.length).length := by
      simp
    obtain ⟨e1, e2⟩ := List.append_inj h2 hl
    rw [List.range_eq_range']
    refine ⟨e1, ?_⟩
    simp only [List.cons.injEq, and_true] at e2
    omega
  have hsq : ∀ p1 ∈ ps1, p1.sq < ps1.length := fun p1 hp1 => by
    have hm : p1.sq ∈ ps1.map (fun p => p.sq) := List.mem_map_of_mem _ hp1
    rw [hmap.1] at hm
    exact List.mem_range.mp hm
  have hfil : ((ps1 ++ [p]).filter fun p => p.ret > 0) = ps1.filter fun p => p.ret > 0 := by
    rw [List.filter_append]
    have : ¬ p.ret > 0 := by omega
    simp [this]
  have hany : ((ps1 ++ [p]).any fun p => p.ret > 0) = ps1.any fun p => p.ret > 0 := by
    rw [List.any_append]
    have : ¬ p.ret > 0 := by omega
    simp [this]
  refine ⟨ps1, p, by rw [hpolls, h1], hb, hc, hmap.1, hmap.2, ?_, (htrue he).2, ?_, ?_, ?_, ?_⟩
  · rw [(htrue he).1, hd]
  · intro p1 hp1
    rw [hbuf]
    exact h7 p1 (List.mem_append_left _ hp1) (hc p1 hp1)
  · intro j hj
    rw [hbuf]
    apply h8
    intro p1 hp1 hge hsame
    rcases List.mem_append.mp hp1 with h | h
    · have := hsq p1 h
      omega
    · rw [List.mem_singleton] at h
      subst h
      omega
  · rw [hnum, h9, hfil]
  · rw [hrx, h10, hany]

/-- C24, witness: four slots, the completion queries return 1 then -1: the theorem
applies, and `*tx_ready` keeps the value it had. -/
theorem mlnx_poll_error_witness :
    (mlnx_poll scriptJobs exampleQueueConfig ⟨fun _ => idleSlot, 0⟩ [1, -1]
      (some false) (some true)).tx_ready = some true := by
  obtain ⟨_, _, _, _, _, _, _, _, htx, _⟩ := mlnx_poll_error scriptJobs exampleQueueConfig
    ⟨fun _ => idleSlot, 0⟩ [1, -1] false (some true) ⟨⟨1, 0, -1⟩, by decide, by decide⟩
  exact htx

/-- C24, counterexample to the claim as stated: four idle slots, counter 0, the
completion query of slot 0 returns 1 and that of slot 1 returns -1.  `mlnx_poll`
returns -1 after two queries, but slot 0 is now marked response-ready, the counter
is 1 and `*rx_ready` is true: a partial result. -/
theorem mlnx_poll_error_counterexample :
    (mlnx_poll scriptJobs exampleQueueConfig ⟨fun _ => idleSlot, 0⟩ [1, -1]
      (some false) (some true)).ret = -1 ∧
    (mlnx_poll scriptJobs exampleQueueConfig ⟨fun _ => idleSlot, 0⟩ [1, -1]
      (some false) (some true)).polls = [⟨0, 0, 1⟩, ⟨1, 0, -1⟩] ∧
    (idleSlot.sq_resp_ready = false ∧
      ((mlnx_poll scriptJobs exampleQueueConfig ⟨fun _ => idleSlot, 0⟩ [1, -1]
        (some false) (some true)).queue.sq_buf 0).sq_resp_ready = true) ∧
    (mlnx_poll scriptJobs exampleQueueConfig ⟨fun _ => idleSlot, 0⟩ [1, -1]
      (some false) (some true)).queue.num_resp_to_read = 1 ∧
    (mlnx_poll scriptJobs exampleQueueConfig ⟨fun _ => idleSlot, 0⟩ [1, -1]
      (some false) (some true)).rx_ready = some true ∧
    (mlnx_poll scriptJobs exampleQueueConfig ⟨fun _ => idleSlot, 0⟩ [1, -1]
      (some false) (some true)).tx_ready = some true := by
  decide

/-! ## mlnx_read_resp -/

theorem copiesOf_append (rc : RespConfig) (mem : Nat → RespMem) (a b : List Nat) :
    copiesOf rc mem (a ++ b) = copiesOf rc mem a ++ copiesOf rc mem b := by
  induction a with
  | nil => rfl
  | cons x t ih => simp [copiesOf, ih]

/-- The loop of `mlnx_read_resp`: the slots it copies are the first of the slots
marked response-ready, in ascending order; each of them ends with both flags
cleared and every other slot is left as it was; the count of responses and the
copies follow the copied slots; the only value of an early exit is -1. -/
theorem read_loop_spec (rc : RespConfig) (mem : Nat → RespMem) (buf_size : Nat) :
    ∀ (fuel i : Nat) (st : ReadState),
      ∃ cs, (mlnx_read_resp_loop rc mem buf_size fuel i st).2.copied = st.copied ++ cs ∧
        (List.range' i fuel).filter (fun j => (st.sq_buf j).sq_resp_ready)
          = cs ++ (List.range' i fuel).filter
            (fun j => ((mlnx_read_resp_loop rc mem buf_size fuel i st).2.sq_buf j).sq_resp_ready) ∧
        (∀ j ∈ cs, (mlnx_read_resp_loop rc mem buf_size fuel i st).2.sq_buf j
          = { st.sq_buf j with sq_resp_ready := false, sq_busy := false }) ∧
        (∀ j, j ∉ cs → (mlnx_read_resp_loop rc mem buf_size fuel i st).2.sq_buf j = st.sq_buf j) ∧
        (mlnx_read_resp_loop rc mem buf_size fuel i st).2.num_returned_resp
          = st.num_returned_resp + cs.length ∧
        (mlnx_read_resp_loop rc mem buf_size fuel i st).2.copies
          = st.copies ++ copiesOf rc mem cs ∧
        (∀ r, (mlnx_read_resp_loop rc mem buf_size fuel i st).1 = some r → r = -1) ∧
        (∀ j ∈ cs, 0 ≤ (mem j).match_count) := by
  intro fuel
  induction fuel with
  | zero =>
    intro i st
    exact ⟨[], by simp [mlnx_read_resp_loop], by simp, by simp, by simp [mlnx_read_resp_loop],
      by simp [mlnx_read_resp_loop], by simp [mlnx_read_resp_loop, copiesOf],
      by simp [mlnx_read_resp_loop], by simp⟩
  | succ m ih =>
    intro i st
    rw [mlnx_read_resp_loop]
    by_cases hready : (st.sq_buf i).sq_resp_ready = true
    · rw [if_pos hready]
      simp only []
      by_cases hneg : (mem i).match_count < 0
      · rw [if_pos hneg]
        exact ⟨[], by simp, by simp, by simp, by simp, by simp, by simp [copiesOf],
          by simp, by simp⟩
      · rw [if_neg hneg]
        by_cases hbig : (st.total_response_len
            + (((mem i).match_count.toNat * rc.sizeof_rxp_match_tuple) % 2 ^ 32
              + rc.sizeof_rxp_response_desc) % 2 ^ 32) % 2 ^ 32 > buf_size
        · rw [if_pos hbig]
          exact ⟨[], by simp, by simp, by simp, by simp, by simp, by simp [copiesOf],
            by simp, by simp⟩
        · rw [if_neg hbig]
          obtain ⟨cs, h1, h2, h3, h4, h5, h6, h7, h8⟩ := ih (i + 1)
            { sq_buf := fun j => if j = i
                then { st.sq_buf i with sq_resp_ready := false, sq_busy := false }
                else st.sq_buf j
              num_returned_resp := st.num_returned_resp + 1
              total_response_len := (st.total_response_len
                + (((mem i).match_count.toNat * rc.sizeof_rxp_match_tuple) % 2 ^ 32
                  + rc.sizeof_rxp_response_desc) % 2 ^ 32) % 2 ^ 32
              copies := st.copies ++ [⟨0, rc.sizeof_rxp_response_desc, i, false⟩,
                ⟨rc.sizeof_rxp_response_desc,
                  ((mem i).match_count.toNat * rc.sizeof_rxp_match_tuple) % 2 ^ 32, i, true⟩]
              copied := st.copied ++ [i] }
          simp only [] at h1 h2 h3 h4 h5 h6
          have hfilter : (List.range' (i + 1) m).filter
              (fun j => (if j = i
                then ({ st.sq_buf i with sq_resp_ready := false, sq_busy := false } : rxp_sq_buf)
                else st.sq_buf j).sq_resp_ready)
              = (List.range' (i + 1) m).filter (fun j => (st.sq_buf j).sq_resp_ready) := by
            apply List.filter_congr
            intro j hj
            have hji : ¬ j = i := by
              have := (List.mem_range'_1.mp hj).1
              omega
            simp only [if_neg hji]
          rw [hfilter] at h2
          have hge : ∀ j ∈ cs, ¬ j = i := by
            intro j hj
            have hm : j ∈ (List.range' (i + 1) m).filter
                (fun j => (st.sq_buf j).sq_resp_ready) := by
              rw [h2]
              exact List.mem_append_left _ hj
            have := (List.mem_range'_1.mp (List.mem_of_mem_filter hm)).1
            omega
          have hi : i ∉ cs := fun h => hge i h rfl
          refine ⟨i :: cs, ?_, ?_, ?_, ?_, ?_, ?_, h7, ?_⟩
          · rw [h1]; simp
          · rw [List.range'_succ, List.filter_cons, List.filter_cons, h4 i hi]
            simp only [hready, if_true, Bool.false_eq_true, if_false, List.cons_append]
            rw [h2]
          · intro j hj
            rcases List.mem_cons.mp hj with rfl | hj
            · rw [h4 j hi]
              simp only [if_true]
            · rw [h3 j hj]
              simp only [if_neg (hge j hj)]
          · intro j hj
            rw [List.mem_cons, not_or] at hj
            rw [h4 j hj.2]
            simp only [if_neg hj.1]
          · rw [h5, List.length_cons]; omega
          · rw [h6]
            simp [copiesOf]
          · intro j hj
            rcases List.mem_cons.mp hj with rfl | hj
            · omega
            · exact h8 j hj
    · rw [if_neg hready]
      obtain ⟨cs, h1, h2, h3, h4, h5, h6, h7, h8⟩ := ih (i + 1) st
      have hge : ∀ j ∈ cs, ¬ j = i := by
        intro j hj
        have hm : j ∈ (List.range' (i + 1) m).filter
            (fun j => (st.sq_buf j).sq_resp_ready) := by
          rw [h2]
          exact List.mem_append_left _ hj
        have := (List.mem_range'_1.mp (List.mem_of_mem_filter hm)).1
        omega
      have hi : i ∉ cs := fun h => hge i h rfl
      refine ⟨cs, h1, ?_, h3, h4, h5, h6, h7, h8⟩
      rw [List.range'_succ, List.filter_cons, List.filter_cons, h4 i hi]
      simp only [hready, Bool.false_eq_true, if_false]
      exact h2

/-- The lengths in the loop of `mlnx_read_resp` when the lengths of the responses
marked ready add up to less than `2^32` (nothing wraps): the total is the sum of
the lengths of the responses copied, it never exceeds `buf_size`, and every copy
ends within `buf_size`.  Without a negative match count the loop does not leave
through `early_exit`. -/
theorem read_loop_bound (rc : RespConfig) (mem : Nat → RespMem) (buf_size : Nat) :
    ∀ (fuel i : Nat) (st : ReadState),
      st.total_response_len ≤ buf_size →
      st.total_response_len + (((List.range' i fuel).filter
        (fun j => (st.sq_buf j).sq_resp_ready)).map (fun j => responseLen rc (mem j))).sum
          < 2 ^ 32 →
      ∃ cs, (mlnx_read_resp_loop rc mem buf_size fuel i st).2.copied = st.copied ++ cs ∧
        (mlnx_read_resp_loop rc mem buf_size fuel i st).2.total_response_len
          = st.total_response_len + (cs.map (fun j => responseLen rc (mem j))).sum ∧
        (mlnx_read_resp_loop rc mem buf_size fuel i st).2.total_response_len ≤ buf_size ∧
        (∀ c ∈ copiesOf rc mem cs, c.offset + c.len ≤ buf_size) ∧
        ((∀ j ∈ (List.range' i fuel).filter (fun j => (st.sq_buf j).sq_resp_ready),
            0 ≤ (mem j).match_count) →
          (mlnx_read_resp_loop rc mem buf_size fuel i st).1 = none) := by
  intro fuel
  induction fuel with
  | zero =>
    intro i st hle _
    exact ⟨[], by simp [mlnx_read_resp_loop], by simp [mlnx_read_resp_loop],
      by simpa [mlnx_read_resp_loop] using hle, by simp [copiesOf],
      by simp [mlnx_read_resp_loop]⟩
  | succ m ih =>
    intro i st hle hsum
    rw [mlnx_read_resp_loop]
    by_cases hready : (st.sq_buf i).sq_resp_ready = true
    · rw [if_pos hready]
      simp only []
      rw [List.range'_succ, List.filter_cons] at hsum
      simp only [hready, if_true, List.map_cons, List.sum_cons] at hsum
      by_cases hneg : (mem i).match_count < 0
      · rw [if_pos hneg]
        refine ⟨[], by simp, by simp, by simpa using hle, by simp [copiesOf], ?_⟩
        intro hall
        have := hall i (by
          rw [List.range'_succ, List.filter_cons]
          simp [hready])
        omega
      · rw [if_neg hneg]
        have hL : responseLen rc (mem i)
            = rc.sizeof_rxp_response_desc
              + (mem i).match_count.toNat * rc.sizeof_rxp_match_tuple := rfl
        rw [hL] at hsum
        generalize hX : (mem i).match_count.toNat * rc.sizeof_rxp_match_tuple = X at hsum hL ⊢
        generalize hS : (((List.range' (i + 1) m).filter
          (fun j => (st.sq_buf j).sq_resp_ready)).map (fun j => responseLen rc (mem j))).sum
          = S at hsum
        have e1 : X % 2 ^ 32 = X := Nat.mod_eq_of_lt (by omega)
        have e2 : (X + rc.sizeof_rxp_response_desc) % 2 ^ 32
            = X + rc.sizeof_rxp_response_desc := Nat.mod_eq_of_lt (by omega)
        have e3 : (st.total_response_len + (X + rc.sizeof_rxp_response_desc)) % 2 ^ 32
            = st.total_response_len + (X + rc.sizeof_rxp_response_desc) :=
          Nat.mod_eq_of_lt (by omega)
        rw [e1, e2, e3]
        by_cases hbig : st.total_response_len + (X + rc.sizeof_rxp_response_desc) > buf_size
        · rw [if_pos hbig]
          refine ⟨[], by simp, by simp, by simpa using hle, by simp [copiesOf], ?_⟩
          intro _
          rfl
        · rw [if_neg hbig]
          have hfilter : (List.range' (i + 1) m).filter
              (fun j => (if j = i
                then ({ st.sq_buf i with sq_resp_ready := false, sq_busy := false } : rxp_sq_buf)
                else st.sq_buf j).sq_resp_ready)
              = (List.range' (i + 1) m).filter (fun j => (st.sq_buf j).sq_resp_ready) := by
            apply List.filter_congr
            intro j hj
            have hji : ¬ j = i := by
              have := (List.mem_range'_1.mp hj).1
              omega
            simp only [if_neg hji]
          obtain ⟨cs, h1, h2, h3, h4, h5⟩ := ih (i + 1)
            { sq_buf := fun j => if j = i
                then { st.sq_buf i with sq_resp_ready := false, sq_busy := false }
                else st.sq_buf j
              num_returned_resp := st.num_returned_resp + 1
              total_response_len := st.total_response_len + (X + rc.sizeof_rxp_response_desc)
              copies := st.copies ++ [⟨0, rc.sizeof_rxp_response_desc, i, false⟩,
                ⟨rc.sizeof_rxp_response_desc, X, i, true⟩]
              copied := st.copied ++ [i] }
            (by show st.total_response_len + (X + rc.sizeof_rxp_response_desc) ≤ buf_size
                omega)
            (by
              show st.total_response_len + (X + rc.sizeof_rxp_response_desc) + _ < 2 ^ 32
              rw [hfilter, hS]
              omega)
          simp only [] at h1 h2 h3 h4 h5
          rw [hfilter] at h5
          refine ⟨i :: cs, ?_, ?_, h3, ?_, ?_⟩
          · rw [h1]; simp
          · rw [h2, List.map_cons, List.sum_cons, hL]
            omega
          · intro c hc
            simp only [copiesOf, hX, e1, List.mem_cons] at hc
            rcases hc with rfl | rfl | hc
            · show 0 + rc.sizeof_rxp_response_desc ≤ buf_size
              omega
            · show rc.sizeof_rxp_response_desc + X ≤ buf_size
              omega
            · exact h4 c hc
          · intro hall
            apply h5
            intro j hj
            apply hall
            rw [List.range'_succ, List.filter_cons]
            simp only [hready, if_true]
            exact List.mem_cons_of_mem _ hj
    · rw [if_neg hready]
      rw [List.range'_succ, List.filter_cons] at hsum
      simp only [hready, Bool.false_eq_true, if_false] at hsum
      obtain ⟨cs, h1, h2, h3, h4, h5⟩ := ih (i + 1) st hle hsum
      refine ⟨cs, h1, h2, h3, h4, ?_⟩
      intro hall
      apply h5
      intro j hj
      apply hall
      rw [List.range'_succ, List.filter_cons]
      simp only [hready, Bool.false_eq_true, if_false]
      exact hj

/-- C26 (as amended): buffer bound of `mlnx_read_resp` when the lengths (header plus
`match_count` tuples) of the responses marked ready add up to less than `2^31`, so
that no `uint32_t` length wraps.  The copies made are those of `copiesOf` for the
slots copied, every copy ends at an offset of `buf` not above `buf_size`, and when
no ready slot reports a negative match count the value returned is the sum of the
lengths of the responses copied, which is at most `buf_size`. -/
theorem mlnx_read_resp_bound (qc : QueueConfig) (rc : RespConfig) (q : rxp_queue)
    (mem : Nat → RespMem) (buf_size : Nat)
    (hsum : ((readySlots q.sq_buf qc.NUM_SQS).map (fun j => responseLen rc (mem j))).sum
      < 2 ^ 31) :
    (mlnx_read_resp qc rc q mem buf_size).copies
      = copiesOf rc mem (mlnx_read_resp qc rc q mem buf_size).copied ∧
    (∀ c ∈ (mlnx_read_resp qc rc q mem buf_size).copies, c.offset + c.len ≤ buf_size) ∧
    ((∀ j ∈ readySlots q.sq_buf qc.NUM_SQS, 0 ≤ (mem j).match_count) →
      (mlnx_read_resp qc rc q mem buf_size).ret
        = ((((mlnx_read_resp qc rc q mem buf_size).copied.map
            (fun j => responseLen rc (mem j))).sum : Nat) : Int) ∧
      (((mlnx_read_resp qc rc q mem buf_size).copied.map
        (fun j => responseLen rc (mem j))).sum ≤ buf_size)) := by
  unfold readySlots at hsum
  rw [List.range_eq_range'] at hsum
  obtain ⟨cs, h1, h2, h3, h4, h5⟩ := read_loop_bound rc mem buf_size qc.NUM_SQS 0
    ⟨q.sq_buf, 0, 0, [], []⟩ (Nat.zero_le _) (by
      show 0 + (((List.range' 0 qc.NUM_SQS).filter
        (fun j => (q.sq_buf j).sq_resp_ready)).map (fun j => responseLen rc (mem j))).sum
          < 2 ^ 32
      omega)
  obtain ⟨cs2, g1, g2, g3, g4, g5, g6, g7, g8⟩ := read_loop_spec rc mem buf_size qc.NUM_SQS 0
    ⟨q.sq_buf, 0, 0, [], []⟩
  simp only [List.nil_append, Nat.zero_add] at h1 h2 g1 g6
  have hcs : cs2 = cs := by rw [← g1, h1]
  subst hcs
  have hcopied : (mlnx_read_resp qc rc q mem buf_size).copied = cs2 := h1
  have hcopies : (mlnx_read_resp qc rc q mem buf_size).copies = copiesOf rc mem cs2 := g6
  rw [hcopied, hcopies]
  refine ⟨rfl, h4, ?_⟩
  intro hall
  have hnone := h5 (by
    intro j hj
    apply hall
    unfold readySlots
    rw [List.range_eq_range']
    exact hj)
  have hle : (cs2.map (fun j => responseLen rc (mem j))).sum ≤ buf_size := by
    rw [← h2]; exact h3
  refine ⟨?_, hle⟩
  have hlt : (cs2.map (fun j => responseLen rc (mem j))).sum < 2 ^ 31 := by
    have hsub : (cs2.map (fun j => responseLen rc (mem j))).sum
        ≤ (((List.range' 0 qc.NUM_SQS).filter
          (fun j => (q.sq_buf j).sq_resp_ready)).map (fun j => responseLen rc (mem j))).sum := by
      have := g2
      simp only [] at this
      rw [this, List.map_append, List.sum_append]
      exact Nat.le_add_right _ _
    omega
  unfold mlnx_read_resp
  simp only [hnone, h2]
  exact toInt32_of_lt hlt

/-- C26, witness: two ready slots with 1 and 2 matches (16-byte headers, 8-byte
tuples) and a buffer of 100 bytes: the value returned is 56. -/
theorem mlnx_read_resp_bound_witness :
    (mlnx_read_resp exampleQueueConfig exampleRespConfig
      ⟨fun i => if i < 2 then { idleSlot with sq_resp_ready := true, sq_busy := true }
        else idleSlot, 0⟩
      (fun i => ⟨i + 1, fun k => k, fun k => k⟩) 100).ret = 56 := by
  have h := (mlnx_read_resp_bound exampleQueueConfig exampleRespConfig
    ⟨fun i => if i < 2 then { idleSlot with sq_resp_ready := true, sq_busy := true }
      else idleSlot, 0⟩
    (fun i => ⟨i + 1, fun k => k, fun k => k⟩) 100 (by decide)).2.2 (by decide)
  rw [h.1]
  decide

/-- C26, counterexample to the claim as stated: one ready slot whose match count is
`2^29 - 1`, 16-byte headers, 8-byte tuples and a buffer of 100 bytes.  The tuple
length `(2^29 - 1) * 8` fits 32 bits but adding the header wraps to 8, the check
against `buf_size` passes, and the tuples are copied to offset 16 with length
`2^32 - 8`: far beyond the buffer.  The value returned is 8. -/
theorem mlnx_read_resp_bound_counterexample :
    (mlnx_read_resp exampleQueueConfig exampleRespConfig
      ⟨fun i => if i = 0 then { idleSlot with sq_resp_ready := true, sq_busy := true }
        else idleSlot, 0⟩
      (fun _ => ⟨2 ^ 29 - 1, fun k => k, fun k => k⟩) 100).copies
      = [⟨0, 16, 0, false⟩, ⟨16, 2 ^ 32 - 8, 0, true⟩] ∧
    (mlnx_read_resp exampleQueueConfig exampleRespConfig
      ⟨fun i => if i = 0 then { idleSlot with sq_resp_ready := true, sq_busy := true }
        else idleSlot, 0⟩
      (fun _ => ⟨2 ^ 29 - 1, fun k => k, fun k => k⟩) 100).ret = 8 ∧
    100 < 16 + (2 ^ 32 - 8) := by
  decide

/-- C27, the code at the failing input: two ready slots with one match each, 16-byte
headers, 8-byte tuples, a buffer of 64 zero bytes; the header bytes of slot `j`
are `100 * (j + 1) + k` and its tuple bytes `200 * (j + 1) + k`.  Both responses are
copied and the value returned is 48, but every copy goes to offsets 0 and 16: the
first 48 bytes of the buffer are the response of slot 1 followed by 24 untouched
bytes, not the response of slot 0 followed by the response of slot 1. -/
theorem mlnx_read_resp_overwrites :
    (mlnx_read_resp exampleQueueConfig exampleRespConfig
      ⟨fun i => if i < 2 then { idleSlot with sq_resp_ready := true, sq_busy := true }
        else idleSlot, 0⟩
      (fun j => ⟨1, fun k => 100 * (j + 1) + k, fun k => 200 * (j + 1) + k⟩) 64).ret = 48 ∧
    (mlnx_read_resp exampleQueueConfig exampleRespConfig
      ⟨fun i => if i < 2 then { idleSlot with sq_resp_ready := true, sq_busy := true }
        else idleSlot, 0⟩
      (fun j => ⟨1, fun k => 100 * (j + 1) + k, fun k => 200 * (j + 1) + k⟩) 64).copied
      = [0, 1] ∧
    (mlnx_read_resp exampleQueueConfig exampleRespConfig
      ⟨fun i => if i < 2 then { idleSlot with sq_resp_ready := true, sq_busy := true }
        else idleSlot, 0⟩
      (fun j => ⟨1, fun k => 100 * (j + 1) + k, fun k => 200 * (j + 1) + k⟩) 64).copies
      = [⟨0, 16, 0, false⟩, ⟨16, 8, 0, true⟩, ⟨0, 16, 1, false⟩, ⟨16, 8, 1, true⟩] ∧
    (List.range 48).map (bufAfter
      (fun j => ⟨1, fun k => 100 * (j + 1) + k, fun k => 200 * (j + 1) + k⟩)
      (mlnx_read_resp exampleQueueConfig exampleRespConfig
        ⟨fun i => if i < 2 then { idleSlot with sq_resp_ready := true, sq_busy := true }
          else idleSlot, 0⟩
        (fun j => ⟨1, fun k => 100 * (j + 1) + k, fun k => 200 * (j + 1) + k⟩) 64).copies
      (fun _ => 0))
      = responseBytes exampleRespConfig ⟨1, fun k => 200 + k, fun k => 400 + k⟩
        ++ List.replicate 24 0 ∧
    (List.range 48).map (bufAfter
      (fun j => ⟨1, fun k => 100 * (j + 1) + k, fun k => 200 * (j + 1) + k⟩)
      (mlnx_read_resp exampleQueueConfig exampleRespConfig
        ⟨fun i => if i < 2 then { idleSlot with sq_resp_ready := true, sq_busy := true }
          else idleSlot, 0⟩
        (fun j => ⟨1, fun k => 100 * (j + 1) + k, fun k => 200 * (j + 1) + k⟩) 64).copies
      (fun _ => 0))
      ≠ responseBytes exampleRespConfig ⟨1, fun k => 100 + k, fun k => 200 + k⟩
        ++ responseBytes exampleRespConfig ⟨1, fun k => 200 + k, fun k => 400 + k⟩ := by
  decide

/-- Slot effects of `mlnx_read_resp`.  The slots whose responses are copied
are the first of the slots marked response-ready, in ascending order, and the
slots still marked ready after the call are the remaining ones; each slot copied
ends with `sq_resp_ready` and `sq_busy` cleared and nothing else changed, every
other slot is left exactly as it was (a ready slot not copied stays ready, and busy
if it was), and `*num_returned_resp` is the number of slots copied.  Hence a second
call, with no poll in between, copies further slots of that same list and none
of the slots already copied: over the two calls no response is copied twice and
every response not yet copied is still marked ready. -/
theorem mlnx_read_resp_slots (qc : QueueConfig) (rc : RespConfig) (q : rxp_queue)
    (mem mem2 : Nat → RespMem) (buf_size buf_size2 : Nat) :
    readySlots q.sq_buf qc.NUM_SQS
      = (mlnx_read_resp qc rc q mem buf_size).copied
        ++ readySlots (mlnx_read_resp qc rc q mem buf_size).queue.sq_buf qc.NUM_SQS ∧
    (mlnx_read_resp qc rc q mem buf_size).num_returned_resp
      = (mlnx_read_resp qc rc q mem buf_size).copied.length ∧
    (∀ j ∈ (mlnx_read_resp qc rc q mem buf_size).copied,
      (mlnx_read_resp qc rc q mem buf_size).queue.sq_buf j
        = { q.sq_buf j with sq_resp_ready := false, sq_busy := false }) ∧
    (∀ j, j ∉ (mlnx_read_resp qc rc q mem buf_size).copied →
      (mlnx_read_resp qc rc q mem buf_size).queue.sq_buf j = q.sq_buf j) ∧
    (mlnx_read_resp qc rc q mem buf_size).queue.num_resp_to_read = q.num_resp_to_read ∧
    readySlots q.sq_buf qc.NUM_SQS
      = (mlnx_read_resp qc rc q mem buf_size).copied
        ++ (mlnx_read_resp qc rc (mlnx_read_resp qc rc q mem buf_size).queue mem2
          buf_size2).copied
        ++ readySlots (mlnx_read_resp qc rc (mlnx_read_resp qc rc q mem buf_size).queue mem2
          buf_size2).queue.sq_buf qc.NUM_SQS ∧
    ((mlnx_read_resp qc rc q mem buf_size).copied
      ++ (mlnx_read_resp qc rc (mlnx_read_resp qc rc q mem buf_size).queue mem2
        buf_size2).copied).Nodup := by
  have key : ∀ (q0 : rxp_queue) (m0 : Nat → RespMem) (b0 : Nat),
      readySlots q0.sq_buf qc.NUM_SQS
        = (mlnx_read_resp qc rc q0 m0 b0).copied
          ++ readySlots (mlnx_read_resp qc rc q0 m0 b0).queue.sq_buf qc.NUM_SQS ∧
      (mlnx_read_resp qc rc q0 m0 b0).num_returned_resp
        = (mlnx_read_resp qc rc q0 m0 b0).copied.length ∧
      (∀ j ∈ (mlnx_read_resp qc rc q0 m0 b0).copied,
        (mlnx_read_resp qc rc q0 m0 b0).queue.sq_buf j
          = { q0.sq_buf j with sq_resp_ready := false, sq_busy := false }) ∧
      (∀ j, j ∉ (mlnx_read_resp qc rc q0 m0 b0).copied →
        (mlnx_read_resp qc rc q0 m0 b0).queue.sq_buf j = q0.sq_buf j) := by
    intro q0 m0 b0
    obtain ⟨cs, g1, g2, g3, g4, g5, _, _, _⟩ := read_loop_spec rc m0 b0 qc.NUM_SQS 0
      ⟨q0.sq_buf, 0, 0, [], []⟩
    simp only [List.nil_append, Nat.zero_add] at g1 g2 g3 g4 g5
    have hcopied : (mlnx_read_resp qc rc q0 m0 b0).copied = cs := g1
    rw [hcopied]
    refine ⟨?_, g5, g3, g4⟩
    unfold readySlots
    rw [List.range_eq_range']
    exact g2
  obtain ⟨a1, a2, a3, a4⟩ := key q mem buf_size
  obtain ⟨b1, _, _, _⟩ := key (mlnx_read_resp qc rc q mem buf_size).queue mem2 buf_size2
  have hall : readySlots q.sq_buf qc.NUM_SQS
      = (mlnx_read_resp qc rc q mem buf_size).copied
        ++ (mlnx_read_resp qc rc (mlnx_read_resp qc rc q mem buf_size).queue mem2
          buf_size2).copied
        ++ readySlots (mlnx_read_resp qc rc (mlnx_read_resp qc rc q mem buf_size).queue mem2
          buf_size2).queue.sq_buf qc.NUM_SQS := by
    rw [List.append_assoc, ← b1]
    exact a1
  refine ⟨a1, a2, a3, a4, rfl, hall, ?_⟩
  have hnd : (readySlots q.sq_buf qc.NUM_SQS).Nodup :=
    List.Nodup.filter _ (List.nodup_range _)
  rw [hall] at hnd
  exact List.Nodup.of_append_left hnd

/-- Slots 0, 1 and 3 hold a response of 24 bytes each.  A first call with a buffer
of 30 bytes copies slot 0 only and leaves slots 1 and 3 ready; a second call with
a buffer of 64 bytes copies slots 1 and 3: each slot is copied from once. -/
theorem mlnx_read_resp_slots_witness :
    ((mlnx_read_resp exampleQueueConfig exampleRespConfig
        ⟨fun i => { idleSlot with sq_busy := true, sq_resp_ready := decide (i ≠ 2) }, 0⟩
        (fun _ => ⟨1, fun k => k, fun k => k⟩) 30).copied
      ++ (mlnx_read_resp exampleQueueConfig exampleRespConfig
        (mlnx_read_resp exampleQueueConfig exampleRespConfig
          ⟨fun i => { idleSlot with sq_busy := true, sq_resp_ready := decide (i ≠ 2) }, 0⟩
          (fun _ => ⟨1, fun k => k, fun k => k⟩) 30).queue
        (fun _ => ⟨1, fun k => k, fun k => k⟩) 64).copied).Nodup ∧
    (mlnx_read_resp exampleQueueConfig exampleRespConfig
        ⟨fun i => { idleSlot with sq_busy := true, sq_resp_ready := decide (i ≠ 2) }, 0⟩
        (fun _ => ⟨1, fun k => k, fun k => k⟩) 30).copied = [0] ∧
    (mlnx_read_resp exampleQueueConfig exampleRespConfig
        (mlnx_read_resp exampleQueueConfig exampleRespConfig
          ⟨fun i => { idleSlot with sq_busy := true, sq_resp_ready := decide (i ≠ 2) }, 0⟩
          (fun _ => ⟨1, fun k => k, fun k => k⟩) 30).queue
        (fun _ => ⟨1, fun k => k, fun k => k⟩) 64).copied = [1, 3] :=
  ⟨(mlnx_read_resp_slots exampleQueueConfig exampleRespConfig
      ⟨fun i => { idleSlot with sq_busy := true, sq_resp_ready := decide (i ≠ 2) }, 0⟩
      (fun _ => ⟨1, fun k => k, fun k => k⟩) (fun _ => ⟨1, fun k => k, fun k => k⟩)
      30 64).2.2.2.2.2.2, by decide, by decide⟩

/-! ## mlnx_submit_job: failed posts and slots in use -/

/-- The posts of a call of `mlnx_submit_job`: each goes to a slot below `NUM_SQS`
that was neither busy nor response-ready; a slot posted to ends filled for its job,
busy iff the post was accepted; the other slots are left as they were; and nothing
is posted after a post that was not accepted. -/
theorem submit_posts {τ : Type} (J : JobPort τ) (qc : QueueConfig) (q : rxp_queue) (hw : τ)
    (data : Nat → rxp_job) (job_count : Nat) :
    (∀ p ∈ (mlnx_submit_job J qc q hw data job_count).posts, p.sq < qc.NUM_SQS ∧
      (q.sq_buf p.sq).sq_busy = false ∧ (q.sq_buf p.sq).sq_resp_ready = false) ∧
    (∀ p ∈ (mlnx_submit_job J qc q hw data job_count).posts,
      (mlnx_submit_job J qc q hw data job_count).queue.sq_buf p.sq =
        { mlnx_submit_job_fill (q.sq_buf p.sq) (data p.job) with
          work_id := p.work_id, sq_busy := decide (p.work_id > -1) }) ∧
    (∀ j, (∀ p ∈ (mlnx_submit_job J qc q hw data job_count).posts, p.sq ≠ j) →
      (mlnx_submit_job J qc q hw data job_count).queue.sq_buf j = q.sq_buf j) ∧
    (∀ ps1 p ps2, (mlnx_submit_job J qc q hw data job_count).posts = ps1 ++ p :: ps2 →
      ¬ p.work_id > -1 → ps2 = []) ∧
    (mlnx_submit_job J qc q hw data job_count).queue.num_resp_to_read = q.num_resp_to_read := by
  by_cases h0 : job_count = 0
  · subst h0
    refine ⟨by simp [mlnx_submit_job], by simp [mlnx_submit_job], by simp [mlnx_submit_job],
      ?_, by simp [mlnx_submit_job]⟩
    intro ps1 p ps2 h
    simp [mlnx_submit_job] at h
  · obtain ⟨ps, h1, h2, h3, h4, h5⟩ := submit_loop_posts J qc data job_count qc.NUM_SQS 0
      ⟨q.sq_buf, hw, [], 0, 0⟩
    simp only [List.nil_append, Nat.zero_add] at h1 h2 h3 h4
    have hposts : (mlnx_submit_job J qc q hw data job_count).posts = ps := by
      unfold mlnx_submit_job
      rw [if_neg h0]
      exact h1
    have hbuf : (mlnx_submit_job J qc q hw data job_count).queue.sq_buf
        = (mlnx_submit_job_loop J qc data job_count qc.NUM_SQS 0
          ⟨q.sq_buf, hw, [], 0, 0⟩).sq_buf := by
      unfold mlnx_submit_job
      rw [if_neg h0]
    have hnum : (mlnx_submit_job J qc q hw data job_count).queue.num_resp_to_read
        = q.num_resp_to_read := by
      unfold mlnx_submit_job
      rw [if_neg h0]
    rw [hposts, hbuf]
    exact ⟨fun p hp => ⟨(h2 p hp).2.1, (h2 p hp).2.2.1, (h2 p hp).2.2.2⟩, h3, h4, h5, hnum⟩

/-- A call of `mlnx_poll` changes nothing of a slot but its response-ready flag,
whatever the completion queries return. -/
theorem mlnx_poll_keeps {τ : Type} (J : JobPort τ) (qc : QueueConfig) (q : rxp_queue) (hw : τ)
    (rx tx : Option Bool) (j : Nat) :
    (mlnx_poll J qc q hw rx tx).queue.sq_buf j
      = { q.sq_buf j with
          sq_resp_ready := ((mlnx_poll J qc q hw rx tx).queue.sq_buf j).sq_resp_ready } := by
  cases rx with
  | none => simp [mlnx_poll, mlnx_poll_rx]
  | some r =>
    obtain ⟨_, hb, _⟩ := mlnx_poll_of_loop J qc q hw r tx
    obtain ⟨ps, _, _, _, _, _, _, h7, h8, _, _⟩ := poll_loop_spec J qc.NUM_SQS 0
      ⟨q.sq_buf, q.num_resp_to_read, false, hw, [], 1⟩
    rw [hb]
    by_cases h : ∃ p ∈ ps, 0 ≤ p.ret ∧ p.sq = j
    · obtain ⟨p, hp, hret, hsq⟩ := h
      have := h7 p hp hret
      rw [hsq] at this
      rw [this]
    · have := h8 j (by
        intro p hp hret hsq
        exact h ⟨p, hp, hret, hsq⟩)
      rw [this]

/-- A call of `mlnx_poll` that returns 1 left its first loop at its end, not through
`early_exit`. -/
theorem mlnx_poll_ret_one {τ : Type} (J : JobPort τ) (qc : QueueConfig) (q : rxp_queue) (hw : τ)
    (rx tx : Option Bool) (hret : (mlnx_poll J qc q hw rx tx).ret = 1) :
    (mlnx_poll J qc q hw rx tx).tx_ready
      = tx.map (fun _ => mlnx_poll_tx (mlnx_poll J qc q hw rx tx).queue.sq_buf qc.NUM_SQS) := by
  cases rx with
  | none => simp [mlnx_poll, mlnx_poll_rx]
  | some r =>
    obtain ⟨_, hb, _, _, h5, h6⟩ := mlnx_poll_of_loop J qc q hw r tx
    obtain ⟨ps, _, _, _, _, _, g6, _⟩ := poll_loop_spec J qc.NUM_SQS 0
      ⟨q.sq_buf, q.num_resp_to_read, false, hw, [], 1⟩
    cases hl : (mlnx_poll_loop J qc.NUM_SQS 0
      ⟨q.sq_buf, q.num_resp_to_read, false, hw, [], 1⟩).1 with
    | false =>
      rw [(h5 hl).2, hb]
    | true =>
      obtain ⟨ps1, p, _, hneg, _, hr⟩ := g6 hl
      have := (h6 hl).1
      rw [hret, hr] at this
      omega

/-- A call of `mlnx_read_resp` clears the two flags of the slots it copies, which
are below `NUM_SQS`, and leaves every other slot as it was. -/
theorem read_resp_frame (qc : QueueConfig) (rc : RespConfig) (q : rxp_queue)
    (mem : Nat → RespMem) (buf_size : Nat) :
    (∀ j ∈ (mlnx_read_resp qc rc q mem buf_size).copied, j < qc.NUM_SQS ∧
      (q.sq_buf j).sq_resp_ready = true ∧
      (mlnx_read_resp qc rc q mem buf_size).queue.sq_buf j
        = { q.sq_buf j with sq_resp_ready := false, sq_busy := false }) ∧
    (∀ j, j ∉ (mlnx_read_resp qc rc q mem buf_size).copied →
      (mlnx_read_resp qc rc q mem buf_size).queue.sq_buf j = q.sq_buf j) := by
  obtain ⟨cs, g1, g2, g3, g4, _⟩ := read_loop_spec rc mem buf_size qc.NUM_SQS 0
    ⟨q.sq_buf, 0, 0, [], []⟩
  simp only [List.nil_append, Nat.zero_add] at g1 g2 g3 g4
  have hcopied : (mlnx_read_resp qc rc q mem buf_size).copied = cs := g1
  rw [hcopied]
  refine ⟨?_, g4⟩
  intro j hj
  have hmem : j ∈ (List.range' 0 qc.NUM_SQS).filter (fun i => (q.sq_buf i).sq_resp_ready) := by
    have := g2
    simp only [] at this
    rw [this]
    exact List.mem_append_left _ hj
  rw [List.mem_filter, List.mem_range'_1] at hmem
  exact ⟨by omega, hmem.2, g3 j hj⟩

/-- The posts of the loop of `mlnx_submit_job` go to slots of strictly ascending
index. -/
theorem submit_loop_sorted {τ : Type} (J : JobPort τ) (qc : QueueConfig) (data : Nat → rxp_job)
    (job_count : Nat) :
    ∀ (fuel i : Nat) (st : SubmitState τ),
      ∃ ps, (mlnx_submit_job_loop J qc data job_count fuel i st).posts = st.posts ++ ps ∧
        ps.Pairwise (fun a b => a.sq < b.sq) ∧ ∀ p ∈ ps, i ≤ p.sq := by
  intro fuel
  induction fuel with
  | zero =>
    intro i st
    exact ⟨[], by simp [mlnx_submit_job_loop], List.Pairwise.nil, by simp⟩
  | succ m ih =>
    intro i st
    rw [mlnx_submit_job_loop]
    by_cases hc : st.num_jobs_processed ≥ job_count
    · rw [if_pos hc]
      exact ⟨[], by simp, List.Pairwise.nil, by simp⟩
    · rw [if_neg hc]
      by_cases hfree : (st.sq_buf i).sq_busy = false ∧ (st.sq_buf i).sq_resp_ready ≠ true
      · rw [if_pos hfree]
        simp only []
        by_cases hok : (J.send_work st.hw i
            (mlnx_submit_job_fill (st.sq_buf i) (data st.num_jobs_processed))).1 > -1
        · rw [if_pos hok]
          obtain ⟨ps, h1, h2, h3⟩ := ih (i + 1)
            { sq_buf := fun j => if j = i then
                { mlnx_submit_job_fill (st.sq_buf i) (data st.num_jobs_processed) with
                  work_id := (J.send_work st.hw i
                    (mlnx_submit_job_fill (st.sq_buf i) (data st.num_jobs_processed))).1,
                  sq_busy := true }
                else st.sq_buf j
              hw := (J.send_work st.hw i
                (mlnx_submit_job_fill (st.sq_buf i) (data st.num_jobs_processed))).2
              posts := st.posts ++ [⟨i, st.num_jobs_processed,
                mlnx_submit_job_fill (st.sq_buf i) (data st.num_jobs_processed),
                (J.send_work st.hw i
                  (mlnx_submit_job_fill (st.sq_buf i) (data st.num_jobs_processed))).1⟩]
              bytes_written := wrapInt32 (st.bytes_written
                + ((data st.num_jobs_processed).len % 2 ^ 16 : Nat)
                + (qc.sizeof_rxp_job_desc : Nat))
              num_jobs_processed := st.num_jobs_processed + 1 }
          simp only [] at h1
          refine ⟨(⟨i, st.num_jobs_processed,
            mlnx_submit_job_fill (st.sq_buf i) (data st.num_jobs_processed),
            (J.send_work st.hw i
              (mlnx_submit_job_fill (st.sq_buf i) (data st.num_jobs_processed))).1⟩
              : PostEvent) :: ps, ?_, ?_, ?_⟩
          · rw [h1, List.append_assoc]
            rfl
          · refine List.Pairwise.cons ?_ h2
            intro p hp
            have := h3 p hp
            show i < p.sq
            omega
          · intro p hp
            rcases List.mem_cons.mp hp with hp | hp
            · rw [hp]
            · have := h3 p hp
              omega
        · rw [if_neg hok]
          refine ⟨[(⟨i, st.num_jobs_processed,
            mlnx_submit_job_fill (st.sq_buf i) (data st.num_jobs_processed),
            (J.send_work st.hw i
              (mlnx_submit_job_fill (st.sq_buf i) (data st.num_jobs_processed))).1⟩
              : PostEvent)], rfl, List.pairwise_singleton _ _, ?_⟩
          intro p hp
          rw [List.mem_singleton.mp hp]
      · rw [if_neg hfree]
        obtain ⟨ps, h1, h2, h3⟩ := ih (i + 1) st
        refine ⟨ps, h1, h2, ?_⟩
        intro p hp
        have := h3 p hp
        omega

/-- C21: a failed post of `mlnx_submit_job`.  When a post of the call returns a
work identifier below 0, it is the last post of the call (no later job of the list
is posted), the slot it went to ends with `sq_busy == false` and
`sq_resp_ready == false`, and every post made before it in the call was accepted
and its slot ends busy. -/
theorem mlnx_submit_job_post_failure {τ : Type} (J : JobPort τ) (qc : QueueConfig)
    (q : rxp_queue) (hw : τ) (data : Nat → rxp_job) (job_count : Nat)
    (ps1 : List PostEvent) (p : PostEvent) (ps2 : List PostEvent)
    (hposts : (mlnx_submit_job J qc q hw data job_count).posts = ps1 ++ p :: ps2)
    (hfail : p.work_id < 0) :
    ps2 = [] ∧
    ((mlnx_submit_job J qc q hw data job_count).queue.sq_buf p.sq).sq_busy = false ∧
    ((mlnx_submit_job J qc q hw data job_count).queue.sq_buf p.sq).sq_resp_ready = false ∧
    (∀ p1 ∈ ps1, p1.work_id > -1 ∧
      ((mlnx_submit_job J qc q hw data job_count).queue.sq_buf p1.sq).sq_busy = true) := by
  obtain ⟨h1, h2, _, h4, _⟩ := submit_posts J qc q hw data job_count
  have hp : p ∈ (mlnx_submit_job J qc q hw data job_count).posts := by
    rw [hposts]
    simp
  have hnot : ¬ p.work_id > -1 := by omega
  refine ⟨h4 ps1 p ps2 hposts hnot, ?_, ?_, ?_⟩
  · rw [h2 p hp]
    simp [hnot]
  · rw [h2 p hp]
    exact (h1 p hp).2.2
  · intro p1 hp1
    have hmem : p1 ∈ (mlnx_submit_job J qc q hw data job_count).posts := by
      rw [hposts]
      exact List.mem_append_left _ hp1
    have hacc : p1.work_id > -1 := by
      by_contra hn
      obtain ⟨a, b, hab⟩ := List.append_of_mem hp1
      have := h4 a p1 (b ++ p :: ps2) (by rw [hposts, hab]; simp) hn
      simp at this
    refine ⟨hacc, ?_⟩
    rw [h2 p1 hmem]
    simp [hacc]

/-- C21, witness: three jobs on four free slots, the first post accepted with work
identifier 0 and the second refused: slot 1 is left not busy, slot 0 is busy and
the third job is not posted. -/
theorem mlnx_submit_job_post_failure_witness :
    ((mlnx_submit_job scriptJobs exampleQueueConfig ⟨fun _ => idleSlot, 0⟩ [0, -1]
      (fun n => ⟨⟨n, 0, []⟩, 0, []⟩) 3).queue.sq_buf 1).sq_busy = false ∧
    ((mlnx_submit_job scriptJobs exampleQueueConfig ⟨fun _ => idleSlot, 0⟩ [0, -1]
      (fun n => ⟨⟨n, 0, []⟩, 0, []⟩) 3).queue.sq_buf 0).sq_busy = true ∧
    (mlnx_submit_job scriptJobs exampleQueueConfig ⟨fun _ => idleSlot, 0⟩ [0, -1]
      (fun n => ⟨⟨n, 0, []⟩, 0, []⟩) 3).posts.length = 2 := by
  have h := mlnx_submit_job_post_failure scriptJobs exampleQueueConfig ⟨fun _ => idleSlot, 0⟩
    [0, -1] (fun n => ⟨⟨n, 0, []⟩, 0, []⟩) 3
    [⟨0, 0, mlnx_submit_job_fill idleSlot ⟨⟨0, 0, []⟩, 0, []⟩, 0⟩]
    ⟨1, 1, mlnx_submit_job_fill idleSlot ⟨⟨1, 0, []⟩, 0, []⟩, -1⟩ [] (by decide) (by decide)
  exact ⟨h.2.1, (h.2.2.2 _ (List.mem_singleton.mpr rfl)).2, by decide⟩

/-- A sequence of calls on a queue extends the two logs, and a slot that is busy
before it is neither posted to nor changed in its busy flag, job identifier and
work identifier, unless a call of `mlnx_read_resp` of the sequence copied its
response. -/
theorem run_calls_busy {τ : Type} (J : JobPort τ) (qc : QueueConfig) (rc : RespConfig) :
    ∀ (calls : List QueueCall) (st : QueueRun τ) (j : Nat),
      ∃ ps cs, (runQueueCalls J qc rc calls st).posts = st.posts ++ ps ∧
        (runQueueCalls J qc rc calls st).copied = st.copied ++ cs ∧
        ((st.queue.sq_buf j).sq_busy = true → j ∉ cs →
          (∀ p ∈ ps, p.sq ≠ j) ∧
          ((runQueueCalls J qc rc calls st).queue.sq_buf j).sq_busy = true ∧
          ((runQueueCalls J qc rc calls st).queue.sq_buf j).job_id
            = (st.queue.sq_buf j).job_id ∧
          ((runQueueCalls J qc rc calls st).queue.sq_buf j).work_id
            = (st.queue.sq_buf j).work_id) := by
  intro calls
  induction calls with
  | nil =>
    intro st j
    exact ⟨[], [], by simp [runQueueCalls], by simp [runQueueCalls],
      fun hb _ => ⟨by simp, hb, rfl, rfl⟩⟩
  | cons c t ih =>
    intro st j
    rw [runQueueCalls]
    obtain ⟨ps, cs, h1, h2, h3⟩ := ih (runQueueCall J qc rc st c) j
    cases c with
    | submit data job_count =>
      obtain ⟨g1, _, g3, _, _⟩ := submit_posts J qc st.queue st.hw data job_count
      refine ⟨(mlnx_submit_job J qc st.queue st.hw data job_count).posts ++ ps, cs, ?_, h2, ?_⟩
      · rw [h1, ← List.append_assoc]
        rfl
      · intro hb hcs
        have hno : ∀ p ∈ (mlnx_submit_job J qc st.queue st.hw data job_count).posts,
            p.sq ≠ j := by
          intro p hp hsq
          have := (g1 p hp).2.1
          rw [hsq, hb] at this
          exact Bool.noConfusion this
        have hsame : (runQueueCall J qc rc st (.submit data job_count)).queue.sq_buf j
            = st.queue.sq_buf j := g3 j hno
        obtain ⟨k1, k2, k3, k4⟩ := h3 (by rw [hsame]; exact hb) hcs
        rw [hsame] at k3 k4
        refine ⟨?_, k2, k3, k4⟩
        intro p hp
        rcases List.mem_append.mp hp with hp | hp
        · exact hno p hp
        · exact k1 p hp
    | poll rx tx =>
      have hkeep := mlnx_poll_keeps J qc st.queue st.hw rx tx j
      have hsame : (runQueueCall J qc rc st (.poll rx tx)).queue.sq_buf j
          = { st.queue.sq_buf j with sq_resp_ready :=
              ((mlnx_poll J qc st.queue st.hw rx tx).queue.sq_buf j).sq_resp_ready } := hkeep
      refine ⟨ps, cs, h1, h2, ?_⟩
      intro hb hcs
      obtain ⟨k1, k2, k3, k4⟩ := h3 (by rw [hsame]; exact hb) hcs
      rw [hsame] at k3 k4
      exact ⟨k1, k2, k3, k4⟩
    | read mem buf_size =>
      obtain ⟨_, g2⟩ := read_resp_frame qc rc st.queue mem buf_size
      refine ⟨ps, (mlnx_read_resp qc rc st.queue mem buf_size).copied ++ cs, h1, ?_, ?_⟩
      · rw [h2, ← List.append_assoc]
        rfl
      · intro hb hcs
        rw [List.mem_append, not_or] at hcs
        have hsame : (runQueueCall J qc rc st (.read mem buf_size)).queue.sq_buf j
            = st.queue.sq_buf j := g2 j hcs.1
        obtain ⟨k1, k2, k3, k4⟩ := h3 (by rw [hsame]; exact hb) hcs.2
        rw [hsame] at k3 k4
        exact ⟨k1, k2, k3, k4⟩

/-- C22: per-slot mutual exclusion.  A slot that is busy or response-ready when
`mlnx_submit_job` is called receives no post of the call and is left exactly as it
was (busy flag, response-ready flag, job identifier, work identifier and
buffers); the posts of a call go to slots of strictly ascending index below
`NUM_SQS`, so no slot receives two jobs in one call, and the busy slots are at most
`NUM_SQS`.  Over any sequence of calls of `mlnx_submit_job`, `mlnx_poll` and
`mlnx_read_resp` that follows, as long as no call of `mlnx_read_resp` has copied
the response of a slot that was busy, no job is posted to that slot and it stays
busy with the same job identifier and work identifier. -/
theorem mlnx_submit_job_exclusion {τ : Type} (J : JobPort τ) (qc : QueueConfig)
    (rc : RespConfig) (q : rxp_queue) (hw : τ) (data : Nat → rxp_job) (job_count : Nat)
    (j : Nat) (hj : (q.sq_buf j).sq_busy = true ∨ (q.sq_buf j).sq_resp_ready = true) :
    (∀ p ∈ (mlnx_submit_job J qc q hw data job_count).posts, p.sq ≠ j) ∧
    (mlnx_submit_job J qc q hw data job_count).queue.sq_buf j = q.sq_buf j ∧
    (mlnx_submit_job J qc q hw data job_count).posts.Pairwise (fun a b => a.sq < b.sq) ∧
    (∀ p ∈ (mlnx_submit_job J qc q hw data job_count).posts, p.sq < qc.NUM_SQS) ∧
    (busySlots (mlnx_submit_job J qc q hw data job_count).queue.sq_buf qc.NUM_SQS).length
      ≤ qc.NUM_SQS ∧
    ((q.sq_buf j).sq_busy = true → ∀ calls : List QueueCall,
      j ∉ (runQueueCalls J qc rc calls ⟨q, hw, [], []⟩).copied →
      (∀ p ∈ (runQueueCalls J qc rc calls ⟨q, hw, [], []⟩).posts, p.sq ≠ j) ∧
      ((runQueueCalls J qc rc calls ⟨q, hw, [], []⟩).queue.sq_buf j).sq_busy = true ∧
      ((runQueueCalls J qc rc calls ⟨q, hw, [], []⟩).queue.sq_buf j).job_id
        = (q.sq_buf j).job_id ∧
      ((runQueueCalls J qc rc calls ⟨q, hw, [], []⟩).queue.sq_buf j).work_id
        = (q.sq_buf j).work_id ∧
      (busySlots (runQueueCalls J qc rc calls ⟨q, hw, [], []⟩).queue.sq_buf
        qc.NUM_SQS).length ≤ qc.NUM_SQS) := by
  obtain ⟨g1, _, g3, _, _⟩ := submit_posts J qc q hw data job_count
  have hno : ∀ p ∈ (mlnx_submit_job J qc q hw data job_count).posts, p.sq ≠ j := by
    intro p hp hsq
    have h := g1 p hp
    rw [hsq] at h
    rcases hj with hj | hj
    · rw [h.2.1] at hj
      exact Bool.noConfusion hj
    · rw [h.2.2] at hj
      exact Bool.noConfusion hj
  have hlen : ∀ sq_buf : Nat → rxp_sq_buf, (busySlots sq_buf qc.NUM_SQS).length ≤ qc.NUM_SQS := by
    intro sq_buf
    unfold busySlots
    calc ((List.range qc.NUM_SQS).filter fun i => (sq_buf i).sq_busy).length
        ≤ (List.range qc.NUM_SQS).length := List.length_filter_le _ _
      _ = qc.NUM_SQS := List.length_range _
  refine ⟨hno, g3 j hno, ?_, fun p hp => (g1 p hp).1, hlen _, ?_⟩
  · by_cases h0 : job_count = 0
    · subst h0
      simp [mlnx_submit_job]
    · obtain ⟨ps, h1, h2, _⟩ := submit_loop_sorted J qc data job_count qc.NUM_SQS 0
        ⟨q.sq_buf, hw, [], 0, 0⟩
      simp only [List.nil_append] at h1
      have hposts : (mlnx_submit_job J qc q hw data job_count).posts = ps := by
        unfold mlnx_submit_job
        rw [if_neg h0]
        exact h1
      rw [hposts]
      exact h2
  · intro hb calls hcs
    obtain ⟨ps, cs, h1, h2, h3⟩ := run_calls_busy J qc rc calls ⟨q, hw, [], []⟩ j
    simp only [List.nil_append] at h1 h2
    rw [h2] at hcs
    obtain ⟨k1, k2, k3, k4⟩ := h3 hb hcs
    rw [h1]
    exact ⟨k1, k2, k3, k4, hlen _⟩

/-- C22, witness: slot 1 is busy with job 7 (work identifier 5).  Two jobs are
submitted, the queue is polled (no completion), a read copies nothing and two more
jobs are submitted, of which one finds a free slot: the three posts go to slots 0,
2 and 3 and slot 1 still holds job 7. -/
theorem mlnx_submit_job_exclusion_witness :
    ((runQueueCalls countingJobs exampleQueueConfig exampleRespConfig
      [.submit (fun n => ⟨⟨n, 0, []⟩, 0, []⟩) 2, .poll (some false) (some false),
        .read (fun _ => ⟨1, fun k => k, fun k => k⟩) 8,
        .submit (fun n => ⟨⟨n + 10, 0, []⟩, 0, []⟩) 2]
      ⟨⟨fun i => if i = 1 then { idleSlot with sq_busy := true, job_id := 7, work_id := 5 }
        else idleSlot, 0⟩, 0, [], []⟩).queue.sq_buf 1).job_id = 7 ∧
    (runQueueCalls countingJobs exampleQueueConfig exampleRespConfig
      [.submit (fun n => ⟨⟨n, 0, []⟩, 0, []⟩) 2, .poll (some false) (some false),
        .read (fun _ => ⟨1, fun k => k, fun k => k⟩) 8,
        .submit (fun n => ⟨⟨n + 10, 0, []⟩, 0, []⟩) 2]
      ⟨⟨fun i => if i = 1 then { idleSlot with sq_busy := true, job_id := 7, work_id := 5 }
        else idleSlot, 0⟩, 0, [], []⟩).posts.map (fun p => p.sq) = [0, 2, 3] := by
  have h := (mlnx_submit_job_exclusion countingJobs exampleQueueConfig exampleRespConfig
    ⟨fun i => if i = 1 then { idleSlot with sq_busy := true, job_id := 7, work_id := 5 }
      else idleSlot, 0⟩ 0 (fun n => ⟨⟨n, 0, []⟩, 0, []⟩) 2 1 (Or.inl (by decide))).2.2.2.2.2
    (by decide)
    [.submit (fun n => ⟨⟨n, 0, []⟩, 0, []⟩) 2, .poll (some false) (some false),
      .read (fun _ => ⟨1, fun k => k, fun k => k⟩) 8,
      .submit (fun n => ⟨⟨n + 10, 0, []⟩, 0, []⟩) 2] (by decide)
  exact ⟨h.2.2.1, by decide⟩

/-! ## mlnx_poll: the transmit-ready signal -/

/-- When every post is accepted, no slot is response-ready and the jobs are at least
as many as the free slots, `mlnx_submit_job` leaves every slot busy. -/
theorem submit_all_busy {τ : Type} (J : JobPort τ) (qc : QueueConfig) (q : rxp_queue) (hw : τ)
    (data : Nat → rxp_job) (job_count : Nat)
    (hpost : ∀ s i slot, (J.send_work s i slot).1 > -1)
    (hready : ∀ i, i < qc.NUM_SQS → (q.sq_buf i).sq_resp_ready = false)
    (hcount : (freeSlots q.sq_buf qc.NUM_SQS).length ≤ job_count) :
    ∀ i, i < qc.NUM_SQS →
      ((mlnx_submit_job J qc q hw data job_count).queue.sq_buf i).sq_busy = true := by
  intro i hi
  have hfree : ∀ k, k ∈ freeSlots q.sq_buf qc.NUM_SQS ↔
      k < qc.NUM_SQS ∧ (q.sq_buf k).sq_busy = false ∧ (q.sq_buf k).sq_resp_ready = false := by
    intro k
    unfold freeSlots
    rw [List.mem_filter, List.mem_range]
    simp
  by_cases h0 : job_count = 0
  · subst h0
    have hnil : freeSlots q.sq_buf qc.NUM_SQS = [] :=
      List.eq_nil_of_length_eq_zero (Nat.le_zero.mp hcount)
    have hnot : i ∉ freeSlots q.sq_buf qc.NUM_SQS := by rw [hnil]; simp
    rw [hfree] at hnot
    have hb : (q.sq_buf i).sq_busy = true := by
      cases hbi : (q.sq_buf i).sq_busy with
      | true => rfl
      | false => exact absurd ⟨hi, hbi, hready i hi⟩ hnot
    simpa [mlnx_submit_job] using hb
  · obtain ⟨ps, h1, h2, _, h4, h5⟩ := submit_loop_assign J qc data job_count hpost qc.NUM_SQS 0
      ⟨q.sq_buf, hw, [], 0, 0⟩
    simp only [List.nil_append, Nat.sub_zero] at h1 h2 h4 h5
    have hbuf : (mlnx_submit_job J qc q hw data job_count).queue.sq_buf
        = (mlnx_submit_job_loop J qc data job_count qc.NUM_SQS 0
          ⟨q.sq_buf, hw, [], 0, 0⟩).sq_buf := by
      unfold mlnx_submit_job
      rw [if_neg h0]
    have hsq : ps.map (fun p => p.sq) = freeSlots q.sq_buf qc.NUM_SQS := by
      rw [h2]
      unfold freeSlots at hcount ⊢
      rw [List.range_eq_range'] at hcount ⊢
      exact List.take_of_length_le hcount
    rw [hbuf]
    by_cases hmem : i ∈ freeSlots q.sq_buf qc.NUM_SQS
    · rw [← hsq, List.mem_map] at hmem
      obtain ⟨p, hp, hpi⟩ := hmem
      have := (h4 p hp).2
      rw [hpi] at this
      rw [this]
    · have hsame := h5 i (by rw [hsq]; exact hmem)
      rw [hsame]
      rw [hfree] at hmem
      cases hbi : (q.sq_buf i).sq_busy with
      | true => rfl
      | false => exact absurd ⟨hi, hbi, hready i hi⟩ hmem

/-- C25: the transmit-ready signal of a call of `mlnx_poll` that succeeds (returns
1) and is given a non-null `tx_ready`.  `*tx_ready` ends true iff some slot below
`NUM_SQS` has `sq_busy == false`, and false otherwise.  In particular it ends false
when every slot is busy, as after a call of `mlnx_submit_job` on a queue without
ready responses whose posts were all accepted and whose jobs were at least as many
as the free slots; and it ends true when the queue is the one left by a call of
`mlnx_read_resp` that copied at least one response. -/
theorem mlnx_poll_tx_ready {τ : Type} (J : JobPort τ) (qc : QueueConfig) (q : rxp_queue)
    (hw : τ) (rx : Option Bool) (t : Bool)
    (hret : (mlnx_poll J qc q hw rx (some t)).ret = 1) :
    ((mlnx_poll J qc q hw rx (some t)).tx_ready = some true ↔
      ∃ i, i < qc.NUM_SQS ∧ (q.sq_buf i).sq_busy = false) ∧
    ((mlnx_poll J qc q hw rx (some t)).tx_ready = some true ∨
      (mlnx_poll J qc q hw rx (some t)).tx_ready = some false) ∧
    ((∀ i, i < qc.NUM_SQS → (q.sq_buf i).sq_busy = true) →
      (mlnx_poll J qc q hw rx (some t)).tx_ready = some false) ∧
    (∀ (q0 : rxp_queue) (hw0 : τ) (data : Nat → rxp_job) (job_count : Nat),
      q = (mlnx_submit_job J qc q0 hw0 data job_count).queue →
      (∀ s i slot, (J.send_work s i slot).1 > -1) →
      (∀ i, i < qc.NUM_SQS → (q0.sq_buf i).sq_resp_ready = false) →
      (freeSlots q0.sq_buf qc.NUM_SQS).length ≤ job_count →
      (mlnx_poll J qc q hw rx (some t)).tx_ready = some false) ∧
    (∀ (rc : RespConfig) (q0 : rxp_queue) (mem : Nat → RespMem) (buf_size : Nat),
      q = (mlnx_read_resp qc rc q0 mem buf_size).queue →
      (mlnx_read_resp qc rc q0 mem buf_size).copied ≠ [] →
      (mlnx_poll J qc q hw rx (some t)).tx_ready = some true) := by
  have htx := mlnx_poll_ret_one J qc q hw rx (some t) hret
  have hbusy : ∀ i, ((mlnx_poll J qc q hw rx (some t)).queue.sq_buf i).sq_busy
      = (q.sq_buf i).sq_busy := by
    intro i
    rw [mlnx_poll_keeps J qc q hw rx (some t) i]
  have hiff : (mlnx_poll J qc q hw rx (some t)).tx_ready = some true ↔
      ∃ i, i < qc.NUM_SQS ∧ (q.sq_buf i).sq_busy = false := by
    rw [htx]
    simp only [Option.map_some', Option.some.injEq]
    rw [mlnx_poll_tx_iff]
    constructor
    · rintro ⟨i, hi, hb⟩
      exact ⟨i, hi, by rw [← hbusy i]; exact hb⟩
    · rintro ⟨i, hi, hb⟩
      exact ⟨i, hi, by rw [hbusy i]; exact hb⟩
  have hcases : (mlnx_poll J qc q hw rx (some t)).tx_ready = some true ∨
      (mlnx_poll J qc q hw rx (some t)).tx_ready = some false := by
    rw [htx]
    simp only [Option.map_some', Option.some.injEq]
    cases mlnx_poll_tx (mlnx_poll J qc q hw rx (some t)).queue.sq_buf qc.NUM_SQS <;> simp
  have hall : (∀ i, i < qc.NUM_SQS → (q.sq_buf i).sq_busy = true) →
      (mlnx_poll J qc q hw rx (some t)).tx_ready = some false := by
    intro h
    rcases hcases with hc | hc
    · obtain ⟨i, hi, hb⟩ := hiff.mp hc
      rw [h i hi] at hb
      exact Bool.noConfusion hb
    · exact hc
  refine ⟨hiff, hcases, hall, ?_, ?_⟩
  · intro q0 hw0 data job_count hq hpost hready hcount
    apply hall
    rw [hq]
    exact submit_all_busy J qc q0 hw0 data job_count hpost hready hcount
  · intro rc q0 mem buf_size hq hne
    obtain ⟨g1, _⟩ := read_resp_frame qc rc q0 mem buf_size
    obtain ⟨j, hjm⟩ := List.exists_mem_of_ne_nil _ hne
    obtain ⟨hlt, _, hslot⟩ := g1 j hjm
    apply hiff.mpr
    refine ⟨j, hlt, ?_⟩
    rw [hq, hslot]

/-- C25, witness: on a hardware stub that accepts every post and never reports a
completion, four jobs submitted to a queue of four free slots make `mlnx_poll`
report `tx_ready == false`; and on the queue left by a call of `mlnx_read_resp` that
copied the response of slot 2 of a queue whose slots were all busy, `mlnx_poll`
reports `tx_ready == true`. -/
theorem mlnx_poll_tx_ready_witness :
    (mlnx_poll countingJobs exampleQueueConfig
      (mlnx_submit_job countingJobs exampleQueueConfig ⟨fun _ => idleSlot, 0⟩ 0
        (fun n => ⟨⟨n, 0, []⟩, 0, []⟩) 4).queue 4 (some false) (some true)).tx_ready
      = some false ∧
    (mlnx_poll countingJobs exampleQueueConfig
      (mlnx_read_resp exampleQueueConfig exampleRespConfig
        ⟨fun i => { idleSlot with sq_busy := true, sq_resp_ready := decide (i = 2) }, 0⟩
        (fun _ => ⟨1, fun k => k, fun k => k⟩) 64).queue 4 none (some false)).tx_ready
      = some true :=
  ⟨(mlnx_poll_tx_ready countingJobs exampleQueueConfig
      (mlnx_submit_job countingJobs exampleQueueConfig ⟨fun _ => idleSlot, 0⟩ 0
        (fun n => ⟨⟨n, 0, []⟩, 0, []⟩) 4).queue 4 (some false) true (by decide)).2.2.2.1
      ⟨fun _ => idleSlot, 0⟩ 0 (fun n => ⟨⟨n, 0, []⟩, 0, []⟩) 4 rfl
      (fun s _ _ => Int.lt_of_lt_of_le (by decide) (Int.ofNat_nonneg s))
      (by decide) (by decide),
   (mlnx_poll_tx_ready countingJobs exampleQueueConfig
      (mlnx_read_resp exampleQueueConfig exampleRespConfig
        ⟨fun i => { idleSlot with sq_busy := true, sq_resp_ready := decide (i = 2) }, 0⟩
        (fun _ => ⟨1, fun k => k, fun k => k⟩) 64).queue 4 none false (by decide)).2.2.2.2
      exampleRespConfig
      ⟨fun i => { idleSlot with sq_busy := true, sq_resp_ready := decide (i = 2) }, 0⟩
      (fun _ => ⟨1, fun k => k, fun k => k⟩) 64 rfl (by decide)⟩

/-! ## mlnx_open / mlnx_release: the count of open queues and the engines -/

/-- The three ways a call of `mlnx_open` ends: refused because the count of open
queues has reached `RXP_NUM_QUEUES`, with nothing changed; failed on an allocation,
with the count and the registers untouched and the bit of the queue cleared again;
or done, with the count incremented and both engines enabled if the count was 0. -/
theorem mlnx_open_effect {ρ : Type} (P : Port σ) (A : AllocPort ρ) (RXP_NUM_QUEUES : Nat)
    (qc : QueueConfig) (st : OpenState σ ρ) :
    ((RXP_NUM_QUEUES : Int) ≤ st.open_queues ∧
      mlnx_open P A RXP_NUM_QUEUES qc st = ⟨-EBUSY, st⟩) ∨
    (st.open_queues < (RXP_NUM_QUEUES : Int) ∧
      (mlnx_open P A RXP_NUM_QUEUES qc st).ret = -1 ∧
      (mlnx_open P A RXP_NUM_QUEUES qc st).st.open_queues = st.open_queues ∧
      (mlnx_open P A RXP_NUM_QUEUES qc st).st.w = st.w ∧
      (mlnx_open P A RXP_NUM_QUEUES qc st).st.queues_active
        = clearQueueBit (st.queues_active |||
            (1 <<< mlnx_open_find RXP_NUM_QUEUES st.queues_active RXP_NUM_QUEUES 0))
          (mlnx_open_find RXP_NUM_QUEUES st.queues_active RXP_NUM_QUEUES 0)) ∨
    (st.open_queues < (RXP_NUM_QUEUES : Int) ∧
      (mlnx_open P A RXP_NUM_QUEUES qc st).ret
        = toInt32 (mlnx_open_find RXP_NUM_QUEUES st.queues_active RXP_NUM_QUEUES 0) ∧
      (mlnx_open P A RXP_NUM_QUEUES qc st).st.open_queues = st.open_queues + 1 ∧
      (mlnx_open P A RXP_NUM_QUEUES qc st).st.w
        = (if st.open_queues = 0 then rxp_enable P (rxp_enable P st.w 0) 1 else st.w) ∧
      (mlnx_open P A RXP_NUM_QUEUES qc st).st.queues_active
        = st.queues_active |||
            (1 <<< mlnx_open_find RXP_NUM_QUEUES st.queues_active RXP_NUM_QUEUES 0)) := by
  unfold mlnx_open
  by_cases h : st.open_queues ≥ (RXP_NUM_QUEUES : Int)
  · left
    rw [if_pos h]
    exact ⟨h, rfl⟩
  · right
    rw [if_neg h]
    have hlt : st.open_queues < (RXP_NUM_QUEUES : Int) := by omega
    simp only []
    cases hd : (A.alloc st.heap AllocStep.rxp_job_ctx).1
    · left
      rw [if_pos (by rfl)]
      exact ⟨hlt, rfl, rfl, rfl, rfl⟩
    · rw [if_neg (by simp)]
      cases hs : (mlnx_open_slots A qc.NUM_SQS 0
          (st.queue (mlnx_open_find RXP_NUM_QUEUES st.queues_active RXP_NUM_QUEUES 0)).sq_buf
          (A.alloc st.heap AllocStep.rxp_job_ctx).2).1 with
      | some i =>
        left
        exact ⟨hlt, rfl, rfl, rfl, rfl⟩
      | none =>
        right
        exact ⟨hlt, rfl, rfl, rfl, rfl⟩

/-- The loop that looks for a free queue identifier stops at `RXP_NUM_QUEUES` at the
latest. -/
theorem mlnx_open_find_le (n a : Nat) :
    ∀ (fuel q : Nat), q + fuel ≤ n → mlnx_open_find n a fuel q ≤ n := by
  intro fuel
  induction fuel with
  | zero =>
    intro q h
    simpa [mlnx_open_find] using h
  | succ m ih =>
    intro q h
    rw [mlnx_open_find]
    split
    · exact ih (q + 1) (by omega)
    · omega

/-- A call of `mlnx_open` with `RXP_NUM_QUEUES` fitting an `int` returns a negative
value exactly when it did not open a queue. -/
theorem mlnx_open_ret_neg {ρ : Type} (P : Port σ) (A : AllocPort ρ) (RXP_NUM_QUEUES : Nat)
    (qc : QueueConfig) (st : OpenState σ ρ) (hN : RXP_NUM_QUEUES < 2 ^ 31)
    (hret : (mlnx_open P A RXP_NUM_QUEUES qc st).ret < 0) :
    (mlnx_open P A RXP_NUM_QUEUES qc st).st.open_queues = st.open_queues ∧
    (mlnx_open P A RXP_NUM_QUEUES qc st).st.w = st.w := by
  rcases mlnx_open_effect P A RXP_NUM_QUEUES qc st with h | h | h
  · rw [h.2]
    exact ⟨rfl, rfl⟩
  · exact ⟨h.2.2.1, h.2.2.2.1⟩
  · exfalso
    have hle := mlnx_open_find_le RXP_NUM_QUEUES st.queues_active RXP_NUM_QUEUES 0 (by omega)
    rw [h.2.1, toInt32_of_lt (by omega)] at hret
    omega

/-- A call of `mlnx_open` that returns a non-negative value incremented the count of
open queues. -/
theorem mlnx_open_ret_nonneg {ρ : Type} (P : Port σ) (A : AllocPort ρ) (RXP_NUM_QUEUES : Nat)
    (qc : QueueConfig) (st : OpenState σ ρ)
    (hret : 0 ≤ (mlnx_open P A RXP_NUM_QUEUES qc st).ret) :
    st.open_queues < (RXP_NUM_QUEUES : Int) ∧
    (mlnx_open P A RXP_NUM_QUEUES qc st).st.open_queues = st.open_queues + 1 ∧
    (mlnx_open P A RXP_NUM_QUEUES qc st).st.w
      = (if st.open_queues = 0 then rxp_enable P (rxp_enable P st.w 0) 1 else st.w) := by
  rcases mlnx_open_effect P A RXP_NUM_QUEUES qc st with h | h | h
  · rw [h.2] at hret
    exact absurd hret (show ¬ (0 : Int) ≤ -EBUSY by decide)
  · rw [h.2.1] at hret
    exact absurd hret (show ¬ (0 : Int) ≤ -1 by decide)
  · exact ⟨h.1, h.2.2.1, h.2.2.2.1⟩

/-- Repeated calls of `mlnx_open`: the values returned are appended to the list, and
when none of them is negative the count of open queues has grown by the number of
calls. -/
theorem run_opens {ρ : Type} (P : Port σ) (A : AllocPort ρ) (RXP_NUM_QUEUES : Nat)
    (qc : QueueConfig) :
    ∀ (n : Nat) (r : DevRun σ ρ),
      ∃ rs, (runDevCalls P A RXP_NUM_QUEUES qc (List.replicate n DevCall.open) r).rets
          = r.rets ++ rs ∧ rs.length = n ∧
        ((∀ x ∈ rs, 0 ≤ x) →
          (runDevCalls P A RXP_NUM_QUEUES qc (List.replicate n DevCall.open) r).st.open_queues
            = r.st.open_queues + n) := by
  intro n
  induction n with
  | zero =>
    intro r
    exact ⟨[], by simp [runDevCalls], rfl, by simp [runDevCalls]⟩
  | succ m ih =>
    intro r
    rw [List.replicate_succ, runDevCalls]
    obtain ⟨rs, h1, h2, h3⟩ := ih ⟨(mlnx_open P A RXP_NUM_QUEUES qc r.st).st,
      r.rets ++ [(mlnx_open P A RXP_NUM_QUEUES qc r.st).ret]⟩
    simp only [] at h1 h3
    refine ⟨(mlnx_open P A RXP_NUM_QUEUES qc r.st).ret :: rs, ?_, by simp [h2], ?_⟩
    · rw [h1, List.append_assoc]
      rfl
    · intro hall
      rw [h3 (fun x hx => hall x (List.mem_cons_of_mem _ hx)),
        (mlnx_open_ret_nonneg P A RXP_NUM_QUEUES qc r.st
          (hall _ (List.mem_cons_self _ _))).2.1]
      push_cast
      omega

/-- C29: the queue limit of `mlnx_open`.  Called when the count of open queues has
reached `RXP_NUM_QUEUES`, `mlnx_open` returns `-EBUSY` and leaves the whole state as
it was: the count of open queues, the bitmask of the active queues, the engine
registers (no register is read or written), the allocator and the queues.  And
starting from a count of 0, once `RXP_NUM_QUEUES` calls in a row have succeeded the
count is `RXP_NUM_QUEUES`, the next call returns `-EBUSY` and the count is still
`RXP_NUM_QUEUES`. -/
theorem mlnx_open_queue_limit {ρ : Type} (P : Port σ) (A : AllocPort ρ) (RXP_NUM_QUEUES : Nat)
    (qc : QueueConfig) (st : OpenState σ ρ)
    (hfull : (RXP_NUM_QUEUES : Int) ≤ st.open_queues) :
    (mlnx_open P A RXP_NUM_QUEUES qc st).ret = -EBUSY ∧
    (mlnx_open P A RXP_NUM_QUEUES qc st).st = st ∧
    (∀ st0 : OpenState σ ρ, st0.open_queues = 0 →
      (∀ x ∈ (runDevCalls P A RXP_NUM_QUEUES qc (List.replicate RXP_NUM_QUEUES DevCall.open)
        ⟨st0, []⟩).rets, 0 ≤ x) →
      (runDevCalls P A RXP_NUM_QUEUES qc (List.replicate RXP_NUM_QUEUES DevCall.open)
        ⟨st0, []⟩).st.open_queues = RXP_NUM_QUEUES ∧
      (mlnx_open P A RXP_NUM_QUEUES qc
        (runDevCalls P A RXP_NUM_QUEUES qc (List.replicate RXP_NUM_QUEUES DevCall.open)
          ⟨st0, []⟩).st).ret = -EBUSY ∧
      (mlnx_open P A RXP_NUM_QUEUES qc
        (runDevCalls P A RXP_NUM_QUEUES qc (List.replicate RXP_NUM_QUEUES DevCall.open)
          ⟨st0, []⟩).st).st.open_queues = RXP_NUM_QUEUES) := by
  have hbusy : ∀ s : OpenState σ ρ, (RXP_NUM_QUEUES : Int) ≤ s.open_queues →
      mlnx_open P A RXP_NUM_QUEUES qc s = ⟨-EBUSY, s⟩ := by
    intro s hs
    unfold mlnx_open
    rw [if_pos hs]
  refine ⟨by rw [hbusy st hfull], by rw [hbusy st hfull], ?_⟩
  intro st0 h0 hall
  obtain ⟨rs, h1, _, h3⟩ := run_opens P A RXP_NUM_QUEUES qc RXP_NUM_QUEUES ⟨st0, []⟩
  simp only [List.nil_append] at h1 h3
  rw [h1] at hall
  have hcount := h3 hall
  rw [h0, Int.zero_add] at hcount
  refine ⟨hcount, ?_, ?_⟩
  · rw [hbusy _ (by rw [hcount])]
  · rw [hbusy _ (by rw [hcount])]
    exact hcount

/-- C29, witness: with `RXP_NUM_QUEUES` = 2 and every allocation succeeding, two
queues are opened from an idle device; the third call of `mlnx_open` returns -16
and the count of open queues is still 2. -/
theorem mlnx_open_queue_limit_witness :
    (mlnx_open memPort plentyAlloc 2 exampleQueueConfig
      (runDevCalls memPort plentyAlloc 2 exampleQueueConfig [.open, .open]
        ⟨⟨0, 0, ⟨fun _ _ => 0, []⟩, (), fun _ => ⟨fun _ => idleSlot, 0⟩, fun _ => 0⟩,
          []⟩).st).ret = -16 ∧
    (mlnx_open memPort plentyAlloc 2 exampleQueueConfig
      (runDevCalls memPort plentyAlloc 2 exampleQueueConfig [.open, .open]
        ⟨⟨0, 0, ⟨fun _ _ => 0, []⟩, (), fun _ => ⟨fun _ => idleSlot, 0⟩, fun _ => 0⟩,
          []⟩).st).st.open_queues = 2 :=
  ⟨(mlnx_open_queue_limit memPort plentyAlloc 2 exampleQueueConfig
      (runDevCalls memPort plentyAlloc 2 exampleQueueConfig [.open, .open]
        ⟨⟨0, 0, ⟨fun _ _ => 0, []⟩, (), fun _ => ⟨fun _ => idleSlot, 0⟩, fun _ => 0⟩,
          []⟩).st (by decide)).1,
   ((mlnx_open_queue_limit memPort plentyAlloc 2 exampleQueueConfig
      (runDevCalls memPort plentyAlloc 2 exampleQueueConfig [.open, .open]
        ⟨⟨0, 0, ⟨fun _ _ => 0, []⟩, (), fun _ => ⟨fun _ => idleSlot, 0⟩, fun _ => 0⟩,
          []⟩).st (by decide)).2.2
      ⟨0, 0, ⟨fun _ _ => 0, []⟩, (), fun _ => ⟨fun _ => idleSlot, 0⟩, fun _ => 0⟩ rfl
      (by decide)).2.2⟩

/-- On a register file that behaves as memory, the go bits of both engines are set
after `rxp_enable(0); rxp_enable(1)` and clear after `rxp_disable(0);
rxp_disable(1)`. -/
theorem mem_enable_disable_both (w : World (Nat → Nat → Nat)) :
    ((rxp_enable memPort (rxp_enable memPort w 0) 1).hw 0 RXP_CSR_CTRL).testBit 3 = true ∧
    ((rxp_enable memPort (rxp_enable memPort w 0) 1).hw 1 RXP_CSR_CTRL).testBit 3 = true ∧
    ((rxp_disable memPort (rxp_disable memPort w 0) 1).hw 0 RXP_CSR_CTRL).testBit 3 = false ∧
    ((rxp_disable memPort (rxp_disable memPort w 0) 1).hw 1 RXP_CSR_CTRL).testBit 3 = false := by
  have he : ∀ (v : World (Nat → Nat → Nat)) (eng : Nat),
      (rxp_enable memPort v eng).hw = fun e a =>
        if e = eng ∧ a = RXP_CSR_CTRL then (v.hw eng RXP_CSR_CTRL % 2 ^ 32) ||| RXP_CSR_CTRL_GO
        else v.hw e a := fun v eng => mem_enable_hw v.hw v.trace eng
  have hd : ∀ (v : World (Nat → Nat → Nat)) (eng : Nat),
      (rxp_disable memPort v eng).hw = fun e a =>
        if e = eng ∧ a = RXP_CSR_CTRL then
          (v.hw eng RXP_CSR_CTRL % 2 ^ 32) &&& not32 RXP_CSR_CTRL_GO
        else v.hw e a := fun v eng => mem_disable_hw v.hw v.trace eng
  refine ⟨?_, ?_, ?_, ?_⟩
  · rw [he _ 1, he w 0]
    simp only [true_and, if_true]
    rw [if_neg (by decide), Nat.testBit_or, testBit_go]
    simp
  · rw [he _ 1]
    simp only [true_and, if_true]
    rw [Nat.testBit_or, testBit_go]
    simp
  · rw [hd _ 1, hd w 0]
    simp only [true_and, if_true]
    rw [if_neg (by decide), Nat.testBit_and, testBit_not32_go]
    simp
  · rw [hd _ 1]
    simp only [true_and, if_true]
    rw [Nat.testBit_and, testBit_not32_go]
    simp

/-- One call of `mlnx_open`, or one call of `mlnx_release` made while a queue is
open, keeps this true on a register file that behaves as memory: the count of open
queues is not negative and the go bit of each engine is set iff it is above 0. -/
theorem dev_call_lifecycle {ρ : Type} (A : AllocPort ρ) (RXP_NUM_QUEUES : Nat)
    (qc : QueueConfig) (st : OpenState (Nat → Nat → Nat) ρ)
    (h0 : 0 ≤ st.open_queues)
    (hb0 : (st.w.hw 0 RXP_CSR_CTRL).testBit 3 = decide (0 < st.open_queues))
    (hb1 : (st.w.hw 1 RXP_CSR_CTRL).testBit 3 = decide (0 < st.open_queues)) :
    (0 ≤ (mlnx_open memPort A RXP_NUM_QUEUES qc st).st.open_queues ∧
      ((mlnx_open memPort A RXP_NUM_QUEUES qc st).st.w.hw 0 RXP_CSR_CTRL).testBit 3
        = decide (0 < (mlnx_open memPort A RXP_NUM_QUEUES qc st).st.open_queues) ∧
      ((mlnx_open memPort A RXP_NUM_QUEUES qc st).st.w.hw 1 RXP_CSR_CTRL).testBit 3
        = decide (0 < (mlnx_open memPort A RXP_NUM_QUEUES qc st).st.open_queues)) ∧
    (∀ k, 0 < st.open_queues →
      0 ≤ (mlnx_release memPort A qc st k).st.open_queues ∧
      ((mlnx_release memPort A qc st k).st.w.hw 0 RXP_CSR_CTRL).testBit 3
        = decide (0 < (mlnx_release memPort A qc st k).st.open_queues) ∧
      ((mlnx_release memPort A qc st k).st.w.hw 1 RXP_CSR_CTRL).testBit 3
        = decide (0 < (mlnx_release memPort A qc st k).st.open_queues)) := by
  obtain ⟨e0, e1, d0, d1⟩ := mem_enable_disable_both st.w
  constructor
  · rcases mlnx_open_effect memPort A RXP_NUM_QUEUES qc st with h | h | h
    · rw [h.2]
      exact ⟨h0, hb0, hb1⟩
    · rw [h.2.2.1, h.2.2.2.1]
      exact ⟨h0, hb0, hb1⟩
    · rw [h.2.2.1, h.2.2.2.1]
      have hpos : decide (0 < st.open_queues + 1) = true := by
        rw [decide_eq_true_eq]
        omega
      rw [hpos]
      refine ⟨by omega, ?_, ?_⟩
      · by_cases hz : st.open_queues = 0
        · rw [if_pos hz]
          exact e0
        · rw [if_neg hz, hb0, decide_eq_true_eq]
          omega
      · by_cases hz : st.open_queues = 0
        · rw [if_pos hz]
          exact e1
        · rw [if_neg hz, hb1, decide_eq_true_eq]
          omega
  · intro k hpos
    have hcount : (mlnx_release memPort A qc st k).st.open_queues = st.open_queues - 1 := rfl
    have hw : (mlnx_release memPort A qc st k).st.w
        = (if st.open_queues - 1 = 0 then rxp_disable memPort (rxp_disable memPort st.w 0) 1
          else st.w) := rfl
    rw [hcount, hw]
    refine ⟨by omega, ?_, ?_⟩
    · by_cases hz : st.open_queues - 1 = 0
      · rw [if_pos hz, d0, hz]
        rfl
      · rw [if_neg hz, hb0]
        have h1 : decide (0 < st.open_queues) = true := by rw [decide_eq_true_eq]; exact hpos
        have h2 : decide (0 < st.open_queues - 1) = true := by rw [decide_eq_true_eq]; omega
        rw [h1, h2]
    · by_cases hz : st.open_queues - 1 = 0
      · rw [if_pos hz, d1, hz]
        rfl
      · rw [if_neg hz, hb1]
        have h1 : decide (0 < st.open_queues) = true := by rw [decide_eq_true_eq]; exact hpos
        have h2 : decide (0 < st.open_queues - 1) = true := by rw [decide_eq_true_eq]; omega
        rw [h1, h2]

/-- A list of calls of `mlnx_open` and `mlnx_release`, each release made while a queue
is open, keeps this true on a register file that behaves as memory: the count of
open queues is not negative and the go bit of each engine is set iff it is above
0. -/
theorem run_calls_lifecycle {ρ : Type} (A : AllocPort ρ) (RXP_NUM_QUEUES : Nat)
    (qc : QueueConfig) :
    ∀ (calls : List DevCall) (r : DevRun (Nat → Nat → Nat) ρ),
      0 ≤ r.st.open_queues →
      (r.st.w.hw 0 RXP_CSR_CTRL).testBit 3 = decide (0 < r.st.open_queues) →
      (r.st.w.hw 1 RXP_CSR_CTRL).testBit 3 = decide (0 < r.st.open_queues) →
      releasesOpen memPort A RXP_NUM_QUEUES qc calls r.st = true →
      0 ≤ (runDevCalls memPort A RXP_NUM_QUEUES qc calls r).st.open_queues ∧
      ((runDevCalls memPort A RXP_NUM_QUEUES qc calls r).st.w.hw 0 RXP_CSR_CTRL).testBit 3
        = decide (0 < (runDevCalls memPort A RXP_NUM_QUEUES qc calls r).st.open_queues) ∧
      ((runDevCalls memPort A RXP_NUM_QUEUES qc calls r).st.w.hw 1 RXP_CSR_CTRL).testBit 3
        = decide (0 < (runDevCalls memPort A RXP_NUM_QUEUES qc calls r).st.open_queues) := by
  intro calls
  induction calls with
  | nil =>
    intro r h0 hb0 hb1 _
    exact ⟨h0, hb0, hb1⟩
  | cons c t ih =>
    intro r h0 hb0 hb1 hv
    obtain ⟨ho, hr⟩ := dev_call_lifecycle A RXP_NUM_QUEUES qc r.st h0 hb0 hb1
    cases c with
    | «open» =>
      rw [runDevCalls]
      rw [releasesOpen] at hv
      exact ih ⟨(mlnx_open memPort A RXP_NUM_QUEUES qc r.st).st,
        r.rets ++ [(mlnx_open memPort A RXP_NUM_QUEUES qc r.st).ret]⟩ ho.1 ho.2.1 ho.2.2 hv
    | release k =>
      rw [runDevCalls]
      rw [releasesOpen, Bool.and_eq_true, decide_eq_true_eq] at hv
      obtain ⟨g0, g1, g2⟩ := hr k hv.1
      exact ih ⟨(mlnx_release memPort A qc r.st k).st,
        r.rets ++ [(mlnx_release memPort A qc r.st k).ret]⟩ g0 g1 g2 hv.2

/-- C30: the engine enable lifecycle.  Start with no queue open and the go bit (bit
3, mask 0x0008, of `RXP_CSR_CTRL`) of both engines clear, on a register file that
behaves as memory, and make any list of calls of `mlnx_open` (successful or not) and
of `mlnx_release`, each release made while a queue is open.  Then the go bit of
engine 0 and the go bit of engine 1 are set iff the count of open queues is above
0.  And on any register port: a call of `mlnx_open` that fails (returns a negative
value) or that finds the count of open queues other than 0, and a call of
`mlnx_release` that finds the count other than 1, make no register access at all
(the registers and the trace of accesses are as before); the first successful open
does `rxp_enable(0); rxp_enable(1)` and the last release `rxp_disable(0);
rxp_disable(1)`, and nothing else on the registers. -/
theorem mlnx_engine_lifecycle {ρ : Type} (A : AllocPort ρ) (RXP_NUM_QUEUES : Nat)
    (qc : QueueConfig) (calls : List DevCall) (st : OpenState (Nat → Nat → Nat) ρ)
    (hN : RXP_NUM_QUEUES < 2 ^ 31)
    (hcount : st.open_queues = 0)
    (hgo0 : (st.w.hw 0 RXP_CSR_CTRL).testBit 3 = false)
    (hgo1 : (st.w.hw 1 RXP_CSR_CTRL).testBit 3 = false)
    (hvalid : releasesOpen memPort A RXP_NUM_QUEUES qc calls st = true) :
    (((runDevCalls memPort A RXP_NUM_QUEUES qc calls ⟨st, []⟩).st.w.hw 0
        RXP_CSR_CTRL).testBit 3 = true ↔
      0 < (runDevCalls memPort A RXP_NUM_QUEUES qc calls ⟨st, []⟩).st.open_queues) ∧
    (((runDevCalls memPort A RXP_NUM_QUEUES qc calls ⟨st, []⟩).st.w.hw 1
        RXP_CSR_CTRL).testBit 3 = true ↔
      0 < (runDevCalls memPort A RXP_NUM_QUEUES qc calls ⟨st, []⟩).st.open_queues) ∧
    (∀ (τ : Type) (P : Port τ) (s : OpenState τ ρ) (k : Nat),
      ((mlnx_open P A RXP_NUM_QUEUES qc s).ret < 0 →
        (mlnx_open P A RXP_NUM_QUEUES qc s).st.w = s.w ∧
        (mlnx_open P A RXP_NUM_QUEUES qc s).st.open_queues = s.open_queues) ∧
      (s.open_queues ≠ 0 → (mlnx_open P A RXP_NUM_QUEUES qc s).st.w = s.w) ∧
      (s.open_queues ≠ 1 → (mlnx_release P A qc s k).st.w = s.w) ∧
      (0 ≤ (mlnx_open P A RXP_NUM_QUEUES qc s).ret → s.open_queues = 0 →
        (mlnx_open P A RXP_NUM_QUEUES qc s).st.w = rxp_enable P (rxp_enable P s.w 0) 1) ∧
      (s.open_queues = 1 →
        (mlnx_release P A qc s k).st.w = rxp_disable P (rxp_disable P s.w 0) 1)) := by
  have hdec : decide (0 < st.open_queues) = false := by
    rw [hcount]
    rfl
  obtain ⟨_, h1, h2⟩ := run_calls_lifecycle A RXP_NUM_QUEUES qc calls ⟨st, []⟩
    (by show 0 ≤ st.open_queues; omega)
    (by show _ = decide (0 < st.open_queues); rw [hgo0, hdec])
    (by show _ = decide (0 < st.open_queues); rw [hgo1, hdec]) hvalid
  refine ⟨by rw [h1, decide_eq_true_eq], by rw [h2, decide_eq_true_eq], ?_⟩
  intro τ P s k
  refine ⟨?_, ?_, ?_, ?_, ?_⟩
  · intro hret
    have h := mlnx_open_ret_neg P A RXP_NUM_QUEUES qc s hN hret
    exact ⟨h.2, h.1⟩
  · intro hne
    rcases mlnx_open_effect P A RXP_NUM_QUEUES qc s with h | h | h
    · rw [h.2]
    · exact h.2.2.2.1
    · rw [h.2.2.2.1, if_neg hne]
  · intro hne
    have hw : (mlnx_release P A qc s k).st.w
        = (if s.open_queues - 1 = 0 then rxp_disable P (rxp_disable P s.w 0) 1 else s.w) := rfl
    rw [hw, if_neg (by omega)]
  · intro hret hz
    rw [(mlnx_open_ret_nonneg P A RXP_NUM_QUEUES qc s hret).2.2, if_pos hz]
  · intro h1
    have hw : (mlnx_release P A qc s k).st.w
        = (if s.open_queues - 1 = 0 then rxp_disable P (rxp_disable P s.w 0) 1 else s.w) := rfl
    rw [hw, if_pos (by omega)]

/-- C30, witness: with `RXP_NUM_QUEUES` = 2, an allocator with room for two queues
of four slots and five allocations more, and registers that read 0: an open, a
release, an open and an open that fails on an allocation leave one queue open with
the go bit of engine 0 set. -/
theorem mlnx_engine_lifecycle_witness :
    ((runDevCalls memPort boundedAlloc 2 exampleQueueConfig
      [.open, .release 0, .open, .open]
      ⟨⟨0, 0, ⟨fun _ _ => 0, []⟩, 55, fun _ => ⟨fun _ => idleSlot, 0⟩, fun _ => 0⟩,
        []⟩).st.w.hw 0 RXP_CSR_CTRL).testBit 3 = true ∧
    (runDevCalls memPort boundedAlloc 2 exampleQueueConfig
      [.open, .release 0, .open, .open]
      ⟨⟨0, 0, ⟨fun _ _ => 0, []⟩, 55, fun _ => ⟨fun _ => idleSlot, 0⟩, fun _ => 0⟩,
        []⟩).rets = [0, 1, 0, -1] :=
  ⟨(mlnx_engine_lifecycle boundedAlloc 2 exampleQueueConfig
      [.open, .release 0, .open, .open]
      ⟨0, 0, ⟨fun _ _ => 0, []⟩, 55, fun _ => ⟨fun _ => idleSlot, 0⟩, fun _ => 0⟩
      (by decide) rfl (by decide) (by decide) (by decide)).1.mpr (by decide),
   by decide⟩

/-! ## rxp_init_rtru: the init mode -/

theorem testBit_init_mode_mask (i : Nat) :
    RXP_RTRU_CSR_CTRL_INIT_MODE_MASK.testBit i = (decide (i = 4) || decide (i = 5)) := by
  have h : RXP_RTRU_CSR_CTRL_INIT_MODE_MASK = 2 ^ 4 ||| 2 ^ 5 := by decide
  rw [h, Nat.testBit_or, Nat.testBit_two_pow, Nat.testBit_two_pow]
  by_cases h4 : i = 4 <;> by_cases h5 : i = 5 <;> simp [h4, h5, eq_comm]

theorem testBit_not32_one (i : Nat) :
    (not32 1).testBit i = (decide (i < 32) && !decide (i = 0)) := by
  have h : not32 1 = (2 ^ 32 - 1) ^^^ 2 ^ 0 := rfl
  rw [h, Nat.testBit_xor, Nat.testBit_two_pow_sub_one, Nat.testBit_two_pow]
  by_cases h1 : i < 32 <;> by_cases h2 : i = 0 <;> simp [h1, h2, eq_comm]

theorem testBit_one_eq (i : Nat) : Nat.testBit 1 i = decide (i = 0) := by
  have h : (1 : Nat) = 2 ^ 0 := rfl
  rw [h, Nat.testBit_two_pow]
  by_cases h2 : i = 0 <;> simp [h2, eq_comm]

/-- The init-mode field of the control word `rxp_init_rtru` ends up writing, for
the word `v` it read: bit 4 is set and bit 5 is the one of `v`. -/
theorem init_mode_field (v : Nat) (hv : v < 2 ^ 32) :
    ((((v ||| RXP_RTRU_CSR_CTRL_INIT) &&& not32 RXP_RTRU_CSR_CTRL_INIT)
        ||| RXP_RTRU_CSR_CTRL_INIT_MODE_IM_L1_L2) &&& RXP_RTRU_CSR_CTRL_INIT_MODE_MASK
      = RXP_RTRU_CSR_CTRL_INIT_MODE_IM_L1_L2 ||| (v &&& 2 ^ 5)) ∧
    (((((v &&& not32 RXP_RTRU_CSR_CTRL_INIT) ||| RXP_RTRU_CSR_CTRL_INIT)
        &&& not32 RXP_RTRU_CSR_CTRL_INIT)
        ||| RXP_RTRU_CSR_CTRL_INIT_MODE_IM_L1_L2) &&& RXP_RTRU_CSR_CTRL_INIT_MODE_MASK
      = RXP_RTRU_CSR_CTRL_INIT_MODE_IM_L1_L2 ||| (v &&& 2 ^ 5)) := by
  have h1 : RXP_RTRU_CSR_CTRL_INIT = 1 := rfl
  have h16 : RXP_RTRU_CSR_CTRL_INIT_MODE_IM_L1_L2 = 2 ^ 4 := by decide
  have hbit : ∀ i, ¬ i < 32 → v.testBit i = false := fun i hi => testBit_of_lt_32 hv hi
  constructor
  · apply Nat.eq_of_testBit_eq
    intro i
    rw [h1, h16]
    simp only [Nat.testBit_and, Nat.testBit_or, testBit_init_mode_mask, testBit_not32_one,
      Nat.testBit_two_pow, testBit_one_eq]
    by_cases h4 : i = 4
    · subst h4; simp
    · by_cases h5 : i = 5
      · subst h5; simp
      · simp [h4, h5, eq_comm]
  · apply Nat.eq_of_testBit_eq
    intro i
    rw [h1, h16]
    simp only [Nat.testBit_and, Nat.testBit_or, testBit_init_mode_mask, testBit_not32_one,
      Nat.testBit_two_pow, testBit_one_eq]
    by_cases h4 : i = 4
    · subst h4; simp
    · by_cases h5 : i = 5
      · subst h5; simp
      · simp [h4, h5, eq_comm]

/-- The init mode selected by `rxp_init_rtru` when the word `v` it reads from the
RTRU control register has bit 5 clear.  Between the read and the status poll the
function writes the control register three or four times and sleeps 20 ms; the
last word written, the one in force during the poll, is the word read with the
init bit cleared, or-ed with `IM_L1_L2` (`1 << 4`): its init-mode field (mask
`3 << 4`) has bit 4 set and keeps bit 5 of `v`.  With bit 5 of `v` clear the field
is `IM_L1_L2`; whatever `v` is, the field is `IM_L1_L2 | (v & (1 << 5))`. -/
theorem rxp_init_rtru_init_mode (P : Port σ) (cfg : Config) (w : World σ) (eng : Nat)
    (hbit : (rxp_init_rtru_read P w eng).value.testBit 5 = false) :
    (rxp_init_rtru_pulse P (rxp_init_rtru_read P w eng) eng).ctrl_value
        &&& RXP_RTRU_CSR_CTRL_INIT_MODE_MASK = RXP_RTRU_CSR_CTRL_INIT_MODE_IM_L1_L2 ∧
    (rxp_init_rtru_pulse P (rxp_init_rtru_read P w eng) eng).ctrl_value
        &&& RXP_RTRU_CSR_CTRL_INIT_MODE_MASK ≠ RXP_RTRU_CSR_CTRL_INIT_MODE_IM_L1_L2_EM ∧
    (rxp_init_rtru_pulse P (rxp_init_rtru_read P w eng) eng).ctrl_value
        &&& RXP_RTRU_CSR_CTRL_INIT_MODE_MASK ≠ RXP_RTRU_CSR_CTRL_INIT_MODE_EM ∧
    (∃ pre, (rxp_init_rtru_pulse P (rxp_init_rtru_read P w eng) eng).w.trace
        = (rxp_init_rtru_read P w eng).w.trace ++ pre
          ++ [Event.write eng RXP_RTRU_CSR_CTRL
                (rxp_init_rtru_pulse P (rxp_init_rtru_read P w eng) eng).ctrl_value,
              Event.usleep 20000] ∧
      (pre.length = 2 ∨ pre.length = 3) ∧
      ∀ e ∈ pre, ∃ c, e = Event.write eng RXP_RTRU_CSR_CTRL c) ∧
    rxp_init_rtru_poll P cfg w eng
      = rxp_poll_csr_for_value P (rxp_init_rtru_pulse P (rxp_init_rtru_read P w eng) eng).w
          RXP_RTRU_CSR_STATUS rtru_init_done rtru_init_done cfg.RXP_INITIALIZATION_TIMEOUT eng ∧
    (∀ w1 : World σ,
      (rxp_init_rtru_pulse P (rxp_init_rtru_read P w1 eng) eng).ctrl_value
          &&& RXP_RTRU_CSR_CTRL_INIT_MODE_MASK
        = RXP_RTRU_CSR_CTRL_INIT_MODE_IM_L1_L2 ||| ((rxp_init_rtru_read P w1 eng).value &&& 2 ^ 5)) := by
  have hgen : ∀ w1 : World σ,
      (rxp_init_rtru_pulse P (rxp_init_rtru_read P w1 eng) eng).ctrl_value
          &&& RXP_RTRU_CSR_CTRL_INIT_MODE_MASK
        = RXP_RTRU_CSR_CTRL_INIT_MODE_IM_L1_L2
          ||| ((rxp_init_rtru_read P w1 eng).value &&& 2 ^ 5) := by
    intro w1
    have hv : (rxp_init_rtru_read P w1 eng).value < 2 ^ 32 := read_value_lt _ _ _ _
    obtain ⟨f1, f2⟩ := init_mode_field _ hv
    unfold rxp_init_rtru_pulse
    simp only []
    split_ifs
    · exact f2
    · exact f1
  have hzero : (rxp_init_rtru_read P w eng).value &&& 2 ^ 5 = 0 := by
    apply Nat.eq_of_testBit_eq
    intro i
    rw [Nat.testBit_and, Nat.testBit_two_pow, Nat.zero_testBit]
    by_cases h5 : 5 = i
    · subst h5
      rw [hbit]
      rfl
    · simp [h5]
  have hfield := hgen w
  rw [hzero, Nat.or_zero] at hfield
  refine ⟨hfield, ?_, ?_, ?_, rfl, hgen⟩
  · rw [hfield]
    decide
  · rw [hfield]
    decide
  · unfold rxp_init_rtru_pulse
    simp only []
    split_ifs
    · refine ⟨[Event.write eng RXP_RTRU_CSR_CTRL
          ((rxp_init_rtru_read P w eng).value &&& not32 RXP_RTRU_CSR_CTRL_INIT),
        Event.write eng RXP_RTRU_CSR_CTRL
          (((rxp_init_rtru_read P w eng).value &&& not32 RXP_RTRU_CSR_CTRL_INIT)
            ||| RXP_RTRU_CSR_CTRL_INIT),
        Event.write eng RXP_RTRU_CSR_CTRL
          ((((rxp_init_rtru_read P w eng).value &&& not32 RXP_RTRU_CSR_CTRL_INIT)
            ||| RXP_RTRU_CSR_CTRL_INIT) &&& not32 RXP_RTRU_CSR_CTRL_INIT)],
        by simp, Or.inr rfl, ?_⟩
      intro e he
      simp only [List.mem_cons, List.mem_singleton, List.not_mem_nil, or_false] at he
      rcases he with h | h | h <;> exact ⟨_, h⟩
    · refine ⟨[Event.write eng RXP_RTRU_CSR_CTRL
          ((rxp_init_rtru_read P w eng).value ||| RXP_RTRU_CSR_CTRL_INIT),
        Event.write eng RXP_RTRU_CSR_CTRL
          (((rxp_init_rtru_read P w eng).value ||| RXP_RTRU_CSR_CTRL_INIT)
            &&& not32 RXP_RTRU_CSR_CTRL_INIT)],
        by simp, Or.inl rfl, ?_⟩
      intro e he
      simp only [List.mem_cons, List.mem_singleton, List.not_mem_nil, or_false] at he
      rcases he with h | h <;> exact ⟨_, h⟩

/-- On registers that read 0 the control words written by `rxp_init_rtru` before its
poll are 1, 0 and 0x10: the init-mode field is `IM_L1_L2`. -/
theorem rxp_init_rtru_init_mode_witness :
    (rxp_init_rtru_pulse (constPort fun _ => 0) (rxp_init_rtru_read (constPort fun _ => 0)
      ⟨(), []⟩ 0) 0).ctrl_value &&& RXP_RTRU_CSR_CTRL_INIT_MODE_MASK = 1 <<< 4 ∧
    ctrlWrites 0 (rxp_init_rtru_pulse (constPort fun _ => 0)
      (rxp_init_rtru_read (constPort fun _ => 0) ⟨(), []⟩ 0) 0).w.trace = [1, 0, 0x10] :=
  ⟨(rxp_init_rtru_init_mode (constPort fun _ => 0) exampleConfig ⟨(), []⟩ 0 (by decide)).1,
    by decide⟩

/-- C33, the code at the failing input: the RTRU control register reads 0x20
(init-mode field `L1_L2`).  The statement `ctrl_value |= IM_L1_L2` does not clear
the field before it sets bit 4, so the words written before the poll are 0x21,
0x20 and 0x30: the init-mode field of the last one is `3 << 4`, that is `EM`, a
mode that initialises external memory, not `IM_L1_L2`.  The run goes on with that
word: with a status register that reports the initialisation done `rxp_init_rtru`
returns 0 and its last write of the control register is 0x30 again. -/
theorem rxp_init_rtru_init_mode_not_cleared :
    ctrlWrites 0 (rxp_init_rtru_pulse (constPort fun _ => 0x20)
      (rxp_init_rtru_read (constPort fun _ => 0x20) ⟨(), []⟩ 0) 0).w.trace
      = [0x21, 0x20, 0x30] ∧
    (rxp_init_rtru_pulse (constPort fun _ => 0x20) (rxp_init_rtru_read (constPort fun _ => 0x20)
      ⟨(), []⟩ 0) 0).ctrl_value &&& RXP_RTRU_CSR_CTRL_INIT_MODE_MASK
      = RXP_RTRU_CSR_CTRL_INIT_MODE_EM ∧
    RXP_RTRU_CSR_CTRL_INIT_MODE_EM ≠ RXP_RTRU_CSR_CTRL_INIT_MODE_IM_L1_L2 ∧
    (rxp_init_rtru (constPort fun a => if a = RXP_RTRU_CSR_CTRL then 0x20 else 0x70)
      exampleConfig ⟨(), []⟩ 0).ret = 0 ∧
    ctrlWrites 0 (rxp_init_rtru (constPort fun a => if a = RXP_RTRU_CSR_CTRL then 0x20 else 0x70)
      exampleConfig ⟨(), []⟩ 0).w.trace = [0x21, 0x20, 0x30, 0x30] := by
  decide

/-! ## mlnx_submit_job: the control bits -/

/-- The control value `mlnx_submit_job` builds in its `uint8_t tmp_ctrl` is bits 2 and
3 of the job's control field: bit 8 does not fit. -/
theorem tmp_ctrl_eq (c : Nat) :
    (((c &&& 0x000C) % 2 ^ 8) ||| (c &&& 0x0100)) % 2 ^ 8 = c &&& 0x000C := by
  have h12 : (0x000C : Nat) = 2 ^ 2 ||| 2 ^ 3 := by decide
  have h256 : (0x0100 : Nat) = 2 ^ 8 := by decide
  apply Nat.eq_of_testBit_eq
  intro i
  rw [h12, h256]
  simp only [Nat.testBit_mod_two_pow, Nat.testBit_or, Nat.testBit_and, Nat.testBit_two_pow]
  by_cases h2 : i = 2
  · subst h2; simp
  · by_cases h3 : i = 3
    · subst h3; simp
    · by_cases h8 : i = 8
      · subst h8; simp
      · simp [h2, h3, h8, eq_comm]

/-- C34, the code at the failing input: a job whose control field is 0x010C, posted
to a free queue.  The claim has the control value handed to
`mlx5_regex_set_ctrl_seg` equal to `(ctrl & 0x000C) | (ctrl & 0x0100)` = 0x010C; the
value handed over is 0x000C, because it goes through the `uint8_t tmp_ctrl`, which
cannot hold bit 8.  For every control field the value handed over is
`ctrl & 0x000C`. -/
theorem mlnx_submit_job_ctrl_bit8_lost :
    ((0x010C &&& 0x000C) ||| (0x010C &&& 0x0100) = 0x010C) ∧
    (mlnx_submit_job_fill idleSlot ⟨⟨1, 0x010C, []⟩, 0, []⟩).ctrl_seg.ctrl = 0x000C ∧
    (mlnx_submit_job countingJobs exampleQueueConfig ⟨fun _ => idleSlot, 0⟩ 0
      (fun _ => ⟨⟨1, 0x010C, []⟩, 0, []⟩) 1).posts.map (fun p => p.posted.ctrl_seg.ctrl)
      = [0x000C] ∧
    (∀ (slot : rxp_sq_buf) (job : rxp_job),
      (mlnx_submit_job_fill slot job).ctrl_seg.ctrl = job.desc.ctrl &&& 0x000C) :=
  ⟨by decide, by decide, by decide, fun _ job => tmp_ctrl_eq job.desc.ctrl⟩

/-! ## The count of unread responses -/

/-- C35, the code at the failing input: a queue of four free slots with the counter
at 0; one job is submitted (work identifier 0), a poll finds its response (the
query of slot 0 returns 1, the others 0) and a call of `mlnx_read_resp` with a
buffer of 64 bytes copies it.  After the poll the counter is 1 and one slot is
response-ready; after the read no slot is response-ready, but the counter is still
1: `mlnx_read_resp` never writes `num_resp_to_read`.  A second poll that finds the
same response again, made instead of the read, brings the counter to 2 with one
slot ready. -/
theorem num_resp_to_read_not_consumed :
    ((runQueueCalls scriptJobs exampleQueueConfig exampleRespConfig
        [.submit (fun _ => ⟨⟨1, 0, []⟩, 0, []⟩) 1, .poll (some false) (some false)]
        ⟨⟨fun _ => idleSlot, 0⟩, [0, 1, 0, 0, 0], [], []⟩).queue.num_resp_to_read = 1 ∧
      readySlots (runQueueCalls scriptJobs exampleQueueConfig exampleRespConfig
        [.submit (fun _ => ⟨⟨1, 0, []⟩, 0, []⟩) 1, .poll (some false) (some false)]
        ⟨⟨fun _ => idleSlot, 0⟩, [0, 1, 0, 0, 0], [], []⟩).queue.sq_buf 4 = [0]) ∧
    ((runQueueCalls scriptJobs exampleQueueConfig exampleRespConfig
        [.submit (fun _ => ⟨⟨1, 0, []⟩, 0, []⟩) 1, .poll (some false) (some false),
          .read (fun _ => ⟨0, fun _ => 0, fun _ => 0⟩) 64]
        ⟨⟨fun _ => idleSlot, 0⟩, [0, 1, 0, 0, 0], [], []⟩).copied = [0] ∧
      readySlots (runQueueCalls scriptJobs exampleQueueConfig exampleRespConfig
        [.submit (fun _ => ⟨⟨1, 0, []⟩, 0, []⟩) 1, .poll (some false) (some false),
          .read (fun _ => ⟨0, fun _ => 0, fun _ => 0⟩) 64]
        ⟨⟨fun _ => idleSlot, 0⟩, [0, 1, 0, 0, 0], [], []⟩).queue.sq_buf 4 = [] ∧
      (runQueueCalls scriptJobs exampleQueueConfig exampleRespConfig
        [.submit (fun _ => ⟨⟨1, 0, []⟩, 0, []⟩) 1, .poll (some false) (some false),
          .read (fun _ => ⟨0, fun _ => 0, fun _ => 0⟩) 64]
        ⟨⟨fun _ => idleSlot, 0⟩, [0, 1, 0, 0, 0], [], []⟩).queue.num_resp_to_read = 1) ∧
    ((runQueueCalls scriptJobs exampleQueueConfig exampleRespConfig
        [.submit (fun _ => ⟨⟨1, 0, []⟩, 0, []⟩) 1, .poll (some false) (some false),
          .poll (some false) (some false)]
        ⟨⟨fun _ => idleSlot, 0⟩, [0, 1, 0, 0, 0, 1, 0, 0, 0], [], []⟩).queue.num_resp_to_read
        = 2 ∧
      readySlots (runQueueCalls scriptJobs exampleQueueConfig exampleRespConfig
        [.submit (fun _ => ⟨⟨1, 0, []⟩, 0, []⟩) 1, .poll (some false) (some false),
          .poll (some false) (some false)]
        ⟨⟨fun _ => idleSlot, 0⟩, [0, 1, 0, 0, 0, 1, 0, 0, 0], [], []⟩).queue.sq_buf 4
        = [0]) ∧
    (∀ (qc : QueueConfig) (rc : RespConfig) (q : rxp_queue) (mem : Nat → RespMem)
      (buf_size : Nat),
      (mlnx_read_resp qc rc q mem buf_size).queue.num_resp_to_read = q.num_resp_to_read) :=
  ⟨by decide, by decide, by decide, fun _ _ _ _ _ => rfl⟩

/-! ## mlnx_write_rules: no write is lost -/

theorem mem_tail_of_snoc {α : Type} {w t pre tail : List α} {e : α}
    (h1 : t = w ++ tail) (h2 : t = w ++ pre ++ [e]) : e ∈ tail := by
  rw [h1, List.append_assoc] at h2
  rw [List.append_cancel_left h2]
  simp

theorem map_range_split {α : Type} (f : Nat → α) (a b : Nat) :
    (List.range (a + b)).map f
      = (List.range a).map f ++ (List.range b).map (fun i => f (a + i)) := by
  rw [List.range_add, List.map_append, List.map_map]
  rfl

/-- A call of `rxp_flush_rules` all of whose register reads and polls succeed, on a
port whose writes succeed, returns 1. -/
theorem rxp_flush_rules_succeeds (P : Port σ) (cfg : Config) (w : World σ)
    (rules : Nat → rxp_rof_entry) (count : Int) (eng : Nat) (tail : List Event)
    (htail : (rxp_flush_rules P cfg w rules count eng).w.trace = w.trace ++ tail)
    (hok : ∀ e ∈ tail, e.succeeded = true)
    (hwr : ∀ s e a v, (P.write s e a v).1 = 0) :
    (rxp_flush_rules P cfg w rules count eng).ret = 1 := by
  have hs : (rxp_flush_rules_streamed P w rules count eng).trace
      = w.trace ++ ([Event.flush count ((List.range count.toNat).map rules)]
        ++ batchWrites eng ((List.range count.toNat).map rules)) := by
    unfold rxp_flush_rules_streamed
    rw [via_cp_trace, mark_trace, List.append_assoc]
  have hd : (rxp_flush_rules_depth P w rules count eng).w.trace
      = w.trace ++ ([Event.flush count ((List.range count.toNat).map rules)]
        ++ batchWrites eng ((List.range count.toNat).map rules))
        ++ [Event.read eng RXP_RTRU_CSR_CAPABILITY
            (rxp_flush_rules_depth P w rules count eng).status
            (rxp_flush_rules_depth P w rules count eng).value] := by
    rw [← hs]
    rfl
  obtain ⟨ev1, hp1, _⟩ := poll_steps P (rxp_flush_rules_depth P w rules count eng).w
    RXP_RTRU_CSR_FIFO_STAT (toUInt32 count) (toUInt32 (-1))
    cfg.RXP_POLL_CSR_FOR_VALUE_TIMEOUT eng
  have hc : ∃ pre, (rxp_flush_rules_credit_poll P cfg w rules count eng).w.trace
      = w.trace ++ pre
        ++ [Event.polled (rxp_flush_rules_credit_poll P cfg w rules count eng).ret] := by
    refine ⟨([Event.flush count ((List.range count.toNat).map rules)]
        ++ batchWrites eng ((List.range count.toNat).map rules))
        ++ [Event.read eng RXP_RTRU_CSR_CAPABILITY
            (rxp_flush_rules_depth P w rules count eng).status
            (rxp_flush_rules_depth P w rules count eng).value] ++ ev1, ?_⟩
    show (rxp_poll_csr_for_value P (rxp_flush_rules_depth P w rules count eng).w
      RXP_RTRU_CSR_FIFO_STAT (toUInt32 count) (toUInt32 (-1))
      cfg.RXP_POLL_CSR_FOR_VALUE_TIMEOUT eng).w.trace = _
    rw [hp1, hd]
    simp only [List.append_assoc]
    rfl
  obtain ⟨pre1, hc⟩ := hc
  have hct : (rxp_flush_rules_ctrl P cfg w rules count eng).w.trace
      = w.trace ++ (pre1
          ++ [Event.polled (rxp_flush_rules_credit_poll P cfg w rules count eng).ret])
        ++ [Event.read eng RXP_RTRU_CSR_CTRL
            (rxp_flush_rules_ctrl P cfg w rules count eng).status
            (rxp_flush_rules_ctrl P cfg w rules count eng).value] := by
    rw [← List.append_assoc, ← hc]
    rfl
  obtain ⟨ev2, hp2, _⟩ := poll_steps P
    (mlx5_regex_register_write P (rxp_flush_rules_ctrl P cfg w rules count eng).w eng
      RXP_RTRU_CSR_CTRL
      ((rxp_flush_rules_ctrl P cfg w rules count eng).value ||| RXP_RTRU_CSR_CTRL_GO)).w
    RXP_RTRU_CSR_STATUS RXP_RTRU_CSR_STATUS_UPDATE_DONE RXP_RTRU_CSR_STATUS_UPDATE_DONE
    cfg.RXP_POLL_CSR_FOR_VALUE_TIMEOUT eng
  have hdn : ∃ pre, (rxp_flush_rules_done_poll P cfg w rules count eng).w.trace
      = w.trace ++ pre
        ++ [Event.polled (rxp_flush_rules_done_poll P cfg w rules count eng).ret] := by
    refine ⟨(pre1
        ++ [Event.polled (rxp_flush_rules_credit_poll P cfg w rules count eng).ret])
        ++ [Event.read eng RXP_RTRU_CSR_CTRL
            (rxp_flush_rules_ctrl P cfg w rules count eng).status
            (rxp_flush_rules_ctrl P cfg w rules count eng).value]
        ++ [Event.write eng RXP_RTRU_CSR_CTRL
            ((rxp_flush_rules_ctrl P cfg w rules count eng).value ||| RXP_RTRU_CSR_CTRL_GO)]
        ++ ev2, ?_⟩
    show (rxp_poll_csr_for_value P
      (mlx5_regex_register_write P (rxp_flush_rules_ctrl P cfg w rules count eng).w eng
        RXP_RTRU_CSR_CTRL
        ((rxp_flush_rules_ctrl P cfg w rules count eng).value ||| RXP_RTRU_CSR_CTRL_GO)).w
      RXP_RTRU_CSR_STATUS RXP_RTRU_CSR_STATUS_UPDATE_DONE RXP_RTRU_CSR_STATUS_UPDATE_DONE
      cfg.RXP_POLL_CSR_FOR_VALUE_TIMEOUT eng).w.trace = _
    rw [hp2, write_trace, hct]
    simp only [List.append_assoc]
    rfl
  obtain ⟨pre2, hdn⟩ := hdn
  have hca : (rxp_flush_rules_ctrl_again P cfg w rules count eng).w.trace
      = w.trace ++ (pre2
          ++ [Event.polled (rxp_flush_rules_done_poll P cfg w rules count eng).ret])
        ++ [Event.read eng RXP_RTRU_CSR_CTRL
            (rxp_flush_rules_ctrl_again P cfg w rules count eng).status
            (rxp_flush_rules_ctrl_again P cfg w rules count eng).value] := by
    rw [← List.append_assoc, ← hdn]
    rfl
  rw [rxp_flush_rules_eq] at htail ⊢
  by_cases h1 : (rxp_flush_rules_depth P w rules count eng).status ≠ 0
  · rw [if_pos h1] at htail
    have := hok _ (mem_tail_of_snoc htail hd)
    simp only [Event.succeeded, decide_eq_true_eq] at this
    exact absurd this h1
  rw [if_neg h1] at htail ⊢
  by_cases h2 : (rxp_flush_rules_credit_poll P cfg w rules count eng).ret < 0
  · rw [if_pos h2] at htail
    have := hok _ (mem_tail_of_snoc htail hc)
    simp only [Event.succeeded, decide_eq_true_eq] at this
    omega
  rw [if_neg h2] at htail ⊢
  by_cases h3 : (rxp_flush_rules_ctrl P cfg w rules count eng).status ≠ 0
  · rw [if_pos h3] at htail
    have := hok _ (mem_tail_of_snoc htail hct)
    simp only [Event.succeeded, decide_eq_true_eq] at this
    exact absurd this h3
  rw [if_neg h3] at htail ⊢
  by_cases h4 : (rxp_flush_rules_done_poll P cfg w rules count eng).ret < 0
  · rw [if_pos h4] at htail
    have := hok _ (mem_tail_of_snoc htail hdn)
    simp only [Event.succeeded, decide_eq_true_eq] at this
    omega
  rw [if_neg h4] at htail ⊢
  by_cases h5 : (rxp_flush_rules_ctrl_again P cfg w rules count eng).status ≠ 0
  · rw [if_pos h5] at htail
    have := hok _ (mem_tail_of_snoc htail hca)
    simp only [Event.succeeded, decide_eq_true_eq] at this
    exact absurd this h5
  rw [if_neg h5] at htail ⊢
  have h6 : (rxp_flush_rules_clear P cfg w rules count eng).status = 0 := hwr _ _ _ _
  rw [if_neg (by rw [h6]; simp)]

/-- The entry loop of `mlnx_write_rules` on write-type entries only: the batches it
hands to `rxp_flush_rules` are, put end to end, the `pending` entries batched so far
followed by the `count` entries still to come; the loop leaves 0 in `rules->count`;
and when every read and poll it makes succeeds, on a port whose writes succeed, it
returns 1. -/
theorem loop_flushes_all (P : Port σ) (cfg : Config) (eng : Nat) (rules : Nat → rxp_rof_entry)
    (c : Nat) :
    ∀ (count rule_cnt pending : Nat) (ret : Int) (w : World σ),
      pending ≤ rule_cnt → (count = 0 → pending = 0) →
      (pending + count < 2 ^ 31 ∨ (pending < c ∧ c < 2 ^ 31)) →
      (∀ i, rule_cnt ≤ i → i < rule_cnt + count → (rules i).type.isWriteType = true) →
      ∃ tail, (mlnx_write_rules_loop P cfg eng rules c count rule_cnt pending ret w).w.trace
          = w.trace ++ tail ∧
        flushedEntries tail
          = (List.range (pending + count)).map (fun i => rules (rule_cnt - pending + i)) ∧
        (mlnx_write_rules_loop P cfg eng rules c count rule_cnt pending ret w).count = 0 ∧
        ((∀ e ∈ tail, e.succeeded = true) → (∀ s e a v, (P.write s e a v).1 = 0) →
          1 ≤ count →
          (mlnx_write_rules_loop P cfg eng rules c count rule_cnt pending ret w).ret = 1) := by
  intro count
  induction count with
  | zero =>
    intro rule_cnt pending ret w _ h0 _ _
    have hp : pending = 0 := h0 rfl
    subst hp
    exact ⟨[], by simp [mlnx_write_rules_loop], by simp [flushedEntries],
      by simp [mlnx_write_rules_loop], fun _ _ h => absurd h (by omega)⟩
  | succ n ih =>
    intro rule_cnt pending ret w hle _ hinv hall
    have hw : (rules rule_cnt).type.isWriteType = true := hall rule_cnt (le_refl _) (by omega)
    rw [mlnx_write_rules_loop, if_pos hw]
    by_cases hflush : n + 1 = 1 ∨ pending + 1 = c
    · rw [if_pos hflush]
      simp only []
      have hne := rxp_flush_rules_ret_ne_zero P cfg w
        (fun i => rules ((rule_cnt + 1) - (pending + 1) + i)) (toInt32 (pending + 1)) eng
      rw [if_neg hne]
      have hp31 : pending + 1 < 2 ^ 31 := by
        rcases hinv with h | h
        · omega
        · omega
      have hcnt : (toInt32 (pending + 1)).toNat = pending + 1 := by
        rw [toInt32_of_lt hp31]
        rfl
      obtain ⟨t1, ht1, _, hf1⟩ := rxp_flush_rules_streams P cfg w
        (fun i => rules ((rule_cnt + 1) - (pending + 1) + i)) (toInt32 (pending + 1)) eng
      rw [hcnt] at hf1
      obtain ⟨t2, ht2, hf2, hc2, hr2⟩ := ih (rule_cnt + 1) 0
        (rxp_flush_rules P cfg w (fun i => rules ((rule_cnt + 1) - (pending + 1) + i))
          (toInt32 (pending + 1)) eng).ret
        (rxp_flush_rules P cfg w (fun i => rules ((rule_cnt + 1) - (pending + 1) + i))
          (toInt32 (pending + 1)) eng).w (Nat.zero_le _) (fun _ => rfl)
        (by
          rcases hinv with h | h
          · left; omega
          · right; omega)
        (fun i h1 h2 => hall i (by omega) (by omega))
      refine ⟨t1 ++ t2, ?_, ?_, hc2, ?_⟩
      · rw [ht2, ht1, List.append_assoc]
      · rw [flushedEntries_append, hf1, hf2, Nat.zero_add,
          show pending + (n + 1) = (pending + 1) + n by omega,
          map_range_split (fun i => rules (rule_cnt - pending + i)) (pending + 1) n]
        congr 1
        · apply List.map_congr_left
          intro i _
          show rules (rule_cnt + 1 - (pending + 1) + i) = rules (rule_cnt - pending + i)
          congr 1
          omega
        · apply List.map_congr_left
          intro i _
          show rules (rule_cnt + 1 - 0 + i) = rules (rule_cnt - pending + (pending + 1 + i))
          congr 1
          omega
      · intro hok hwr _
        have hf : (rxp_flush_rules P cfg w (fun i => rules ((rule_cnt + 1) - (pending + 1) + i))
            (toInt32 (pending + 1)) eng).ret = 1 :=
          rxp_flush_rules_succeeds P cfg w _ _ eng t1 ht1
            (fun e he => hok e (List.mem_append_left _ he)) hwr
        by_cases hn : 1 ≤ n
        · exact hr2 (fun e he => hok e (List.mem_append_right _ he)) hwr hn
        · have hn0 : n = 0 := by omega
          subst hn0
          rw [mlnx_write_rules_loop]
          exact hf
    · rw [if_neg hflush]
      have hn : 1 ≤ n := by
        by_contra h
        exact hflush (Or.inl (by omega))
      have hpc : pending + 1 ≠ c := fun h => hflush (Or.inr h)
      obtain ⟨t2, ht2, hf2, hc2, hr2⟩ := ih (rule_cnt + 1) (pending + 1) ret w (by omega)
        (fun h => absurd h (by omega))
        (by
          rcases hinv with h | h
          · left; omega
          · right; omega)
        (fun i h1 h2 => hall i (by omega) (by omega))
      refine ⟨t2, ht2, ?_, hc2, fun hok hwr _ => hr2 hok hwr hn⟩
      rw [hf2]
      have hsplit : pending + 1 + n = pending + (n + 1) := by omega
      rw [hsplit]
      apply List.map_congr_left
      intro i _
      show rules (rule_cnt + 1 - (pending + 1) + i) = rules (rule_cnt - pending + i)
      congr 1
      omega

/-- C37 (as amended): `mlnx_write_rules` loses no write.  For a program of write-type entries only
that reaches the entry loop (with capacity `c` read from the RTRU capability
register, in the world `w2`), whatever the capacity (a capacity of 0 needs the
program to have fewer than `2^31` entries, so that the one batch it then makes
fits the `int` count of `rxp_flush_rules`), the batches handed to `rxp_flush_rules`
by the loop are, put end to end in call order, the entries of the program, each
once and in program order; the loop leaves 0 in `rules->count`; and when every
register read and every poll made by the flushes succeeds, on a port whose writes
succeed, the load returns 1. -/
theorem mlnx_write_rules_loses_no_write (P : Port σ) (cfg : Config) (w : World σ)
    (rules : rxp_ctl_rules_pgm) (bytes eng c : Nat) (w2 : World σ)
    (hentry : mlnx_write_rules_loop_entry P cfg w rules bytes eng = some (c, w2))
    (hall : ∀ i, i < rules.count → (rules.rules i).type.isWriteType = true)
    (hsmall : 1 ≤ c ∨ rules.count < 2 ^ 31) :
    w2.trace <+: (mlnx_write_rules P cfg w rules bytes eng).w.trace ∧
    flushedEntries ((mlnx_write_rules P cfg w rules bytes eng).w.trace.drop w2.trace.length)
      = (List.range rules.count).map rules.rules ∧
    (mlnx_write_rules P cfg w rules bytes eng).count = 0 ∧
    ((∀ e ∈ (mlnx_write_rules P cfg w rules bytes eng).w.trace.drop w2.trace.length,
        e.succeeded = true) →
      (∀ s e a v, (P.write s e a v).1 = 0) →
      (mlnx_write_rules P cfg w rules bytes eng).ret = 1) := by
  unfold mlnx_write_rules_loop_entry at hentry
  cases hstart : mlnx_write_rules_start P cfg w rules bytes eng with
  | inl e => rw [hstart] at hentry; cases hentry
  | inr w1 =>
    rw [hstart] at hentry
    simp only [] at hentry
    cases hready : mlnx_write_rules_ready P w1 eng with
    | inl e => rw [hready] at hentry; cases hentry
    | inr x =>
      rw [hready] at hentry
      cases hentry
      have hcount := start_count_pos P cfg w rules bytes eng w1 hstart
      obtain ⟨hcv, _⟩ := ready_inr P w1 eng c w2 hready
      have hc255 : c ≤ 255 := by rw [hcv]; exact Nat.and_le_right
      have hres : mlnx_write_rules P cfg w rules bytes eng
          = mlnx_write_rules_loop P cfg eng rules.rules c rules.count 0 0 0 w2 := by
        unfold mlnx_write_rules
        rw [hstart]
        simp only []
        rw [hready]
      obtain ⟨tail, ht, hf, hc0, hr⟩ := loop_flushes_all P cfg eng rules.rules c rules.count 0 0 0
        w2 (le_refl _) (fun _ => rfl)
        (by
          rcases hsmall with h | h
          · right; omega
          · left; omega)
        (fun i _ hi => hall i (by omega))
      have hdrop : (mlnx_write_rules P cfg w rules bytes eng).w.trace.drop w2.trace.length
          = tail := by
        rw [hres, ht, List.drop_left]
      rw [hdrop]
      refine ⟨?_, ?_, ?_, ?_⟩
      · rw [hres, ht]
        exact List.prefix_append _ _
      · rw [hf, Nat.zero_add]
        apply List.map_congr_left
        intro i _
        show rules.rules (0 - 0 + i) = rules.rules i
        congr 1
        omega
      · rw [hres]
        exact hc0
      · intro hok hwr
        rw [hres]
        exact hr hok hwr hcount

/-- C37, witness: four instruction entries with addresses 0x10 .. 0x13 on registers
that report init done, an RTRU capability of 2, a FIFO count of 2 and update done:
the load returns 1 and leaves 0 in `rules->count`. -/
theorem mlnx_write_rules_loses_no_write_witness :
    (mlnx_write_rules
      (constPort fun a => if a = RXP_CSR_STATUS then 1 else 2) quickConfig ⟨(), []⟩
      ⟨2, 4, fun i => ⟨rxp_rof_entry_type.RXP_ROF_ENTRY_INST, 0x10 + i, 7⟩⟩ 72 0).ret = 1 ∧
    (mlnx_write_rules
      (constPort fun a => if a = RXP_CSR_STATUS then 1 else 2) quickConfig ⟨(), []⟩
      ⟨2, 4, fun i => ⟨rxp_rof_entry_type.RXP_ROF_ENTRY_INST, 0x10 + i, 7⟩⟩ 72 0).count = 0 :=
  ⟨(mlnx_write_rules_loses_no_write
      (constPort fun a => if a = RXP_CSR_STATUS then 1 else 2) quickConfig ⟨(), []⟩
      ⟨2, 4, fun i => ⟨rxp_rof_entry_type.RXP_ROF_ENTRY_INST, 0x10 + i, 7⟩⟩ 72 0 2
      ⟨(), [Event.read 0 RXP_CSR_STATUS 0 1, Event.read 0 RXP_RTRU_CSR_CAPABILITY 0 2]⟩
      (by rfl) (fun _ _ => rfl) (Or.inl (by decide))).2.2.2 (by decide) (fun _ _ _ _ => rfl),
   (mlnx_write_rules_loses_no_write
      (constPort fun a => if a = RXP_CSR_STATUS then 1 else 2) quickConfig ⟨(), []⟩
      ⟨2, 4, fun i => ⟨rxp_rof_entry_type.RXP_ROF_ENTRY_INST, 0x10 + i, 7⟩⟩ 72 0 2
      ⟨(), [Event.read 0 RXP_CSR_STATUS 0 1, Event.read 0 RXP_RTRU_CSR_CAPABILITY 0 2]⟩
      (by rfl) (fun _ _ => rfl) (Or.inl (by decide))).2.2.1⟩

/-! ## mlnx_write_rules: termination and the number of register reads -/

theorem countReads_append (a b : List Event) :
    countReads (a ++ b) = countReads a + countReads b := by
  simp [countReads, List.countP_append]

theorem reads_read (P : Port σ) (w : World σ) (eng addr : Nat) :
    countReads (mlx5_regex_register_read P w eng addr).w.trace = countReads w.trace + 1 := by
  rw [read_trace, countReads_append]
  simp [countReads, Event.isRead]

theorem reads_write (P : Port σ) (w : World σ) (eng addr v : Nat) :
    countReads (mlx5_regex_register_write P w eng addr v).w.trace = countReads w.trace := by
  rw [write_trace, countReads_append]
  simp [countReads, Event.isRead]

theorem reads_usleep (us : Nat) (w : World σ) :
    countReads (usleep us w).trace = countReads w.trace := by
  rw [usleep_trace, countReads_append]
  simp [countReads, Event.isRead]

theorem reads_mark (e : Event) (w : World σ) (he : e.isRead = false) :
    countReads (mark e w).trace = countReads w.trace := by
  rw [mark_trace, countReads_append]
  simp [countReads, he]

/-- The loop of `rxp_poll_csr_for_value` makes at most as many register reads as it
has iterations left. -/
theorem reads_poll_loop_le (P : Port σ) (eng addr expected mask : Nat) :
    ∀ (fuel i : Nat) (v : Option Nat) (w : World σ),
      countReads (rxp_poll_loop P eng addr expected mask fuel i v w).w.trace
        ≤ countReads w.trace + fuel := by
  intro fuel
  induction fuel with
  | zero =>
    intro i v w
    simp [rxp_poll_loop]
  | succ n ih =>
    intro i v w
    simp only [rxp_poll_loop]
    split_ifs
    · rw [reads_read]
      omega
    · rw [reads_read]
      omega
    · have := ih (i + 1) (some (mlx5_regex_register_read P w eng addr).value)
        (usleep 1000 (mlx5_regex_register_read P w eng addr).w)
      rw [reads_usleep, reads_read] at this
      omega

/-- A call of `rxp_poll_csr_for_value` makes at most `timeout_ms` register reads. -/
theorem reads_poll_le (P : Port σ) (w : World σ) (addr expected mask T eng : Nat) :
    countReads (rxp_poll_csr_for_value P w addr expected mask T eng).w.trace
      ≤ countReads w.trace + T := by
  rw [poll_trace, countReads_append]
  have := reads_poll_loop_le P eng addr expected mask T 0 none w
  simp only [countReads, Event.isRead, List.countP_cons, List.countP_nil] at this ⊢
  simpa using this

theorem reads_batchWrites (eng : Nat) :
    ∀ batch : List rxp_rof_entry, countReads (batchWrites eng batch) = 0 := by
  intro batch
  induction batch with
  | nil => rfl
  | cons e t ih =>
    rw [batchWrites, countReads_append, ih]
    simp [countReads, entryWrites, Event.isRead]

/-- A call of `rxp_flush_rules` makes at most three register reads outside its two
polls. -/
theorem reads_flush_le (P : Port σ) (cfg : Config) (w : World σ)
    (rules : Nat → rxp_rof_entry) (count : Int) (eng : Nat) :
    countReads (rxp_flush_rules P cfg w rules count eng).w.trace
      ≤ countReads w.trace + (2 * cfg.RXP_POLL_CSR_FOR_VALUE_TIMEOUT + 3) := by
  have hs : countReads (rxp_flush_rules_streamed P w rules count eng).trace
      = countReads w.trace := by
    unfold rxp_flush_rules_streamed
    rw [via_cp_trace, countReads_append, reads_batchWrites,
      reads_mark (Event.flush count ((List.range count.toNat).map rules)) w rfl]
    rfl
  have hd : countReads (rxp_flush_rules_depth P w rules count eng).w.trace
      = countReads w.trace + 1 := by
    unfold rxp_flush_rules_depth
    rw [reads_read, hs]
  have hc : countReads (rxp_flush_rules_credit_poll P cfg w rules count eng).w.trace
      ≤ countReads w.trace + 1 + cfg.RXP_POLL_CSR_FOR_VALUE_TIMEOUT := by
    unfold rxp_flush_rules_credit_poll
    have := reads_poll_le P (rxp_flush_rules_depth P w rules count eng).w
      RXP_RTRU_CSR_FIFO_STAT (toUInt32 count) (toUInt32 (-1))
      cfg.RXP_POLL_CSR_FOR_VALUE_TIMEOUT eng
    omega
  have hct : countReads (rxp_flush_rules_ctrl P cfg w rules count eng).w.trace
      ≤ countReads w.trace + 2 + cfg.RXP_POLL_CSR_FOR_VALUE_TIMEOUT := by
    unfold rxp_flush_rules_ctrl
    rw [reads_read]
    omega
  have hdn : countReads (rxp_flush_rules_done_poll P cfg w rules count eng).w.trace
      ≤ countReads w.trace + 2 + 2 * cfg.RXP_POLL_CSR_FOR_VALUE_TIMEOUT := by
    unfold rxp_flush_rules_done_poll
    have := reads_poll_le P
      (mlx5_regex_register_write P (rxp_flush_rules_ctrl P cfg w rules count eng).w eng
        RXP_RTRU_CSR_CTRL
        ((rxp_flush_rules_ctrl P cfg w rules count eng).value ||| RXP_RTRU_CSR_CTRL_GO)).w
      RXP_RTRU_CSR_STATUS RXP_RTRU_CSR_STATUS_UPDATE_DONE RXP_RTRU_CSR_STATUS_UPDATE_DONE
      cfg.RXP_POLL_CSR_FOR_VALUE_TIMEOUT eng
    rw [reads_write] at this
    omega
  have hca : countReads (rxp_flush_rules_ctrl_again P cfg w rules count eng).w.trace
      ≤ countReads w.trace + 3 + 2 * cfg.RXP_POLL_CSR_FOR_VALUE_TIMEOUT := by
    unfold rxp_flush_rules_ctrl_again
    rw [reads_read]
    omega
  have hcl : countReads (rxp_flush_rules_clear P cfg w rules count eng).w.trace
      ≤ countReads w.trace + 3 + 2 * cfg.RXP_POLL_CSR_FOR_VALUE_TIMEOUT := by
    unfold rxp_flush_rules_clear
    rw [reads_write]
    exact hca
  rw [rxp_flush_rules_eq]
  split_ifs <;> simp only [] <;> omega

theorem reads_check_flush_le (P : Port σ) (cfg : Config) (eng : Nat)
    (rules : Nat → rxp_rof_entry) (rule_cnt pending : Nat) (ret : Int) (w : World σ) :
    countReads (mlnx_write_rules_check_flush P cfg eng rules rule_cnt pending ret w).w.trace
      ≤ countReads w.trace + (2 * cfg.RXP_POLL_CSR_FOR_VALUE_TIMEOUT + 3) := by
  unfold mlnx_write_rules_check_flush
  split_ifs
  · exact reads_flush_le P cfg w _ _ eng
  · show countReads w.trace ≤ _
    omega

/-- The entry loop of `mlnx_write_rules` started with `count` in `rules->count`: it
makes at most `count * (2 * RXP_POLL_CSR_FOR_VALUE_TIMEOUT + 4)` register reads,
leaves at most `count` in `rules->count`, and leaves a non-zero count only when it
returns 0 or `-EINVAL` from inside the loop. -/
theorem reads_loop_le (P : Port σ) (cfg : Config) (eng : Nat) (rules : Nat → rxp_rof_entry)
    (c : Nat) :
    ∀ (count rule_cnt pending : Nat) (ret : Int) (w : World σ),
      countReads (mlnx_write_rules_loop P cfg eng rules c count rule_cnt pending ret w).w.trace
        ≤ countReads w.trace + count * (2 * cfg.RXP_POLL_CSR_FOR_VALUE_TIMEOUT + 4) ∧
      (mlnx_write_rules_loop P cfg eng rules c count rule_cnt pending ret w).count ≤ count ∧
      ((mlnx_write_rules_loop P cfg eng rules c count rule_cnt pending ret w).count = 0 ∨
        (mlnx_write_rules_loop P cfg eng rules c count rule_cnt pending ret w).ret = 0 ∨
        (mlnx_write_rules_loop P cfg eng rules c count rule_cnt pending ret w).ret = -EINVAL) := by
  intro count
  induction count with
  | zero =>
    intro rule_cnt pending ret w
    simp [mlnx_write_rules_loop]
  | succ n ih =>
    intro rule_cnt pending ret w
    have hmul : (n + 1) * (2 * cfg.RXP_POLL_CSR_FOR_VALUE_TIMEOUT + 4)
        = n * (2 * cfg.RXP_POLL_CSR_FOR_VALUE_TIMEOUT + 4)
          + (2 * cfg.RXP_POLL_CSR_FOR_VALUE_TIMEOUT + 4) := by ring
    rw [hmul]
    by_cases hw : (rules rule_cnt).type.isWriteType = true
    · rw [loop_write P cfg eng rules c n rule_cnt pending ret w hw]
      split_ifs
      · obtain ⟨h1, h2, h3⟩ := ih (rule_cnt + 1) 0
          (rxp_flush_rules P cfg w (fun i => rules ((rule_cnt + 1) - (pending + 1) + i))
            (toInt32 (pending + 1)) eng).ret
          (rxp_flush_rules P cfg w (fun i => rules ((rule_cnt + 1) - (pending + 1) + i))
            (toInt32 (pending + 1)) eng).w
        have := reads_flush_le P cfg w (fun i => rules ((rule_cnt + 1) - (pending + 1) + i))
          (toInt32 (pending + 1)) eng
        exact ⟨by omega, by omega, h3⟩
      · obtain ⟨h1, h2, h3⟩ := ih (rule_cnt + 1) (pending + 1) ret w
        exact ⟨by omega, by omega, h3⟩
    · have hwf : (rules rule_cnt).type.isWriteType = false := by
        cases h : (rules rule_cnt).type.isWriteType
        · rfl
        · exact absurd h hw
      by_cases hchk : (rules rule_cnt).type.isCheckType = true
      · rw [loop_check P cfg eng rules c n rule_cnt pending ret w hchk]
        have hcf := reads_check_flush_le P cfg eng rules rule_cnt pending ret w
        have hcr : countReads
            (mlnx_write_rules_check_read P cfg eng rules rule_cnt pending ret w).w.trace
            ≤ countReads w.trace + (2 * cfg.RXP_POLL_CSR_FOR_VALUE_TIMEOUT + 4) := by
          unfold mlnx_write_rules_check_read
          rw [reads_read]
          omega
        split_ifs
        · refine ⟨?_, le_refl _, Or.inr (Or.inr rfl)⟩
          show countReads
            (mlnx_write_rules_check_flush P cfg eng rules rule_cnt pending ret w).w.trace ≤ _
          omega
        · refine ⟨?_, le_refl _, Or.inr (Or.inl rfl)⟩
          show countReads
            (mlnx_write_rules_check_read P cfg eng rules rule_cnt pending ret w).w.trace ≤ _
          omega
        · refine ⟨?_, le_refl _, Or.inr (Or.inr rfl)⟩
          show countReads
            (mlnx_write_rules_check_read P cfg eng rules rule_cnt pending ret w).w.trace ≤ _
          omega
        · obtain ⟨h1, h2, h3⟩ := ih (rule_cnt + 1) 0
            (mlnx_write_rules_check_read P cfg eng rules rule_cnt pending ret w).status
            (mlnx_write_rules_check_read P cfg eng rules rule_cnt pending ret w).w
          exact ⟨by omega, by omega, h3⟩
      · have hcf : (rules rule_cnt).type.isCheckType = false := by
          cases h : (rules rule_cnt).type.isCheckType
          · rfl
          · exact absurd h hchk
        rw [loop_invalid P cfg eng rules c n rule_cnt pending ret w hwf hcf]
        exact ⟨by show countReads w.trace ≤ _; omega, le_refl _, Or.inr (Or.inr rfl)⟩

theorem toInt32_toNat_le (n : Nat) : (toInt32 n).toNat ≤ n := by
  unfold toInt32
  have := Nat.mod_le n (2 ^ 32)
  split_ifs <;> omega

theorem via_cp_loop_congr (P : Port σ) (eng : Nat) (r1 r2 : Nat → rxp_rof_entry) :
    ∀ (fuel i : Nat) (w : World σ), (∀ j, i ≤ j → j < i + fuel → r1 j = r2 j) →
      rxp_write_rules_via_cp_loop P eng r1 fuel i w
        = rxp_write_rules_via_cp_loop P eng r2 fuel i w := by
  intro fuel
  induction fuel with
  | zero => intro i w _; rfl
  | succ n ih =>
    intro i w h
    rw [rxp_write_rules_via_cp_loop, rxp_write_rules_via_cp_loop, h i (le_refl _) (by omega)]
    exact ih (i + 1) _ (fun j h1 h2 => h j (by omega) (by omega))

/-- A call of `rxp_flush_rules` reads only the first `count` entries of the array it
is given. -/
theorem rxp_flush_rules_congr (P : Port σ) (cfg : Config) (w : World σ)
    (r1 r2 : Nat → rxp_rof_entry) (count : Int) (eng : Nat)
    (h : ∀ j, j < count.toNat → r1 j = r2 j) :
    rxp_flush_rules P cfg w r1 count eng = rxp_flush_rules P cfg w r2 count eng := by
  have h1 : (List.range count.toNat).map r1 = (List.range count.toNat).map r2 :=
    List.map_congr_left (fun j hj => h j (List.mem_range.mp hj))
  have h2 : ∀ w0 : World σ, rxp_write_rules_via_cp P w0 r1 count eng
      = rxp_write_rules_via_cp P w0 r2 count eng := by
    intro w0
    unfold rxp_write_rules_via_cp
    rw [via_cp_loop_congr P eng r1 r2 count.toNat 0 w0 (fun j _ hj => h j (by omega))]
  unfold rxp_flush_rules
  rw [h1, h2]

/-- The entry loop of `mlnx_write_rules` reads no entry of the array at or beyond
index `rule_cnt + count` (nor before `rule_cnt - pending`): two arrays that agree
in between give the same run. -/
theorem loop_congr (P : Port σ) (cfg : Config) (eng : Nat) (r1 r2 : Nat → rxp_rof_entry)
    (c : Nat) :
    ∀ (count rule_cnt pending : Nat) (ret : Int) (w : World σ), pending ≤ rule_cnt →
      (∀ j, rule_cnt - pending ≤ j → j < rule_cnt + count → r1 j = r2 j) →
      mlnx_write_rules_loop P cfg eng r1 c count rule_cnt pending ret w
        = mlnx_write_rules_loop P cfg eng r2 c count rule_cnt pending ret w := by
  intro count
  induction count with
  | zero =>
    intro rule_cnt pending ret w _ _
    rw [mlnx_write_rules_loop, mlnx_write_rules_loop]
  | succ n ih =>
    intro rule_cnt pending ret w hle h
    have he : r1 rule_cnt = r2 rule_cnt := h rule_cnt (by omega) (by omega)
    by_cases hw : (r1 rule_cnt).type.isWriteType = true
    · rw [loop_write P cfg eng r1 c n rule_cnt pending ret w hw,
        loop_write P cfg eng r2 c n rule_cnt pending ret w (he ▸ hw)]
      have hfl : rxp_flush_rules P cfg w (fun i => r1 ((rule_cnt + 1) - (pending + 1) + i))
            (toInt32 (pending + 1)) eng
          = rxp_flush_rules P cfg w (fun i => r2 ((rule_cnt + 1) - (pending + 1) + i))
            (toInt32 (pending + 1)) eng := by
        apply rxp_flush_rules_congr
        intro j hj
        have := toInt32_toNat_le (pending + 1)
        exact h _ (by omega) (by omega)
      rw [hfl]
      split_ifs
      · exact ih (rule_cnt + 1) 0 _ _ (Nat.zero_le _)
          (fun j h1 h2 => h j (by omega) (by omega))
      · exact ih (rule_cnt + 1) (pending + 1) ret w (by omega)
          (fun j h1 h2 => h j (by omega) (by omega))
    · have hwf : (r1 rule_cnt).type.isWriteType = false := by
        cases hh : (r1 rule_cnt).type.isWriteType
        · rfl
        · exact absurd hh hw
      by_cases hchk : (r1 rule_cnt).type.isCheckType = true
      · rw [loop_check P cfg eng r1 c n rule_cnt pending ret w hchk,
          loop_check P cfg eng r2 c n rule_cnt pending ret w (he ▸ hchk)]
        have hcfl : mlnx_write_rules_check_flush P cfg eng r1 rule_cnt pending ret w
            = mlnx_write_rules_check_flush P cfg eng r2 rule_cnt pending ret w := by
          unfold mlnx_write_rules_check_flush
          split_ifs
          · apply rxp_flush_rules_congr
            intro j hj
            have := toInt32_toNat_le pending
            exact h _ (by omega) (by omega)
          · rfl
        have hcr : mlnx_write_rules_check_read P cfg eng r1 rule_cnt pending ret w
            = mlnx_write_rules_check_read P cfg eng r2 rule_cnt pending ret w := by
          unfold mlnx_write_rules_check_read
          rw [hcfl, he]
        rw [hcfl, hcr, he]
        split_ifs
        · rfl
        · rfl
        · rfl
        · exact ih (rule_cnt + 1) 0 _ _ (Nat.zero_le _)
            (fun j h1 h2 => h j (by omega) (by omega))
      · have hcf : (r1 rule_cnt).type.isCheckType = false := by
          cases hh : (r1 rule_cnt).type.isCheckType
          · rfl
          · exact absurd hh hchk
        rw [loop_invalid P cfg eng r1 c n rule_cnt pending ret w hwf hcf,
          loop_invalid P cfg eng r2 c n rule_cnt pending ret w (he ▸ hwf) (he ▸ hcf)]

theorem reads_init_rtru_le (P : Port σ) (cfg : Config) (w : World σ) (eng : Nat) :
    countReads (rxp_init_rtru P cfg w eng).w.trace
      ≤ countReads w.trace + (cfg.RXP_INITIALIZATION_TIMEOUT + 1) := by
  have hr : countReads (mlx5_regex_register_read P (mark (Event.init_rtru eng) w) eng
      RXP_RTRU_CSR_CTRL).w.trace = countReads w.trace + 1 := by
    rw [reads_read, reads_mark (Event.init_rtru eng) w rfl]
  have hp : countReads (rxp_init_rtru_pulse P (mlx5_regex_register_read P
      (mark (Event.init_rtru eng) w) eng RXP_RTRU_CSR_CTRL) eng).w.trace
      = countReads w.trace + 1 := by
    rw [← hr]
    unfold rxp_init_rtru_pulse
    simp only []
    split_ifs <;> simp only [reads_usleep, reads_write]
  have hpoll := reads_poll_le P (rxp_init_rtru_pulse P (mlx5_regex_register_read P
      (mark (Event.init_rtru eng) w) eng RXP_RTRU_CSR_CTRL) eng).w RXP_RTRU_CSR_STATUS
      rtru_init_done rtru_init_done cfg.RXP_INITIALIZATION_TIMEOUT eng
  unfold rxp_init_rtru
  simp only []
  split_ifs
  · show countReads (mlx5_regex_register_read P (mark (Event.init_rtru eng) w) eng
      RXP_RTRU_CSR_CTRL).w.trace ≤ _
    omega
  · show countReads (rxp_poll_csr_for_value P _ _ _ _ _ _).w.trace ≤ _
    omega
  · show countReads (mlx5_regex_register_write P _ _ _ _).w.trace ≤ _
    rw [reads_write]
    omega

theorem reads_init_rtru_twice_le (P : Port σ) (cfg : Config) (w : World σ) (eng : Nat) :
    countReads (rxp_init_rtru_twice P cfg w eng).w.trace
      ≤ countReads w.trace + (2 * cfg.RXP_INITIALIZATION_TIMEOUT + 3) := by
  have h1 := reads_init_rtru_le P cfg w eng
  have h2 := reads_init_rtru_le P cfg (rxp_init_rtru P cfg w eng).w eng
  unfold rxp_init_rtru_twice
  simp only []
  split_ifs
  · show countReads (mlx5_regex_register_read P _ _ _).w.trace ≤ _
    rw [reads_read]
    omega
  · show countReads (mlx5_regex_register_write P _ _ _ _).w.trace ≤ _
    rw [reads_write, reads_write, reads_write, reads_write, reads_read]
    omega
  · show countReads (mlx5_regex_register_write P _ _ _ _).w.trace ≤ _
    rw [reads_write, reads_write, reads_write, reads_write, reads_read]
    omega
  · show countReads (rxp_init_rtru P cfg (rxp_init_rtru P cfg w eng).w eng).w.trace ≤ _
    omega

/-- A call of `rxp_init` makes at most five register reads outside its three
polls. -/
theorem reads_init_le (P : Port σ) (cfg : Config) (w : World σ) (eng : Nat) :
    countReads (rxp_init P cfg w eng).w.trace
      ≤ countReads w.trace + (3 * cfg.RXP_INITIALIZATION_TIMEOUT + 5) := by
  have hp : countReads (rxp_init_pulse P (mlx5_regex_register_read P w eng RXP_CSR_CTRL)
      eng).w.trace = countReads w.trace + 1 := by
    rw [← reads_read P w eng RXP_CSR_CTRL]
    unfold rxp_init_pulse
    simp only []
    split_ifs <;> simp only [reads_usleep, reads_write]
  have hpoll := reads_poll_le P (rxp_init_pulse P (mlx5_regex_register_read P w eng
      RXP_CSR_CTRL) eng).w RXP_CSR_STATUS RXP_CSR_STATUS_INIT_DONE RXP_CSR_STATUS_INIT_DONE
      cfg.RXP_INITIALIZATION_TIMEOUT eng
  unfold rxp_init rxp_init_main
  simp only []
  split_ifs
  · show countReads (mlx5_regex_register_read P w eng RXP_CSR_CTRL).w.trace ≤ _
    rw [reads_read]
    omega
  · show countReads (rxp_poll_csr_for_value P _ _ _ _ _ _).w.trace ≤ _
    omega
  · show countReads (mlx5_regex_register_read P _ _ _).w.trace ≤ _
    rw [reads_read]
    omega
  · have h := reads_init_rtru_twice_le P cfg
      (mlx5_regex_register_write P (mlx5_regex_register_read P
        (rxp_poll_csr_for_value P (rxp_init_pulse P (mlx5_regex_register_read P w eng
          RXP_CSR_CTRL) eng).w RXP_CSR_STATUS RXP_CSR_STATUS_INIT_DONE RXP_CSR_STATUS_INIT_DONE
          cfg.RXP_INITIALIZATION_TIMEOUT eng).w eng RXP_CSR_CTRL).w eng RXP_CSR_CTRL
        ((mlx5_regex_register_read P
          (rxp_poll_csr_for_value P (rxp_init_pulse P (mlx5_regex_register_read P w eng
            RXP_CSR_CTRL) eng).w RXP_CSR_STATUS RXP_CSR_STATUS_INIT_DONE
            RXP_CSR_STATUS_INIT_DONE cfg.RXP_INITIALIZATION_TIMEOUT eng).w eng
          RXP_CSR_CTRL).value &&& not32 RXP_CSR_CTRL_INIT)).w eng
    rw [reads_write, reads_read] at h
    show countReads (rxp_init_rtru_twice P cfg _ eng).w.trace ≤ _
    omega

theorem reads_start_le (P : Port σ) (cfg : Config) (w : World σ)
    (rules : rxp_ctl_rules_pgm) (bytes eng : Nat) :
    countReads (stageWorld (mlnx_write_rules_start P cfg w rules bytes eng)).trace
      ≤ countReads w.trace + (3 * cfg.RXP_INITIALIZATION_TIMEOUT + 5) := by
  have hinit := reads_init_le P cfg w eng
  unfold mlnx_write_rules_start
  simp only []
  split_ifs <;> simp only [stageWorld] <;> omega

theorem reads_ready_le (P : Port σ) (w1 : World σ) (eng : Nat) (e : Res σ)
    (h : mlnx_write_rules_ready P w1 eng = Sum.inl e) :
    countReads e.w.trace ≤ countReads w1.trace + 2 := by
  unfold mlnx_write_rules_ready at h
  simp only [] at h
  split_ifs at h
  · cases h
    show countReads (mlx5_regex_register_read P w1 eng RXP_CSR_STATUS).w.trace ≤ _
    rw [reads_read]
    omega
  · cases h
    show countReads (mlx5_regex_register_read P w1 eng RXP_CSR_STATUS).w.trace ≤ _
    rw [reads_read]
    omega
  · cases h
    show countReads (mlx5_regex_register_read P
      (mlx5_regex_register_read P w1 eng RXP_CSR_STATUS).w eng
      RXP_RTRU_CSR_CAPABILITY).w.trace ≤ _
    rw [reads_read, reads_read]

/-- The whole of `mlnx_write_rules`: the number of register reads it makes is bounded
by the two polling ceilings and the entry count, and it leaves at most the entry
count it was given in `rules->count`. -/
theorem reads_write_rules_le (P : Port σ) (cfg : Config) (w : World σ)
    (rules : rxp_ctl_rules_pgm) (bytes eng : Nat) :
    countReads (mlnx_write_rules P cfg w rules bytes eng).w.trace
      ≤ countReads w.trace + (3 * cfg.RXP_INITIALIZATION_TIMEOUT + 7)
        + rules.count * (2 * cfg.RXP_POLL_CSR_FOR_VALUE_TIMEOUT + 4) ∧
    (mlnx_write_rules P cfg w rules bytes eng).count ≤ rules.count := by
  have hs := reads_start_le P cfg w rules bytes eng
  unfold mlnx_write_rules
  cases hstart : mlnx_write_rules_start P cfg w rules bytes eng with
  | inl e =>
    rw [hstart] at hs
    simp only []
    refine ⟨?_, le_refl _⟩
    show countReads e.w.trace ≤ _
    have : countReads e.w.trace
        ≤ countReads w.trace + (3 * cfg.RXP_INITIALIZATION_TIMEOUT + 5) := hs
    omega
  | inr w1 =>
    rw [hstart] at hs
    have hw1 : countReads w1.trace
        ≤ countReads w.trace + (3 * cfg.RXP_INITIALIZATION_TIMEOUT + 5) := hs
    simp only []
    cases hready : mlnx_write_rules_ready P w1 eng with
    | inl e =>
      simp only []
      refine ⟨?_, le_refl _⟩
      have := reads_ready_le P w1 eng e hready
      show countReads e.w.trace ≤ _
      omega
    | inr x =>
      obtain ⟨c, w2⟩ := x
      simp only []
      obtain ⟨_, hw2⟩ := ready_inr P w1 eng c w2 hready
      have hw2r : countReads w2.trace = countReads w1.trace + 2 := by
        rw [hw2, reads_read, reads_read]
      obtain ⟨h1, h2, _⟩ := reads_loop_le P cfg eng rules.rules c rules.count 0 0 0 w2
      exact ⟨by omega, h2⟩

theorem write_rules_of_entry (P : Port σ) (cfg : Config) (w : World σ)
    (rules : rxp_ctl_rules_pgm) (bytes eng c : Nat) (w2 : World σ)
    (hentry : mlnx_write_rules_loop_entry P cfg w rules bytes eng = some (c, w2)) :
    mlnx_write_rules P cfg w rules bytes eng
      = mlnx_write_rules_loop P cfg eng rules.rules c rules.count 0 0 0 w2 := by
  unfold mlnx_write_rules_loop_entry at hentry
  cases hstart : mlnx_write_rules_start P cfg w rules bytes eng with
  | inl e => rw [hstart] at hentry; cases hentry
  | inr w1 =>
    rw [hstart] at hentry
    simp only [] at hentry
    cases hready : mlnx_write_rules_ready P w1 eng with
    | inl e => rw [hready] at hentry; cases hentry
    | inr x =>
      rw [hready] at hentry
      cases hentry
      unfold mlnx_write_rules
      rw [hstart]
      simp only []
      rw [hready]

/-- C39: `mlnx_write_rules` terminates on every input and register behaviour, with
these bounds.  The entry loop runs on `rules->count`, which it decrements once per
entry: the call leaves at most the initial count in `rules->count`, and leaves a
non-zero count only when it returns (0 or `-EINVAL`) from inside the loop, so a loop
that runs to its end leaves 0.  The entries at index `rules->count` and beyond are
never read: changing them changes nothing of the run.  Every wait
(`rxp_poll_csr_for_value`) makes at most `timeout_ms` register reads, and the whole
call makes at most `3 * RXP_INITIALIZATION_TIMEOUT + 7` register reads before the
loop and `2 * RXP_POLL_CSR_FOR_VALUE_TIMEOUT + 4` per entry. -/
theorem mlnx_write_rules_terminates (P : Port σ) (cfg : Config) (w : World σ)
    (rules : rxp_ctl_rules_pgm) (bytes eng : Nat) :
    countReads (mlnx_write_rules P cfg w rules bytes eng).w.trace
      ≤ countReads w.trace + (3 * cfg.RXP_INITIALIZATION_TIMEOUT + 7)
        + rules.count * (2 * cfg.RXP_POLL_CSR_FOR_VALUE_TIMEOUT + 4) ∧
    (mlnx_write_rules P cfg w rules bytes eng).count ≤ rules.count ∧
    (∀ c w2, mlnx_write_rules_loop_entry P cfg w rules bytes eng = some (c, w2) →
      ((mlnx_write_rules P cfg w rules bytes eng).count = 0 ∨
        (mlnx_write_rules P cfg w rules bytes eng).ret = 0 ∨
        (mlnx_write_rules P cfg w rules bytes eng).ret = -EINVAL) ∧
      countReads (mlnx_write_rules P cfg w rules bytes eng).w.trace
        ≤ countReads w2.trace + rules.count * (2 * cfg.RXP_POLL_CSR_FOR_VALUE_TIMEOUT + 4)) ∧
    (∀ rules1 : Nat → rxp_rof_entry, (∀ i, i < rules.count → rules1 i = rules.rules i) →
      mlnx_write_rules P cfg w ⟨rules.cmd, rules.count, rules1⟩ bytes eng
        = mlnx_write_rules P cfg w rules bytes eng) ∧
    (∀ (w1 : World σ) (address expected_value expected_mask timeout_ms : Nat),
      countReads (rxp_poll_csr_for_value P w1 address expected_value expected_mask timeout_ms
        eng).w.trace ≤ countReads w1.trace + timeout_ms) := by
  obtain ⟨h1, h2⟩ := reads_write_rules_le P cfg w rules bytes eng
  refine ⟨h1, h2, ?_, ?_, fun w1 a ev m T => reads_poll_le P w1 a ev m T eng⟩
  · intro c w2 hentry
    rw [write_rules_of_entry P cfg w rules bytes eng c w2 hentry]
    obtain ⟨g1, _, g3⟩ := reads_loop_le P cfg eng rules.rules c rules.count 0 0 0 w2
    exact ⟨g3, g1⟩
  · intro rules1 hagree
    have hstart : mlnx_write_rules_start P cfg w ⟨rules.cmd, rules.count, rules1⟩ bytes eng
        = mlnx_write_rules_start P cfg w rules bytes eng := rfl
    unfold mlnx_write_rules
    rw [hstart]
    cases mlnx_write_rules_start P cfg w rules bytes eng with
    | inl e => rfl
    | inr w1 =>
      simp only []
      cases mlnx_write_rules_ready P w1 eng with
      | inl e => rfl
      | inr x =>
        obtain ⟨c, w2⟩ := x
        simp only []
        exact loop_congr P cfg eng rules1 rules.rules c rules.count 0 0 0 w2 (le_refl _)
          (fun j _ hj => hagree j (by omega))

/-- C39, witness: the load of four instruction entries with a polling ceiling of 2 ms
on an initialised engine whose rule FIFO (capacity 2) never reports the count, so
that both flushes time out: the call makes 8 register reads, within the bound, and
leaves 0 in `rules->count`. -/
theorem mlnx_write_rules_terminates_witness :
    countReads (mlnx_write_rules (constPort (stuckFile 2 0)) quickConfig ⟨(), []⟩
      ⟨2, 4, fun i => ⟨rxp_rof_entry_type.RXP_ROF_ENTRY_INST, 0x10 + i, 7⟩⟩ 72 0).w.trace
      ≤ 0 + (3 * 60000 + 7) + 4 * (2 * 2 + 4) ∧
    countReads (mlnx_write_rules (constPort (stuckFile 2 0)) quickConfig ⟨(), []⟩
      ⟨2, 4, fun i => ⟨rxp_rof_entry_type.RXP_ROF_ENTRY_INST, 0x10 + i, 7⟩⟩ 72 0).w.trace = 8 ∧
    (mlnx_write_rules (constPort (stuckFile 2 0)) quickConfig ⟨(), []⟩
      ⟨2, 4, fun i => ⟨rxp_rof_entry_type.RXP_ROF_ENTRY_INST, 0x10 + i, 7⟩⟩ 72 0).count = 0 :=
  ⟨(mlnx_write_rules_terminates (constPort (stuckFile 2 0)) quickConfig ⟨(), []⟩
      ⟨2, 4, fun i => ⟨rxp_rof_entry_type.RXP_ROF_ENTRY_INST, 0x10 + i, 7⟩⟩ 72 0).1,
    by decide, by decide⟩

/-! ## mlnx_open / mlnx_release: the bookkeeping of queue identifiers -/

theorem testBit_one_shiftLeft (q i : Nat) : (1 <<< q).testBit i = decide (q = i) := by
  rw [Nat.one_shiftLeft, Nat.testBit_two_pow]

theorem testBit_and_shift (m q i : Nat) :
    (m &&& (1 <<< q)).testBit i = (m.testBit i && decide (q = i)) := by
  rw [Nat.testBit_and, testBit_one_shiftLeft]

theorem and_shift_eq_zero_iff (m q : Nat) : m &&& (1 <<< q) = 0 ↔ m.testBit q = false := by
  constructor
  · intro h
    have := testBit_and_shift m q q
    rw [h, Nat.zero_testBit] at this
    simpa using this.symm
  · intro h
    apply Nat.eq_of_testBit_eq
    intro i
    rw [testBit_and_shift, Nat.zero_testBit]
    by_cases hqi : q = i
    · subst hqi
      rw [h]
      rfl
    · simp [hqi]

theorem testBit_set_shift (m q i : Nat) :
    (m ||| (1 <<< q)).testBit i = (m.testBit i || decide (q = i)) := by
  rw [Nat.testBit_or, testBit_one_shiftLeft]

theorem testBit_clearQueueBit (m q i : Nat) :
    (clearQueueBit m q).testBit i = (m.testBit i && !decide (q = i)) := by
  unfold clearQueueBit
  rw [Nat.testBit_xor, testBit_and_shift]
  by_cases hqi : q = i <;> cases m.testBit i <;> simp [hqi]

/-- Setting the bit of a free identifier and clearing it again, as the failure paths
of `mlnx_open` do, gives the bitmask back. -/
theorem clear_set_of_free (m q : Nat) (h : m.testBit q = false) :
    clearQueueBit (m ||| (1 <<< q)) q = m := by
  apply Nat.eq_of_testBit_eq
  intro i
  rw [testBit_clearQueueBit, testBit_set_shift]
  by_cases hqi : q = i
  · subst hqi
    simp [h]
  · simp [hqi]

/-- The loop of `mlnx_open` that looks for a free identifier stops at the lowest
identifier, from `q` on, whose bit is clear, or at `RXP_NUM_QUEUES`. -/
theorem mlnx_open_find_spec (n m : Nat) :
    ∀ (fuel q : Nat), q + fuel = n →
      q ≤ mlnx_open_find n m fuel q ∧ mlnx_open_find n m fuel q ≤ n ∧
      (∀ j, q ≤ j → j < mlnx_open_find n m fuel q → m.testBit j = true) ∧
      (mlnx_open_find n m fuel q < n → m.testBit (mlnx_open_find n m fuel q) = false) := by
  intro fuel
  induction fuel with
  | zero =>
    intro q hq
    rw [mlnx_open_find]
    exact ⟨le_refl _, by omega, fun j h1 h2 => absurd h2 (by omega), fun h => absurd h (by omega)⟩
  | succ k ih =>
    intro q hq
    rw [mlnx_open_find]
    by_cases hc : q < n ∧ m &&& (1 <<< q) ≠ 0
    · rw [if_pos hc]
      obtain ⟨h1, h2, h3, h4⟩ := ih (q + 1) (by omega)
      refine ⟨by omega, h2, ?_, h4⟩
      intro j hj1 hj2
      by_cases hjq : j = q
      · subst hjq
        have := hc.2
        rw [Ne, and_shift_eq_zero_iff] at this
        cases hb : m.testBit j
        · exact absurd hb this
        · rfl
      · exact h3 j (by omega) hj2
    · rw [if_neg hc]
      refine ⟨le_refl _, by omega, fun j h1 h2 => absurd h2 (by omega), ?_⟩
      intro hlt
      have : ¬ m &&& (1 <<< q) ≠ 0 := fun h => hc ⟨hlt, h⟩
      rw [Ne, not_not, and_shift_eq_zero_iff] at this
      exact this

theorem countP_range_all (f : Nat → Bool) :
    ∀ n, (∀ i, i < n → f i = true) → (List.range n).countP f = n := by
  intro n
  induction n with
  | zero => intro _; rfl
  | succ k ih =>
    intro h
    rw [List.range_succ, List.countP_append, ih (fun i hi => h i (by omega))]
    simp [h k (by omega)]

/-- Two predicates that differ at one point below `n` only, where the first is false
and the second true: the second holds of one more number below `n`. -/
theorem countP_range_succ_of_flip (f g : Nat → Bool) (q : Nat) (hf : f q = false)
    (hg : g q = true) (hsame : ∀ i, i ≠ q → g i = f i) :
    ∀ n, (List.range n).countP g = (List.range n).countP f + (if q < n then 1 else 0) := by
  intro n
  induction n with
  | zero => simp
  | succ k ih =>
    rw [List.range_succ, List.countP_append, List.countP_append, ih]
    by_cases hkq : k = q
    · subst hkq
      simp [hf, hg]
    · rw [List.countP_singleton, List.countP_singleton, hsame k hkq]
      by_cases h1 : q < k
      · have h2 : q < k + 1 := by omega
        simp only [h1, h2, if_true]
        omega
      · have h2 : ¬ q < k + 1 := by omega
        simp only [h1, h2, if_false]
        split_ifs <;> omega

/-- When the slot loop of `mlnx_open` runs to its end, every slot it went through
starts not busy, not response-ready, with work identifier 0 and job identifier 0
(its other fields are untouched), and the other slots are as before. -/
theorem mlnx_open_slots_init {ρ : Type} (A : AllocPort ρ) :
    ∀ (fuel i : Nat) (sq : Nat → rxp_sq_buf) (h : ρ),
      (mlnx_open_slots A fuel i sq h).1 = none →
      (∀ j, i ≤ j → j < i + fuel → (mlnx_open_slots A fuel i sq h).2.1 j
        = { sq j with sq_busy := false, sq_resp_ready := false, work_id := 0, job_id := 0 }) ∧
      (∀ j, j < i → (mlnx_open_slots A fuel i sq h).2.1 j = sq j) := by
  intro fuel
  induction fuel with
  | zero =>
    intro i sq h _
    exact ⟨fun j h1 h2 => absurd h2 (by omega), fun j _ => rfl⟩
  | succ n ih =>
    intro i sq h hnone
    rw [mlnx_open_slots] at hnone ⊢
    simp only [] at hnone ⊢
    split_ifs at hnone ⊢
    · obtain ⟨g1, g2⟩ := ih (i + 1) _ _ hnone
      constructor
      · intro j h1 h2
        by_cases hji : j = i
        · subst hji
          rw [g2 j (by omega)]
          simp
        · rw [g1 j (by omega) (by omega)]
          simp [hji]
      · intro j hj
        rw [g2 j (by omega)]
        simp [show j ≠ i by omega]

/-- A call of `mlnx_open` that returns a non-negative value went through every slot
of the queue it opened. -/
theorem mlnx_open_success_slots {ρ : Type} (P : Port σ) (A : AllocPort ρ)
    (RXP_NUM_QUEUES : Nat) (qc : QueueConfig) (st : OpenState σ ρ)
    (hret : 0 ≤ (mlnx_open P A RXP_NUM_QUEUES qc st).ret) :
    ∀ i, i < qc.NUM_SQS →
      ((mlnx_open P A RXP_NUM_QUEUES qc st).st.queue
          (mlnx_open_find RXP_NUM_QUEUES st.queues_active RXP_NUM_QUEUES 0)).sq_buf i
        = { (st.queue (mlnx_open_find RXP_NUM_QUEUES st.queues_active RXP_NUM_QUEUES 0)).sq_buf i
            with sq_busy := false, sq_resp_ready := false, work_id := 0, job_id := 0 } := by
  intro i hi
  unfold mlnx_open at hret ⊢
  by_cases h : st.open_queues ≥ (RXP_NUM_QUEUES : Int)
  · rw [if_pos h] at hret
    exact absurd hret (show ¬ (0 : Int) ≤ -EBUSY by decide)
  · rw [if_neg h] at hret ⊢
    simp only [] at hret ⊢
    cases hd : (A.alloc st.heap AllocStep.rxp_job_ctx).1
    · rw [if_pos (by rw [hd]; rfl)] at hret
      exact absurd hret (show ¬ (0 : Int) ≤ -1 by decide)
    · rw [if_neg (by rw [hd]; simp)] at hret
      rw [if_neg (by simp)]
      cases hs : (mlnx_open_slots A qc.NUM_SQS 0
          (st.queue (mlnx_open_find RXP_NUM_QUEUES st.queues_active RXP_NUM_QUEUES 0)).sq_buf
          (A.alloc st.heap AllocStep.rxp_job_ctx).2).1 with
      | some k =>
        rw [hs] at hret
        exact absurd hret (show ¬ (0 : Int) ≤ -1 by decide)
      | none =>
        have hinit := (mlnx_open_slots_init A qc.NUM_SQS 0 _ _ hs).1 i (Nat.zero_le _)
          (by omega)
        simp only [eq_self_iff_true, if_true]
        exact hinit

/-- One call of `mlnx_open`, when the count of open queues is the number of
identifiers below `RXP_NUM_QUEUES` marked active and no other bit of the bitmask is
set: this stays true, and a call that returns a non-negative value took the lowest
identifier whose bit was clear, which is below `RXP_NUM_QUEUES`. -/
theorem mlnx_open_bookkeeping_step {ρ : Type} (P : Port σ) (A : AllocPort ρ)
    (RXP_NUM_QUEUES : Nat) (qc : QueueConfig) (st : OpenState σ ρ)
    (hcount : st.open_queues = (activeCount RXP_NUM_QUEUES st.queues_active : Int))
    (hhigh : ∀ i, RXP_NUM_QUEUES ≤ i → st.queues_active.testBit i = false) :
    ((mlnx_open P A RXP_NUM_QUEUES qc st).st.open_queues
        = (activeCount RXP_NUM_QUEUES (mlnx_open P A RXP_NUM_QUEUES qc st).st.queues_active
          : Int) ∧
      ∀ i, RXP_NUM_QUEUES ≤ i →
        (mlnx_open P A RXP_NUM_QUEUES qc st).st.queues_active.testBit i = false) ∧
    (0 ≤ (mlnx_open P A RXP_NUM_QUEUES qc st).ret →
      (mlnx_open P A RXP_NUM_QUEUES qc st).ret
        = toInt32 (mlnx_open_find RXP_NUM_QUEUES st.queues_active RXP_NUM_QUEUES 0) ∧
      mlnx_open_find RXP_NUM_QUEUES st.queues_active RXP_NUM_QUEUES 0 < RXP_NUM_QUEUES ∧
      st.queues_active.testBit
        (mlnx_open_find RXP_NUM_QUEUES st.queues_active RXP_NUM_QUEUES 0) = false ∧
      (∀ j, j < mlnx_open_find RXP_NUM_QUEUES st.queues_active RXP_NUM_QUEUES 0 →
        st.queues_active.testBit j = true) ∧
      (mlnx_open P A RXP_NUM_QUEUES qc st).st.queues_active.testBit
        (mlnx_open_find RXP_NUM_QUEUES st.queues_active RXP_NUM_QUEUES 0) = true) := by
  obtain ⟨_, s2, s3, s4⟩ := mlnx_open_find_spec RXP_NUM_QUEUES st.queues_active
    RXP_NUM_QUEUES 0 (by omega)
  have hbitq : st.queues_active.testBit
      (mlnx_open_find RXP_NUM_QUEUES st.queues_active RXP_NUM_QUEUES 0) = false := by
    by_cases hlt : mlnx_open_find RXP_NUM_QUEUES st.queues_active RXP_NUM_QUEUES 0
        < RXP_NUM_QUEUES
    · exact s4 hlt
    · exact hhigh _ (by omega)
  rcases mlnx_open_effect P A RXP_NUM_QUEUES qc st with h | h | h
  · rw [h.2]
    exact ⟨⟨hcount, hhigh⟩, fun hret => absurd hret (show ¬ (0 : Int) ≤ -EBUSY by decide)⟩
  · obtain ⟨_, hr, hc, _, hm⟩ := h
    rw [hc, hm, clear_set_of_free _ _ hbitq, hr]
    exact ⟨⟨hcount, hhigh⟩, fun hret => absurd hret (show ¬ (0 : Int) ≤ -1 by decide)⟩
  · obtain ⟨hlt, hr, hc, _, hm⟩ := h
    have hq : mlnx_open_find RXP_NUM_QUEUES st.queues_active RXP_NUM_QUEUES 0
        < RXP_NUM_QUEUES := by
      by_contra hge
      have heq : mlnx_open_find RXP_NUM_QUEUES st.queues_active RXP_NUM_QUEUES 0
          = RXP_NUM_QUEUES := by omega
      have hall : activeCount RXP_NUM_QUEUES st.queues_active = RXP_NUM_QUEUES := by
        unfold activeCount
        apply countP_range_all
        intro i hi
        exact s3 i (Nat.zero_le _) (by rw [heq]; exact hi)
      rw [hcount, hall] at hlt
      omega
    have hflip := countP_range_succ_of_flip (fun q => st.queues_active.testBit q)
      (fun q => (st.queues_active ||| (1 <<<
        mlnx_open_find RXP_NUM_QUEUES st.queues_active RXP_NUM_QUEUES 0)).testBit q)
      (mlnx_open_find RXP_NUM_QUEUES st.queues_active RXP_NUM_QUEUES 0) hbitq
      (by simp [testBit_set_shift])
      (by
        intro i hi
        simp only [testBit_set_shift]
        simp [Ne.symm hi])
      RXP_NUM_QUEUES
    rw [if_pos hq] at hflip
    rw [hc, hm, hr]
    refine ⟨⟨?_, ?_⟩, fun _ => ⟨rfl, hq, hbitq, fun j hj => s3 j (Nat.zero_le _) hj, ?_⟩⟩
    · unfold activeCount
      rw [hflip, hcount]
      unfold activeCount
      push_cast
      rfl
    · intro i hi
      rw [testBit_set_shift, hhigh i hi]
      simp
      omega
    · rw [testBit_set_shift]
      simp

/-- One call of `mlnx_release` on a queue whose identifier is marked active keeps the
count of open queues equal to the number of identifiers marked active. -/
theorem mlnx_release_bookkeeping_step {ρ : Type} (P : Port σ) (A : AllocPort ρ)
    (RXP_NUM_QUEUES : Nat) (qc : QueueConfig) (st : OpenState σ ρ) (k : Nat)
    (hcount : st.open_queues = (activeCount RXP_NUM_QUEUES st.queues_active : Int))
    (hhigh : ∀ i, RXP_NUM_QUEUES ≤ i → st.queues_active.testBit i = false)
    (hopen : st.queues_active.testBit (st.q_id k) = true) :
    (mlnx_release P A qc st k).st.open_queues
      = (activeCount RXP_NUM_QUEUES (mlnx_release P A qc st k).st.queues_active : Int) ∧
    ∀ i, RXP_NUM_QUEUES ≤ i → (mlnx_release P A qc st k).st.queues_active.testBit i = false := by
  have hc : (mlnx_release P A qc st k).st.open_queues = st.open_queues - 1 := rfl
  have hm : (mlnx_release P A qc st k).st.queues_active
      = clearQueueBit st.queues_active (st.q_id k) := rfl
  have hlt : st.q_id k < RXP_NUM_QUEUES := by
    by_contra hge
    rw [hhigh _ (by omega)] at hopen
    exact Bool.noConfusion hopen
  have hflip := countP_range_succ_of_flip
    (fun q => (clearQueueBit st.queues_active (st.q_id k)).testBit q)
    (fun q => st.queues_active.testBit q) (st.q_id k)
    (by simp [testBit_clearQueueBit]) hopen
    (by
      intro i hi
      simp only [testBit_clearQueueBit]
      simp [Ne.symm hi])
    RXP_NUM_QUEUES
  rw [if_pos hlt] at hflip
  rw [hc, hm]
  constructor
  · rw [hcount]
    unfold activeCount
    rw [hflip]
    push_cast
    omega
  · intro i hi
    rw [testBit_clearQueueBit, hhigh i hi]
    rfl

/-- The bookkeeping is kept by a list of calls in which every `mlnx_release` is given
a queue whose identifier is marked active. -/
theorem run_calls_bookkeeping {ρ : Type} (P : Port σ) (A : AllocPort ρ)
    (RXP_NUM_QUEUES : Nat) (qc : QueueConfig) :
    ∀ (calls : List DevCall) (r : DevRun σ ρ),
      r.st.open_queues = (activeCount RXP_NUM_QUEUES r.st.queues_active : Int) →
      (∀ i, RXP_NUM_QUEUES ≤ i → r.st.queues_active.testBit i = false) →
      releasesActive P A RXP_NUM_QUEUES qc calls r.st = true →
      (runDevCalls P A RXP_NUM_QUEUES qc calls r).st.open_queues
        = (activeCount RXP_NUM_QUEUES
            (runDevCalls P A RXP_NUM_QUEUES qc calls r).st.queues_active : Int) ∧
      ∀ i, RXP_NUM_QUEUES ≤ i →
        (runDevCalls P A RXP_NUM_QUEUES qc calls r).st.queues_active.testBit i = false := by
  intro calls
  induction calls with
  | nil =>
    intro r hc hh _
    exact ⟨hc, hh⟩
  | cons c t ih =>
    intro r hc hh hrel
    cases c with
    | «open» =>
      rw [runDevCalls]
      rw [releasesActive] at hrel
      obtain ⟨⟨g1, g2⟩, _⟩ := mlnx_open_bookkeeping_step P A RXP_NUM_QUEUES qc r.st hc hh
      exact ih ⟨(mlnx_open P A RXP_NUM_QUEUES qc r.st).st,
        r.rets ++ [(mlnx_open P A RXP_NUM_QUEUES qc r.st).ret]⟩ g1 g2 hrel
    | release k =>
      rw [runDevCalls]
      rw [releasesActive, Bool.and_eq_true] at hrel
      obtain ⟨g1, g2⟩ := mlnx_release_bookkeeping_step P A RXP_NUM_QUEUES qc r.st k hc hh
        hrel.1
      exact ih ⟨(mlnx_release P A qc r.st k).st,
        r.rets ++ [(mlnx_release P A qc r.st k).ret]⟩ g1 g2 hrel.2

theorem activeCount_le (n queues_active : Nat) : activeCount n queues_active ≤ n := by
  unfold activeCount
  have h := List.countP_le_length (fun q => queues_active.testBit q) (l := List.range n)
  rw [List.length_range] at h
  exact h

/-- C38: starting from an empty bitmask of active queues and a count of open queues
of 0, after any list of calls of `mlnx_open` (whatever they return) and of
`mlnx_release` on queues whose identifier is marked active, the count of open queues
is the number of bits set in the bitmask (the bits below `RXP_NUM_QUEUES`, no other
bit being set) and is at most `RXP_NUM_QUEUES`; a call of `mlnx_open` made then that
returns a non-negative value returns the lowest identifier whose bit was clear,
which is below `RXP_NUM_QUEUES` and is marked active afterwards, and every slot of
the queue it opened has `sq_busy` false, `sq_resp_ready` false, `work_id` 0 and
`job_id` 0. -/
theorem mlnx_open_bookkeeping {ρ : Type} (P : Port σ) (A : AllocPort ρ)
    (RXP_NUM_QUEUES : Nat) (qc : QueueConfig) (calls : List DevCall) (st0 : OpenState σ ρ)
    (hN : RXP_NUM_QUEUES < 2 ^ 31)
    (hcount : st0.open_queues = 0) (hmask : st0.queues_active = 0)
    (hrel : releasesActive P A RXP_NUM_QUEUES qc calls st0 = true) :
    (runDevCalls P A RXP_NUM_QUEUES qc calls ⟨st0, []⟩).st.open_queues
      = (activeCount RXP_NUM_QUEUES
          (runDevCalls P A RXP_NUM_QUEUES qc calls ⟨st0, []⟩).st.queues_active : Int) ∧
    (∀ i, RXP_NUM_QUEUES ≤ i →
      (runDevCalls P A RXP_NUM_QUEUES qc calls ⟨st0, []⟩).st.queues_active.testBit i
        = false) ∧
    (runDevCalls P A RXP_NUM_QUEUES qc calls ⟨st0, []⟩).st.open_queues
      ≤ (RXP_NUM_QUEUES : Int) ∧
    (0 ≤ (mlnx_open P A RXP_NUM_QUEUES qc
        (runDevCalls P A RXP_NUM_QUEUES qc calls ⟨st0, []⟩).st).ret →
      ∃ q : Nat,
        (mlnx_open P A RXP_NUM_QUEUES qc
          (runDevCalls P A RXP_NUM_QUEUES qc calls ⟨st0, []⟩).st).ret = (q : Int) ∧
        q < RXP_NUM_QUEUES ∧
        (runDevCalls P A RXP_NUM_QUEUES qc calls ⟨st0, []⟩).st.queues_active.testBit q
          = false ∧
        (∀ j, j < q →
          (runDevCalls P A RXP_NUM_QUEUES qc calls ⟨st0, []⟩).st.queues_active.testBit j
            = true) ∧
        (mlnx_open P A RXP_NUM_QUEUES qc
          (runDevCalls P A RXP_NUM_QUEUES qc calls ⟨st0, []⟩).st).st.queues_active.testBit q
          = true ∧
        ∀ i, i < qc.NUM_SQS →
          (((mlnx_open P A RXP_NUM_QUEUES qc
              (runDevCalls P A RXP_NUM_QUEUES qc calls ⟨st0, []⟩).st).st.queue q).sq_buf
            i).sq_busy = false ∧
          (((mlnx_open P A RXP_NUM_QUEUES qc
              (runDevCalls P A RXP_NUM_QUEUES qc calls ⟨st0, []⟩).st).st.queue q).sq_buf
            i).sq_resp_ready = false ∧
          (((mlnx_open P A RXP_NUM_QUEUES qc
              (runDevCalls P A RXP_NUM_QUEUES qc calls ⟨st0, []⟩).st).st.queue q).sq_buf
            i).work_id = 0 ∧
          (((mlnx_open P A RXP_NUM_QUEUES qc
              (runDevCalls P A RXP_NUM_QUEUES qc calls ⟨st0, []⟩).st).st.queue q).sq_buf
            i).job_id = 0) := by
  have h0 : st0.open_queues = (activeCount RXP_NUM_QUEUES st0.queues_active : Int) := by
    rw [hcount, hmask]
    unfold activeCount
    simp
  have hh0 : ∀ i, RXP_NUM_QUEUES ≤ i → st0.queues_active.testBit i = false := by
    intro i _
    rw [hmask]
    exact Nat.zero_testBit i
  obtain ⟨g1, g2⟩ := run_calls_bookkeeping P A RXP_NUM_QUEUES qc calls ⟨st0, []⟩ h0 hh0 hrel
  refine ⟨g1, g2, ?_, ?_⟩
  · rw [g1]
    exact_mod_cast activeCount_le _ _
  · intro hret
    obtain ⟨_, hstep⟩ := mlnx_open_bookkeeping_step P A RXP_NUM_QUEUES qc
      (runDevCalls P A RXP_NUM_QUEUES qc calls ⟨st0, []⟩).st g1 g2
    obtain ⟨e1, e2, e3, e4, e5⟩ := hstep hret
    refine ⟨_, ?_, e2, e3, e4, e5, ?_⟩
    · rw [e1]
      exact toInt32_of_lt (by omega)
    · intro i hi
      rw [mlnx_open_success_slots P A RXP_NUM_QUEUES qc _ hret i hi]
      exact ⟨rfl, rfl, rfl, rfl⟩

/-- Two queue identifiers: two opens, a release of queue 0 and an open again, on a
device whose allocations all succeed.  The count of open queues is 2 and both bits
are set; a further open is refused. -/
theorem mlnx_open_bookkeeping_witness :
    releasesActive memPort plentyAlloc 2 exampleQueueConfig
      [.open, .open, .release 0, .open]
      ⟨0, 0, ⟨fun _ _ => 0, []⟩, (), fun _ => ⟨fun _ => idleSlot, 0⟩, fun _ => 0⟩ = true ∧
    (runDevCalls memPort plentyAlloc 2 exampleQueueConfig
      [.open, .open, .release 0, .open]
      ⟨⟨0, 0, ⟨fun _ _ => 0, []⟩, (), fun _ => ⟨fun _ => idleSlot, 0⟩, fun _ => 0⟩,
        []⟩).rets = [0, 1, 1, 0] ∧
    (runDevCalls memPort plentyAlloc 2 exampleQueueConfig
      [.open, .open, .release 0, .open]
      ⟨⟨0, 0, ⟨fun _ _ => 0, []⟩, (), fun _ => ⟨fun _ => idleSlot, 0⟩, fun _ => 0⟩,
        []⟩).st.queues_active = 3 ∧
    (runDevCalls memPort plentyAlloc 2 exampleQueueConfig
      [.open, .open, .release 0, .open]
      ⟨⟨0, 0, ⟨fun _ _ => 0, []⟩, (), fun _ => ⟨fun _ => idleSlot, 0⟩, fun _ => 0⟩,
        []⟩).st.open_queues
      = (activeCount 2 (runDevCalls memPort plentyAlloc 2 exampleQueueConfig
        [.open, .open, .release 0, .open]
        ⟨⟨0, 0, ⟨fun _ _ => 0, []⟩, (), fun _ => ⟨fun _ => idleSlot, 0⟩, fun _ => 0⟩,
          []⟩).st.queues_active : Int) :=
  ⟨by decide, by decide, by decide,
   (mlnx_open_bookkeeping memPort plentyAlloc 2 exampleQueueConfig
      [.open, .open, .release 0, .open]
      ⟨0, 0, ⟨fun _ _ => 0, []⟩, (), fun _ => ⟨fun _ => idleSlot, 0⟩, fun _ => 0⟩
      (by decide) rfl rfl (by decide)).1⟩

/-! ## mlnx_init: the confirmation of the identifier -/

/-- C31: the test `(!err) || (fpga_ident != 0x5254)` of `mlnx_init` takes a read
that succeeded (status 0) for a failure.  On a platform on which every acquisition
succeeds and a register file whose reads all succeed, `mlnx_init` returns -1
whatever the registers hold; with the identifier register reading 0x5254 it stops
after the read of engine 0 and releases both regions and registrations, the device
list and the mutex.  It returns 1 when both reads fail (status -1) and leave a word
whose low 16 bits are 0x5254. -/
theorem mlnx_init_rejects_good_identifier :
    (∀ (f : Nat → Nat) (w : World Unit),
      (mlnx_init recordInit (constPort f) [] w).ret = -1) ∧
    (mlnx_init recordInit (constPort fun _ => 0x5254) [] ⟨(), []⟩).ret = -1 ∧
    (mlnx_init recordInit (constPort fun _ => 0x5254) [] ⟨(), []⟩).w.trace
      = [Event.read 0 RXP_CSR_IDENTIFIER 0 0x5254] ∧
    (mlnx_init recordInit (constPort fun _ => 0x5254) [] ⟨(), []⟩).heap
      = [.mmap 1, .umem 1, .mmap 0, .umem 0, .dev_list, .mutex] ∧
    (mlnx_init recordInit scriptPort [] ⟨[(-1, 0x5254), (-1, 0x5254)], []⟩).ret = 1 ∧
    (mlnx_init recordInit scriptPort [] ⟨[(-1, 0x5254), (-1, 0x5254)], []⟩).w.trace
      = [Event.read 0 RXP_CSR_IDENTIFIER (-1) 0x5254,
         Event.read 1 RXP_CSR_IDENTIFIER (-1) 0x5254] ∧
    (mlnx_init recordInit scriptPort [] ⟨[(-1, 0x5254), (-1, 0x5254)], []⟩).heap = [] ∧
    (mlnx_init recordInit scriptPort [] ⟨[(-1, 0x5254), (-1, 0x1234)], []⟩).ret = -1 := by
  refine ⟨?_, by decide, by decide, by decide, by decide, by decide, by decide, by decide⟩
  intro f w
  unfold mlnx_init
  simp only []
  rw [if_neg (by simp [recordInit]), if_neg (by simp [recordInit]),
    if_neg (by simp [recordInit]), if_neg (by simp [recordInit]),
    if_neg (by simp [recordInit]), if_neg (by simp [recordInit]),
    if_neg (by simp [recordInit]), if_neg (by simp [recordInit]),
    if_neg (by simp [recordInit])]
  rw [if_pos (show (mlx5_regex_register_read (constPort f) w 0 RXP_CSR_IDENTIFIER).status = 0 ∨
    (mlx5_regex_register_read (constPort f) w 0 RXP_CSR_IDENTIFIER).value &&& 0x0000FFFF
      ≠ 0x5254 from Or.inl rfl)]

/-! ## mlx5_regex_dev_enqueue: the ring of jobs -/

theorem map_range_succ_shift {α : Type} (f : Nat → α) (n : Nat) :
    (List.range (n + 1)).map f = f 0 :: (List.range n).map fun k => f (k + 1) := by
  rw [List.range_succ_eq_map, List.map_cons, List.map_map]
  rfl

theorem foldl_range_succ_shift {α : Type} (g : α → Nat → α) (a : α) (n : Nat) :
    (List.range (n + 1)).foldl g a = (List.range n).foldl (fun b k => g b (k + 1)) (g a 0) := by
  rw [List.range_succ_eq_map, List.foldl_cons, List.foldl_map]

/-- The loop of `mlx5_regex_dev_enqueue` from op `i` on: it accepts `n` ops, the
ops `i .. i + n - 1`, and stops at the end of the array, at a full ring or at a
call of `rxp_submit_job` that returns a non-zero value. -/
theorem enqueue_loop_spec {τ : Type} (F : FastPort τ) (MLX5_REGEX_MAX_JOBS : Nat)
    (ops : Nat → rte_regex_ops) :
    ∀ (fuel i : Nat) (st : EnqRes τ), ∃ (n : Nat) (tail : List SubmitCall),
      n ≤ fuel ∧
      (mlx5_regex_dev_enqueue_loop F MLX5_REGEX_MAX_JOBS ops fuel i st).sent = st.sent + n ∧
      (mlx5_regex_dev_enqueue_loop F MLX5_REGEX_MAX_JOBS ops fuel i st).queue.pi
        = st.queue.pi + n ∧
      (mlx5_regex_dev_enqueue_loop F MLX5_REGEX_MAX_JOBS ops fuel i st).queue.ci
        = st.queue.ci ∧
      (mlx5_regex_dev_enqueue_loop F MLX5_REGEX_MAX_JOBS ops fuel i st).queue.jobs
        = (List.range n).foldl
            (fun jobs k => setJob jobs ((st.queue.pi + k) % MLX5_REGEX_MAX_JOBS)
              ⟨(ops (i + k)).user_id, 1⟩) st.queue.jobs ∧
      (mlx5_regex_dev_enqueue_loop F MLX5_REGEX_MAX_JOBS ops fuel i st).calls
        = st.calls ++ ((List.range n).map fun k =>
            (⟨i + k, (st.queue.pi + k) % MLX5_REGEX_MAX_JOBS, 0⟩ : SubmitCall)) ++ tail ∧
      (∀ k, k < n →
        ((st.queue.pi + k : Nat) : Int) - (st.queue.ci : Int) < (MLX5_REGEX_MAX_JOBS : Int)) ∧
      ((n = fuel ∧ tail = []) ∨
        (n < fuel ∧ tail = [] ∧
          (MLX5_REGEX_MAX_JOBS : Int) ≤ ((st.queue.pi + n : Nat) : Int) - (st.queue.ci : Int)) ∨
        (n < fuel ∧
          ((st.queue.pi + n : Nat) : Int) - (st.queue.ci : Int) < (MLX5_REGEX_MAX_JOBS : Int) ∧
          ∃ ret : Int, ret ≠ 0 ∧
            tail = [⟨i + n, (st.queue.pi + n) % MLX5_REGEX_MAX_JOBS, ret⟩])) := by
  intro fuel
  induction fuel with
  | zero =>
    intro i st
    refine ⟨0, [], Nat.le_refl _, rfl, rfl, rfl, rfl, ?_, ?_, Or.inl ⟨rfl, rfl⟩⟩
    · simp [mlx5_regex_dev_enqueue_loop]
    · intro k hk
      omega
  | succ fuel ih =>
    intro i st
    rw [mlx5_regex_dev_enqueue_loop]
    by_cases hfull : ((st.queue.pi : Int) - (st.queue.ci : Int)) ≥ (MLX5_REGEX_MAX_JOBS : Int)
    · rw [if_pos hfull]
      refine ⟨0, [], Nat.zero_le _, rfl, rfl, rfl, rfl, by simp, ?_,
        Or.inr (Or.inl ⟨Nat.succ_pos _, rfl, ?_⟩)⟩
      · intro k hk
        omega
      · simpa using hfull
    · rw [if_neg hfull]
      simp only []
      by_cases hret : (F.rxp_submit_job st.hw (st.queue.pi % MLX5_REGEX_MAX_JOBS) (ops i)).1 ≠ 0
      · rw [if_pos hret]
        refine ⟨0, [⟨i, st.queue.pi % MLX5_REGEX_MAX_JOBS,
          (F.rxp_submit_job st.hw (st.queue.pi % MLX5_REGEX_MAX_JOBS) (ops i)).1⟩],
          Nat.zero_le _, rfl, rfl, rfl, rfl, by simp, ?_,
          Or.inr (Or.inr ⟨Nat.succ_pos _, ?_, _, hret, rfl⟩)⟩
        · intro k hk
          omega
        · simp only [Nat.add_zero]
          omega
      · rw [if_neg hret]
        have hz : (F.rxp_submit_job st.hw (st.queue.pi % MLX5_REGEX_MAX_JOBS) (ops i)).1 = 0 :=
          not_not.mp hret
        obtain ⟨n, tail, h1, h2, h3, h4, h5, h6, h7, h8⟩ := ih (i + 1)
          { sent := st.sent + 1
            queue :=
              { st.queue with
                pi := st.queue.pi + 1
                jobs := setJob st.queue.jobs (st.queue.pi % MLX5_REGEX_MAX_JOBS)
                  { st.queue.jobs (st.queue.pi % MLX5_REGEX_MAX_JOBS) with
                    user_id := (ops i).user_id, used := 1 } }
            hw := (F.rxp_submit_job st.hw (st.queue.pi % MLX5_REGEX_MAX_JOBS) (ops i)).2
            calls := st.calls ++ [⟨i, st.queue.pi % MLX5_REGEX_MAX_JOBS,
              (F.rxp_submit_job st.hw (st.queue.pi % MLX5_REGEX_MAX_JOBS) (ops i)).1⟩] }
        refine ⟨n + 1, tail, by omega, ?_, ?_, ?_, ?_, ?_, ?_, ?_⟩
        · rw [h2]
          show st.sent + 1 + n = st.sent + (n + 1)
          omega
        · rw [h3]
          show st.queue.pi + 1 + n = st.queue.pi + (n + 1)
          omega
        · rw [h4]
        · rw [h5, foldl_range_succ_shift]
          simp only [Nat.add_zero, Nat.add_assoc, Nat.add_comm 1]
        · rw [h6, map_range_succ_shift, hz]
          simp only [Nat.add_zero, Nat.add_assoc, Nat.add_comm 1, List.append_assoc,
            List.singleton_append]
        · intro k hk
          cases k with
          | zero =>
            simp only [Nat.add_zero]
            omega
          | succ k =>
            have := h7 k (by omega)
            simp only [] at this
            rw [show st.queue.pi + (k + 1) = st.queue.pi + 1 + k by omega]
            exact this
        · simp only [] at h8
          rw [show st.queue.pi + (n + 1) = st.queue.pi + 1 + n by omega,
            show i + (n + 1) = i + 1 + n by omega]
          rcases h8 with ⟨g1, g2⟩ | ⟨g1, g2, g3⟩ | ⟨g1, g2, g3⟩
          · exact Or.inl ⟨by omega, g2⟩
          · exact Or.inr (Or.inl ⟨by omega, g2, g3⟩)
          · exact Or.inr (Or.inr ⟨by omega, g2, g3⟩)

/-- C32: `mlx5_regex_dev_enqueue` on a queue with `pi - ci <= MLX5_REGEX_MAX_JOBS`,
for every `nb_ops`: the count returned is at most `nb_ops`, `pi` advances by that
count and `ci` is unchanged, `pi - ci` is at most `MLX5_REGEX_MAX_JOBS` afterwards;
the accepted ops are the first `sent` ops of the array, the ring is not full when
each is taken, op `k` is submitted with the job identifier
`(pi + k) % MLX5_REGEX_MAX_JOBS` and recorded in that entry of `jobs[]` (its
`user_id`, `used = 1`); and the call stops at the end of the array, at the first op
that finds the ring full (no call of `rxp_submit_job` is made for it) or at the first
op for which `rxp_submit_job` returns a non-zero value (the last call made). -/
theorem mlx5_regex_dev_enqueue_ring {τ : Type} (F : FastPort τ) (MLX5_REGEX_MAX_JOBS : Nat)
    (queue : mlx5_regex_queues) (hw : τ) (ops : Nat → rte_regex_ops) (nb_ops : Nat)
    (hmax : 0 < MLX5_REGEX_MAX_JOBS)
    (hring : (queue.pi : Int) - (queue.ci : Int) ≤ (MLX5_REGEX_MAX_JOBS : Int)) :
    ((mlx5_regex_dev_enqueue F MLX5_REGEX_MAX_JOBS queue hw ops nb_ops).sent ≤ nb_ops ∧
      (mlx5_regex_dev_enqueue F MLX5_REGEX_MAX_JOBS queue hw ops nb_ops).queue.pi
        = queue.pi + (mlx5_regex_dev_enqueue F MLX5_REGEX_MAX_JOBS queue hw ops nb_ops).sent ∧
      (mlx5_regex_dev_enqueue F MLX5_REGEX_MAX_JOBS queue hw ops nb_ops).queue.ci
        = queue.ci ∧
      (((mlx5_regex_dev_enqueue F MLX5_REGEX_MAX_JOBS queue hw ops nb_ops).queue.pi : Nat)
          : Int)
        - ((mlx5_regex_dev_enqueue F MLX5_REGEX_MAX_JOBS queue hw ops nb_ops).queue.ci : Int)
        ≤ (MLX5_REGEX_MAX_JOBS : Int)) ∧
    (mlx5_regex_dev_enqueue F MLX5_REGEX_MAX_JOBS queue hw ops nb_ops).queue.jobs
      = (List.range (mlx5_regex_dev_enqueue F MLX5_REGEX_MAX_JOBS queue hw ops nb_ops).sent).foldl
          (fun jobs k => setJob jobs ((queue.pi + k) % MLX5_REGEX_MAX_JOBS)
            ⟨(ops k).user_id, 1⟩) queue.jobs ∧
    (∀ k, k < (mlx5_regex_dev_enqueue F MLX5_REGEX_MAX_JOBS queue hw ops nb_ops).sent →
      ((queue.pi + k : Nat) : Int) - (queue.ci : Int) < (MLX5_REGEX_MAX_JOBS : Int) ∧
      (queue.pi + k) % MLX5_REGEX_MAX_JOBS < MLX5_REGEX_MAX_JOBS) ∧
    ∃ tail : List SubmitCall,
      (mlx5_regex_dev_enqueue F MLX5_REGEX_MAX_JOBS queue hw ops nb_ops).calls
        = ((List.range
            (mlx5_regex_dev_enqueue F MLX5_REGEX_MAX_JOBS queue hw ops nb_ops).sent).map fun k =>
              (⟨k, (queue.pi + k) % MLX5_REGEX_MAX_JOBS, 0⟩ : SubmitCall)) ++ tail ∧
      (((mlx5_regex_dev_enqueue F MLX5_REGEX_MAX_JOBS queue hw ops nb_ops).sent = nb_ops ∧
          tail = []) ∨
        ((mlx5_regex_dev_enqueue F MLX5_REGEX_MAX_JOBS queue hw ops nb_ops).sent < nb_ops ∧
          tail = [] ∧
          (MLX5_REGEX_MAX_JOBS : Int)
            ≤ ((queue.pi
                + (mlx5_regex_dev_enqueue F MLX5_REGEX_MAX_JOBS queue hw ops nb_ops).sent : Nat)
                : Int) - (queue.ci : Int)) ∨
        ((mlx5_regex_dev_enqueue F MLX5_REGEX_MAX_JOBS queue hw ops nb_ops).sent < nb_ops ∧
          ((queue.pi
              + (mlx5_regex_dev_enqueue F MLX5_REGEX_MAX_JOBS queue hw ops nb_ops).sent : Nat)
              : Int) - (queue.ci : Int) < (MLX5_REGEX_MAX_JOBS : Int) ∧
          ∃ ret : Int, ret ≠ 0 ∧
            tail = [⟨(mlx5_regex_dev_enqueue F MLX5_REGEX_MAX_JOBS queue hw ops nb_ops).sent,
              (queue.pi
                + (mlx5_regex_dev_enqueue F MLX5_REGEX_MAX_JOBS queue hw ops nb_ops).sent)
                % MLX5_REGEX_MAX_JOBS, ret⟩])) := by
  obtain ⟨n, tail, h1, h2, h3, h4, h5, h6, h7, h8⟩ :=
    enqueue_loop_spec F MLX5_REGEX_MAX_JOBS ops nb_ops 0 ⟨0, queue, hw, []⟩
  have hs : (mlx5_regex_dev_enqueue F MLX5_REGEX_MAX_JOBS queue hw ops nb_ops).sent = n := by
    unfold mlx5_regex_dev_enqueue
    rw [h2]
    exact Nat.zero_add n
  have hp : (mlx5_regex_dev_enqueue F MLX5_REGEX_MAX_JOBS queue hw ops nb_ops).queue.pi
      = queue.pi + n := h3
  have hc : (mlx5_regex_dev_enqueue F MLX5_REGEX_MAX_JOBS queue hw ops nb_ops).queue.ci
      = queue.ci := h4
  simp only [Nat.zero_add, List.nil_append] at h5 h6 h7 h8
  rw [hs]
  refine ⟨⟨h1, hp, hc, ?_⟩, h5, ?_, tail, h6, h8⟩
  · rw [hp, hc]
    cases n with
    | zero => simpa using hring
    | succ m =>
      have := h7 m (Nat.lt_succ_self m)
      push_cast at this ⊢
      omega
  · intro k hk
    exact ⟨h7 k hk, Nat.mod_lt _ hmax⟩

/-- A ring of four jobs that holds two (`pi = 2`, `ci = 0`) and five ops: two ops
are accepted, with the job identifiers 2 and 3, and the third finds the ring
full. -/
theorem mlx5_regex_dev_enqueue_ring_witness :
    (0 < 4 ∧ ((2 : Nat) : Int) - ((0 : Nat) : Int) ≤ ((4 : Nat) : Int)) ∧
    (mlx5_regex_dev_enqueue scriptFast 4 ⟨2, 0, fun _ => ⟨0, 0⟩⟩ [] plainOp 5).sent = 2 ∧
    (mlx5_regex_dev_enqueue scriptFast 4 ⟨2, 0, fun _ => ⟨0, 0⟩⟩ [] plainOp 5).calls
      = [⟨0, 2, 0⟩, ⟨1, 3, 0⟩] ∧
    ((mlx5_regex_dev_enqueue scriptFast 4 ⟨2, 0, fun _ => ⟨0, 0⟩⟩ [] plainOp 5).sent ≤ 5 ∧
      (mlx5_regex_dev_enqueue scriptFast 4 ⟨2, 0, fun _ => ⟨0, 0⟩⟩ [] plainOp 5).queue.pi
        = 2 + (mlx5_regex_dev_enqueue scriptFast 4 ⟨2, 0, fun _ => ⟨0, 0⟩⟩ [] plainOp 5).sent ∧
      (mlx5_regex_dev_enqueue scriptFast 4 ⟨2, 0, fun _ => ⟨0, 0⟩⟩ [] plainOp 5).queue.ci = 0 ∧
      (((mlx5_regex_dev_enqueue scriptFast 4 ⟨2, 0, fun _ => ⟨0, 0⟩⟩ [] plainOp 5).queue.pi
          : Nat) : Int)
        - ((mlx5_regex_dev_enqueue scriptFast 4 ⟨2, 0, fun _ => ⟨0, 0⟩⟩ [] plainOp 5).queue.ci
          : Int)
        ≤ ((4 : Nat) : Int)) :=
  ⟨⟨by decide, by decide⟩, by decide, by decide,
   (mlx5_regex_dev_enqueue_ring scriptFast 4 ⟨2, 0, fun _ => ⟨0, 0⟩⟩ [] plainOp 5
      (by decide) (by decide)).1⟩

/-! ## mlx5_regex_dev_dequeue: the job entry of a response -/

/-- C36: `mlx5_regex_dev_dequeue` reads the user identifier from `jobs[id]`, with
`id` the job identifier of the response, but clears the flag `used` in `jobs[i]`,
with `i` the position of the op in the call.  Two ops (user identifiers 100 and
101) are enqueued in the entries 0 and 1 and the response of job 1 arrives first.
A dequeue of one op delivers the user identifier 101 and clears `used` in entry 0,
whose job is still in flight, while entry 1 stays used.  A second dequeue of one
op delivers the user identifier 100 and leaves entry 1 used although no job is in
flight (`pi = ci`).  When both responses are taken by one call for two ops, both
flags are cleared: the entry cleared depends on the position of the op. -/
theorem mlx5_regex_dev_dequeue_clears_wrong_slot :
    (twoJobsEnqueued.sent = 2 ∧
      twoJobsEnqueued.calls = [⟨0, 0, 0⟩, ⟨1, 1, 0⟩] ∧
      twoJobsEnqueued.queue.jobs 0 = ⟨100, 1⟩ ∧
      twoJobsEnqueued.queue.jobs 1 = ⟨101, 1⟩) ∧
    (firstDequeued.rec_cnt = 1 ∧
      (firstDequeued.ops 0).user_id = 101 ∧
      firstDequeued.queue.pi = 2 ∧ firstDequeued.queue.ci = 1 ∧
      firstDequeued.hw.map (fun r => r.job_id) = [0] ∧
      (firstDequeued.queue.jobs 0).used = 0 ∧
      (firstDequeued.queue.jobs 1).used = 1) ∧
    (secondDequeued.rec_cnt = 1 ∧
      (secondDequeued.ops 0).user_id = 100 ∧
      secondDequeued.queue.pi = 2 ∧ secondDequeued.queue.ci = 2 ∧
      secondDequeued.hw.map (fun r => r.job_id) = [] ∧
      (secondDequeued.queue.jobs 0).used = 0 ∧
      (secondDequeued.queue.jobs 1).used = 1) ∧
    (bothDequeued.rec_cnt = 2 ∧
      (bothDequeued.ops 0).user_id = 101 ∧
      (bothDequeued.ops 1).user_id = 100 ∧
      (bothDequeued.queue.jobs 0).used = 0 ∧
      (bothDequeued.queue.jobs 1).used = 0) := by
  decide

/-! ## mlnx_write_rules: a capacity of 0 and a program of 2^31 entries -/

/-- With a capacity of 0 the entry loop of `mlnx_write_rules` never meets
`pending == rtru_max_num_entries`: on write-type entries it makes one call of
`rxp_flush_rules`, at the last entry, for all the entries pending. -/
theorem loop_capacity_zero (P : Port σ) (cfg : Config) (eng : Nat)
    (rules : Nat → rxp_rof_entry) (hall : ∀ i, (rules i).type.isWriteType = true) :
    ∀ (n rule_cnt pending : Nat) (ret : Int) (w : World σ),
      mlnx_write_rules_loop P cfg eng rules 0 (n + 1) rule_cnt pending ret w
        = if (rxp_flush_rules P cfg w
              (fun i => rules (rule_cnt + n + 1 - (pending + n + 1) + i))
              (toInt32 (pending + n + 1)) eng).ret = 0 then
            ⟨(rxp_flush_rules P cfg w
                (fun i => rules (rule_cnt + n + 1 - (pending + n + 1) + i))
                (toInt32 (pending + n + 1)) eng).ret, 1,
              (rxp_flush_rules P cfg w
                (fun i => rules (rule_cnt + n + 1 - (pending + n + 1) + i))
                (toInt32 (pending + n + 1)) eng).w⟩
          else
            ⟨(rxp_flush_rules P cfg w
                (fun i => rules (rule_cnt + n + 1 - (pending + n + 1) + i))
                (toInt32 (pending + n + 1)) eng).ret, 0,
              (rxp_flush_rules P cfg w
                (fun i => rules (rule_cnt + n + 1 - (pending + n + 1) + i))
                (toInt32 (pending + n + 1)) eng).w⟩ := by
  intro n
  induction n with
  | zero =>
    intro rule_cnt pending ret w
    rw [mlnx_write_rules_loop, if_pos (hall _), if_pos (Or.inl rfl)]
    simp only []
    by_cases h : (rxp_flush_rules P cfg w (fun i => rules (rule_cnt + 1 - (pending + 1) + i))
        (toInt32 (pending + 1)) eng).ret = 0
    · rw [if_pos h]
      exact (if_pos h).symm
    · rw [if_neg h, mlnx_write_rules_loop]
      exact (if_neg h).symm
  | succ n ih =>
    intro rule_cnt pending ret w
    rw [mlnx_write_rules_loop, if_pos (hall _),
      if_neg (show ¬ (n + 1 + 1 = 1 ∨ pending + 1 = 0) by omega), ih]
    have e1 : pending + 1 + n + 1 = pending + (n + 1) + 1 := by omega
    have e2 : rule_cnt + 1 + n + 1 = rule_cnt + (n + 1) + 1 := by omega
    rw [e1, e2]

/-- C37, counterexample to the claim as stated: an incremental program of `2^31`
instruction entries on an initialised engine whose RTRU capability register
reports a capacity of 0.  The loop makes one call of `rxp_flush_rules`, with all
`2^31` entries pending; converted to the `int count` of `rxp_flush_rules` this is
`-2^31`, so `rxp_write_rules_via_cp` streams no entry.  The FIFO status register
reads `2^31`, the value the credit poll waits for, so the flush succeeds: every
read and every poll of the load succeeds, the load returns 1 and leaves 0 in
`rules->count`, and the batches handed to `rxp_flush_rules` hold no entry of the
program. -/
theorem mlnx_write_rules_loses_no_write_counterexample :
    mlnx_write_rules_loop_entry (constPort wrapFile) quickConfig ⟨(), []⟩
        ⟨2, 2 ^ 31, fun _ => ⟨rxp_rof_entry_type.RXP_ROF_ENTRY_INST, 0x10, 7⟩⟩
        (8 + 16 * 2 ^ 31) 0
      = some (0, ⟨(), [Event.read 0 RXP_CSR_STATUS 0 1,
          Event.read 0 RXP_RTRU_CSR_CAPABILITY 0 0]⟩) ∧
    (mlnx_write_rules (constPort wrapFile) quickConfig ⟨(), []⟩
      ⟨2, 2 ^ 31, fun _ => ⟨rxp_rof_entry_type.RXP_ROF_ENTRY_INST, 0x10, 7⟩⟩
      (8 + 16 * 2 ^ 31) 0).ret = 1 ∧
    (mlnx_write_rules (constPort wrapFile) quickConfig ⟨(), []⟩
      ⟨2, 2 ^ 31, fun _ => ⟨rxp_rof_entry_type.RXP_ROF_ENTRY_INST, 0x10, 7⟩⟩
      (8 + 16 * 2 ^ 31) 0).count = 0 ∧
    (mlnx_write_rules (constPort wrapFile) quickConfig ⟨(), []⟩
      ⟨2, 2 ^ 31, fun _ => ⟨rxp_rof_entry_type.RXP_ROF_ENTRY_INST, 0x10, 7⟩⟩
      (8 + 16 * 2 ^ 31) 0).w.trace
      = [Event.read 0 RXP_CSR_STATUS 0 1,
         Event.read 0 RXP_RTRU_CSR_CAPABILITY 0 0,
         Event.flush (-2 ^ 31) [],
         Event.read 0 RXP_RTRU_CSR_CAPABILITY 0 0,
         Event.read 0 RXP_RTRU_CSR_FIFO_STAT 0 (2 ^ 31),
         Event.polled 0,
         Event.read 0 RXP_RTRU_CSR_CTRL 0 0,
         Event.write 0 RXP_RTRU_CSR_CTRL RXP_RTRU_CSR_CTRL_GO,
         Event.read 0 RXP_RTRU_CSR_STATUS 0 RXP_RTRU_CSR_STATUS_UPDATE_DONE,
         Event.polled 0,
         Event.read 0 RXP_RTRU_CSR_CTRL 0 0,
         Event.write 0 RXP_RTRU_CSR_CTRL 0] ∧
    (∀ e ∈ (mlnx_write_rules (constPort wrapFile) quickConfig ⟨(), []⟩
      ⟨2, 2 ^ 31, fun _ => ⟨rxp_rof_entry_type.RXP_ROF_ENTRY_INST, 0x10, 7⟩⟩
      (8 + 16 * 2 ^ 31) 0).w.trace, e.succeeded = true) ∧
    flushedEntries (mlnx_write_rules (constPort wrapFile) quickConfig ⟨(), []⟩
      ⟨2, 2 ^ 31, fun _ => ⟨rxp_rof_entry_type.RXP_ROF_ENTRY_INST, 0x10, 7⟩⟩
      (8 + 16 * 2 ^ 31) 0).w.trace = [] ∧
    ((List.range (2 ^ 31)).map
      fun _ : Nat => (⟨rxp_rof_entry_type.RXP_ROF_ENTRY_INST, 0x10, 7⟩ : rxp_rof_entry)).length
      = 2 ^ 31 := by
  have hentry : mlnx_write_rules_loop_entry (constPort wrapFile) quickConfig ⟨(), []⟩
        ⟨2, 2 ^ 31, fun _ => ⟨rxp_rof_entry_type.RXP_ROF_ENTRY_INST, 0x10, 7⟩⟩
        (8 + 16 * 2 ^ 31) 0
      = some (0, ⟨(), [Event.read 0 RXP_CSR_STATUS 0 1,
          Event.read 0 RXP_RTRU_CSR_CAPABILITY 0 0]⟩) := by rfl
  have hloop := loop_capacity_zero (constPort wrapFile) quickConfig 0
    (fun _ => ⟨rxp_rof_entry_type.RXP_ROF_ENTRY_INST, 0x10, 7⟩) (fun _ => rfl)
    2147483647 0 0 0
    ⟨(), [Event.read 0 RXP_CSR_STATUS 0 1, Event.read 0 RXP_RTRU_CSR_CAPABILITY 0 0]⟩
  have hres : mlnx_write_rules (constPort wrapFile) quickConfig ⟨(), []⟩
        ⟨2, 2 ^ 31, fun _ => ⟨rxp_rof_entry_type.RXP_ROF_ENTRY_INST, 0x10, 7⟩⟩
        (8 + 16 * 2 ^ 31) 0 = _ :=
    (write_rules_of_entry _ _ _ _ _ _ _ _ hentry).trans hloop
  have htrace : (mlnx_write_rules (constPort wrapFile) quickConfig ⟨(), []⟩
      ⟨2, 2 ^ 31, fun _ => ⟨rxp_rof_entry_type.RXP_ROF_ENTRY_INST, 0x10, 7⟩⟩
      (8 + 16 * 2 ^ 31) 0).w.trace
      = [Event.read 0 RXP_CSR_STATUS 0 1,
         Event.read 0 RXP_RTRU_CSR_CAPABILITY 0 0,
         Event.flush (-2 ^ 31) [],
         Event.read 0 RXP_RTRU_CSR_CAPABILITY 0 0,
         Event.read 0 RXP_RTRU_CSR_FIFO_STAT 0 (2 ^ 31),
         Event.polled 0,
         Event.read 0 RXP_RTRU_CSR_CTRL 0 0,
         Event.write 0 RXP_RTRU_CSR_CTRL RXP_RTRU_CSR_CTRL_GO,
         Event.read 0 RXP_RTRU_CSR_STATUS 0 RXP_RTRU_CSR_STATUS_UPDATE_DONE,
         Event.polled 0,
         Event.read 0 RXP_RTRU_CSR_CTRL 0 0,
         Event.write 0 RXP_RTRU_CSR_CTRL 0] := by
    rw [hres]
    decide
  refine ⟨hentry, ?_, ?_, htrace, ?_, ?_, ?_⟩
  · rw [hres]
    decide
  · rw [hres]
    decide
  · rw [htrace]
    decide
  · rw [htrace]
    decide
  · rw [List.length_map, List.length_range]

/-! ## mlnx_read_resp: a response consumed and not delivered -/

/-- C28, the code at the failing input: slots 0, 1 and 3 of a queue of four hold a
response of 24 bytes each (16-byte header, one 8-byte tuple), with byte values that
tell the slots apart.  A first call with a buffer of 30 bytes copies slot 0 only
and leaves slots 1 and 3 marked ready, as the claim has it.  A second call with a
buffer of 64 zero bytes copies slots 1 and 3: it returns 48, leaves 2 in
`*num_returned_resp` and clears `sq_resp_ready` and `sq_busy` of both slots; but
both responses are copied to offsets 0 and 16 of the buffer, so the buffer holds
the response of slot 3 followed by zeros and no byte of the response of slot 1.
No slot is ready any more and a third call copies nothing: the response of slot 1
was consumed and is lost. -/
theorem mlnx_read_resp_loses_response :
    ((mlnx_read_resp exampleQueueConfig exampleRespConfig threeReady taggedMem 30).copied = [0] ∧
      (mlnx_read_resp exampleQueueConfig exampleRespConfig threeReady taggedMem 30).ret = 24 ∧
      readySlots (mlnx_read_resp exampleQueueConfig exampleRespConfig threeReady taggedMem
        30).queue.sq_buf 4 = [1, 3]) ∧
    ((mlnx_read_resp exampleQueueConfig exampleRespConfig
        (mlnx_read_resp exampleQueueConfig exampleRespConfig threeReady taggedMem 30).queue
        taggedMem 64).copied = [1, 3] ∧
      (mlnx_read_resp exampleQueueConfig exampleRespConfig
        (mlnx_read_resp exampleQueueConfig exampleRespConfig threeReady taggedMem 30).queue
        taggedMem 64).ret = 48 ∧
      (mlnx_read_resp exampleQueueConfig exampleRespConfig
        (mlnx_read_resp exampleQueueConfig exampleRespConfig threeReady taggedMem 30).queue
        taggedMem 64).num_returned_resp = 2 ∧
      (mlnx_read_resp exampleQueueConfig exampleRespConfig
        (mlnx_read_resp exampleQueueConfig exampleRespConfig threeReady taggedMem 30).queue
        taggedMem 64).copies
        = [⟨0, 16, 1, false⟩, ⟨16, 8, 1, true⟩, ⟨0, 16, 3, false⟩, ⟨16, 8, 3, true⟩] ∧
      readySlots (mlnx_read_resp exampleQueueConfig exampleRespConfig
        (mlnx_read_resp exampleQueueConfig exampleRespConfig threeReady taggedMem 30).queue
        taggedMem 64).queue.sq_buf 4 = [] ∧
      busySlots (mlnx_read_resp exampleQueueConfig exampleRespConfig
        (mlnx_read_resp exampleQueueConfig exampleRespConfig threeReady taggedMem 30).queue
        taggedMem 64).queue.sq_buf 4 = [2]) ∧
    ((List.range 64).map (bufAfter taggedMem
        (mlnx_read_resp exampleQueueConfig exampleRespConfig
          (mlnx_read_resp exampleQueueConfig exampleRespConfig threeReady taggedMem 30).queue
          taggedMem 64).copies (fun _ => 0))
        = responseBytes exampleRespConfig (taggedMem 3) ++ List.replicate 40 0 ∧
      ∀ b ∈ responseBytes exampleRespConfig (taggedMem 1),
        b ∉ (List.range 64).map (bufAfter taggedMem
          (mlnx_read_resp exampleQueueConfig exampleRespConfig
            (mlnx_read_resp exampleQueueConfig exampleRespConfig threeReady taggedMem 30).queue
            taggedMem 64).copies (fun _ => 0))) ∧
    ((mlnx_read_resp exampleQueueConfig exampleRespConfig
        (mlnx_read_resp exampleQueueConfig exampleRespConfig
          (mlnx_read_resp exampleQueueConfig exampleRespConfig threeReady taggedMem 30).queue
          taggedMem 64).queue taggedMem 64).copied = [] ∧
      (mlnx_read_resp exampleQueueConfig exampleRespConfig
        (mlnx_read_resp exampleQueueConfig exampleRespConfig
          (mlnx_read_resp exampleQueueConfig exampleRespConfig threeReady taggedMem 30).queue
          taggedMem 64).queue taggedMem 64).ret = 0) := by
  decide

end Rxp
